import Mathlib

/-!
# Enemy Territory server core: client sessions, reliable commands, movement, pure validation

A shallow embedding of `src/server/sv_client.c` and of the temporary bans, the
gamestate transitions and `SV_MapRestart_f` of `src/server/sv_ccmds.c`.

Conventions of the embedding

* `client_t *cl` is a slot index into `svs_clients`; the table has exactly
  `sv_maxclients` slots, the challenge table exactly `MAX_CHALLENGES` records.
* C `int` is `Int`; the arithmetic of the functions embedded here stays far from
  the 32-bit range on every input used below, so no wrap-around is modelled, except
  in `atoi`, whose value is wrapped to 32 bits.
* `SV_SendServerCommand` and `SV_AddServerCommand` (`sv_main.c`) drop a client whose
  reliable command ring overflows, and `SV_DropClient` sends server commands, so the
  two call each other. The embedding bounds the depth of these calls
  (`SV_DropClient_fuel`); `SV_DropClient_eq` shows that the bound is never reached.
* Calls that leave the server core (game VM, network, file system, snapshot
  sender) append an `Effect` to `log`; console printing is not recorded.
  What the game VM or the file system answers is read from an `Env`.
* Two `Effect`s are ghost records of calls between functions of this file
  (`call_SV_ClientThink`, which also records `cl->lastUsercmd.serverTime` at the
  moment of the call, and `call_SV_ExecuteClientCommand`), so that statements
  about "is passed to" and "exactly once" can be made about the log;
  `call_GAME_CLIENT_CONNECT` records the arguments `firstTime` and `isBot` of the
  client-connect of a map restart. A further one,
  `queue_download_block`, records that a block of a download was put into the
  window (`downloadCurrentBlock++`) together with its length and the values of
  `downloadCount` and `downloadSize` at that moment.
* `FS_Read` reads a file front to back, so what it answers is read from the `Env`
  by the handle and the number of bytes read before (`downloadCount`).
* C strings are `String`; the truncation of `Q_strncpyz` and `Com_sprintf` to the
  size of the destination buffer is not modelled.
* A packet is taken after decoding: a client-command record is its sequence
  number and its text, a movement batch is the list of decoded `usercmd_t`, and a
  whole packet (`msg_t`) is its header, its client-command records, the byte that
  ends them and the number of bytes left after it.
-/

namespace ET

/-! ## Data model -/

/-- Lifecycle value of a client slot, in the order of the engine's enumeration. -/
inductive clientState_t where
  | CS_FREE
  | CS_ZOMBIE
  | CS_CONNECTED
  | CS_PRIMED
  | CS_ACTIVE
  deriving DecidableEq, Inhabited

/-- Numeric value of the enumeration, used by the `>=` comparisons of the source. -/
def clientState_t.toNat : clientState_t → Nat
  | .CS_FREE => 0
  | .CS_ZOMBIE => 1
  | .CS_CONNECTED => 2
  | .CS_PRIMED => 3
  | .CS_ACTIVE => 4

/-- Server run state (`sv.state`). -/
inductive serverState_t where
  | SS_DEAD
  | SS_LOADING
  | SS_GAME
  deriving DecidableEq, Inhabited

/-- Address kinds; `NA_BOT` is the value of a zeroed address. -/
inductive netadrtype_t where
  | NA_BOT
  | NA_BAD
  | NA_LOOPBACK
  | NA_BROADCAST
  | NA_IP
  deriving DecidableEq, Inhabited

/-- Network address. -/
structure netadr_t where
  type : netadrtype_t
  ip : List Nat
  port : Nat
  deriving DecidableEq

/-- A zeroed address (`memset 0`). -/
def netadr_zero : netadr_t := { type := .NA_BOT, ip := [0, 0, 0, 0], port := 0 }

/-- Input command; the fields read by the server core. -/
structure usercmd_t where
  serverTime : Int
  buttons : Nat
  wbuttons : Nat
  weapon : Nat
  forwardmove : Int
  rightmove : Int
  upmove : Int
  angles : List Int
  deriving DecidableEq

/-- A zeroed command (`nullcmd`). -/
def usercmd_zero : usercmd_t :=
  { serverTime := 0, buttons := 0, wbuttons := 0, weapon := 0,
    forwardmove := 0, rightmove := 0, upmove := 0, angles := [0, 0, 0] }

/-- Per-axis time stamps of the last input (`cl->lastUsercmdTimes`). -/
structure usercmdTimes_t where
  buttons : List Int
  wbuttons : List Int
  forwardmove : Int
  rightmove : Int
  upmove : Int
  deriving DecidableEq

/-- Zeroed time stamps: eight entries per button set. -/
def usercmdTimes_zero : usercmdTimes_t :=
  { buttons := List.replicate 8 0, wbuttons := List.replicate 8 0,
    forwardmove := 0, rightmove := 0, upmove := 0 }

/-- Network channel of a client; the fields the server core reads or writes. -/
structure netchan_t where
  remoteAddress : netadr_t
  qport : Int
  incomingSequence : Int
  outgoingSequence : Int
  deriving DecidableEq

/-- A zeroed channel. -/
def netchan_zero : netchan_t :=
  { remoteAddress := netadr_zero, qport := 0, incomingSequence := 0, outgoingSequence := 0 }

/-- Modelled from the spec: the user-info string ("a free-form user-info string",
"encoded user-info") is kept decoded, as its list of key and value pairs; the
codec of `q_shared.c` is not under src/. -/
abbrev userinfo_t := List (String × String)

/-- Client session record (`client_t`): the fields used by the embedded functions. -/
structure client_t where
  state : clientState_t
  userinfo : userinfo_t
  reliableCommands : List String
  reliableSequence : Int
  reliableAcknowledge : Int
  messageAcknowledge : Int
  gamestateMessageNum : Int
  challenge : Int
  lastUsercmd : usercmd_t
  lastUsercmdTimes : usercmdTimes_t
  lastClientCommand : Int
  lastClientCommandString : String
  gentity : Option Nat
  name : String
  downloadName : String
  download : Int
  downloadSize : Int
  downloadCount : Int
  downloadClientBlock : Int
  downloadCurrentBlock : Int
  downloadXmitBlock : Int
  downloadEOF : Bool
  downloadURL : String
  downloadBlocks : List (Option (List Nat))
  downloadBlockSize : List Int
  downloadSendTime : Int
  downloadnotify : Int
  bWWWDl : Bool
  bWWWing : Bool
  bFallback : Bool
  bDlOK : Bool
  deltaMessage : Int
  nextReliableTime : Int
  floodTime : Int
  voiceChatTime : Int
  lastActivityTime : Int
  lastPacketTime : Int
  lastConnectTime : Int
  nextSnapshotTime : Int
  rate : Int
  snapshotMsec : Int
  pureAuthentic : Int
  gotCP : Bool
  numPaks : Int
  pakChecksums : List Int
  netchan : netchan_t
  messageAcked : List Int
  savedPositions : List (Option Nat)
  deriving DecidableEq

/-- The record `memset` to zero that `SV_DirectConnect` copies into a slot.
The ring has `nRel` entries, the download window `nWin`, the frame ring `nFrames`. -/
def client_zero (nRel nWin nFrames : Nat) : client_t :=
  { state := .CS_FREE, userinfo := [], reliableCommands := List.replicate nRel "",
    reliableSequence := 0, reliableAcknowledge := 0, messageAcknowledge := 0,
    gamestateMessageNum := 0, challenge := 0, lastUsercmd := usercmd_zero,
    lastUsercmdTimes := usercmdTimes_zero, lastClientCommand := 0,
    lastClientCommandString := "", gentity := none, name := "", downloadName := "",
    download := 0, downloadSize := 0, downloadCount := 0, downloadClientBlock := 0,
    downloadCurrentBlock := 0, downloadXmitBlock := 0, downloadEOF := false, downloadURL := "",
    downloadBlocks := List.replicate nWin none,
    downloadBlockSize := List.replicate nWin 0, downloadSendTime := 0, downloadnotify := 0,
    bWWWDl := false, bWWWing := false, bFallback := false, bDlOK := false,
    deltaMessage := 0, nextReliableTime := 0, floodTime := 0, voiceChatTime := 0,
    lastActivityTime := 0, lastPacketTime := 0, lastConnectTime := 0, nextSnapshotTime := 0,
    rate := 0, snapshotMsec := 0, pureAuthentic := 0, gotCP := false, numPaks := 0,
    pakChecksums := [], netchan := netchan_zero, messageAcked := List.replicate nFrames 0,
    savedPositions := [none, none, none] }

/-- Challenge record (`challenge_t`). -/
structure challenge_t where
  adr : netadr_t
  challenge : Int
  time : Int
  pingTime : Int
  firstTime : Int
  firstPing : Int
  connected : Bool
  deriving DecidableEq

/-- Temporary ban record (`tempban_t`). -/
structure tempban_t where
  adr : netadr_t
  endtime : Int
  deriving DecidableEq

/-- Entry points of the game VM called by the server core. -/
inductive gameExport_t where
  | GAME_CLIENT_CONNECT
  | GAME_CLIENT_BEGIN
  | GAME_CLIENT_USERINFO_CHANGED
  | GAME_CLIENT_DISCONNECT
  | GAME_CLIENT_COMMAND
  | GAME_CLIENT_THINK
  deriving DecidableEq

/-- What leaves the server core, in the order it happens. -/
inductive Effect where
  | VM_Call (entry : gameExport_t) (clientNum : Nat)
  | NET_OutOfBandPrint (dest : netadr_t) (text : String)
  | SV_SendServerCommand (cl : Option Nat) (text : String)
  | SV_SendClientSnapshot (cl : Nat)
  | SV_SendMessageToClient (cl : Nat)
  | SV_SendToChatConnectedServers (text : String)
  | SV_Heartbeat_f
  | SV_BotFreeClient (cl : Nat)
  | FS_FCloseFile (handle : Int)
  | disableWeapon (cl : Nat) (weapon : Nat)
  | ucmd (name : String) (cl : Nat) (args : List String)
  | Com_Error (text : String)
  | FS_SV_FOpenFileRead (name : String)
  | FS_Read (handle : Int) (position : Int)
  | svc_download (cl : Nat) (block : Int) (numbers : List Int) (text : String)
  | queue_download_block (cl : Nat) (block : Int) (size : Int) (downloadCount downloadSize : Int)
  | call_SV_ClientThink (cl : Nat) (cmd : usercmd_t) (lastServerTime : Int)
  | call_SV_ExecuteClientCommand (cl : Nat) (s : String) (clientOK premaprestart : Bool)
  | call_GAME_CLIENT_CONNECT (clientNum : Nat) (firstTime isBot : Bool)
  | GAME_RUN_FRAME (time : Int)
  | SV_RestartGameProgs
  | SV_SpawnServer (mapname : String)
  | SV_SetConfigstring (index : Int) (val : String)
  | SV_GameBinaryMessageReceived (cl : Nat) (size : Int) (commandTime : Int)
  deriving DecidableEq

/-- Console variables read by the embedded functions. -/
structure cvars_t where
  sv_pure : Int
  sv_allowUnpureClients : Int
  sv_floodThreshold : Int
  sv_floodProtect : Int
  sv_showClientCmds : Int
  com_cl_running : Int
  gamestate : Int
  sv_disabledWeapons1 : Int
  sv_disabledWeapons2 : Int
  sv_save : Int
  sv_processVoiceChats : Int
  sv_chatCommands : Int
  sv_chatConnectedServers : String
  sv_chatHostname : String
  sv_hostname : String
  sv_firstMessage : String
  sv_fullmsg : String
  sv_tempbanmessage : String
  sv_privatePassword : String
  sv_privateClients : Nat
  sv_reconnectlimit : Int
  sv_minPing : Int
  sv_maxPing : Int
  sv_numberedNames : Int
  sv_numberedNamesDecoration : String
  sv_numberedNamesDecoration_modified : Bool
  sv_replaceInvalidGuid : Int
  sv_lanForceRate : Int
  sv_pretendNonEmpty : Int
  com_dedicated : Int
  sv_onlyVisibleClients : Int
  sv_allowDownload : Int
  sv_wwwDownload : Int
  sv_wwwBaseURL : String
  sv_wwwDlDisconnected : Int
  sv_wwwFallbackURL : String
  sv_dl_maxRate : Int
  fs_game : String
  sv_allowAnonymous : Int
  com_sv_running : Int
  sv_maxclients_modified : Bool
  savegame_loading : Int
  mapname : String
  sv_serverid : Int
  sv_serverRestarting : Int
  deriving DecidableEq

/-- Server state: `svs` (persistent), `sv` (per map), the console variables, the two
static buffers of `SV_NumberName`, and the log of effects. -/
structure ServerState where
  svs_time : Int
  svs_clients : List client_t
  svs_challenges : List challenge_t
  svs_tempBanAddresses : List tempban_t
  svs_authorizeAddress : netadr_t
  svs_lastPlayerLeftTime : Int
  sv_state : serverState_t
  sv_serverId : Int
  sv_restartedServerId : Int
  sv_checksumFeed : Int
  sv_checksumFeedServerId : Int
  svs_snapFlagServerBit : Nat
  sv_restartTime : Int
  sv_restarting : Bool
  cvars : cvars_t
  numberName_static1 : String
  numberName_static2 : String
  log : List Effect
  deriving DecidableEq

/-- What the collaborators outside the server core answer, and the constants of the
engine headers that are not under src/. -/
structure Env where
  PROTOCOL_VERSION : Int
  GS_INTERMISSION : Int
  GS_PLAYING : Int
  GS_WARMUP : Int
  GS_WAITING_FOR_PLAYERS : Int
  GS_RESET : Int
  MAX_PACKET_USERCMDS : Nat
  MAX_RELIABLE_COMMANDS : Nat
  MAX_DOWNLOAD_WINDOW : Nat
  MAX_DOWNLOAD_BLKSIZE : Int
  PACKET_BACKUP : Nat
  DLNOTIFY_REDIRECT : Int
  DLNOTIFY_BEGIN : Int
  DLNOTIFY_ALL : Int
  DL_FLAG_DISCON : Nat
  PROTOCOL_MISMATCH_ERROR : String
  SV_GameIsSinglePlayer : Bool
  SV_GameIsCoop : Bool
  NET_CompareAdr : netadr_t → netadr_t → Bool
  NET_CompareBaseAdr : netadr_t → netadr_t → Bool
  NET_IsLocalAddress : netadr_t → Bool
  Sys_IsLANAddress : netadr_t → Bool
  NET_AdrToString : netadr_t → String
  gentityIsBot : Nat → Bool
  COM_BitCheck : Int → Int → Nat → Bool
  gameClientConnect : Nat → Bool → Bool → Option String
  playerMuted : Nat → Bool
  FS_FileIsInPAK_cgame : Option Int
  FS_FileIsInPAK_ui : Option Int
  FS_LoadedPakPureChecksums : List String
  broadcastTo : client_t → Bool
  Cmd_TokenizeString : String → List String
  Info_decode : String → userinfo_t
  FS_VerifyPak : String → Bool
  FS_idPak : String → Bool
  FS_SV_FOpenFileRead : String → Int × Int
  FS_Read : Int → Int → Int
  AUTHORIZE_SUPPORT : Bool
  AUTHORIZE_TIMEOUT : Int
  NET_StringToAdr_authorize : Bool × netadr_t
  BigShort_PORT_AUTHORIZE : Nat
  NDEBUG : Bool
  MAX_BINARY_MESSAGE : Int
  GAME_INIT_FRAMES : Nat
  FRAMETIME : Int
  SNAPFLAG_SERVERCOUNT : Nat
  CS_WARMUP : Int
  savegameTime : Option Int

/-! ## Access to the tables -/

/-- The record of slot `cl` (a zeroed record outside the table). -/
def getClient (sv : ServerState) (cl : Nat) : client_t :=
  (sv.svs_clients[cl]?).getD (client_zero 0 0 0)

/-- Writes slot `cl`; a write outside the table is lost. -/
def setClient (sv : ServerState) (cl : Nat) (c : client_t) : ServerState :=
  { sv with svs_clients := sv.svs_clients.set cl c }

/-- In-place update of slot `cl`. -/
def modifyClient (sv : ServerState) (cl : Nat) (f : client_t → client_t) : ServerState :=
  setClient sv cl (f (getClient sv cl))

/-- Appends one effect to the log. -/
def emit (sv : ServerState) (e : Effect) : ServerState :=
  { sv with log := sv.log ++ [e] }

/-- Index of the first element satisfying `p`, as the `for ... break` loops of the
source find it; `none` when the loop runs to its end. -/
def findIndex {α : Type} (p : α → Bool) : List α → Option Nat
  | [] => none
  | x :: xs => if p x then some 0 else (findIndex p xs).map (· + 1)

/-! ## Reliable command ring (server to client) -/

/-- The two writes of `SV_AddServerCommand` on a ring with room: the command takes the
next sequence number and is stored at that number modulo the ring size. -/
def queueCommand (E : Env) (c : client_t) (cmd : String) : client_t :=
  { c with
    reliableSequence := c.reliableSequence + 1
    reliableCommands :=
      c.reliableCommands.set ((c.reliableSequence + 1) % (E.MAX_RELIABLE_COMMANDS : Int)).toNat cmd }

/-! ## Downloads: release -/

/-- `SV_CloseDownload`: closes the file, clears the name, frees every block buffer. -/
def SV_CloseDownload (sv : ServerState) (cl : Nat) : ServerState :=
  let c := getClient sv cl
  let sv1 := if c.download ≠ 0 then emit sv (.FS_FCloseFile c.download) else sv
  modifyClient sv1 cl (fun c =>
    { c with download := 0, downloadName := "", downloadBlocks := c.downloadBlocks.map (fun _ => none) })

/-! ## Dropping a client -/

/-- Modelled from the spec: `Info_ValueForKey` of `q_shared.c` (not under src/), on the
decoded user-info: the value of the first pair with that key, or the empty string. -/
def Info_ValueForKey (u : userinfo_t) (key : String) : String :=
  match u.find? (fun kv => kv.1 == key) with
  | some kv => kv.2
  | none => ""

/-- Modelled from the spec: `Info_SetValueForKey` of `q_shared.c` (not under src/), on
the decoded user-info: the old pair is removed and, unless the value is empty, the
new pair is appended. -/
def Info_SetValueForKey (u : userinfo_t) (key value : String) : userinfo_t :=
  let u1 := u.filter (fun kv => !(kv.1 == key))
  if value = "" then u1 else u1 ++ [(key, value)]

/-- Modelled from the spec: `SV_SetUserinfo` of `sv_init.c` (not under src/): stores the
user-info of a slot; the "display name (derived from a free-form user-info string)"
is derived again. -/
def SV_SetUserinfo (sv : ServerState) (cl : Nat) (val : userinfo_t) : ServerState :=
  modifyClient sv cl (fun c => { c with userinfo := val, name := Info_ValueForKey val "name" })

/-- The challenge loop of `SV_DropClient`: the first record with the client's address
is marked not connected. -/
def dropChallenge (E : Env) (adr : netadr_t) : List challenge_t → List challenge_t
  | [] => []
  | ch :: rest =>
    if E.NET_CompareAdr adr ch.adr then { ch with connected := false } :: rest
    else ch :: dropChallenge E adr rest

/-- Modelled from the spec: `SV_AddServerCommand` of `sv_main.c`, which is not under
src/. "Reliable command ring: bounded circular buffer of outbound text commands per
client; sequence numbers are monotonic and never reset; ... if the producer outruns
the consumer's window, the client is force-disconnected": the command takes the next
sequence number; when that number is one past the `MAX_RELIABLE_COMMANDS` commands
the client has not acknowledged, the command is not stored and the client is dropped
(`drop` is `SV_DropClient`); otherwise the text is stored at the number modulo the ring
size. The test is for exactly one past the ring, so that the commands a drop queues
for a client that has outrun its ring do not drop it again. -/
def addServerCommandWith (E : Env) (drop : ServerState → Nat → String → ServerState)
    (sv : ServerState) (client : Nat) (cmd : String) : ServerState :=
  let sv1 := modifyClient sv client (fun c => { c with reliableSequence := c.reliableSequence + 1 })
  if (getClient sv1 client).reliableSequence - (getClient sv1 client).reliableAcknowledge
      = (E.MAX_RELIABLE_COMMANDS : Int) + 1 then
    drop sv1 client "Server command overflow"
  else
    modifyClient sv1 client (fun c =>
      { c with reliableCommands :=
          c.reliableCommands.set (c.reliableSequence % (E.MAX_RELIABLE_COMMANDS : Int)).toNat cmd })

/-- Modelled from the spec: `SV_SendServerCommand` of `sv_main.c`, which is not under
src/. With a client it queues the command on that client's ring; with `NULL` it is a
broadcast, queued slot by slot on the ring of every session `E.broadcastTo` selects.
`drop` is `SV_DropClient`, for the ring that overflows. -/
def sendServerCommandWith (E : Env) (drop : ServerState → Nat → String → ServerState)
    (sv : ServerState) (cl : Option Nat) (text : String) : ServerState :=
  match cl with
  | some i => emit (addServerCommandWith E drop sv i text) (.SV_SendServerCommand (some i) text)
  | none =>
    emit
      ((List.range sv.svs_clients.length).foldl
        (fun s j =>
          if E.broadcastTo (getClient s j) then addServerCommandWith E drop s j text else s) sv)
      (.SV_SendServerCommand none text)

/-- The body of `SV_DropClient`; `send` is `SV_SendServerCommand`, which calls
`SV_DropClient` again for a client whose ring overflows while the drop queues its
commands. -/
def dropClientWith (E : Env) (send : ServerState → Option Nat → String → ServerState)
    (sv : ServerState) (drop : Nat) (reason : String) : ServerState :=
  let d := getClient sv drop
  if d.state = .CS_ZOMBIE then sv else
  let isBot : Bool :=
    (match d.gentity with
     | some n => E.gentityIsBot n
     | none => false) || (d.netchan.remoteAddress.type == .NA_BOT)
  let sv1 :=
    if !isBot then
      SV_CloseDownload
        { sv with svs_challenges := dropChallenge E d.netchan.remoteAddress sv.svs_challenges } drop
    else sv
  let sv2 :=
    if !E.SV_GameIsSinglePlayer || !isBot then
      send sv1 none ("cpm \"" ++ d.name ++ "^7 " ++ reason ++ "\n\"")
    else sv1
  let sv3 := modifyClient sv2 drop (fun c => { c with state := .CS_ZOMBIE })
  let sv4 :=
    if (getClient sv3 drop).download ≠ 0 then
      modifyClient (emit sv3 (.FS_FCloseFile (getClient sv3 drop).download)) drop
        (fun c => { c with download := 0 })
    else sv3
  let sv5 := emit sv4 (.VM_Call .GAME_CLIENT_DISCONNECT drop)
  let sv6 := send sv5 (some drop) ("disconnect \"" ++ reason ++ "\"\n")
  let sv7 :=
    if (getClient sv6 drop).netchan.remoteAddress.type = .NA_BOT then
      emit sv6 (.SV_BotFreeClient drop)
    else if sv6.cvars.sv_chatConnectedServers ≠ "" then
      emit sv6 (.SV_SendToChatConnectedServers
        ("rsay " ++ (getClient sv6 drop).name ++ " ^7disconnected from " ++ sv6.cvars.sv_hostname))
    else sv6
  let sv8 := SV_SetUserinfo sv7 drop []
  let count := (sv8.svs_clients.filter (fun c => decide (c.state.toNat ≥ 2))).length
  let bots := (sv8.svs_clients.filter
    (fun c => decide (c.state.toNat ≥ 2) && (c.netchan.remoteAddress.type == .NA_BOT))).length
  let sv9 :=
    if count = 0 then
      (if sv8.cvars.sv_pretendNonEmpty = 0 then emit sv8 .SV_Heartbeat_f else sv8)
    else sv8
  if (getClient sv9 drop).netchan.remoteAddress.type ≠ .NA_BOT ∧ count - bots = 0 then
    { sv9 with svs_lastPlayerLeftTime := 0x7FFFFFFF }
  else sv9

/-- `SV_DropClient` with the depth of the drops inside drops bounded by `n`: a drop
can force the drop of a client whose ring overflows, which is a drop again. -/
def SV_DropClient_fuel (E : Env) : Nat → ServerState → Nat → String → ServerState
  | 0, sv, _, _ => sv
  | n + 1, sv, drop, reason =>
    dropClientWith E (sendServerCommandWith E (SV_DropClient_fuel E n)) sv drop reason

/-- `SV_DropClient`. A ring overflows once, so the drops inside a drop are at most as
deep as the table has slots (`SV_DropClient_eq` below: the bound is never reached). -/
def SV_DropClient (E : Env) (sv : ServerState) (drop : Nat) (reason : String) : ServerState :=
  SV_DropClient_fuel E (sv.svs_clients.length + 1) sv drop reason

/-- `SV_AddServerCommand` (see `addServerCommandWith`). -/
def SV_AddServerCommand (E : Env) (sv : ServerState) (client : Nat) (cmd : String) :
    ServerState :=
  addServerCommandWith E (SV_DropClient E) sv client cmd

/-- `SV_SendServerCommand` (see `sendServerCommandWith`). -/
def SV_SendServerCommand (E : Env) (sv : ServerState) (cl : Option Nat) (text : String) :
    ServerState :=
  sendServerCommandWith E (SV_DropClient E) sv cl text

/-- What `SV_SendServerCommand` computes when no ring it queues on overflows: the
command is queued on the ring of the client, or of every session `E.broadcastTo`
selects, and nobody is dropped. -/
def sendWithRoom (E : Env) (sv : ServerState) (cl : Option Nat) (text : String) :
    ServerState :=
  match cl with
  | some i => emit (modifyClient sv i (fun c => queueCommand E c text))
      (.SV_SendServerCommand (some i) text)
  | none =>
    let queued := sv.svs_clients.map
      (fun c => if E.broadcastTo c then queueCommand E c text else c)
    emit { sv with svs_clients := queued } (.SV_SendServerCommand none text)

/-- What `SV_DropClient` computes when no ring overflows during the drop. -/
def dropWithRoom (E : Env) (sv : ServerState) (drop : Nat) (reason : String) : ServerState :=
  dropClientWith E (sendWithRoom E) sv drop reason

/-! ## Gamestate and entering the world -/

/-- `SV_SendClientGameState`: the slot becomes primed and a gamestate message is sent.
The content of the message is not modelled. -/
def SV_SendClientGameState (sv : ServerState) (client : Nat) : ServerState :=
  emit (modifyClient sv client (fun c =>
      { c with state := .CS_PRIMED, pureAuthentic := 0, gotCP := false,
               gamestateMessageNum := c.netchan.outgoingSequence }))
    (.SV_SendMessageToClient client)

/-- `SV_ClientEnterWorld`. -/
def SV_ClientEnterWorld (sv : ServerState) (client : Nat) (cmd : usercmd_t) : ServerState :=
  emit (modifyClient sv client (fun c =>
      { c with state := .CS_ACTIVE, gentity := some client, deltaMessage := -1,
               nextSnapshotTime := sv.svs_time, lastUsercmd := cmd }))
    (.VM_Call .GAME_CLIENT_BEGIN client)

/-! ## Movement commands -/

/-- The `for ( i = 0 ; i < 8 ; i++ )` loops of `SV_ClientThink`: entry `i` takes the
command's time when bit `i` is set. -/
def stampButtons (bits : Nat) (t : Int) (old : List Int) : List Int :=
  (List.range 8).foldl (fun acc i => if bits.testBit i then acc.set i t else acc) old

/-- `SV_ClientThink`. -/
def SV_ClientThink (E : Env) (sv : ServerState) (cl : Nat) (cmd : usercmd_t) : ServerState :=
  let sv0 := emit sv (.call_SV_ClientThink cl cmd (getClient sv cl).lastUsercmd.serverTime)
  let c := getClient sv0 cl
  let c1 :=
    if cmd.buttons ≠ c.lastUsercmd.buttons ∨ cmd.wbuttons ≠ c.lastUsercmd.wbuttons
        ∨ cmd.forwardmove ≠ c.lastUsercmd.forwardmove ∨ cmd.rightmove ≠ c.lastUsercmd.rightmove
        ∨ cmd.upmove ≠ c.lastUsercmd.upmove then
      { c with lastActivityTime := cmd.serverTime }
    else c
  let c2 := { c1 with lastUsercmd := cmd }
  let sv1 := setClient sv0 cl c2
  if c2.state ≠ .CS_ACTIVE then sv1 else
  let sv2 :=
    if sv1.cvars.sv_disabledWeapons1 ≠ 0 ∧
        E.COM_BitCheck sv1.cvars.sv_disabledWeapons1 sv1.cvars.sv_disabledWeapons2 cmd.weapon = true then
      emit sv1 (.disableWeapon cl cmd.weapon)
    else sv1
  let sv3 := emit sv2 (.VM_Call .GAME_CLIENT_THINK cl)
  modifyClient sv3 cl (fun c =>
    let t := c.lastUsercmdTimes
    let t1 := if cmd.buttons ≠ 0 then { t with buttons := stampButtons cmd.buttons cmd.serverTime t.buttons } else t
    let t2 := if cmd.wbuttons ≠ 0 then { t1 with wbuttons := stampButtons cmd.wbuttons cmd.serverTime t1.wbuttons } else t1
    let t3 := if cmd.forwardmove ≠ 0 then { t2 with forwardmove := cmd.serverTime } else t2
    let t4 := if cmd.rightmove ≠ 0 then { t3 with rightmove := cmd.serverTime } else t3
    let t5 := if cmd.upmove ≠ 0 then { t4 with upmove := cmd.serverTime } else t4
    { c with lastUsercmdTimes := t5 })

/-- The final loop of `SV_UserMove`; `lastTime` is `cmds[cmdCount - 1].serverTime`. -/
def SV_UserMove_loop (E : Env) (lastTime : Int) (cl : Nat) :
    ServerState → List usercmd_t → ServerState
  | sv, [] => sv
  | sv, cmd :: rest =>
    if cmd.serverTime > lastTime then SV_UserMove_loop E lastTime cl sv rest
    else if !E.SV_GameIsSinglePlayer ∧ cmd.serverTime ≤ (getClient sv cl).lastUsercmd.serverTime then
      SV_UserMove_loop E lastTime cl sv rest
    else SV_UserMove_loop E lastTime cl (SV_ClientThink E sv cl cmd) rest

/-- The part of `SV_UserMove` from the comment "catch the no-cp-yet situation" on:
the pure gate, entering the world, the drop of an unpure client and the loop over the
commands. -/
def SV_UserMove_apply (E : Env) (sv : ServerState) (cl : Nat) (cmds : List usercmd_t) :
    ServerState :=
  let c := getClient sv cl
  if sv.cvars.sv_pure ≠ 0 ∧ c.pureAuthentic = 0 ∧ c.gotCP = false then
    (if c.state = .CS_ACTIVE then SV_SendClientGameState sv cl else sv)
  else
  let sv3 :=
    if c.state = .CS_PRIMED then SV_ClientEnterWorld sv cl (cmds.headD usercmd_zero) else sv
  if sv3.cvars.sv_pure ≠ 0 ∧ (getClient sv3 cl).pureAuthentic = 0 then
    SV_DropClient E sv3 cl "Cannot validate pure client!"
  else
  if (getClient sv3 cl).state ≠ .CS_ACTIVE then
    modifyClient sv3 cl (fun c => { c with deltaMessage := -1 })
  else
    SV_UserMove_loop E ((cmds.getLastD usercmd_zero).serverTime) cl sv3 cmds

/-- `SV_UserMove` on a decoded batch: `cmds` are the `cmdCount` commands read from the
message (the key only serves the decoding). -/
def SV_UserMove (E : Env) (sv : ServerState) (cl : Nat) (delta : Bool) (cmds : List usercmd_t) :
    ServerState :=
  let sv1 := modifyClient sv cl (fun c =>
    { c with deltaMessage := if delta then c.messageAcknowledge else -1 })
  let cmdCount := cmds.length
  if cmdCount < 1 then sv1 else
  if cmdCount > E.MAX_PACKET_USERCMDS then sv1 else
  SV_UserMove_apply E
    (modifyClient sv1 cl (fun c =>
      { c with messageAcked :=
          c.messageAcked.set (c.messageAcknowledge % (E.PACKET_BACKUP : Int)).toNat sv1.svs_time }))
    cl cmds

/-! ## Tokenised commands -/

/-- The digits read by `atoi`, most significant first. -/
def atoiDigits : List Char → Nat → Nat
  | [], acc => acc
  | c :: cs, acc => if c.isDigit then atoiDigits cs (acc * 10 + (c.toNat - 48)) else acc

/-- Wraps a value to the range of a 32-bit `int`. -/
def toInt32 (x : Int) : Int := (x + 2147483648) % 4294967296 - 2147483648

/-- The C library `atoi`: leading white space, an optional sign, then decimal digits
up to the first other character; the value is the `int` the conversion of the number
read gives, so a number outside the range of `int` is wrapped to 32 bits. -/
def atoi (s : String) : Int :=
  match s.toList.dropWhile Char.isWhitespace with
  | '-' :: r => toInt32 (- (atoiDigits r 0 : Int))
  | '+' :: r => toInt32 (atoiDigits r 0 : Int)
  | r => toInt32 (atoiDigits r 0 : Int)

/-- `Cmd_Argc` on a tokenised command. -/
def Cmd_Argc (args : List String) : Int := args.length

/-- `Cmd_Argv` on a tokenised command: the empty string past the last token (never `NULL`). -/
def Cmd_Argv (args : List String) (n : Nat) : String := args.getD n ""

/-- The test `*pArg == '@'` of the source. -/
def startsWithAt (s : String) : Bool := s.toList.head? == some '@'

/-! ## Pure validation -/

/-- The duplicate loops of `SV_VerifyPaks_f`: some `i != j` below `n` with equal values. -/
def hasEqualPair (paks : List Int) : Bool :=
  (List.range paks.length).any (fun i =>
    (List.range paks.length).any (fun j => i != j && paks.getD i 0 == paks.getD j 0))

/-- The server's view of its loaded archives: the first 1024 tokens of
`FS_LoadedPakPureChecksums`, each through `atoi` (`nServerChkSum`). -/
def nServerChkSum (E : Env) : List Int :=
  (E.FS_LoadedPakPureChecksums.take 1024).map atoi

/-- The rolling check value: `sv.checksumFeed` XOR every trailing value XOR their count. -/
def rollingChecksum (feed : Int) (paks : List Int) : Int :=
  Int.xor (paks.foldl (fun acc p => Int.xor acc p) feed) (paks.length : Int)

/-- The `while ( bGood )` block of `SV_VerifyPaks_f`: returns `bGood` and the content
of `cl->pakChecksums` afterwards. `nChkSum1`, `nChkSum2` are the checksums of the two
required modules. -/
def verifyPaksChecks (E : Env) (feed nChkSum1 nChkSum2 : Int) (args : List String)
    (old : List Int) : Bool × List Int :=
  if Cmd_Argc args < 6 then (false, old)
  else if startsWithAt (Cmd_Argv args 2) ∨ atoi (Cmd_Argv args 2) ≠ nChkSum1 then (false, old)
  else if startsWithAt (Cmd_Argv args 3) ∨ atoi (Cmd_Argv args 3) ≠ nChkSum2 then (false, old)
  else if !startsWithAt (Cmd_Argv args 4) then (false, old)
  else
    let vals := (args.drop 5).map atoi
    let stored := vals ++ old.drop vals.length
    let nClientPaks := vals.length - 1
    let paks := vals.take nClientPaks
    if hasEqualPair paks then (false, stored)
    else if !paks.all (fun p => (nServerChkSum E).any (fun q => p == q)) then (false, stored)
    else (decide (rollingChecksum feed paks = stored.getD nClientPaks 0), stored)

/-- The value of `bGood` when the `while` block of `SV_VerifyPaks_f` is left, with
the content of `cl->pakChecksums`: the two module look-ups, then the block. -/
def verifyPaks_bGood (E : Env) (feed : Int) (args : List String) (old : List Int) :
    Bool × List Int :=
  let found1 := E.FS_FileIsInPAK_cgame.isSome
  let nChkSum1 := E.FS_FileIsInPAK_cgame.getD 0
  let found2 := found1 && E.FS_FileIsInPAK_ui.isSome
  let nChkSum2 := if found1 then E.FS_FileIsInPAK_ui.getD 0 else 0
  if found2 then verifyPaksChecks E feed nChkSum1 nChkSum2 args old else (false, old)

/-- `SV_VerifyPaks_f` on the tokenised `cp` command (`args[0]` is the command name). -/
def SV_VerifyPaks_f (E : Env) (sv : ServerState) (cl : Nat) (args : List String) : ServerState :=
  if sv.cvars.sv_pure = 0 then sv else
  let sv1 := modifyClient sv cl (fun c => { c with numPaks := Cmd_Argc args })
  if atoi (Cmd_Argv args 1) < sv.sv_checksumFeedServerId then sv1 else
  let r := verifyPaks_bGood E sv.sv_checksumFeed args (getClient sv1 cl).pakChecksums
  let sv2 := modifyClient sv1 cl (fun c => { c with pakChecksums := r.2, gotCP := true })
  if r.1 then
    modifyClient sv2 cl (fun c => { c with pureAuthentic := 1 })
  else if sv.cvars.sv_allowUnpureClients ≠ 0 then
    let message := "Unpure client detected: " ++ (getClient sv2 cl).name ++
      "^7 has invalid .PK3 files referenced!"
    modifyClient (SV_SendServerCommand E sv2 none ("cpm \"" ++ message ++ "\n\"")) cl
      (fun c => { c with pureAuthentic := 1 })
  else
    let sv3 := modifyClient sv2 cl (fun c =>
      { c with pureAuthentic := 0, nextSnapshotTime := -1, state := .CS_ACTIVE })
    SV_DropClient E (emit sv3 (.SV_SendClientSnapshot cl)) cl
      "Unpure client detected. Invalid .PK3 files referenced!"

/-- `SV_ResetPureClient_f`. -/
def SV_ResetPureClient_f (sv : ServerState) (cl : Nat) : ServerState :=
  modifyClient sv cl (fun c => { c with pureAuthentic := 0, gotCP := false })

/-- `SV_Disconnect_f`. -/
def SV_Disconnect_f (E : Env) (sv : ServerState) (cl : Nat) : ServerState :=
  SV_DropClient E sv cl "disconnected"

/-! ## User-info handlers -/

/-- `Q_strlwr`: ASCII letters to lower case. -/
def Q_strlwr (s : String) : String := String.mk (s.toList.map Char.toLower)

/-- `Q_strupr`: ASCII letters to upper case. -/
def Q_strupr (s : String) : String := String.mk (s.toList.map Char.toUpper)

/-- The text before the first `;` (`strchr` and the cut of `SV_NumberName`). -/
def beforeFirstSemicolon (s : String) : String :=
  String.mk (s.toList.takeWhile (fun c => c != ';'))

/-- The text after the last `;` (`strrchr`), or the empty string without one. -/
def afterLastSemicolon (s : String) : String :=
  if s.toList.contains ';' then
    String.mk ((s.toList.reverse.takeWhile (fun c => c != ';')).reverse)
  else ""

/-- Decimal text of a slot number padded on the left to two characters (`%2d`, `%02d`). -/
def pad2 (fill : String) (n : Nat) : String :=
  if n < 10 then fill ++ toString n else toString n

/-- `SV_NumberName`. -/
def SV_NumberName (sv : ServerState) (cl : Nat) : ServerState :=
  let sv1 :=
    if sv.cvars.sv_numberedNamesDecoration_modified then
      { sv with
        numberName_static1 := beforeFirstSemicolon sv.cvars.sv_numberedNamesDecoration
        numberName_static2 := afterLastSemicolon sv.cvars.sv_numberedNamesDecoration
        cvars := { sv.cvars with sv_numberedNamesDecoration_modified := false } }
    else sv
  let p1 := sv1.numberName_static1
  let p2 := sv1.numberName_static2
  let originalname := Info_ValueForKey (getClient sv1 cl).userinfo "name"
  let sv2 := modifyClient sv1 cl (fun c =>
    { c with userinfo := Info_SetValueForKey c.userinfo "originalname" originalname })
  let mode := sv2.cvars.sv_numberedNames
  if mode ≠ 0 then
    let newname :=
      if mode = 2 then p1 ++ pad2 " " cl ++ " " ++ p2 ++ originalname
      else if mode = 3 then p1 ++ pad2 "0" cl ++ " " ++ p2 ++ originalname
      else if mode = 4 then
        (if cl < 10 then p1 ++ toString cl ++ "  " ++ p2 ++ originalname
         else p1 ++ toString cl ++ " " ++ p2 ++ originalname)
      else p1 ++ toString cl ++ " " ++ p2 ++ originalname
    modifyClient sv2 cl (fun c => { c with userinfo := Info_SetValueForKey c.userinfo "name" newname })
  else sv2

/-- `SV_UserinfoChanged`. -/
def SV_UserinfoChanged (E : Env) (sv : ServerState) (cl : Nat) : ServerState :=
  modifyClient sv cl (fun c =>
    let c1 := { c with name := Info_ValueForKey c.userinfo "name" }
    let rateVal := Info_ValueForKey c1.userinfo "rate"
    let c2 :=
      if E.Sys_IsLANAddress c1.netchan.remoteAddress = true ∧ sv.cvars.com_dedicated ≠ 2
          ∧ sv.cvars.sv_lanForceRate = 1 then { c1 with rate := 99999 }
      else if rateVal.length ≠ 0 then
        { c1 with rate := if atoi rateVal < 1000 then 1000 else if atoi rateVal > 90000 then 90000
                          else atoi rateVal }
      else { c1 with rate := 5000 }
    let hc := Info_ValueForKey c2.userinfo "handicap"
    let c3 :=
      if hc.length ≠ 0 ∧ (atoi hc ≤ -100 ∨ atoi hc > 100 ∨ hc.length > 4) then
        { c2 with userinfo := Info_SetValueForKey c2.userinfo "handicap" "0" }
      else c2
    let snaps := Info_ValueForKey c3.userinfo "snaps"
    let c4 :=
      if snaps.length ≠ 0 then
        { c3 with snapshotMsec :=
            1000 / (if atoi snaps < 1 then 1 else if atoi snaps > 30 then 30 else atoi snaps) }
      else { c3 with snapshotMsec := 50 }
    let c5 :=
      if !E.NET_IsLocalAddress c4.netchan.remoteAddress then
        { c4 with userinfo :=
            Info_SetValueForKey c4.userinfo "ip" (E.NET_AdrToString c4.netchan.remoteAddress) }
      else { c4 with userinfo := Info_SetValueForKey c4.userinfo "ip" "localhost" }
    let www := Info_ValueForKey c5.userinfo "cl_wwwDownload"
    { c5 with bDlOK := decide (www.length ≠ 0 ∧ atoi www ≠ 0) })

/-- `SV_UpdateUserinfo_f`. -/
def SV_UpdateUserinfo_f (E : Env) (sv : ServerState) (cl : Nat) (args : List String) : ServerState :=
  let cl_guid := Info_ValueForKey (getClient sv cl).userinfo "cl_guid"
  let sv1 := modifyClient sv cl (fun c => { c with userinfo := E.Info_decode (Cmd_Argv args 1) })
  let sv2 :=
    if cl_guid ≠ "" then
      modifyClient sv1 cl (fun c => { c with userinfo := Info_SetValueForKey c.userinfo "cl_guid" cl_guid })
    else sv1
  emit (SV_UserinfoChanged E (SV_NumberName sv2 cl) cl) (.VM_Call .GAME_CLIENT_USERINFO_CHANGED cl)

/-! ## Download handlers -/

/-- `SV_StopDownload_f`. -/
def SV_StopDownload_f (sv : ServerState) (cl : Nat) : ServerState := SV_CloseDownload sv cl

/-- `SV_DoneDownload_f`. -/
def SV_DoneDownload_f (sv : ServerState) (cl : Nat) : ServerState := SV_SendClientGameState sv cl

/-- `SV_NextDownload_f`; `MAX_DOWNLOAD_WINDOW` is the length of the block tables. -/
def SV_NextDownload_f (E : Env) (sv : ServerState) (cl : Nat) (args : List String) : ServerState :=
  let c := getClient sv cl
  let block := atoi (Cmd_Argv args 1)
  if block = c.downloadClientBlock then
    if c.downloadBlockSize.getD (c.downloadClientBlock % (E.MAX_DOWNLOAD_WINDOW : Int)).toNat 0 = 0 then
      SV_CloseDownload sv cl
    else
      modifyClient sv cl (fun c =>
        { c with downloadSendTime := sv.svs_time, downloadClientBlock := c.downloadClientBlock + 1 })
  else SV_DropClient E sv cl "broken download"

/-- `SV_BeginDownload_f`. -/
def SV_BeginDownload_f (E : Env) (sv : ServerState) (cl : Nat) (args : List String) :
    ServerState :=
  let sv1 := SV_CloseDownload sv cl
  modifyClient sv1 cl (fun c =>
    { c with
      downloadnotify := if c.downloadName ≠ Cmd_Argv args 1 then E.DLNOTIFY_ALL else c.downloadnotify
      downloadName := Cmd_Argv args 1 })

/-- `Q_stricmp ( a, b ) == 0`: equal up to the case of ASCII letters. -/
def Q_stricmp_eq (a b : String) : Bool := Q_strlwr a == Q_strlwr b

/-- `SV_WWWDownload_f`. -/
def SV_WWWDownload_f (E : Env) (sv : ServerState) (cl : Nat) (args : List String) : ServerState :=
  let subcmd := Cmd_Argv args 1
  let c := getClient sv cl
  if !c.bWWWDl then SV_DropClient E sv cl ("SV_WWWDownload: unexpected wwwdl " ++ subcmd)
  else if Q_stricmp_eq subcmd "ack" then modifyClient sv cl (fun c => { c with bWWWing := true })
  else if Q_stricmp_eq subcmd "bbl8r" then SV_DropClient E sv cl "acking disconnected download mode"
  else if !c.bWWWing then SV_DropClient E sv cl ("SV_WWWDownload: unexpected wwwdl " ++ subcmd)
  else if Q_stricmp_eq subcmd "done" then
    modifyClient sv cl (fun c => { c with download := 0, downloadName := "", bWWWing := false })
  else if Q_stricmp_eq subcmd "fail" ∨ Q_stricmp_eq subcmd "chkfail" then
    SV_SendClientGameState
      (modifyClient sv cl (fun c =>
        { c with download := 0, downloadName := "", bWWWing := false, bFallback := true })) cl
  else SV_DropClient E sv cl ("SV_WWWDownload: unknown wwwdl subcommand '" ++ subcmd ++ "'")

/-! ## Client command execution -/

/-- The handler functions named in the table `ucmds`. -/
inductive ucmd_func where
  | SV_UpdateUserinfo_f
  | SV_Disconnect_f
  | SV_VerifyPaks_f
  | SV_ResetPureClient_f
  | SV_BeginDownload_f
  | SV_NextDownload_f
  | SV_StopDownload_f
  | SV_DoneDownload_f
  | SV_WWWDownload_f
  | SV_ListMaps_f
  | SV_MapList_f
  | SV_FindMap_f
  | SV_MapInfo_f
  | SV_CV_f
  | SV_UserFeedback_f
  deriving DecidableEq

/-- One row of `ucmds`. -/
structure ucmd_t where
  name : String
  func : ucmd_func
  allowedpostmapchange : Bool

/-- The table `ucmds` (without its terminating `NULL` row). -/
def ucmds : List ucmd_t :=
  [ ⟨"userinfo", .SV_UpdateUserinfo_f, false⟩,
    ⟨"disconnect", .SV_Disconnect_f, true⟩,
    ⟨"cp", .SV_VerifyPaks_f, false⟩,
    ⟨"vdr", .SV_ResetPureClient_f, false⟩,
    ⟨"download", .SV_BeginDownload_f, false⟩,
    ⟨"nextdl", .SV_NextDownload_f, false⟩,
    ⟨"stopdl", .SV_StopDownload_f, false⟩,
    ⟨"donedl", .SV_DoneDownload_f, false⟩,
    ⟨"wwwdl", .SV_WWWDownload_f, false⟩,
    ⟨"listmaps", .SV_ListMaps_f, false⟩,
    ⟨"maplist", .SV_MapList_f, false⟩,
    ⟨"findmap", .SV_FindMap_f, false⟩,
    ⟨"mapinfo", .SV_MapInfo_f, false⟩,
    ⟨"minfo", .SV_MapInfo_f, false⟩,
    ⟨"cv", .SV_CV_f, false⟩,
    ⟨"feedback", .SV_UserFeedback_f, true⟩ ]

/-- `Cmd_Args`: the tokens after the command name, joined by blanks. -/
def Cmd_Args (args : List String) : String := " ".intercalate (args.drop 1)

/-- `SV_CV_f`: the command is handed to the game as a `callvote`. -/
def SV_CV_f (sv : ServerState) (cl : Nat) : ServerState :=
  if sv.sv_state = .SS_GAME then emit sv (.VM_Call .GAME_CLIENT_COMMAND cl) else sv

/-- Runs one handler of the table. The map list, map search, map info, feedback and
save or load utilities are recorded in the log and not followed further. -/
def runUcmd (E : Env) (sv : ServerState) (cl : Nat) (args : List String) :
    ucmd_func → ServerState
  | .SV_UpdateUserinfo_f => SV_UpdateUserinfo_f E sv cl args
  | .SV_Disconnect_f => SV_Disconnect_f E sv cl
  | .SV_VerifyPaks_f => SV_VerifyPaks_f E sv cl args
  | .SV_ResetPureClient_f => SV_ResetPureClient_f sv cl
  | .SV_BeginDownload_f => SV_BeginDownload_f E sv cl args
  | .SV_NextDownload_f => SV_NextDownload_f E sv cl args
  | .SV_StopDownload_f => SV_StopDownload_f sv cl
  | .SV_DoneDownload_f => SV_DoneDownload_f sv cl
  | .SV_WWWDownload_f => SV_WWWDownload_f E sv cl args
  | .SV_ListMaps_f => emit sv (.ucmd "SV_ListMaps_f" cl args)
  | .SV_MapList_f => emit sv (.ucmd "SV_MapList_f" cl args)
  | .SV_FindMap_f => emit sv (.ucmd "SV_FindMap_f" cl args)
  | .SV_MapInfo_f => emit sv (.ucmd "SV_MapInfo_f" cl args)
  | .SV_CV_f => SV_CV_f sv cl
  | .SV_UserFeedback_f => emit sv (.ucmd "SV_UserFeedback_f" cl args)

/-- The chat commands of `SV_ExecuteClientCommand` (`sv_chatCommands`), on the
re-tokenised text of a `say`. -/
def chatCommand (E : Env) (sv : ServerState) (cl : Nat) (targs : List String) : ServerState :=
  let cmd := Cmd_Argv targs 0
  let checkConsole := "chat \"^zCheck console for more information.\""
  match cmd.toList with
  | c0 :: rest =>
    let tail := String.mk rest
    if c0 = '\\' ∨ c0 = '/' then
      if Q_stricmp_eq tail "MINFO" then
        emit (SV_SendServerCommand E sv (some cl) checkConsole) (.ucmd "SV_MapInfo_f" cl targs)
      else if Q_stricmp_eq tail "LISTMAPS" then
        emit (SV_SendServerCommand E sv (some cl) checkConsole) (.ucmd "SV_ListMaps_f" cl targs)
      else if Q_stricmp_eq tail "FINDMAP" then
        emit (SV_SendServerCommand E sv (some cl) checkConsole) (.ucmd "SV_FindMap_f" cl targs)
      else if Q_stricmp_eq tail "FEEDBACK" then emit sv (.ucmd "SV_UserFeedback_f" cl targs)
      else if Q_stricmp_eq tail "SAVE" then emit sv (.ucmd "SV_Save_f" cl targs)
      else if Q_stricmp_eq tail "LOAD" then emit sv (.ucmd "SV_Load_f" cl targs)
      else if Q_stricmp_eq tail "CV" then SV_CV_f sv cl
      else sv
    else if c0 = '!' then
      if Q_stricmp_eq tail "MINFO" then
        (if !E.playerMuted cl then emit sv (.ucmd "SV_MapInfo_f" cl targs) else sv)
      else if Q_stricmp_eq tail "FEEDBACK" then emit sv (.ucmd "SV_UserFeedback_f" cl targs)
      else if Q_stricmp_eq tail "CV" then SV_CV_f sv cl
      else sv
    else sv
  | [] => sv

/-- `SV_ExecuteClientCommand`. -/
def SV_ExecuteClientCommand (E : Env) (sv : ServerState) (cl : Nat)
    (s : String) (clientOK premaprestart : Bool) : ServerState :=
  let sv0 := emit sv (.call_SV_ExecuteClientCommand cl s clientOK premaprestart)
  let args := E.Cmd_TokenizeString s
  let lowerArgv0 := Q_strlwr (Cmd_Argv args 0)
  let u := ucmds.find? (fun u => u.name == lowerArgv0 && !(premaprestart && !u.allowedpostmapchange))
  let sv1 :=
    match u with
    | some u => runUcmd E sv0 cl args u.func
    | none => sv0
  if sv1.cvars.sv_save ≠ 0 ∧ lowerArgv0 = "save" then emit sv1 (.ucmd "SV_Save_f" cl args)
  else if sv1.cvars.sv_save ≠ 0 ∧ lowerArgv0 = "load" then emit sv1 (.ucmd "SV_Load_f" cl args)
  else if clientOK then
    if sv1.cvars.sv_processVoiceChats ≠ 0 ∧ lowerArgv0 = "vsay" then
      if E.playerMuted cl then sv1 else
      let sv2 := modifyClient sv1 cl (fun c =>
        if c.voiceChatTime < sv1.svs_time - 30000 then { c with voiceChatTime := sv1.svs_time - 30000 }
        else c)
      if (getClient sv2 cl).voiceChatTime + 30000 / sv2.cvars.sv_processVoiceChats > sv2.svs_time then
        SV_SendServerCommand E sv2 (some cl) "cpm \"^1Spam Protection^7: VoiceChat ignored\n\""
      else
        modifyClient
          (SV_SendServerCommand E sv2 none ("vchat 0 " ++ toString cl ++ " 50 " ++ Cmd_Argv args 1))
          cl (fun c => { c with voiceChatTime := c.voiceChatTime + 30000 / sv2.cvars.sv_processVoiceChats })
    else
      let sv2 :=
        if u.isNone ∧ sv1.sv_state = .SS_GAME then emit sv1 (.VM_Call .GAME_CLIENT_COMMAND cl) else sv1
      let isSay : Bool := lowerArgv0 == "say" || lowerArgv0 == "enc_say"
      let sv3 :=
        if sv2.cvars.sv_chatConnectedServers ≠ "" ∧ isSay = true ∧ E.playerMuted cl = false then
          emit sv2 (.SV_SendToChatConnectedServers
            ("rsay " ++ (if sv2.cvars.sv_chatHostname ≠ "" then sv2.cvars.sv_chatHostname
                         else sv2.cvars.sv_hostname)
              ++ ":^7" ++ (getClient sv2 cl).name ++ "^7: ^2" ++ Cmd_Args args))
        else sv2
      if sv3.cvars.sv_chatCommands ≠ 0 ∧ isSay = true then
        chatCommand E sv3 cl (E.Cmd_TokenizeString (Cmd_Args args))
      else sv3
  else sv1

/-- The commands that pay the short flood cost (`sv_floodThreshold`). -/
def floodCheap (s : String) : Bool :=
  s.toList.take 4 == "team".toList || s.toList.take 10 == "setspawnpt".toList
    || s.toList.take 5 == "score".toList || Q_stricmp_eq "forcetapout" s
    || s.toList.take 11 == "imvotetally".toList || s.toList.take 3 == "obj".toList

/-- The commands exempt from `sv_floodProtect`. -/
def floodExempt (s : String) : Bool :=
  s.toList.take 4 == "team".toList || s.toList.take 10 == "setspawnpt".toList
    || s.toList.take 5 == "score".toList || Q_stricmp_eq "forcetapout" s

/-- The tail of `SV_ClientCommand` after the label `last_client_command`. -/
def last_client_command (sv : ServerState) (cl : Nat) (seq : Int) (s : String) :
    ServerState × Bool :=
  (modifyClient sv cl (fun c => { c with lastClientCommand := seq, lastClientCommandString := s }),
   true)

/-- `SV_ClientCommand` on a decoded record: `seq` and `s` are what `MSG_ReadLong` and
`MSG_ReadString` return. The result is the new state and the return value. -/
def SV_ClientCommand (E : Env) (sv : ServerState) (cl : Nat) (seq : Int)
    (s : String) (premaprestart : Bool) : ServerState × Bool :=
  if (getClient sv cl).lastClientCommand ≥ seq then (sv, true) else
  let thr := sv.cvars.sv_floodThreshold
  let sv1 :=
    if thr > 0 ∧ sv.svs_time - (getClient sv cl).floodTime > 9500 then
      modifyClient sv cl (fun c => { c with floodTime := sv.svs_time - 9500 })
    else sv
  if thr > 0 ∧ (getClient sv1 cl).floodTime ≥ sv1.svs_time then last_client_command sv1 cl seq s else
  let sv2 :=
    if thr > 0 then
      modifyClient sv1 cl (fun c =>
        { c with floodTime := c.floodTime + (if floodCheap s then 2500 / thr else 10000 / thr) })
    else sv1
  let sv3 :=
    if (s.toList.take 4).map Char.toLower = "team".toList ∨ sv2.cvars.gamestate = E.GS_INTERMISSION then
      modifyClient sv2 cl (fun c => { c with lastActivityTime := sv2.svs_time })
    else sv2
  if seq > (getClient sv3 cl).lastClientCommand + 1 then
    (SV_DropClient E sv3 cl "Lost reliable commands", false)
  else
  let floodprotect : Bool := !(sv3.cvars.sv_floodProtect ≠ 0 && floodExempt s)
  let clientOk : Bool :=
    !(sv3.cvars.sv_floodProtect ≠ 0 && sv3.cvars.com_cl_running == 0
      && decide ((getClient sv3 cl).state.toNat ≥ 4)
      && decide (sv3.svs_time < (getClient sv3 cl).nextReliableTime) && floodprotect)
  let sv4 :=
    if sv3.cvars.sv_floodProtect ≠ 0 ∧ floodprotect = true
        ∧ sv3.svs_time ≥ (getClient sv3 cl).nextReliableTime then
      modifyClient sv3 cl (fun c => { c with nextReliableTime := sv3.svs_time + 800 })
    else sv3
  last_client_command (SV_ExecuteClientCommand E sv4 cl s clientOk premaprestart) cl seq s

/-! ## Connection acceptance -/

/-- `SV_TempBanIsBanned` (`sv_ccmds.c`). -/
def SV_TempBanIsBanned (E : Env) (sv : ServerState) (address : netadr_t) : Bool :=
  sv.svs_tempBanAddresses.any (fun b =>
    decide (b.endtime ≠ 0) && decide (b.endtime > sv.svs_time) && E.NET_CompareAdr address b.adr)

/-- The slot test shared by the two address loops of `SV_DirectConnect`. -/
def sameClientAddress (E : Env) (fromAdr : netadr_t) (qport : Int) (c : client_t) : Bool :=
  E.NET_CompareBaseAdr fromAdr c.netchan.remoteAddress
    && (c.netchan.qport == qport || fromAdr.port == c.netchan.remoteAddress.port)

/-- Modelled from the spec: `Netchan_Setup` of `net_chan.c` (not under src/): "stamp
the session with address": the channel takes the requester's address and qport and
starts its sequence numbers (incoming 0, outgoing 1). -/
def Netchan_Setup (adr : netadr_t) (qport : Int) : netchan_t :=
  { remoteAddress := adr, qport := qport, incomingSequence := 0, outgoingSequence := 1 }

/-- The four address bytes as `%d.%d.%d.%d`. -/
def dottedIp (ip : List Nat) : String :=
  toString (ip.getD 0 0) ++ "." ++ toString (ip.getD 1 0) ++ "." ++ toString (ip.getD 2 0)
    ++ "." ++ toString (ip.getD 3 0)

/-- The part of `SV_DirectConnect` from the label `gotnewcl` on; the result names the
slot on acceptance. The loop `for ( i = 0 ; i < 3 ; i++ )` over `savedPositions` at the
label leaves the loop variable at 3, so the statement
`svs.challenges[i].firstPing = 0` further down clears the record 3 of the table,
whichever record the challenge was found in. -/
def gotnewcl (E : Env) (sv : ServerState) (fromAdr : netadr_t) (userinfo : userinfo_t)
    (challenge qport : Int) (newcl : Nat) : ServerState × Option Nat :=
  let temp := client_zero E.MAX_RELIABLE_COMMANDS E.MAX_DOWNLOAD_WINDOW E.PACKET_BACKUP
  let sv1 := setClient sv newcl
    { temp with gentity := some newcl, challenge := challenge, netchan := Netchan_Setup fromAdr qport }
  let cl_guid := Info_ValueForKey userinfo "cl_guid"
  let userinfo1 :=
    if sv1.cvars.sv_replaceInvalidGuid ≠ 0 ∧ cl_guid.length < 16 then
      Info_SetValueForKey userinfo "cl_guid" (Q_strupr cl_guid ++ " " ++ dottedIp fromAdr.ip)
    else userinfo
  let sv2 := SV_NumberName (modifyClient sv1 newcl (fun c => { c with userinfo := userinfo1 })) newcl
  let sv3 := emit sv2 (.VM_Call .GAME_CLIENT_CONNECT newcl)
  match E.gameClientConnect newcl true false with
  | some denied =>
    (emit sv3 (.NET_OutOfBandPrint fromAdr ("print\n[err_dialog]" ++ denied ++ "\n")), none)
  | none =>
    let sv4 := SV_UserinfoChanged E sv3 newcl
    let c4 := getClient sv4 newcl
    let sv5 :=
      if c4.netchan.remoteAddress.type ≠ .NA_BOT ∧ sv4.cvars.sv_chatConnectedServers ≠ "" then
        emit sv4 (.SV_SendToChatConnectedServers
          ("rsay " ++ c4.name ++ " ^7connected to " ++ sv4.cvars.sv_hostname))
      else sv4
    let sv6 :=
      if c4.netchan.remoteAddress.type ≠ .NA_BOT ∧ sv5.cvars.sv_firstMessage ≠ "" then
        SV_SendServerCommand E sv5 (some newcl) ("chat \"" ++ sv5.cvars.sv_firstMessage ++ "\"")
      else sv5
    let sv7 := { sv6 with svs_challenges :=
      match sv6.svs_challenges[3]? with
      | some ch => sv6.svs_challenges.set 3 { ch with firstPing := 0 }
      | none => sv6.svs_challenges }
    let sv8 := emit sv7 (.NET_OutOfBandPrint fromAdr "connectResponse")
    let sv9 := modifyClient sv8 newcl (fun c =>
      { c with state := .CS_CONNECTED, nextSnapshotTime := sv8.svs_time,
               lastPacketTime := sv8.svs_time, lastConnectTime := sv8.svs_time,
               gamestateMessageNum := -1 })
    let count := (sv9.svs_clients.filter (fun c => decide (c.state.toNat ≥ 2))).length
    let sv10 := if count = 1 ∨ count = sv9.svs_clients.length then emit sv9 .SV_Heartbeat_f else sv9
    (sv10, some newcl)

/-- `SV_DirectConnect` on the tokenised `connect` packet from `fromAdr`. The result is
the new state and, when the connection is accepted, the slot it was given; every
`return` before the end of the function gives `none`. -/
def SV_DirectConnect (E : Env) (sv : ServerState) (fromAdr : netadr_t) (args : List String) :
    ServerState × Option Nat :=
  let userinfo := E.Info_decode (Cmd_Argv args 1)
  if atoi (Info_ValueForKey userinfo "protocol") ≠ E.PROTOCOL_VERSION then
    (emit sv (.NET_OutOfBandPrint fromAdr ("print\n[err_prot]" ++ E.PROTOCOL_MISMATCH_ERROR)), none)
  else
  let challenge := atoi (Info_ValueForKey userinfo "challenge")
  let qport := atoi (Info_ValueForKey userinfo "qport")
  if SV_TempBanIsBanned E sv fromAdr then
    (emit sv (.NET_OutOfBandPrint fromAdr ("print\n" ++ sv.cvars.sv_tempbanmessage ++ "\n")), none)
  else
  let quick := findIndex (sameClientAddress E fromAdr qport) sv.svs_clients
  let tooSoon : Bool :=
    match quick with
    | some k => decide (sv.svs_time - (getClient sv k).lastConnectTime < sv.cvars.sv_reconnectlimit * 1000)
    | none => false
  if tooSoon then (sv, none) else
  if !E.NET_IsLocalAddress fromAdr then
    match findIndex (fun ch => E.NET_CompareAdr fromAdr ch.adr && (challenge == ch.challenge))
        sv.svs_challenges with
    | none =>
      (emit sv (.NET_OutOfBandPrint fromAdr "print\n[err_dialog]No or bad challenge for address.\n"),
       none)
    | some i =>
      let userinfo1 := Info_SetValueForKey userinfo "ip" (E.NET_AdrToString fromAdr)
      let ch := sv.svs_challenges.getD i ⟨netadr_zero, 0, 0, 0, 0, 0, false⟩
      let ping := if ch.firstPing = 0 then sv.svs_time - ch.pingTime else ch.firstPing
      let sv1 := { sv with svs_challenges :=
        sv.svs_challenges.set i { ch with firstPing := ping, connected := true } }
      if !E.Sys_IsLANAddress fromAdr ∧ sv1.cvars.sv_minPing ≠ 0 ∧ ping < sv1.cvars.sv_minPing then
        (emit sv1 (.NET_OutOfBandPrint fromAdr "print\n[err_dialog]Server is for high pings only\n"),
         none)
      else if !E.Sys_IsLANAddress fromAdr ∧ sv1.cvars.sv_maxPing ≠ 0 ∧ ping > sv1.cvars.sv_maxPing then
        (emit sv1 (.NET_OutOfBandPrint fromAdr "print\n[err_dialog]Server is for low pings only\n"),
         none)
      else selectSlot sv1 userinfo1 challenge qport
  else selectSlot sv (Info_SetValueForKey userinfo "ip" "localhost") challenge qport
where
  /-- The slot search of `SV_DirectConnect`, from `newcl = &temp` to the label. -/
  selectSlot (sv : ServerState) (userinfo : userinfo_t) (challenge qport : Int) :
      ServerState × Option Nat :=
    match findIndex (fun c => c.state != .CS_FREE && sameClientAddress E fromAdr qport c)
        sv.svs_clients with
    | some k => gotnewcl E sv fromAdr userinfo challenge qport k
    | none =>
      let maxclients := sv.svs_clients.length
      let startIndex : Nat :=
        if Info_ValueForKey userinfo "password" = sv.cvars.sv_privatePassword then 0
        else sv.cvars.sv_privateClients
      match findIndex (fun c => c.state == .CS_FREE) (sv.svs_clients.drop startIndex) with
      | some k =>
        let sv1 := modifyClient sv (startIndex + k) (fun c =>
          { c with reliableAcknowledge := 0, reliableSequence := 0 })
        gotnewcl E sv1 fromAdr userinfo challenge qport (startIndex + k)
      | none =>
        if E.NET_IsLocalAddress fromAdr then
          let count := ((sv.svs_clients.drop startIndex).filter
            (fun c => c.netchan.remoteAddress.type == .NA_BOT)).length
          if (count : Int) ≥ (maxclients : Int) - (startIndex : Int) then
            let sv1 := SV_DropClient E sv (maxclients - 1) "only bots on server"
            let cl := if startIndex < maxclients then maxclients - 1 else maxclients
            let sv2 := modifyClient sv1 cl (fun c =>
              { c with reliableAcknowledge := 0, reliableSequence := 0 })
            gotnewcl E sv2 fromAdr userinfo challenge qport (maxclients - 1)
          else (emit sv (.Com_Error "server is full on local connect\n"), none)
        else
          (emit sv (.NET_OutOfBandPrint fromAdr ("print\n" ++ sv.cvars.sv_fullmsg ++ "\n")), none)

/-! ## Vocabulary of the statements -/

/-- The log of `sv'` is the log of `sv` followed by new effects, and every new effect
satisfies `P`. -/
def LogExt (P : Effect → Prop) (sv sv' : ServerState) : Prop :=
  ∃ new, sv'.log = sv.log ++ new ∧ ∀ e ∈ new, P e

/-- The table keeps its size, the clock and the console variables are the same, and
every slot keeps its view `π`. -/
def Keeps {α : Type} (π : client_t → α) (sv sv' : ServerState) : Prop :=
  sv'.svs_clients.length = sv.svs_clients.length ∧ sv'.svs_time = sv.svs_time ∧
    sv'.cvars = sv.cvars ∧ ∀ i, π (getClient sv' i) = π (getClient sv i)

/-- The effects `SV_DropClient` can have. -/
def Effect.isDropKind : Effect → Bool
  | .FS_FCloseFile _ => true
  | .SV_SendServerCommand _ _ => true
  | .VM_Call .GAME_CLIENT_DISCONNECT _ => true
  | .SV_BotFreeClient _ => true
  | .SV_SendToChatConnectedServers _ => true
  | .SV_Heartbeat_f => true
  | _ => false

/-- Ghost record of a call of `SV_ExecuteClientCommand`. -/
def Effect.isExec : Effect → Bool
  | .call_SV_ExecuteClientCommand _ _ _ _ => true
  | _ => false

/-- Ghost record of a call of `SV_ClientThink`. -/
def Effect.isThink : Effect → Bool
  | .call_SV_ClientThink _ _ _ => true
  | _ => false

/-- The call of the game's client-begin. -/
def Effect.isBegin : Effect → Bool
  | .VM_Call .GAME_CLIENT_BEGIN _ => true
  | _ => false

/-- A client record without the fields `SV_DropClient` writes: what is left is what a
drop keeps. -/
def dropView (c : client_t) : client_t :=
  { c with state := .CS_FREE, reliableSequence := 0, reliableCommands := [], download := 0,
           downloadName := "", downloadBlocks := [], userinfo := [], name := "" }

/-- A write to a client record that a drop makes: the state is kept or becomes
`CS_ZOMBIE`, the file handle is kept or becomes 0, the sequence number of the ring does
not go down, a name that was cleared stays cleared, the block buffers are kept or are
all released, and the rest of the record is kept, apart from the ring, the user info
and the display name. -/
def DropWrite (f : client_t → client_t) : Prop :=
  ∀ c : client_t, dropView (f c) = dropView c ∧
    ((f c).state = c.state ∨ (f c).state = .CS_ZOMBIE) ∧
    ((f c).download = c.download ∨ (f c).download = 0) ∧
    c.reliableSequence ≤ (f c).reliableSequence ∧
    (c.downloadName = "" → (f c).downloadName = "") ∧
    ((f c).downloadBlocks = c.downloadBlocks ∨
      (f c).downloadBlocks = c.downloadBlocks.map (fun _ => none))

/-- State `b` is reached from `a` by the steps of drops: effects of a drop, writes of a
drop to client records, the challenge loop of a drop, and the stamp of
`svs.lastPlayerLeftTime`. This is what `SV_DropClient` does to the state, the drops of
the clients whose ring overflows on the way included. -/
inductive Drops (E : Env) : ServerState → ServerState → Prop
  | refl (a : ServerState) : Drops E a a
  | emit {a b : ServerState} (e : Effect) (h : Drops E a b) (he : e.isDropKind = true) :
      Drops E a (emit b e)
  | write {a b : ServerState} (i : Nat) (f : client_t → client_t) (h : Drops E a b)
      (hf : DropWrite f) : Drops E a (modifyClient b i f)
  | challenge {a b : ServerState} (adr : netadr_t) (h : Drops E a b) :
      Drops E a { b with svs_challenges := dropChallenge E adr b.svs_challenges }
  | left {a b : ServerState} (t : Int) (h : Drops E a b) :
      Drops E a { b with svs_lastPlayerLeftTime := t }

/-- The ring of `c` takes `n` more commands without running past the
`MAX_RELIABLE_COMMANDS` commands the client has not acknowledged. -/
def ringRoom (E : Env) (c : client_t) (n : Nat) : Prop :=
  c.reliableSequence + (n : Int) - c.reliableAcknowledge ≤ (E.MAX_RELIABLE_COMMANDS : Int)

instance (E : Env) (c : client_t) (n : Nat) : Decidable (ringRoom E c n) := by
  unfold ringRoom
  infer_instance

/-- Every ring of the table takes `n` more commands. -/
def tableRoom (E : Env) (sv : ServerState) (n : Nat) : Prop :=
  ∀ j, j < sv.svs_clients.length → ringRoom E (getClient sv j) n

instance (E : Env) (sv : ServerState) (n : Nat) : Decidable (tableRoom E sv n) := by
  unfold tableRoom
  infer_instance

/-- Every ring has room for the commands of a drop of client `drop`: the broadcast for
each client, and the `disconnect` for the dropped client after it. -/
def dropRoom (E : Env) (sv : ServerState) (drop : Nat) : Prop :=
  ∀ j, j < sv.svs_clients.length → ringRoom E (getClient sv j) (if j = drop then 2 else 1)

instance (E : Env) (sv : ServerState) (drop : Nat) : Decidable (dropRoom E sv drop) := by
  unfold dropRoom
  infer_instance

/-- The number of rings that have not overflowed; every forced drop takes one away,
which bounds the depth of the drops inside a drop. -/
def ringsInWindow (E : Env) (sv : ServerState) : Nat :=
  sv.svs_clients.countP
    (fun c => decide (c.reliableSequence - c.reliableAcknowledge ≤ (E.MAX_RELIABLE_COMMANDS : Int)))

/-- The effects `SV_ClientThink` can have. -/
def Effect.isThinkKind : Effect → Bool
  | .call_SV_ClientThink _ _ _ => true
  | .disableWeapon _ _ => true
  | .VM_Call .GAME_CLIENT_THINK _ => true
  | _ => false

/-- A recorded call of `SV_ClientThink` passes a command whose `serverTime` exceeds
the `serverTime` of `cl->lastUsercmd` at the moment of the call. -/
def Effect.freshThink : Effect → Prop
  | .call_SV_ClientThink _ cmd lastServerTime => lastServerTime < cmd.serverTime
  | _ => True

/-- A client record without the fields `SV_ClientThink` writes. -/
def thinkView (c : client_t) : client_t :=
  { c with lastActivityTime := 0, lastUsercmd := usercmd_zero, lastUsercmdTimes := usercmdTimes_zero }

/-- A client record without the two fields `SV_UserMove` writes before the pure gate. -/
def moveView (c : client_t) : client_t :=
  { c with deltaMessage := 0, messageAcked := [] }

/-- The state `SV_UserMove_apply` leaves behind for slot `cl` and batch `cmds` in a
multiplayer game: held at the pure gate and not active; or dropped; or neither primed
nor active; or active with every command of the batch already applied or skipped. -/
def Settled (sv : ServerState) (cl : Nat) (cmds : List usercmd_t) : Prop :=
  let c := getClient sv cl
  (sv.cvars.sv_pure ≠ 0 ∧ c.pureAuthentic = 0 ∧ c.gotCP = false ∧ c.state ≠ .CS_ACTIVE) ∨
  (sv.cvars.sv_pure ≠ 0 ∧ c.pureAuthentic = 0 ∧ c.gotCP = true ∧ c.state = .CS_ZOMBIE) ∨
  (¬ (sv.cvars.sv_pure ≠ 0 ∧ c.pureAuthentic = 0) ∧ c.state ≠ .CS_PRIMED ∧ c.state ≠ .CS_ACTIVE) ∨
  (¬ (sv.cvars.sv_pure ≠ 0 ∧ c.pureAuthentic = 0) ∧ c.state = .CS_ACTIVE ∧
    ∀ cmd ∈ cmds, cmd.serverTime ≤ (cmds.getLastD usercmd_zero).serverTime →
      cmd.serverTime ≤ c.lastUsercmd.serverTime)

/-! ## Concrete servers -/

/-- Splits a text at blanks, as a tokeniser without quoting does. -/
def splitBlanks : List Char → List Char → List String
  | [], [] => []
  | [], acc => [String.mk acc.reverse]
  | c :: cs, acc =>
    if c = ' ' then
      (if acc = [] then splitBlanks cs [] else String.mk acc.reverse :: splitBlanks cs [])
    else splitBlanks cs (c :: acc)

/-- Splits a text at backslashes, keeping empty pieces. -/
def splitBackslash : List Char → List Char → List String
  | [], acc => [String.mk acc.reverse]
  | c :: cs, acc =>
    if c = '\\' then String.mk acc.reverse :: splitBackslash cs [] else splitBackslash cs (c :: acc)

/-- Pairs up keys and values. -/
def pairUp : List String → List (String × String)
  | k :: v :: rest => (k, v) :: pairUp rest
  | _ => []

/-- A multiplayer server with the constants of the engine headers: addresses compare
by kind, bytes and port, the loopback address is the local one, the game accepts
every connection, the two modules are in archives with checksums 100 and 200 and the
loaded archives have the pure checksums 11, 22 and 33. The file system holds one file
for download, `etmain/map.pk3` of 5000 bytes with handle 7, read in pieces of at most
2048 bytes. The build is the one without `AUTHORIZE_SUPPORT`. -/
def env0 : Env :=
  { PROTOCOL_VERSION := 84
    GS_INTERMISSION := 3
    GS_PLAYING := 0
    GS_WARMUP := 2
    GS_WAITING_FOR_PLAYERS := 4
    GS_RESET := 5
    MAX_PACKET_USERCMDS := 32
    MAX_RELIABLE_COMMANDS := 64
    MAX_DOWNLOAD_WINDOW := 8
    MAX_DOWNLOAD_BLKSIZE := 2048
    PACKET_BACKUP := 32
    DLNOTIFY_REDIRECT := 1
    DLNOTIFY_BEGIN := 2
    DLNOTIFY_ALL := 3
    DL_FLAG_DISCON := 0
    PROTOCOL_MISMATCH_ERROR := "Protocol Mismatch Between Client and Server."
    SV_GameIsSinglePlayer := false
    SV_GameIsCoop := false
    NET_CompareAdr := fun a b =>
      a.type == b.type && (a.type == .NA_LOOPBACK || (a.ip == b.ip && a.port == b.port))
    NET_CompareBaseAdr := fun a b => a.type == b.type && (a.type == .NA_LOOPBACK || a.ip == b.ip)
    NET_IsLocalAddress := fun a => a.type == .NA_LOOPBACK
    Sys_IsLANAddress := fun a => a.type == .NA_LOOPBACK
    NET_AdrToString := fun a => dottedIp a.ip ++ ":" ++ toString a.port
    gentityIsBot := fun _ => false
    COM_BitCheck := fun _ _ _ => false
    gameClientConnect := fun _ _ _ => none
    playerMuted := fun _ => false
    FS_FileIsInPAK_cgame := some 100
    FS_FileIsInPAK_ui := some 200
    FS_LoadedPakPureChecksums := ["11", "22", "33"]
    broadcastTo := fun c => decide (c.state.toNat ≥ 3)
    Cmd_TokenizeString := fun s => splitBlanks s.toList []
    Info_decode := fun s => pairUp ((splitBackslash s.toList []).drop 1)
    FS_VerifyPak := fun _ => true
    FS_idPak := fun _ => false
    FS_SV_FOpenFileRead := fun name => if name = "etmain/map.pk3" then (5000, 7) else (0, 0)
    FS_Read := fun _ pos => if pos < 5000 then min 2048 (5000 - pos) else 0
    AUTHORIZE_SUPPORT := false
    AUTHORIZE_TIMEOUT := 5000
    NET_StringToAdr_authorize := (false, { type := .NA_BAD, ip := [0, 0, 0, 0], port := 0 })
    BigShort_PORT_AUTHORIZE := 27952
    NDEBUG := true
    MAX_BINARY_MESSAGE := 32768
    GAME_INIT_FRAMES := 6
    FRAMETIME := 100
    SNAPFLAG_SERVERCOUNT := 4
    CS_WARMUP := 5
    savegameTime := none }

/-- The same server running a single-player game. -/
def envSP : Env := { env0 with SV_GameIsSinglePlayer := true }

/-- Console variables of a plain public server: not pure, no flood limits. -/
def cvars0 : cvars_t :=
  { sv_pure := 0, sv_allowUnpureClients := 0, sv_floodThreshold := 0, sv_floodProtect := 0,
    sv_showClientCmds := 0, com_cl_running := 0, gamestate := 0, sv_disabledWeapons1 := 0,
    sv_disabledWeapons2 := 0, sv_save := 0, sv_processVoiceChats := 0, sv_chatCommands := 0,
    sv_chatConnectedServers := "", sv_chatHostname := "", sv_hostname := "ET", sv_firstMessage := "",
    sv_fullmsg := "Server is full.", sv_tempbanmessage := "You have been kicked.",
    sv_privatePassword := "", sv_privateClients := 0, sv_reconnectlimit := 0, sv_minPing := 0,
    sv_maxPing := 0, sv_numberedNames := 0, sv_numberedNamesDecoration := "",
    sv_numberedNamesDecoration_modified := false, sv_replaceInvalidGuid := 0, sv_lanForceRate := 0,
    sv_pretendNonEmpty := 0, com_dedicated := 2, sv_onlyVisibleClients := 0, sv_allowDownload := 1,
    sv_wwwDownload := 0, sv_wwwBaseURL := "", sv_wwwDlDisconnected := 0, sv_wwwFallbackURL := "",
    sv_dl_maxRate := 42000, fs_game := "", sv_allowAnonymous := 0, com_sv_running := 1,
    sv_maxclients_modified := false, savegame_loading := 0, mapname := "oasis",
    sv_serverid := 10, sv_serverRestarting := 0 }

/-- The address 10.0.0.1:27960. -/
def adr1 : netadr_t := { type := .NA_IP, ip := [10, 0, 0, 1], port := 27960 }

/-- An active human client at `adr1` whose last applied command has `serverTime` 100. -/
def clientActive : client_t :=
  { client_zero 64 8 32 with
    state := .CS_ACTIVE, name := "player", gentity := some 0, messageAcknowledge := 7,
    netchan := Netchan_Setup adr1 1234,
    lastUsercmd := { usercmd_zero with serverTime := 100 } }

/-- The same client before its first movement batch under the gamestate. -/
def clientPrimed : client_t := { clientActive with state := .CS_PRIMED }

/-- A server at time 5000 with the given console variables and one slot. -/
def server1 (cv : cvars_t) (c : client_t) : ServerState :=
  { svs_time := 5000, svs_clients := [c], svs_challenges := [], svs_tempBanAddresses := [],
    svs_authorizeAddress := netadr_zero,
    svs_lastPlayerLeftTime := 0, sv_state := .SS_GAME, sv_serverId := 10, sv_restartedServerId := 10,
    sv_checksumFeed := 555, sv_checksumFeedServerId := 10, svs_snapFlagServerBit := 0,
    sv_restartTime := 0, sv_restarting := false, cvars := cv,
    numberName_static1 := "", numberName_static2 := "", log := [] }

/-- A movement command with the given `serverTime`. -/
def cmdAt (t : Int) : usercmd_t := { usercmd_zero with serverTime := t }

/-- Console variables of a pure server in strict mode. -/
def cvarsPure : cvars_t := { cvars0 with sv_pure := 1 }

/-- A primed client whose `cp` report was received and did not validate. -/
def clientPrimedBadCP : client_t := { clientPrimed with gotCP := true }

/-- The trailing values of a `cp` report: the values of the tokens after the sentinel,
without the appended last one. -/
def cpTrailing (args : List String) : List Int := ((args.drop 5).map atoi).dropLast

/-- The value a `cp` report appends after its trailing values. -/
def cpAppended (args : List String) : Int := ((args.drop 5).map atoi).getLastD 0

/-- The checks of a `cp` report in the words of the specification: at least six
tokens; the first two values are the server's checksums of the two required modules
(and their tokens are not the sentinel); the sentinel follows; no two trailing values
are equal; every trailing value is among the server's loaded-archive checksums; the
appended value is `feed` XOR the trailing values XOR their count. -/
def cpReportValid (E : Env) (feed : Int) (args : List String) : Prop :=
  6 ≤ args.length ∧
  (startsWithAt (Cmd_Argv args 2) = false ∧ E.FS_FileIsInPAK_cgame = some (atoi (Cmd_Argv args 2))) ∧
  (startsWithAt (Cmd_Argv args 3) = false ∧ E.FS_FileIsInPAK_ui = some (atoi (Cmd_Argv args 3))) ∧
  startsWithAt (Cmd_Argv args 4) = true ∧
  (cpTrailing args).Nodup ∧
  (∀ p ∈ cpTrailing args, p ∈ nServerChkSum E) ∧
  cpAppended args = rollingChecksum feed (cpTrailing args)

/-- Console variables of a pure server in lenient mode. -/
def cvarsLenient : cvars_t := { cvars0 with sv_pure := 1, sv_allowUnpureClients := 1 }

/-- A primed client that has not acknowledged any of the 64 commands on its ring: the
ring has no room for one more. -/
def clientFullRing : client_t := { clientPrimed with reliableSequence := 64 }

/-- A `cp` report built from the server's own data: modules 100 and 200, archives 11
and 22, and 564 = 555 XOR 11 XOR 22 XOR 2 for the feed 555. -/
def cpGood : List String := ["cp", "10", "100", "200", "@", "11", "22", "564"]

/-- The same report with a wrong appended value. -/
def cpBad : List String := ["cp", "10", "100", "200", "@", "11", "22", "565"]

/-- The table keeps its size and the log grows by effects satisfying `P`. -/
def Tame (P : Effect → Prop) (sv sv' : ServerState) : Prop :=
  sv'.svs_clients.length = sv.svs_clients.length ∧ LogExt P sv sv'

/-- The flood-threshold throttle of `SV_ClientCommand` fires: `sv_floodThreshold` is
positive and the client's flood time has not yet passed. -/
def floodThrottled (sv : ServerState) (cl : Nat) : Prop :=
  sv.cvars.sv_floodThreshold > 0 ∧ (getClient sv cl).floodTime ≥ sv.svs_time

/-- Console variables with the flood threshold switched on. -/
def cvarsFlood : cvars_t := { cvars0 with sv_floodThreshold := 1 }

/-- An active client that has applied command 3 and whose flood time is the current
server time, 5000. -/
def clientFlooding : client_t := { clientActive with floodTime := 5000, lastClientCommand := 3 }

/-- The table keeps its size, the clock is the same, the console variables keep their
view `ρ`, and every slot in `S` keeps its view `π`. -/
def KeepsOn {α β : Type} (S : Nat → Prop) (π : client_t → α) (ρ : cvars_t → β)
    (sv sv' : ServerState) : Prop :=
  sv'.svs_clients.length = sv.svs_clients.length ∧ sv'.svs_time = sv.svs_time ∧
    ρ sv'.cvars = ρ sv.cvars ∧ ∀ i, S i → π (getClient sv' i) = π (getClient sv i)

/-- The fields of a client record that `SV_DirectConnect` stamps at the label
`gotnewcl` and that only a queued server command changes afterwards. -/
def connectView (c : client_t) : Int × Int × Int × Int × netchan_t :=
  (c.reliableSequence, c.reliableAcknowledge, c.lastClientCommand, c.challenge, c.netchan)

/-- The console variables the end of `SV_DirectConnect` reads. -/
def connectCvars (cv : cvars_t) : String × String × String :=
  (cv.sv_firstMessage, cv.sv_chatConnectedServers, cv.sv_hostname)

/-- What an accepted connection from `fromAdr` leaves behind in slot `k`: `sv` is the
state before and `sv'` the state after. The reliable sequence is 0, or 1 when the
server's first message was queued for a requester that is not a bot. -/
def Accepted (fromAdr : netadr_t) (challenge qport : Int) (sv sv' : ServerState) (k : Nat) :
    Prop :=
  k < sv.svs_clients.length ∧
  (getClient sv' k).state = .CS_CONNECTED ∧
  (getClient sv' k).reliableSequence
    = (if fromAdr.type ≠ .NA_BOT ∧ sv.cvars.sv_firstMessage ≠ "" then 1 else 0) ∧
  (getClient sv' k).reliableAcknowledge = 0 ∧
  (getClient sv' k).lastClientCommand = 0 ∧
  (getClient sv' k).challenge = challenge ∧
  (getClient sv' k).netchan.remoteAddress = fromAdr ∧
  (getClient sv' k).netchan.qport = qport ∧
  (getClient sv' k).gamestateMessageNum = -1 ∧
  (getClient sv' k).lastConnectTime = sv.svs_time ∧
  (∃ pre post, sv'.log = sv.log ++ pre ++ Effect.NET_OutOfBandPrint fromAdr "connectResponse" :: post)

/-- The record `SV_UserinfoChanged` leaves in a slot differs from the old one in five
fields at most. -/
def userinfoWrites (c x : client_t) : Prop :=
  ∃ (u : userinfo_t) (n : String) (r m : Int) (d : Bool),
    x = { c with userinfo := u, name := n, rate := r, snapshotMsec := m, bDlOK := d }

/-- Console variables of a public server that greets a new client with a first
message. -/
def cvarsWelcome : cvars_t := { cvars0 with sv_firstMessage := "Welcome" }

/-- A free slot. -/
def clientFree : client_t := client_zero 64 8 32

/-- The challenge 777 the server issued to `adr1` at time 4900. -/
def challenge777 : challenge_t :=
  { adr := adr1, challenge := 777, time := 4900, pingTime := 4900, firstTime := 4900,
    firstPing := 0, connected := false }

/-- A server at time 5000 with one free slot that has issued `challenge777`. -/
def serverOpen (cv : cvars_t) : ServerState :=
  { server1 cv clientFree with svs_challenges := [challenge777] }

/-- The `connect` packet of a client with protocol 84 answering challenge 777. -/
def connectArgs : List String :=
  ["connect", "\\protocol\\84\\challenge\\777\\qport\\4321\\name\\bob"]

/-- The server after `connectArgs` arrived from `adr1` at `serverOpen cvarsWelcome`. -/
def serverWelcomed : ServerState :=
  (SV_DirectConnect env0 (serverOpen cvarsWelcome) adr1 connectArgs).1

/-- Slot `k` is the lowest-index slot of the table whose record satisfies `p`. -/
def firstSlotWith (p : client_t → Bool) (sv : ServerState) (k : Nat) : Prop :=
  k < sv.svs_clients.length ∧ p (getClient sv k) = true ∧ ∀ j, j < k → p (getClient sv j) = false

/-- The reconnect limit applies to a request from `fromAdr` with `qport`: the
lowest-index slot with the same base address and the same qport or the same port was
connected less than `sv_reconnectlimit` seconds ago. -/
def reconnectTooSoon (E : Env) (sv : ServerState) (fromAdr : netadr_t) (qport : Int) : Prop :=
  ∃ k, firstSlotWith (sameClientAddress E fromAdr qport) sv k ∧
    sv.svs_time - (getClient sv k).lastConnectTime < sv.cvars.sv_reconnectlimit * 1000

/-- A server at time 5000 with two slots that has issued `challenge777`. -/
def serverTwo (cv : cvars_t) (c0 c1 : client_t) : ServerState :=
  { serverOpen cv with svs_clients := [c0, c1] }

/-- The `connect` packet of `connectArgs` with protocol 83 and the challenge 111 nobody
issued. -/
def connectArgsOld : List String :=
  ["connect", "\\protocol\\83\\challenge\\111\\qport\\4321\\name\\bob"]

/-- The `connect` packet of `connectArgs` with the challenge 111 nobody issued. -/
def connectArgsBad : List String :=
  ["connect", "\\protocol\\84\\challenge\\111\\qport\\4321\\name\\bob"]

/-- Console variables with a reconnect limit of three seconds. -/
def cvarsLimit : cvars_t := { cvars0 with sv_reconnectlimit := 3 }

/-- A zombie left by a session from `adr1` with qport 4321 that connected at time 0. -/
def zombieOld : client_t :=
  { clientActive with state := .CS_ZOMBIE, netchan := Netchan_Setup adr1 4321, lastConnectTime := 0 }

/-- An active session from `adr1` with qport 4321 that connected at time 4900. -/
def clientRecent : client_t :=
  { clientActive with netchan := Netchan_Setup adr1 4321, lastConnectTime := 4900 }

/-- The call of the game's client-connect. -/
def Effect.isConnectCall : Effect → Bool
  | .VM_Call .GAME_CLIENT_CONNECT _ => true
  | _ => false

/-- A challenge record without the two fields `SV_DirectConnect` and `SV_DropClient`
stamp: address, token and the three times are left. -/
def challengeView (ch : challenge_t) : netadr_t × Int × Int × Int × Int :=
  (ch.adr, ch.challenge, ch.time, ch.pingTime, ch.firstTime)

/-- State `a` is a state in which `SV_DirectConnect`, started in `sv`, can reach the
label `gotnewcl` with the slot `newcl`: at most a drop of the slot lies between them,
so the table has its size, the challenge records differ at most in `firstPing` and
`connected`, the effects so far are those of a drop, and every other slot has its
connection state when `room` holds, which says that the rings have room for the
commands of that drop. -/
def AtGotnewcl (room : Prop) (sv a : ServerState) (newcl : Nat) : Prop :=
  newcl < a.svs_clients.length ∧
  a.svs_clients.length = sv.svs_clients.length ∧
  (room → ∀ j, j ≠ newcl → (getClient a j).state = (getClient sv j).state) ∧
  LogExt (fun e => e.isDropKind = true) sv a ∧
  a.svs_challenges.map challengeView = sv.svs_challenges.map challengeView

/-- The server of `env0` with a game that denies every connection with "Banned.". -/
def envDeny : Env := { env0 with gameClientConnect := fun _ _ _ => some "Banned." }

/-- The reserved-slot offset: 0 when the password of the user-info is
`sv_privatePassword`, `sv_privateClients` otherwise. -/
def slotStartIndex (sv : ServerState) (userinfo : userinfo_t) : Nat :=
  if Info_ValueForKey userinfo "password" = sv.cvars.sv_privatePassword then 0
  else sv.cvars.sv_privateClients

/-- Slot selection in the words of the specification, as a search over the slot
numbers: the lowest-index slot that is not free and has the requester's base address
and its qport or its port; otherwise the lowest-index `CS_FREE` slot `i` with
`startIndex <= i < sv_maxclients`; otherwise none. -/
def slotReference (E : Env) (fromAdr : netadr_t) (qport : Int) (sv : ServerState)
    (userinfo : userinfo_t) : Option Nat :=
  match (List.range sv.svs_clients.length).find? (fun i =>
      (getClient sv i).state != .CS_FREE &&
        (E.NET_CompareBaseAdr fromAdr (getClient sv i).netchan.remoteAddress &&
          ((getClient sv i).netchan.qport == qport ||
            fromAdr.port == (getClient sv i).netchan.remoteAddress.port))) with
  | some i => some i
  | none =>
    (List.range sv.svs_clients.length).find? (fun i =>
      decide (slotStartIndex sv userinfo ≤ i) && (getClient sv i).state == .CS_FREE)

/-- A zombie left by a session from the host and port of `adr1` with qport 9999. -/
def zombieOtherQport : client_t :=
  { clientActive with state := .CS_ZOMBIE, netchan := Netchan_Setup adr1 9999 }

/-! ## Challenges -/

/-- A zeroed challenge record. -/
def challenge_zero : challenge_t :=
  { adr := netadr_zero, challenge := 0, time := 0, pingTime := 0, firstTime := 0, firstPing := 0,
    connected := false }

/-- The token of a new challenge, `( ( rand() << 16 ) ^ rand() ) ^ svs.time`, for the two
values `rand()` returns. -/
def challengeToken (rand1 rand2 time : Int) : Int :=
  toInt32 (Int.xor (Int.xor (rand1 * 65536) rand2) time)

/-- The scan of `SV_GetChallenge` over the challenge table, from index `i` on: the
index at which the loop breaks (an unconnected record of the address), if it does,
and the value of `oldest` when the loop is left. -/
def challengeScan (E : Env) (fromAdr : netadr_t) :
    List challenge_t → Nat → Nat → Int → Option Nat × Nat
  | [], _, oldest, _ => (none, oldest)
  | ch :: rest, i, oldest, oldestTime =>
    if !ch.connected && E.NET_CompareAdr fromAdr ch.adr then (some i, oldest)
    else if ch.time < oldestTime then challengeScan E fromAdr rest (i + 1) i ch.time
    else challengeScan E fromAdr rest (i + 1) oldest oldestTime

/-- The text of a challenge response (`"challengeResponse %i %i"` or
`"challengeResponse %i"`). -/
def challengeResponse (token onlyVisible : Int) : String :=
  if onlyVisible ≠ 0 then "challengeResponse " ++ toString token ++ " " ++ toString onlyVisible
  else "challengeResponse " ++ toString token

/-- The text sent to the authorize server (`"getIpAuthorize %i %i.%i.%i.%i %s %i"`). -/
def getIpAuthorize (token : Int) (fromAdr : netadr_t) (cv : cvars_t) : String :=
  "getIpAuthorize " ++ toString token ++ " " ++ dottedIp fromAdr.ip ++ " " ++ cv.fs_game ++ " "
    ++ toString cv.sv_allowAnonymous

/-- The first part of `SV_GetChallenge` after the two early returns (the scan and the
block `if ( i == MAX_CHALLENGES )`): the state and the index `i` of the record of the
address, found or made. `rand1`, `rand2` are the values the two calls of `rand()`
return when a new token is made. -/
def findChallenge (E : Env) (sv : ServerState) (fromAdr : netadr_t) (rand1 rand2 : Int) :
    ServerState × Nat :=
  let scan := challengeScan E fromAdr sv.svs_challenges 0 0 0x7fffffff
  match scan.1 with
  | some i => (sv, i)
  | none =>
    let oldest := scan.2
    let old := sv.svs_challenges.getD oldest challenge_zero
    let fresh : challenge_t :=
      { old with
        challenge := challengeToken rand1 rand2 sv.svs_time
        adr := fromAdr
        firstTime := sv.svs_time
        firstPing := 0
        time := sv.svs_time
        connected := false }
    ({ sv with svs_challenges := sv.svs_challenges.set oldest fresh }, oldest)

/-- The second part of `SV_GetChallenge`: the answer for the record `i`. With
`AUTHORIZE_SUPPORT` the code after `#ifdef AUTHORIZE_SUPPORT` runs for an address that
is not on the LAN. -/
def answerChallenge (E : Env) (sv1 : ServerState) (fromAdr : netadr_t) (i : Nat) : ServerState :=
  let ch := sv1.svs_challenges.getD i challenge_zero
  if !E.AUTHORIZE_SUPPORT || E.Sys_IsLANAddress fromAdr then
    let stamped : challenge_t := { ch with pingTime := sv1.svs_time }
    emit { sv1 with svs_challenges := sv1.svs_challenges.set i stamped }
      (.NET_OutOfBandPrint fromAdr (challengeResponse ch.challenge sv1.cvars.sv_onlyVisibleClients))
  else
  let resolve : Bool :=
    decide (sv1.svs_authorizeAddress.ip.getD 0 0 = 0) && (sv1.svs_authorizeAddress.type != .NA_BAD)
  if resolve && !E.NET_StringToAdr_authorize.1 then
    { sv1 with svs_authorizeAddress := E.NET_StringToAdr_authorize.2 }
  else
  let resolved : netadr_t :=
    { E.NET_StringToAdr_authorize.2 with port := E.BigShort_PORT_AUTHORIZE }
  let sv2 := if resolve then { sv1 with svs_authorizeAddress := resolved } else sv1
  if sv2.svs_time - ch.firstTime > E.AUTHORIZE_TIMEOUT then
    let stamped : challenge_t := { ch with pingTime := sv2.svs_time }
    emit { sv2 with svs_challenges := sv2.svs_challenges.set i stamped }
      (.NET_OutOfBandPrint ch.adr (challengeResponse ch.challenge sv2.cvars.sv_onlyVisibleClients))
  else if sv2.svs_authorizeAddress.type ≠ .NA_BAD then
    emit sv2 (.NET_OutOfBandPrint sv2.svs_authorizeAddress (getIpAuthorize ch.challenge fromAdr sv2.cvars))
  else sv2

/-- `SV_GetChallenge` for a `getchallenge` packet from `fromAdr`. -/
def SV_GetChallenge (E : Env) (sv : ServerState) (fromAdr : netadr_t) (rand1 rand2 : Int) :
    ServerState :=
  if E.SV_GameIsSinglePlayer then sv else
  if SV_TempBanIsBanned E sv fromAdr then
    emit sv (.NET_OutOfBandPrint fromAdr ("print\n" ++ sv.cvars.sv_tempbanmessage ++ "\n"))
  else
    answerChallenge E (findChallenge E sv fromAdr rand1 rand2).1 fromAdr
      (findChallenge E sv fromAdr rand1 rand2).2

/-- The same state at a later server time. -/
def atTime (sv : ServerState) (t : Int) : ServerState := { sv with svs_time := t }

/-- The addresses 10.0.0.2:27960 and 10.0.0.3:27960. -/
def adr2 : netadr_t := { type := .NA_IP, ip := [10, 0, 0, 2], port := 27960 }

/-- See `adr2`. -/
def adr3 : netadr_t := { type := .NA_IP, ip := [10, 0, 0, 3], port := 27960 }

/-- A server at time 1000 with one slot and a challenge table of two zeroed records. -/
def serverFresh : ServerState :=
  { server1 cvars0 clientFree with
    svs_time := 1000
    svs_challenges := [challenge_zero, challenge_zero] }

/-- The loop test of `SV_GetChallenge`: an unconnected record of the address. -/
def unconnectedOf (E : Env) (fromAdr : netadr_t) (ch : challenge_t) : Bool :=
  !ch.connected && E.NET_CompareAdr fromAdr ch.adr

/-- An effect that carries the challenge token `token`: a challenge response, or the
request to the authorize server. -/
def answersWith (token : Int) (fromAdr : netadr_t) (cv : cvars_t) (e : Effect) : Prop :=
  ∃ dest, e = .NET_OutOfBandPrint dest (challengeResponse token cv.sv_onlyVisibleClients) ∨
    e = .NET_OutOfBandPrint dest (getIpAuthorize token fromAdr cv)

/-- The server `serverFresh` after three challenge requests: from `adr1` at time 1000,
from `adr2` at time 2000 and from `adr1` again at time 3000. -/
def serverRequested : ServerState :=
  SV_GetChallenge env0
    (atTime (SV_GetChallenge env0 (atTime (SV_GetChallenge env0 serverFresh adr1 5 6) 2000)
      adr2 7 8) 3000)
    adr1 9 10

/-- A challenge record without its ping time stamp. -/
def withoutPing (c : challenge_t) : challenge_t := { c with pingTime := 0 }

/-! ## Downloads: `SV_WriteDownloadToClient`

The function works on the record of one client and on the message it fills, so its
parts are embedded on the record: each gives the record and the effects, in order. -/

/-- The C expression `x & ~f`: `x` without the bits it shares with `f`. -/
def clearBits (x f : Int) : Int := x - Int.land x f

/-- `SV_BadDownload`, together with the error text that each caller writes into the
message right after the call. -/
def SV_BadDownload (cl : Nat) (c : client_t) (errorMessage : String) : client_t × List Effect :=
  ({ c with downloadName := "" }, [.svc_download cl 0 [-1] errorMessage])

/-- `SV_CheckFallbackURL`: what is written into the message, and the result. -/
def SV_CheckFallbackURL (cv : cvars_t) (cl : Nat) : List Effect × Bool :=
  if cv.sv_wwwFallbackURL = "" then ([], false)
  else ([.svc_download cl (-1) [0, 2] cv.sv_wwwFallbackURL], true)

/-- The www redirect of `SV_WriteDownloadToClient` (the block under
`sv_wwwDownload->integer`), and whether the function returns there. -/
def wwwRedirect (E : Env) (cv : cvars_t) (cl : Nat) (c : client_t) :
    (client_t × List Effect) × Bool :=
  if cv.sv_wwwDownload ≠ 0 then
    if c.bDlOK then
      if !c.bFallback then
        let downloadSize := (E.FS_SV_FOpenFileRead c.downloadName).1
        if downloadSize ≠ 0 then
          let url := cv.sv_wwwBaseURL ++ "/" ++ c.downloadName
          let c1 :=
            { c with
              downloadURL := url
              downloadnotify :=
                if Int.land c.downloadnotify E.DLNOTIFY_REDIRECT ≠ 0 then
                  clearBits c.downloadnotify E.DLNOTIFY_REDIRECT
                else c.downloadnotify
              bWWWDl := true }
          let download_flag : Int := if cv.sv_wwwDlDisconnected ≠ 0 then 2 ^ E.DL_FLAG_DISCON else 0
          ((c1, [.FS_SV_FOpenFileRead c.downloadName,
                  .FS_FCloseFile (E.FS_SV_FOpenFileRead c.downloadName).2,
                  .svc_download cl (-1) [downloadSize, download_flag] url]), true)
        else ((c, [.FS_SV_FOpenFileRead c.downloadName]), false)
      else
        (({ c with bFallback := false }, (SV_CheckFallbackURL cv cl).1),
          (SV_CheckFallbackURL cv cl).2)
    else ((c, (SV_CheckFallbackURL cv cl).1), (SV_CheckFallbackURL cv cl).2)
  else ((c, []), false)

/-- The block of `SV_WriteDownloadToClient` under `if ( !cl->download )`, and whether
the function goes on to the reads (it does at once when a file is open). -/
def openDownload (E : Env) (cv : cvars_t) (cl : Nat) (c : client_t) :
    (client_t × List Effect) × Bool :=
  if c.download ≠ 0 then ((c, []), true) else
  let c1 :=
    if Int.land c.downloadnotify E.DLNOTIFY_BEGIN ≠ 0 then
      { c with downloadnotify := clearBits c.downloadnotify E.DLNOTIFY_BEGIN }
    else c
  let idPack := E.FS_idPak c1.downloadName
  if cv.sv_allowDownload = 0 ∨ idPack = true then
    let errorMessage :=
      if idPack then "Cannot autodownload official pk3 file \"" ++ c1.downloadName ++ "\""
      else if cv.sv_pure ≠ 0 then
        "Could not download \"" ++ c1.downloadName ++
          "\" because autodownloading is disabled on the server.\n\n" ++
          "You will need to get this file elsewhere before you " ++
          "can connect to this pure server.\n"
      else
        "Could not download \"" ++ c1.downloadName ++
          "\" because autodownloading is disabled on the server.\n\n" ++
          "Set autodownload to No in your settings and you might be " ++
          "able to connect even if you don't have the file.\n"
    (SV_BadDownload cl c1 errorMessage, false)
  else
  let www := wwwRedirect E cv cl c1
  if www.2 then (www.1, false) else
  let c2 := www.1.1
  let opened := E.FS_SV_FOpenFileRead c2.downloadName
  let c3 := { c2 with bWWWDl := false, downloadSize := opened.1, download := opened.2 }
  if opened.1 ≤ 0 then
    let bad := SV_BadDownload cl c3
      ("File \"" ++ c3.downloadName ++ "\" not found on server for autodownloading.\n")
    ((bad.1, www.1.2 ++ [.FS_SV_FOpenFileRead c2.downloadName] ++ bad.2), false)
  else
    (({ c3 with downloadCurrentBlock := 0, downloadClientBlock := 0, downloadXmitBlock := 0,
                downloadCount := 0, downloadEOF := false },
      www.1.2 ++ [.FS_SV_FOpenFileRead c2.downloadName]), true)

/-- The read loop of `SV_WriteDownloadToClient`, for at most `n` turns. A buffer is
`some []`: the bytes of a block are not modelled. The ghost record of a queued block
gives the length the slot of the window holds after the write (for a record without
that slot, the length written). -/
def readBlocks (E : Env) (cl : Nat) : Nat → client_t → client_t × List Effect
  | 0, c => (c, [])
  | n + 1, c =>
    if c.downloadCurrentBlock - c.downloadClientBlock < (E.MAX_DOWNLOAD_WINDOW : Int) ∧
        c.downloadSize ≠ c.downloadCount then
      let curindex := (c.downloadCurrentBlock % (E.MAX_DOWNLOAD_WINDOW : Int)).toNat
      let blocks :=
        if c.downloadBlocks.getD curindex none = none then c.downloadBlocks.set curindex (some [])
        else c.downloadBlocks
      let size := E.FS_Read c.download c.downloadCount
      let c1 := { c with downloadBlocks := blocks
                         downloadBlockSize := c.downloadBlockSize.set curindex size }
      if size < 0 then
        ({ c1 with downloadCount := c1.downloadSize }, [.FS_Read c.download c.downloadCount])
      else
        let c2 := { c1 with downloadCount := c1.downloadCount + size
                            downloadCurrentBlock := c1.downloadCurrentBlock + 1 }
        let rest := readBlocks E cl n c2
        (rest.1,
          [.FS_Read c.download c.downloadCount,
            .queue_download_block cl c.downloadCurrentBlock
              (c2.downloadBlockSize.getD curindex size) c2.downloadCount c2.downloadSize]
            ++ rest.2)
    else (c, [])

/-- The check for the end of the file after the read loop: the zero-length block is
put into the window. The ghost record gives the length the slot holds after the
write, as in `readBlocks`. -/
def eofBlock (E : Env) (cl : Nat) (c : client_t) : client_t × List Effect :=
  if c.downloadCount = c.downloadSize ∧ c.downloadEOF = false ∧
      c.downloadCurrentBlock - c.downloadClientBlock < (E.MAX_DOWNLOAD_WINDOW : Int) then
    let curindex := (c.downloadCurrentBlock % (E.MAX_DOWNLOAD_WINDOW : Int)).toNat
    let c1 := { c with downloadBlockSize := c.downloadBlockSize.set curindex 0 }
    ({ c1 with
        downloadCurrentBlock := c1.downloadCurrentBlock + 1
        downloadEOF := true },
      [.queue_download_block cl c.downloadCurrentBlock (c1.downloadBlockSize.getD curindex 0)
        c.downloadCount c.downloadSize])
  else (c, [])

/-- The value of `blockspersnap` when the transmit loop starts. -/
def blocksPerSnap (E : Env) (sv_dl_maxRate : Int) (c : client_t) : Int :=
  let rate := if sv_dl_maxRate < c.rate then sv_dl_maxRate else c.rate
  let blockspersnap :=
    if rate = 0 then 1
    else Int.tdiv (Int.tdiv (rate * c.snapshotMsec) 1000 + E.MAX_DOWNLOAD_BLKSIZE)
      E.MAX_DOWNLOAD_BLKSIZE
  if blockspersnap < 0 then 1 else blockspersnap

/-- The transmit loop `while ( blockspersnap-- )` of `SV_WriteDownloadToClient`, at
server time `time`. -/
def transmitBlocks (E : Env) (cl : Nat) (time : Int) : Nat → client_t → client_t × List Effect
  | 0, c => (c, [])
  | n + 1, c =>
    if c.downloadClientBlock = c.downloadCurrentBlock then (c, []) else
    if c.downloadXmitBlock = c.downloadCurrentBlock ∧ ¬ (time - c.downloadSendTime > 1000) then
      (c, [])
    else
      let c1 :=
        if c.downloadXmitBlock = c.downloadCurrentBlock then
          { c with downloadXmitBlock := c.downloadClientBlock }
        else c
      let curindex := (c1.downloadXmitBlock % (E.MAX_DOWNLOAD_WINDOW : Int)).toNat
      let message := Effect.svc_download cl c1.downloadXmitBlock
        ((if c1.downloadXmitBlock = 0 then [c1.downloadSize] else []) ++
          [c1.downloadBlockSize.getD curindex 0]) ""
      let c2 := { c1 with downloadXmitBlock := c1.downloadXmitBlock + 1, downloadSendTime := time }
      let rest := transmitBlocks E cl time n c2
      (rest.1, message :: rest.2)

/-- The part of `SV_WriteDownloadToClient` after the file is open: the reads, the block
for the end of the file and the transmission. The read loop adds one block to the
window in each turn but the last, so it makes at most
`MAX_DOWNLOAD_WINDOW - (downloadCurrentBlock - downloadClientBlock)` turns. -/
def pumpDownload (E : Env) (cl : Nat) (time sv_dl_maxRate : Int) (c : client_t) :
    client_t × List Effect :=
  let turns :=
    ((E.MAX_DOWNLOAD_WINDOW : Int) - (c.downloadCurrentBlock - c.downloadClientBlock)).toNat
  let read := readBlocks E cl turns c
  let eof := eofBlock E cl read.1
  let sent := transmitBlocks E cl time (blocksPerSnap E sv_dl_maxRate eof.1).toNat eof.1
  (sent.1, read.2 ++ eof.2 ++ sent.2)

/-- What `SV_WriteDownloadToClient` does once the name is verified, on the record. -/
def writeDownload (E : Env) (cv : cvars_t) (cl : Nat) (time : Int) (c : client_t) :
    client_t × List Effect :=
  let opened := openDownload E cv cl c
  if !opened.2 then opened.1 else
  let pumped := pumpDownload E cl time cv.sv_dl_maxRate opened.1.1
  (pumped.1, opened.1.2 ++ pumped.2)

/-- `SV_WriteDownloadToClient`; the message `msg` is the `svc_download` effects. -/
def SV_WriteDownloadToClient (E : Env) (sv : ServerState) (cl : Nat) : ServerState :=
  let c := getClient sv cl
  if c.downloadName = "" then sv else
  if c.bWWWing then sv else
  if !E.FS_VerifyPak c.downloadName then SV_DropClient E sv cl "illegal download request" else
  let written := writeDownload E sv.cvars cl sv.svs_time c
  { setClient sv cl written.1 with log := sv.log ++ written.2 }

/-- What happens to the download of client `cl`: a snapshot is written
(`SV_WriteDownloadToClient`), the client sends `nextdl`, `stopdl` or `download`, or
the server time moves on. -/
inductive DownloadEvent where
  | write
  | nextdl (args : List String)
  | stopdl
  | download (args : List String)
  | frame (time : Int)
  deriving DecidableEq

/-- One event of the download of client `cl`. -/
def downloadStep (E : Env) (cl : Nat) (sv : ServerState) : DownloadEvent → ServerState
  | .write => SV_WriteDownloadToClient E sv cl
  | .nextdl args => SV_NextDownload_f E sv cl args
  | .stopdl => SV_StopDownload_f sv cl
  | .download args => SV_BeginDownload_f E sv cl args
  | .frame time => { sv with svs_time := time }

/-- A sequence of events of the download of client `cl`, in order. -/
def downloadRun (E : Env) (cl : Nat) (sv : ServerState) (events : List DownloadEvent) :
    ServerState :=
  events.foldl (downloadStep E cl) sv

/-- A connected client that has asked for `etmain/map.pk3` and is served at 25000 bytes
per second with a snapshot every 50 milliseconds. -/
def clientAsking : client_t :=
  { clientFree with state := .CS_CONNECTED, name := "Player", downloadName := "etmain/map.pk3",
                    rate := 25000, snapshotMsec := 50,
                    netchan := { netchan_zero with remoteAddress := adr1 } }

/-- A server whose only client has asked for a download. -/
def serverAsking : ServerState := server1 cvars0 clientAsking

/-- The file `etmain/map.pk3` up to its end: three writes, acknowledged block by
block. -/
def eventsToEOF : List DownloadEvent :=
  [.write, .nextdl ["nextdl", "0"], .write, .nextdl ["nextdl", "1"], .write,
    .nextdl ["nextdl", "2"], .frame 7000, .write]

/-- The queued blocks of client `cl`. -/
def Effect.isQueueOf (cl : Nat) : Effect → Bool
  | .queue_download_block c _ _ _ _ => c == cl
  | _ => false

/-- A queued block that holds data. -/
def Effect.isDataBlock : Effect → Bool
  | .queue_download_block _ _ size _ _ => decide (0 < size)
  | _ => false

/-- A queued block of length zero, queued when `downloadCount` was `downloadSize`. -/
def Effect.isEOFBlock : Effect → Bool
  | .queue_download_block _ _ size count total => decide (size = 0 ∧ count = total)
  | _ => false

/-- A file is opened for reading. -/
def Effect.isOpen : Effect → Bool
  | .FS_SV_FOpenFileRead _ => true
  | _ => false

/-- The fields of a client record that the transmit loop does not write. -/
def transmitView (c : client_t) : client_t :=
  { c with downloadXmitBlock := 0, downloadSendTime := 0 }

/-- The two ends of the download window. -/
def windowView (c : client_t) : Int × Int := (c.downloadCurrentBlock, c.downloadClientBlock)

/-- A server whose download window has two blocks. -/
def envNarrow : Env := { env0 with MAX_DOWNLOAD_WINDOW := 2 }

/-- A file system whose reads of `etmain/map.pk3` stop short: the file is announced
with 5000 bytes, and after the first 2048 bytes every read gives 0 bytes. -/
def envShort : Env := { env0 with FS_Read := fun _ pos => if pos < 2048 then 2048 else 0 }

/-- Every read of file `h` before position `S` gives something else than 0 bytes and
does not go past `S`. -/
def readsToEnd (E : Env) (h S : Int) : Prop :=
  ∀ pos : Int, 0 ≤ pos → pos < S → E.FS_Read h pos ≠ 0 ∧ pos + E.FS_Read h pos ≤ S

/-- The blocks `q` queued so far are blocks with data, followed by one block of length
zero, queued when `downloadCount` was `downloadSize`, exactly when `eof` is set. -/
def queuedOnce (eof : Bool) (q : List Effect) : Prop :=
  ∃ data : List Effect, (∀ e ∈ data, e.isDataBlock = true) ∧
    if eof = true then ∃ e : Effect, e.isEOFBlock = true ∧ q = data ++ [e] else q = data

/-- What holds of the record of a client during one download of file `h` of size `S`,
`q` being the blocks queued since the file was opened. -/
def Session (h S : Int) (c : client_t) (q : List Effect) : Prop :=
  (c.download = h ∨ c.download = 0) ∧ c.downloadSize = S ∧ 0 ≤ c.downloadCount ∧
    c.downloadCount ≤ S ∧ (c.downloadEOF = true → c.downloadCount = S) ∧
    queuedOnce c.downloadEOF q

/-- The log of `sv` is the log of `sv0` and more; either a file was opened since, or the
download of client `cl` is in the session that `sv0` was in, `q0` being the blocks
queued in that session before `sv0`. -/
def SessionAt (cl : Nat) (h S : Int) (q0 : List Effect) (sv0 sv : ServerState) : Prop :=
  ∃ new : List Effect, sv.log = sv0.log ++ new ∧
    ((∃ e ∈ new, e.isOpen = true) ∨
      Session h S (getClient sv cl) (q0 ++ new.filter (Effect.isQueueOf cl)))

/-- With a window of two blocks: the events of the download of `etmain/map.pk3` after
the write that opens the file, up to the moment when every byte is read and the
window has room again. -/
def eventsNarrow : List DownloadEvent :=
  [.nextdl ["nextdl", "0"], .write, .nextdl ["nextdl", "1"]]

/-- The fields of a client record that count the bytes of a download. -/
def sessionView (c : client_t) : Int × Int × Bool :=
  (c.downloadSize, c.downloadCount, c.downloadEOF)

/-- A step that leaves the download of client `cl` as it is, or closes its file. -/
def Quiet (cl : Nat) (sv sv' : ServerState) : Prop :=
  sessionView (getClient sv' cl) = sessionView (getClient sv cl) ∧
    ((getClient sv' cl).download = (getClient sv cl).download ∨ (getClient sv' cl).download = 0) ∧
    LogExt (fun e => e.isQueueOf cl = false ∧ e.isOpen = false) sv sv'

/-- The file of a download: its handle and its announced size. -/
def fileView (c : client_t) : Int × Int := (c.download, c.downloadSize)

/-- The test of `SV_DropClient` for a bot: the entity has `SVF_BOT`, or the address
is of kind `NA_BOT`. -/
def isBotClient (E : Env) (d : client_t) : Bool :=
  (match d.gentity with
   | some n => E.gentityIsBot n
   | none => false) || (d.netchan.remoteAddress.type == .NA_BOT)

/-- A server at time 5000 with one free slot and a challenge table of two records, of
which the first is the challenge 777 issued to `adr1`. -/
def serverTwoChallenges : ServerState :=
  { server1 cvars0 clientFree with svs_challenges := [challenge777, challenge_zero] }

/-- The `connect` packet of the same client answering challenge 6000. -/
def connectArgsAgain : List String :=
  ["connect", "\\protocol\\84\\challenge\\6000\\qport\\4321\\name\\bob"]

/-- The client at `adr1` connects with challenge 777, asks for a challenge again at
time 6000 (the record in use is marked connected, so a second record is made, with
the token 6000) and connects again with it. -/
def serverReconnected : ServerState :=
  (SV_DirectConnect env0
    (SV_GetChallenge env0
      (atTime (SV_DirectConnect env0 serverTwoChallenges adr1 connectArgs).1 6000) adr1 0 0)
    adr1 connectArgsAgain).1

/-- Record `i` is the first record of the challenge table with the address `adr`. -/
def firstRecordOf (E : Env) (adr : netadr_t) (l : List challenge_t) (i : Nat) : Prop :=
  ∃ ch : challenge_t, l[i]? = some ch ∧ E.NET_CompareAdr adr ch.adr = true ∧
    ∀ (j : Nat) (cj : challenge_t), j < i → l[j]? = some cj → E.NET_CompareAdr adr cj.adr = false

/-- A server that offers one archive for download: `FS_VerifyPak` accepts no other
name. -/
def envStrict : Env := { env0 with FS_VerifyPak := fun name => name == "etmain/map.pk3" }

/-- Console variables of a server with downloads switched off. -/
def cvarsNoDownload : cvars_t := { cvars0 with sv_allowDownload := 0 }

/-- A connected client that has asked for the file `server.cfg`. -/
def clientAskingCfg : client_t := { clientAsking with downloadName := "server.cfg" }

/-- A connected client that has asked for `etmain/map.pk3` and has acknowledged a www
download. -/
def clientWWWing : client_t := { clientAsking with bWWWDl := true, bWWWing := true }

/-- A message of `svc_download`. -/
def Effect.isDownloadMessage : Effect → Bool
  | .svc_download _ _ _ _ => true
  | _ => false

/-- Every `nextdl` of the sequence arrives while a queued block is not acknowledged:
`downloadClientBlock < downloadCurrentBlock` in the state it meets. -/
def acksQueued (E : Env) (cl : Nat) : ServerState → List DownloadEvent → Bool
  | _, [] => true
  | sv, ev :: rest =>
    (match ev with
     | .nextdl _ =>
       decide ((getClient sv cl).downloadClientBlock < (getClient sv cl).downloadCurrentBlock)
     | _ => true) && acksQueued E cl (downloadStep E cl sv ev) rest

/-- With a window of two blocks: the write that opens `etmain/map.pk3` and queues
blocks 0 and 1, and three acknowledgements, of blocks 0, 1 and 2. -/
def eventsAckAhead : List DownloadEvent :=
  [.write, .nextdl ["nextdl", "0"], .nextdl ["nextdl", "1"], .nextdl ["nextdl", "2"]]

/-- A message of `svc_download` for client `cl` that carries a block of the file: no
string follows the numbers (the error and the redirect messages carry one). -/
def Effect.isBlockOf (cl : Nat) : Effect → Bool
  | .svc_download c _ _ text => c == cl && text == ""
  | _ => false

/-- The fields of a client record that set the pace of a download. -/
def paceView (c : client_t) : Int × Int := (c.rate, c.snapshotMsec)

/-- The blocks written by one call of `SV_WriteDownloadToClient` for client `cl`. -/
def blocksWritten (E : Env) (sv : ServerState) (cl : Nat) : List Effect :=
  ((SV_WriteDownloadToClient E sv cl).log.drop sv.log.length).filter (Effect.isBlockOf cl)

/-- With a window of two blocks: the write that opens `etmain/map.pk3` and queues
blocks 0 and 1, of which it sends block 0, and four acknowledgements, of blocks 0 to
3. -/
def eventsAckFar : List DownloadEvent :=
  [.write, .nextdl ["nextdl", "0"], .nextdl ["nextdl", "1"], .nextdl ["nextdl", "2"],
    .nextdl ["nextdl", "3"]]

/-- A call of the game's `GAME_CLIENT_COMMAND`. -/
def Effect.isGameCommand : Effect → Bool
  | .VM_Call .GAME_CLIENT_COMMAND _ => true
  | _ => false

/-- The log of `b` is the log of `a` followed by new effects, of which at most `k` are
calls of `GAME_CLIENT_COMMAND`. -/
def Calls (k : Nat) (a b : ServerState) : Prop :=
  ∃ new : List Effect, b.log = a.log ++ new ∧ new.countP Effect.isGameCommand ≤ k

/-- The number of calls of `GAME_CLIENT_COMMAND` that `SV_ExecuteClientCommand`
makes. -/
def gameCommandCalls (E : Env) (sv : ServerState) (cl : Nat) (s : String)
    (clientOK premaprestart : Bool) : Nat :=
  ((SV_ExecuteClientCommand E sv cl s clientOK premaprestart).log.drop sv.log.length).countP
    Effect.isGameCommand

/-- Console variables of a server with the chat commands switched on. -/
def cvarsChat : cvars_t := { cvars0 with sv_chatCommands := 1 }

/-! ## Temporary bans (`sv_ccmds.c`) -/

/-- The loop of `SV_TempBanNetAddress` over the table, from index `i` on: the index of
the free slot at which the loop returns, if it does, and the value of `oldest` when
the loop is left (`-1` at the start). -/
def tempBanScan (time : Int) : List tempban_t → Nat → Int → Int → Option Nat × Int
  | [], _, oldest, _ => (none, oldest)
  | b :: rest, i, oldest, oldesttime =>
    if b.endtime = 0 ∨ b.endtime < time then (some i, oldest)
    else if oldest = -1 ∨ oldesttime > b.endtime then tempBanScan time rest (i + 1) i b.endtime
    else tempBanScan time rest (i + 1) oldest oldesttime

/-- `SV_TempBanNetAddress`. -/
def SV_TempBanNetAddress (sv : ServerState) (address : netadr_t) (length : Int) : ServerState :=
  let scan := tempBanScan sv.svs_time sv.svs_tempBanAddresses 0 (-1) 0
  let long : tempban_t := { adr := address, endtime := sv.svs_time + length * 1000 }
  let short : tempban_t := { adr := address, endtime := sv.svs_time + length }
  match scan.1 with
  | some i => { sv with svs_tempBanAddresses := sv.svs_tempBanAddresses.set i long }
  | none => { sv with svs_tempBanAddresses := sv.svs_tempBanAddresses.set scan.2.toNat short }

/-- The test of `SV_TempBanNetAddress` for a free slot: no ban, or a ban that ended
before the current server time. -/
def tempBanFree (time : Int) (b : tempban_t) : Bool :=
  decide (b.endtime = 0 ∨ b.endtime < time)

/-- A server at time 5000 whose temp-ban table of two slots is full: `adr2` is banned
until 9000 and `adr3` until 8000. -/
def serverBansFull : ServerState :=
  { server1 cvars0 clientActive with
    svs_tempBanAddresses := [⟨adr2, 9000⟩, ⟨adr3, 8000⟩] }

/-- The same server with the ban of `adr2` over since 4000. -/
def serverBansFree : ServerState :=
  { server1 cvars0 clientActive with
    svs_tempBanAddresses := [⟨adr2, 4000⟩, ⟨adr3, 8000⟩] }

/-! ## Game state transitions (`sv_ccmds.c`) -/

/-- `SV_CheckTransitionGameState`. -/
def SV_CheckTransitionGameState (E : Env) (new_gs old_gs : Int) : Bool :=
  if old_gs = new_gs ∧ new_gs ≠ E.GS_PLAYING then false
  else if old_gs = E.GS_WAITING_FOR_PLAYERS ∧ new_gs ≠ E.GS_WARMUP then false
  else if old_gs = E.GS_INTERMISSION ∧ new_gs ≠ E.GS_WARMUP then false
  else if old_gs = E.GS_RESET ∧ (new_gs ≠ E.GS_WAITING_FOR_PLAYERS ∧ new_gs ≠ E.GS_WARMUP) then false
  else true

/-- `SV_TransitionGameState`; `Cvar_Set( "gamestate", ... )` writes `cvars.gamestate`.
The function does not use its third argument, `delay`. -/
def SV_TransitionGameState (E : Env) (sv : ServerState) (new_gs old_gs : Int) :
    ServerState × Bool :=
  let new_gs1 :=
    if !E.SV_GameIsSinglePlayer ∧ !E.SV_GameIsCoop then
      (if old_gs = E.GS_INTERMISSION ∧ new_gs = E.GS_PLAYING then E.GS_WARMUP else new_gs)
    else new_gs
  if !SV_CheckTransitionGameState E new_gs1 old_gs then (sv, false) else
  let new_gs2 := if new_gs1 = E.GS_RESET then E.GS_WARMUP else new_gs1
  ({ sv with cvars := { sv.cvars with gamestate := new_gs2 } }, true)

/-! ## Client packets: `SV_ExecuteClientMessage` -/

/-- The byte that ends the client commands of a packet, with the movement batch that
follows a `clc_move` or `clc_moveNoDelta`; `clc_bad` stands for any other byte. -/
inductive clc_ops_e where
  | clc_bad
  | clc_move (cmds : List usercmd_t)
  | clc_moveNoDelta (cmds : List usercmd_t)
  | clc_EOF
  deriving DecidableEq

/-- A client packet as `SV_ExecuteClientMessage` reads it: the three longs of the
header, the `clc_clientCommand` records in order, the byte that ends them, and the
number of bytes left for `SV_ParseBinaryMessage` (`msg->cursize - msg->readcount`). -/
structure msg_t where
  serverId : Int
  messageAcknowledge : Int
  reliableAcknowledge : Int
  clientCommands : List (Int × String)
  op : clc_ops_e
  binarySize : Int
  deriving DecidableEq

/-- The test `strstr( hay, needle ) != NULL`. -/
def strstr (hay needle : String) : Bool :=
  hay.toList.tails.any (fun t => needle.toList.isPrefixOf t)

/-- `SV_ParseBinaryMessage`. -/
def SV_ParseBinaryMessage (E : Env) (sv : ServerState) (cl : Nat) (size : Int) : ServerState :=
  if size ≤ 0 ∨ size > E.MAX_BINARY_MESSAGE then sv
  else emit sv (.SV_GameBinaryMessageReceived cl size (getClient sv cl).lastUsercmd.serverTime)

/-- The loop "read optional clientCommand strings" of `SV_ExecuteClientMessage`. The
flag is false when the loop leaves the function by `return` (a command answered
`qfalse`, or the client is a zombie), true when it is left by `break`. -/
def readClientCommands (E : Env) (cl : Nat) (premaprestart : Bool) :
    ServerState → List (Int × String) → ServerState × Bool
  | sv, [] => (sv, true)
  | sv, (seq, s) :: rest =>
    let r := SV_ClientCommand E sv cl seq s premaprestart
    if !r.2 then (r.1, false)
    else if (getClient r.1 cl).state = .CS_ZOMBIE then (r.1, false)
    else readClientCommands E cl premaprestart r.1 rest

/-- The end of `SV_ExecuteClientMessage`, from "read the usercmd_t" on. -/
def readUsercmd (E : Env) (sv : ServerState) (cl : Nat) (op : clc_ops_e) (binarySize : Int) :
    ServerState :=
  let sv1 :=
    match op with
    | .clc_move cmds => SV_UserMove E sv cl true cmds
    | .clc_moveNoDelta cmds => SV_UserMove E sv cl false cmds
    | _ => sv
  SV_ParseBinaryMessage E sv1 cl binarySize

/-- `SV_ExecuteClientMessage` on a decoded packet. `E.NDEBUG` is the build flag of the
two `#ifndef NDEBUG` drops. -/
def SV_ExecuteClientMessage (E : Env) (sv : ServerState) (cl : Nat) (msg : msg_t) :
    ServerState :=
  let sv1 := modifyClient sv cl (fun c => { c with messageAcknowledge := msg.messageAcknowledge })
  if msg.messageAcknowledge < 0 then
    (if !E.NDEBUG then SV_DropClient E sv1 cl "DEBUG: illegible client message" else sv1)
  else
  let sv2 := modifyClient sv1 cl (fun c => { c with reliableAcknowledge := msg.reliableAcknowledge })
  if (getClient sv2 cl).reliableAcknowledge
      < (getClient sv2 cl).reliableSequence - (E.MAX_RELIABLE_COMMANDS : Int) then
    let sv3 := if !E.NDEBUG then SV_DropClient E sv2 cl "DEBUG: illegible client message" else sv2
    modifyClient sv3 cl (fun c => { c with reliableAcknowledge := c.reliableSequence })
  else
  if msg.serverId ≠ sv2.sv_serverId ∧ (getClient sv2 cl).downloadName = ""
      ∧ strstr (getClient sv2 cl).lastClientCommandString "nextdl" = false then
    if msg.serverId ≥ sv2.sv_restartedServerId ∧ msg.serverId < sv2.sv_serverId then sv2 else
    let sv3 :=
      if (getClient sv2 cl).messageAcknowledge > (getClient sv2 cl).gamestateMessageNum then
        SV_SendClientGameState sv2 cl
      else sv2
    (readClientCommands E cl true sv3 msg.clientCommands).1
  else
  let r := readClientCommands E cl false sv2 msg.clientCommands
  if !r.2 then r.1 else readUsercmd E r.1 cl msg.op msg.binarySize

/-- Console variables with `sv_floodProtect` on. -/
def cvarsProtect : cvars_t := { cvars0 with sv_floodProtect := 1 }

/-- An active client that has applied command 3 and has to wait until 5500 for its next
command (the server time is 5000). -/
def clientWaiting : client_t :=
  { clientActive with lastClientCommand := 3, nextReliableTime := 5500 }

/-- A packet under the current gamestate (server id 10) with the chat command 4 and one
movement command with `serverTime` 200. -/
def msgSayMove : msg_t :=
  { serverId := 10, messageAcknowledge := 8, reliableAcknowledge := 0,
    clientCommands := [(4, "say hi")], op := .clc_move [cmdAt 200], binarySize := 0 }

/-- The flood protection of `SV_ClientCommand` stalls the command `s`: the test that
sets `clientOk = qfalse`. -/
def floodProtected (sv : ServerState) (cl : Nat) (s : String) : Prop :=
  sv.cvars.sv_floodProtect ≠ 0 ∧ sv.cvars.com_cl_running = 0
    ∧ (getClient sv cl).state.toNat ≥ 4 ∧ sv.svs_time < (getClient sv cl).nextReliableTime
    ∧ floodExempt s = false


/-- The state in which `SV_ExecuteClientMessage` starts to read the client commands: the
two acknowledgements of the header are stored. -/
def ackHeader (sv : ServerState) (cl : Nat) (msg : msg_t) : ServerState :=
  modifyClient
    (modifyClient sv cl (fun c => { c with messageAcknowledge := msg.messageAcknowledge }))
    cl (fun c => { c with reliableAcknowledge := msg.reliableAcknowledge })

/-- What the flood protection looks at, and the sequence number. -/
def protectView (c : client_t) : Int × clientState_t × Int × Int :=
  (c.lastClientCommand, c.state, c.nextReliableTime, c.floodTime)

/-! ## Map restart (`sv_ccmds.c`) -/

/-- The frames `VM_Call( gvm, GAME_RUN_FRAME, svs.time ); svs.time += FRAMETIME;`, `n`
times. -/
def runFrames (E : Env) : Nat → ServerState → ServerState
  | 0, sv => sv
  | n + 1, sv =>
    runFrames E n
      { emit sv (.GAME_RUN_FRAME sv.svs_time) with svs_time := sv.svs_time + E.FRAMETIME }

/-- The gamestate `SV_MapRestart_f` asks for: `GS_PLAYING`, or in a multiplayer game the
second argument of the command when there is one. -/
def restartGamestate (E : Env) (args : List String) : Int :=
  if E.SV_GameIsSinglePlayer ∨ E.SV_GameIsCoop then E.GS_PLAYING
  else if Cmd_Argc args > 2 then atoi (Cmd_Argv args 2)
  else E.GS_PLAYING

/-- The body of the loop "connect and begin all the clients" of `SV_MapRestart_f` for
the slot `i`. The call of the game's client-connect is logged twice: once with its
arguments `firstTime` and `isBot`, once as the call by number. -/
def restartClient (E : Env) (sv : ServerState) (i : Nat) : ServerState :=
  let client := getClient sv i
  if client.state.toNat < 2 then sv else
  let isBot : Bool := client.netchan.remoteAddress.type == .NA_BOT
  if isBot = true ∧ (E.SV_GameIsSinglePlayer = true ∨ E.SV_GameIsCoop = true) then sv else
  let sv1 := SV_AddServerCommand E sv i "map_restart\n"
  let sv2 := emit (emit sv1 (.call_GAME_CLIENT_CONNECT i false isBot))
    (.VM_Call .GAME_CLIENT_CONNECT i)
  match E.gameClientConnect i false isBot with
  | some denied => SV_DropClient E sv2 i denied
  | none =>
    let sv3 := modifyClient sv2 i (fun c => { c with state := .CS_ACTIVE })
    SV_ClientEnterWorld sv3 i (getClient sv3 i).lastUsercmd

/-- The part of `SV_MapRestart_f` from "toggle the server bit" on: the restart in
place, the frames of the game and the loop over the `sv_maxclients` slots of the table.
`SV_RestartGameProgs` is not under src/ and is an effect of the log. -/
def restartInPlace (E : Env) (sv2 : ServerState) (com_frameTime : Int) : ServerState :=
  let sv3 :=
    { sv2 with
      svs_snapFlagServerBit := sv2.svs_snapFlagServerBit ^^^ E.SNAPFLAG_SERVERCOUNT
      sv_serverId := com_frameTime
      sv_state := .SS_LOADING
      sv_restarting := true
      cvars := { sv2.cvars with sv_serverid := com_frameTime, sv_serverRestarting := 1 } }
  let sv4 := emit sv3 .SV_RestartGameProgs
  let sv5 := runFrames E E.GAME_INIT_FRAMES sv4
  let sv6 := { sv5 with sv_state := .SS_GAME, sv_restarting := false }
  let sv7 := (List.range sv6.svs_clients.length).foldl (restartClient E) sv6
  let sv8 := runFrames E 1 sv7
  { sv8 with cvars := { sv8.cvars with sv_serverRestarting := 0 } }

/-- `SV_MapRestart_f`; `args` is the tokenised command and `com_frameTime` the time of
the frame. `SV_SpawnServer` and `SV_SetConfigstring` are not under src/ and are effects
of the log; `E.savegameTime` is the time read from the savegame, if the file is found. -/
def SV_MapRestart_f (E : Env) (sv : ServerState) (com_frameTime : Int) (args : List String) :
    ServerState :=
  if com_frameTime = sv.sv_serverId then sv else
  if sv.cvars.com_sv_running = 0 then sv else
  let delay : Int := if Cmd_Argc args > 1 then atoi (Cmd_Argv args 1) else 0
  if delay ≠ 0 then
    emit { sv with sv_restartTime := sv.svs_time + delay * 1000 }
      (.SV_SetConfigstring E.CS_WARMUP (toString (sv.svs_time + delay * 1000)))
  else
  let tr := SV_TransitionGameState E sv (restartGamestate E args) sv.cvars.gamestate
  if !tr.2 then tr.1 else
  let sv1 := tr.1
  if sv1.cvars.sv_maxclients_modified then emit sv1 (.SV_SpawnServer sv1.cvars.mapname) else
  if sv1.cvars.savegame_loading ≠ 0 then
    (match E.savegameTime with
     | none => sv1
     | some t =>
       restartInPlace E (if t ≥ 0 then { sv1 with svs_time := t } else sv1) com_frameTime)
  else restartInPlace E sv1 com_frameTime

/-- What a map restart keeps of a session: the connection state, the channel (address
and qport) and the user info. -/
def restartView (c : client_t) : clientState_t × netchan_t × userinfo_t :=
  (c.state, c.netchan, c.userinfo)

/-- The slot is taken through the connect cycle by `SV_MapRestart_f`: it is connected,
and not a bot of a single-player or cooperative game. -/
def restartEligible (E : Env) (c : client_t) : Prop :=
  2 ≤ c.state.toNat ∧
    ¬ ((c.netchan.remoteAddress.type == .NA_BOT) = true
        ∧ (E.SV_GameIsSinglePlayer = true ∨ E.SV_GameIsCoop = true))

/-- The game's client-connect denies the slot `j` of `sv` on a map restart. -/
def restartDenied (E : Env) (sv : ServerState) (j : Nat) : Prop :=
  restartEligible E (getClient sv j) ∧
    E.gameClientConnect j false ((getClient sv j).netchan.remoteAddress.type == .NA_BOT) ≠ none

instance (E : Env) (c : client_t) : Decidable (restartEligible E c) := by
  unfold restartEligible
  infer_instance

instance (E : Env) (sv : ServerState) (j : Nat) : Decidable (restartDenied E sv j) := by
  unfold restartDenied
  infer_instance

/-- The number of slots of the table the game denies on a map restart. -/
def deniedCount (E : Env) (sv : ServerState) : Nat :=
  ((List.range sv.svs_clients.length).filter (fun j => decide (restartDenied E sv j))).length

/-- Every ring has room for the commands a map restart can queue on it: `map_restart`,
the broadcast of the drop of each denied slot and, for a denied slot, its
`disconnect`. -/
def restartRoom (E : Env) (sv : ServerState) : Prop :=
  ∀ i, i < sv.svs_clients.length →
    ringRoom E (getClient sv i)
      (1 + deniedCount E sv + (if restartDenied E sv i then 1 else 0))

instance (E : Env) (sv : ServerState) : Decidable (restartRoom E sv) := by
  unfold restartRoom
  infer_instance

/-- What the loop body of `SV_MapRestart_f` computes for the slot `i` when no ring
overflows: `restartClient` with the command queued on the ring and the drop of a
denied slot dropping nobody else. -/
def restartWithRoom (E : Env) (sv : ServerState) (i : Nat) : ServerState :=
  let client := getClient sv i
  if client.state.toNat < 2 then sv else
  let isBot : Bool := client.netchan.remoteAddress.type == .NA_BOT
  if isBot = true ∧ (E.SV_GameIsSinglePlayer = true ∨ E.SV_GameIsCoop = true) then sv else
  let sv1 := modifyClient sv i (fun c => queueCommand E c "map_restart\n")
  let sv2 := emit (emit sv1 (.call_GAME_CLIENT_CONNECT i false isBot))
    (.VM_Call .GAME_CLIENT_CONNECT i)
  match E.gameClientConnect i false isBot with
  | some denied => dropWithRoom E sv2 i denied
  | none =>
    let sv3 := modifyClient sv2 i (fun c => { c with state := .CS_ACTIVE })
    SV_ClientEnterWorld sv3 i (getClient sv3 i).lastUsercmd

/-- The record after `SV_ClientEnterWorld( client, &client->lastUsercmd )` on an active
slot `i` at time `t`. -/
def entered (i : Nat) (t : Int) (c : client_t) : client_t :=
  { c with state := .CS_ACTIVE, gentity := some i, deltaMessage := -1, nextSnapshotTime := t,
           lastUsercmd := c.lastUsercmd }

/-- The commands `texts` queued in order on the ring of `c`. -/
def queueAll (E : Env) (c : client_t) (texts : List String) : client_t :=
  texts.foldl (queueCommand E) c

/-- A game whose client-connect denies the slot 1. -/
def envDenySecond : Env :=
  { env0 with gameClientConnect := fun i _ _ => if i = 1 then some "Banned." else none }

/-- An active session from `adr2` with qport 4322. -/
def clientSecond : client_t :=
  { clientActive with netchan := Netchan_Setup adr2 4322, name := "second" }

/-- The record of the challenge `adr2` connected with. -/
def challenge888 : challenge_t :=
  { adr := adr2, challenge := 888, time := 4800, pingTime := 4800, firstTime := 4800,
    firstPing := 10, connected := true }

/-- A server at time 5000 with two active sessions, from `adr1` and from `adr2`, and
the challenge record of the second. -/
def serverPair : ServerState :=
  { server1 cvars0 clientActive with
    svs_clients := [clientActive, clientSecond], svs_challenges := [challenge888] }

/-- An active bot. -/
def clientBot : client_t :=
  { clientActive with netchan := Netchan_Setup netadr_zero 0, name := "bot" }

/-! # Theorems -/

/-! ## Tables and logs: basic facts -/

@[simp] theorem clients_emit (sv : ServerState) (e : Effect) :
    (emit sv e).svs_clients = sv.svs_clients := rfl

@[simp] theorem log_emit (sv : ServerState) (e : Effect) : (emit sv e).log = sv.log ++ [e] := rfl

@[simp] theorem getClient_emit (sv : ServerState) (e : Effect) (i : Nat) :
    getClient (emit sv e) i = getClient sv i := rfl

@[simp] theorem cvars_emit (sv : ServerState) (e : Effect) : (emit sv e).cvars = sv.cvars := rfl

@[simp] theorem time_emit (sv : ServerState) (e : Effect) : (emit sv e).svs_time = sv.svs_time := rfl

@[simp] theorem length_setClient (sv : ServerState) (cl : Nat) (c : client_t) :
    (setClient sv cl c).svs_clients.length = sv.svs_clients.length := by
  simp [setClient]

@[simp] theorem length_modifyClient (sv : ServerState) (cl : Nat) (f : client_t → client_t) :
    (modifyClient sv cl f).svs_clients.length = sv.svs_clients.length := by
  simp [modifyClient]

@[simp] theorem log_setClient (sv : ServerState) (cl : Nat) (c : client_t) :
    (setClient sv cl c).log = sv.log := rfl

@[simp] theorem log_modifyClient (sv : ServerState) (cl : Nat) (f : client_t → client_t) :
    (modifyClient sv cl f).log = sv.log := rfl

@[simp] theorem cvars_modifyClient (sv : ServerState) (cl : Nat) (f : client_t → client_t) :
    (modifyClient sv cl f).cvars = sv.cvars := rfl

@[simp] theorem time_modifyClient (sv : ServerState) (cl : Nat) (f : client_t → client_t) :
    (modifyClient sv cl f).svs_time = sv.svs_time := rfl

theorem getClient_setClient (sv : ServerState) (cl i : Nat) (c : client_t) :
    getClient (setClient sv cl c) i =
      if i = cl ∧ cl < sv.svs_clients.length then c else getClient sv i := by
  unfold getClient setClient
  by_cases h : i = cl
  · subst h
    by_cases h2 : i < sv.svs_clients.length
    · simp [h2, List.getElem?_set_self]
    · have h3 : sv.svs_clients.length ≤ i := Nat.le_of_not_lt h2
      rw [List.getElem?_eq_none (by simpa using h3), List.getElem?_eq_none h3]
      simp [h2]
  · simp [h, List.getElem?_set_ne (Ne.symm h)]

theorem getClient_modifyClient (sv : ServerState) (cl i : Nat) (f : client_t → client_t) :
    getClient (modifyClient sv cl f) i =
      if i = cl ∧ cl < sv.svs_clients.length then f (getClient sv cl) else getClient sv i := by
  simp [modifyClient, getClient_setClient]

theorem getClient_modifyClient_self (sv : ServerState) (cl : Nat) (f : client_t → client_t)
    (h : cl < sv.svs_clients.length) :
    getClient (modifyClient sv cl f) cl = f (getClient sv cl) := by
  simp [getClient_modifyClient, h]

theorem getClient_map (sv : ServerState) (g : client_t → client_t) (i : Nat)
    (h : i < sv.svs_clients.length) :
    getClient { sv with svs_clients := sv.svs_clients.map g } i = g (getClient sv i) := by
  simp [getClient, List.getElem?_map, List.getElem?_eq_getElem h]

/-! ## Log extension -/

theorem LogExt.refl (P : Effect → Prop) (sv : ServerState) : LogExt P sv sv :=
  ⟨[], by simp, by simp⟩

theorem LogExt.of_eq {P : Effect → Prop} {sv sv' : ServerState} (h : sv'.log = sv.log) :
    LogExt P sv sv' :=
  ⟨[], by simp [h], by simp⟩

theorem LogExt.trans {P : Effect → Prop} {a b c : ServerState} (h1 : LogExt P a b)
    (h2 : LogExt P b c) : LogExt P a c := by
  obtain ⟨n1, e1, p1⟩ := h1
  obtain ⟨n2, e2, p2⟩ := h2
  refine ⟨n1 ++ n2, by rw [e2, e1, List.append_assoc], ?_⟩
  intro e he
  rcases List.mem_append.1 he with h | h
  · exact p1 e h
  · exact p2 e h

theorem LogExt.congr {P : Effect → Prop} {a b c : ServerState} (h1 : LogExt P a b)
    (h : c.log = b.log) : LogExt P a c := by
  obtain ⟨n1, e1, p1⟩ := h1
  exact ⟨n1, by rw [h, e1], p1⟩

theorem LogExt.emit {P : Effect → Prop} {a b : ServerState} {e : Effect} (h1 : LogExt P a b)
    (he : P e) : LogExt P a (emit b e) :=
  h1.trans ⟨[e], rfl, by simpa using he⟩

theorem LogExt.mono {P Q : Effect → Prop} {a b : ServerState} (h : LogExt P a b)
    (hpq : ∀ e, P e → Q e) : LogExt Q a b := by
  obtain ⟨n, e, p⟩ := h
  exact ⟨n, e, fun x hx => hpq x (p x hx)⟩

theorem LogExt.ite {P : Effect → Prop} {a x y : ServerState} {c : Prop} [Decidable c]
    (hx : LogExt P a x) (hy : LogExt P a y) : LogExt P a (if c then x else y) := by
  split
  · exact hx
  · exact hy

theorem LogExt.modifyClient {P : Effect → Prop} {a b : ServerState} (h : LogExt P a b) (cl : Nat)
    (f : client_t → client_t) : LogExt P a (modifyClient b cl f) :=
  h.congr rfl

theorem LogExt.closeDownload {P : Effect → Prop} {a b : ServerState} (h : LogExt P a b) (cl : Nat)
    (hp : ∀ hd, P (.FS_FCloseFile hd)) : LogExt P a (SV_CloseDownload b cl) := by
  unfold SV_CloseDownload
  exact (LogExt.ite (h.emit (hp _)) h).modifyClient _ _

theorem LogExt.count_eq {P : Effect → Prop} {a b : ServerState} (q : Effect → Bool)
    (h : LogExt P a b) (hq : ∀ e, P e → q e = false) : b.log.countP q = a.log.countP q := by
  obtain ⟨n, e, p⟩ := h
  rw [e, List.countP_append]
  have : n.countP q = 0 := by
    rw [List.countP_eq_zero]
    intro x hx
    simp [hq x (p x hx)]
  omega

/-! ## Slots that keep a view -/

theorem Keeps.refl_keeps {α : Type} (π : client_t → α) (sv : ServerState) : Keeps π sv sv :=
  ⟨rfl, rfl, rfl, fun _ => rfl⟩

theorem Keeps.trans_keeps {α : Type} {π : client_t → α} {a b c : ServerState} (h1 : Keeps π a b)
    (h2 : Keeps π b c) : Keeps π a c :=
  ⟨h2.1.trans h1.1, h2.2.1.trans h1.2.1, h2.2.2.1.trans h1.2.2.1,
    fun i => (h2.2.2.2 i).trans (h1.2.2.2 i)⟩

theorem Keeps.congr_keeps {α : Type} {π : client_t → α} {a b c : ServerState} (h1 : Keeps π a b)
    (h : c.svs_clients = b.svs_clients) (ht : c.svs_time = b.svs_time) (hc : c.cvars = b.cvars) :
    Keeps π a c := by
  refine ⟨by rw [h]; exact h1.1, ht.trans h1.2.1, hc.trans h1.2.2.1, fun i => ?_⟩
  have : getClient c i = getClient b i := by simp [getClient, h]
  rw [this]
  exact h1.2.2.2 i

theorem Keeps.emit_keeps {α : Type} {π : client_t → α} {a b : ServerState} (h1 : Keeps π a b)
    (e : Effect) : Keeps π a (emit b e) :=
  h1.congr_keeps rfl rfl rfl

theorem Keeps.ite_keeps {α : Type} {π : client_t → α} {a x y : ServerState} {c : Prop} [Decidable c]
    (hx : Keeps π a x) (hy : Keeps π a y) : Keeps π a (if c then x else y) := by
  split
  · exact hx
  · exact hy

theorem Keeps.modifyClient_keeps {α : Type} {π : client_t → α} {a b : ServerState} (h1 : Keeps π a b)
    (cl : Nat) (f : client_t → client_t) (hf : ∀ c, π (f c) = π c) :
    Keeps π a (modifyClient b cl f) := by
  refine ⟨by simpa using h1.1, h1.2.1, h1.2.2.1, fun i => ?_⟩
  rw [getClient_modifyClient]
  split
  · rename_i h
    rw [hf, ← h.1]
    exact h1.2.2.2 i
  · exact h1.2.2.2 i

theorem Keeps.setClient {α : Type} {π : client_t → α} {a b : ServerState} (h1 : Keeps π a b)
    (cl : Nat) (c : client_t) (hc : π c = π (getClient b cl)) : Keeps π a (setClient b cl c) := by
  refine ⟨by simpa using h1.1, h1.2.1, h1.2.2.1, fun i => ?_⟩
  rw [getClient_setClient]
  split
  · rename_i h
    rw [hc, ← h.1]
    exact h1.2.2.2 i
  · exact h1.2.2.2 i

theorem Keeps.mapClients {α : Type} {π : client_t → α} {a b : ServerState} (h1 : Keeps π a b)
    (g : client_t → client_t) (hg : ∀ c, π (g c) = π c) :
    Keeps π a { b with svs_clients := b.svs_clients.map g } := by
  refine ⟨by simpa using h1.1, h1.2.1, h1.2.2.1, fun i => ?_⟩
  by_cases hi : i < b.svs_clients.length
  · rw [getClient_map b g i hi, hg]
    exact h1.2.2.2 i
  · have : getClient { b with svs_clients := b.svs_clients.map g } i = getClient b i := by
      have h3 : b.svs_clients.length ≤ i := Nat.le_of_not_lt hi
      simp [getClient, List.getElem?_eq_none h3]
    rw [this]
    exact h1.2.2.2 i

theorem Keeps.closeDownload_keeps {α : Type} {π : client_t → α} {a b : ServerState} (h1 : Keeps π a b)
    (cl : Nat)
    (hπ : ∀ c : client_t, π { c with download := 0, downloadName := "",
                                      downloadBlocks := c.downloadBlocks.map (fun _ => none) } = π c) :
    Keeps π a (SV_CloseDownload b cl) := by
  unfold SV_CloseDownload
  exact (Keeps.ite_keeps (h1.emit_keeps _) h1).modifyClient_keeps _ _ hπ

theorem Keeps.setUserinfo {α : Type} {π : client_t → α} {a b : ServerState} (h1 : Keeps π a b)
    (cl : Nat) (val : userinfo_t)
    (hπ : ∀ c : client_t, π { c with userinfo := val, name := Info_ValueForKey val "name" } = π c) :
    Keeps π a (SV_SetUserinfo b cl val) :=
  h1.modifyClient_keeps _ _ hπ

theorem Keeps.map {α β : Type} {π : client_t → α} {a b : ServerState} (h : Keeps π a b)
    (g : α → β) : Keeps (fun c => g (π c)) a b :=
  ⟨h.1, h.2.1, h.2.2.1, fun i => congrArg g (h.2.2.2 i)⟩

/-! ## What a drop changes -/

theorem DropWrite.same : DropWrite (fun c => c) :=
  fun _ => ⟨rfl, .inl rfl, .inl rfl, le_refl _, fun h => h, .inl rfl⟩

theorem DropWrite.comp {f g : client_t → client_t} (hf : DropWrite f) (hg : DropWrite g) :
    DropWrite (fun c => g (f c)) := by
  intro c
  obtain ⟨f1, f2, f3, f4, f5, f6⟩ := hf c
  obtain ⟨g1, g2, g3, g4, g5, g6⟩ := hg (f c)
  refine ⟨g1.trans f1, ?_, ?_, le_trans f4 g4, fun h => g5 (f5 h), ?_⟩
  · rcases g2 with g2 | g2
    · rcases f2 with f2 | f2
      · exact .inl (g2.trans f2)
      · exact .inr (g2.trans f2)
    · exact .inr g2
  · rcases g3 with g3 | g3
    · rcases f3 with f3 | f3
      · exact .inl (g3.trans f3)
      · exact .inr (g3.trans f3)
    · exact .inr g3
  · rcases g6 with g6 | g6
    · rcases f6 with f6 | f6
      · exact .inl (g6.trans f6)
      · exact .inr (g6.trans f6)
    · rcases f6 with f6 | f6
      · exact .inr (g6.trans (by rw [f6]))
      · refine .inr (g6.trans ?_)
        rw [f6, List.map_map]
        rfl

theorem DropWrite.sequence :
    DropWrite (fun c => { c with reliableSequence := c.reliableSequence + 1 }) :=
  fun c => ⟨rfl, .inl rfl, .inl rfl, by show c.reliableSequence ≤ c.reliableSequence + 1; omega,
    fun h => h, .inl rfl⟩

theorem DropWrite.store (g : client_t → List String) :
    DropWrite (fun c => { c with reliableCommands := g c }) :=
  fun _ => ⟨rfl, .inl rfl, .inl rfl, le_refl _, fun h => h, .inl rfl⟩

theorem DropWrite.queue (E : Env) (text : String) : DropWrite (fun c => queueCommand E c text) :=
  fun c => ⟨rfl, .inl rfl, .inl rfl, by show c.reliableSequence ≤ c.reliableSequence + 1; omega,
    fun h => h, .inl rfl⟩

theorem DropWrite.close :
    DropWrite (fun c => { c with download := 0, downloadName := "",
                                 downloadBlocks := c.downloadBlocks.map (fun _ => none) }) :=
  fun _ => ⟨rfl, .inl rfl, .inr rfl, le_refl _, fun _ => rfl, .inr rfl⟩

theorem DropWrite.zombie : DropWrite (fun c => { c with state := .CS_ZOMBIE }) :=
  fun _ => ⟨rfl, .inr rfl, .inl rfl, le_refl _, fun h => h, .inl rfl⟩

theorem DropWrite.handle : DropWrite (fun c => { c with download := 0 }) :=
  fun _ => ⟨rfl, .inl rfl, .inr rfl, le_refl _, fun h => h, .inl rfl⟩

theorem DropWrite.userinfo (val : userinfo_t) (n : String) :
    DropWrite (fun c => { c with userinfo := val, name := n }) :=
  fun _ => ⟨rfl, .inl rfl, .inl rfl, le_refl _, fun h => h, .inl rfl⟩

theorem DropWrite.ite_write {f g : client_t → client_t} (p : client_t → Bool) (hf : DropWrite f)
    (hg : DropWrite g) : DropWrite (fun c => if p c then f c else g c) := by
  intro c
  by_cases h : p c = true
  · simp only [h, if_true]
    exact hf c
  · simp only [h, if_false]
    exact hg c

theorem Drops.trans_drops {E : Env} {a b c : ServerState} (h1 : Drops E a b) (h2 : Drops E b c) :
    Drops E a c := by
  induction h2 with
  | refl => exact h1
  | emit e _ he ih => exact ih.emit e he
  | write i f _ hf ih => exact ih.write i f hf
  | challenge adr _ ih => exact ih.challenge adr
  | left t _ ih => exact ih.left t

theorem Drops.ite_drops {E : Env} {a x y : ServerState} {c : Prop} [Decidable c] (hx : Drops E a x)
    (hy : Drops E a y) : Drops E a (if c then x else y) := by
  split
  · exact hx
  · exact hy

theorem Drops.closeDownload_drops {E : Env} {a b : ServerState} (h : Drops E a b) (cl : Nat) :
    Drops E a (SV_CloseDownload b cl) := by
  unfold SV_CloseDownload
  exact (Drops.ite_drops (h.emit (.FS_FCloseFile _) rfl) h).write _ _ DropWrite.close

theorem Drops.setUserinfo_drops {E : Env} {a b : ServerState} (h : Drops E a b) (cl : Nat)
    (val : userinfo_t) : Drops E a (SV_SetUserinfo b cl val) :=
  h.write _ _ (DropWrite.userinfo _ _)

theorem Drops.length {E : Env} {a b : ServerState} (h : Drops E a b) :
    b.svs_clients.length = a.svs_clients.length := by
  induction h with
  | refl => rfl
  | emit e _ _ ih => exact ih
  | write i f _ _ ih => rw [length_modifyClient, ih]
  | challenge adr _ ih => exact ih
  | left t _ ih => exact ih

/-- Between two states that drops link, every record has changed by a write of a
drop. -/
theorem Drops.client {E : Env} {a b : ServerState} (h : Drops E a b) (i : Nat) :
    ∃ f, DropWrite f ∧ getClient b i = f (getClient a i) := by
  induction h with
  | refl => exact ⟨fun c => c, DropWrite.same, rfl⟩
  | emit e _ _ ih => exact ih
  | @write b j g _ hg ih =>
    obtain ⟨f, hf, e⟩ := ih
    rw [getClient_modifyClient]
    split
    · rename_i hc
      refine ⟨fun c => g (f c), hf.comp hg, ?_⟩
      rw [← hc.1, e]
    · exact ⟨f, hf, e⟩
  | challenge adr _ ih => exact ih
  | left t _ ih => exact ih

theorem Drops.keeps {E : Env} {α : Type} {π : client_t → α} {a b : ServerState}
    (h : Drops E a b) (hπ : ∀ f, DropWrite f → ∀ c, π (f c) = π c) : Keeps π a b := by
  induction h with
  | refl => exact Keeps.refl_keeps _ _
  | emit e _ _ ih => exact ih.emit_keeps _
  | write i f _ hf ih => exact ih.modifyClient_keeps _ _ (hπ f hf)
  | challenge adr _ ih => exact ih.congr_keeps rfl rfl rfl
  | left t _ ih => exact ih.congr_keeps rfl rfl rfl

theorem Drops.keeps_dropView {E : Env} {a b : ServerState} (h : Drops E a b) :
    Keeps dropView a b :=
  h.keeps (fun _ hf c => (hf c).1)

theorem Drops.logExt {E : Env} {a b : ServerState} (h : Drops E a b) :
    LogExt (fun e => e.isDropKind = true) a b := by
  induction h with
  | refl => exact LogExt.refl _ _
  | emit e _ he ih => exact ih.emit he
  | write i f _ _ ih => exact ih.modifyClient _ _
  | challenge adr _ ih => exact ih.congr rfl
  | left t _ ih => exact ih.congr rfl

theorem Drops.zombie_stays {E : Env} {a b : ServerState} (h : Drops E a b) (i : Nat)
    (hz : (getClient a i).state = .CS_ZOMBIE) : (getClient b i).state = .CS_ZOMBIE := by
  obtain ⟨f, hf, e⟩ := h.client i
  rw [e]
  rcases (hf (getClient a i)).2.1 with h2 | h2
  · rw [h2, hz]
  · exact h2

theorem Drops.closed {E : Env} {a b : ServerState} (h : Drops E a b) (i : Nat)
    (hz : (getClient a i).download = 0) : (getClient b i).download = 0 := by
  obtain ⟨f, hf, e⟩ := h.client i
  rw [e]
  rcases (hf (getClient a i)).2.2.1 with h2 | h2
  · rw [h2, hz]
  · exact h2

/-! ## Server commands and drops -/

theorem addServerCommandWith_drops (E : Env) (D : ServerState → Nat → String → ServerState)
    (hD : ∀ s d r, Drops E s (D s d r)) (sv : ServerState) (i : Nat) (cmd : String) :
    Drops E sv (addServerCommandWith E D sv i cmd) := by
  unfold addServerCommandWith
  have h1 : Drops E sv (modifyClient sv i
      (fun c => { c with reliableSequence := c.reliableSequence + 1 })) :=
    (Drops.refl sv).write _ _ DropWrite.sequence
  exact Drops.ite_drops (h1.trans_drops (hD _ _ _)) (h1.write _ _ (DropWrite.store _))

theorem foldl_drops (E : Env) (step : ServerState → Nat → ServerState)
    (hstep : ∀ s j, Drops E s (step s j)) (l : List Nat) (a s : ServerState) (h : Drops E a s) :
    Drops E a (l.foldl step s) := by
  induction l generalizing s with
  | nil => exact h
  | cons j l ih => exact ih _ (h.trans_drops (hstep s j))

theorem sendServerCommandWith_drops (E : Env) (D : ServerState → Nat → String → ServerState)
    (hD : ∀ s d r, Drops E s (D s d r)) (sv : ServerState) (cl : Option Nat) (text : String) :
    Drops E sv (sendServerCommandWith E D sv cl text) := by
  unfold sendServerCommandWith
  cases cl with
  | some i => exact (addServerCommandWith_drops E D hD sv i text).emit _ rfl
  | none =>
    refine Drops.emit _ ?_ rfl
    apply foldl_drops
    · intro s j
      exact Drops.ite_drops (addServerCommandWith_drops E D hD s j text) (Drops.refl s)
    · exact Drops.refl sv

theorem dropClientWith_drops (E : Env) (send : ServerState → Option Nat → String → ServerState)
    (hS : ∀ s cl t, Drops E s (send s cl t)) (sv : ServerState) (drop : Nat) (reason : String) :
    Drops E sv (dropClientWith E send sv drop reason) := by
  unfold dropClientWith
  lift_lets
  intro d isBot sv1 sv2 sv3 sv4 sv5 sv6 sv7 sv8 count bots sv9
  split
  · exact Drops.refl _
  have h0 : Drops E sv sv := Drops.refl _
  have h1 : Drops E sv sv1 := Drops.ite_drops ((h0.challenge _).closeDownload_drops _) h0
  have h2 : Drops E sv sv2 := Drops.ite_drops (h1.trans_drops (hS _ _ _)) h1
  have h3 : Drops E sv sv3 := h2.write _ _ DropWrite.zombie
  have h4 : Drops E sv sv4 := Drops.ite_drops ((h3.emit (.FS_FCloseFile _) rfl).write _ _ DropWrite.handle) h3
  have h5 : Drops E sv sv5 := h4.emit (.VM_Call .GAME_CLIENT_DISCONNECT _) rfl
  have h6 : Drops E sv sv6 := h5.trans_drops (hS _ _ _)
  have h7 : Drops E sv sv7 := Drops.ite_drops (h6.emit (.SV_BotFreeClient _) rfl)
    (Drops.ite_drops (h6.emit (.SV_SendToChatConnectedServers _) rfl) h6)
  have h8 : Drops E sv sv8 := h7.setUserinfo_drops _ _
  have h9 : Drops E sv sv9 := Drops.ite_drops (Drops.ite_drops (h8.emit .SV_Heartbeat_f rfl) h8) h8
  exact Drops.ite_drops (h9.left _) h9

theorem SV_DropClient_fuel_drops (E : Env) (n : Nat) (sv : ServerState) (drop : Nat)
    (reason : String) : Drops E sv (SV_DropClient_fuel E n sv drop reason) := by
  induction n generalizing sv drop reason with
  | zero => exact Drops.refl _
  | succ n ih =>
    exact dropClientWith_drops E _ (sendServerCommandWith_drops E _ ih) sv drop reason

theorem SV_DropClient_drops (E : Env) (sv : ServerState) (drop : Nat) (reason : String) :
    Drops E sv (SV_DropClient E sv drop reason) :=
  SV_DropClient_fuel_drops E _ sv drop reason

theorem SV_AddServerCommand_drops (E : Env) (sv : ServerState) (i : Nat) (cmd : String) :
    Drops E sv (SV_AddServerCommand E sv i cmd) :=
  addServerCommandWith_drops E _ (SV_DropClient_drops E) sv i cmd

theorem SV_SendServerCommand_drops (E : Env) (sv : ServerState) (cl : Option Nat)
    (text : String) : Drops E sv (SV_SendServerCommand E sv cl text) :=
  sendServerCommandWith_drops E _ (SV_DropClient_drops E) sv cl text

/-! ## Rings with room -/

theorem modifyClient_same (sv : ServerState) (i : Nat) : modifyClient sv i (fun c => c) = sv := by
  unfold modifyClient setClient getClient
  by_cases h : i < sv.svs_clients.length
  · have : sv.svs_clients.set i ((sv.svs_clients[i]?).getD (client_zero 0 0 0)) = sv.svs_clients := by
      apply List.ext_getElem?
      intro j
      rw [List.getElem?_set]
      split
      · rename_i hij
        subst hij
        simp [h, List.getElem?_eq_getElem h]
      · rfl
    rw [this]
  · rw [List.set_eq_of_length_le (Nat.le_of_not_lt h)]

theorem modifyClient_modifyClient (sv : ServerState) (i : Nat) (f g : client_t → client_t) :
    modifyClient (modifyClient sv i f) i g = modifyClient sv i (fun c => g (f c)) := by
  by_cases h : i < sv.svs_clients.length
  · unfold modifyClient
    rw [show getClient (setClient sv i (f (getClient sv i))) i = f (getClient sv i) by
      rw [getClient_setClient]; simp [h]]
    unfold setClient
    simp
  · have hl : sv.svs_clients.length ≤ i := Nat.le_of_not_lt h
    unfold modifyClient setClient
    simp [List.set_eq_of_length_le hl]

/-- The loop over the table, slot by slot, when each step is a write to its slot. -/
theorem foldl_range_table (sv : ServerState) (g : client_t → client_t)
    (step : ServerState → Nat → ServerState)
    (hstep : ∀ s k, k < sv.svs_clients.length → s.svs_clients.length = sv.svs_clients.length →
      getClient s k = getClient sv k → step s k = modifyClient s k g) :
    ∀ k, k ≤ sv.svs_clients.length →
      (List.range k).foldl step sv
        = { sv with svs_clients := (sv.svs_clients.take k).map g ++ sv.svs_clients.drop k } := by
  intro k
  induction k with
  | zero =>
    intro _
    simp
  | succ k ih =>
    intro hk
    have hk2 : k < sv.svs_clients.length := hk
    rw [List.range_succ, List.foldl_append, ih (Nat.le_of_lt hk2)]
    simp only [List.foldl_cons, List.foldl_nil]
    have hg : getClient { sv with svs_clients :=
        (sv.svs_clients.take k).map g ++ sv.svs_clients.drop k } k = getClient sv k := by
      unfold getClient
      simp [List.getElem?_append_right, Nat.min_eq_left (Nat.le_of_lt hk2)]
    rw [hstep _ k hk2 (by simp; omega) hg]
    unfold modifyClient
    rw [hg]
    unfold setClient
    congr 1
    apply List.ext_getElem?
    intro i
    rw [List.getElem?_set]
    by_cases hik : k = i
    · subst hik
      simp [List.getElem?_append_right, List.getElem?_append_left, hk2, Nat.min_eq_left hk,
        getClient, List.getElem?_eq_getElem hk2]
      omega
    · rw [if_neg hik]
      by_cases hlt : i < k
      · have h1 : i < ((sv.svs_clients.take k).map g).length := by simp; omega
        have h2 : i < ((sv.svs_clients.take (k + 1)).map g).length := by simp; omega
        rw [List.getElem?_append_left h1, List.getElem?_append_left h2]
        simp [List.getElem?_take, hlt, Nat.lt_succ_of_lt hlt]
      · have hgt : k + 1 ≤ i := by omega
        have h1 : ((sv.svs_clients.take k).map g).length = k := by simp; omega
        have h2 : ((sv.svs_clients.take (k + 1)).map g).length = k + 1 := by simp; omega
        rw [List.getElem?_append_right (by omega), List.getElem?_append_right (by omega), h1, h2]
        simp only [List.getElem?_drop]
        congr 1
        omega

theorem foldl_range_map (sv : ServerState) (g : client_t → client_t)
    (step : ServerState → Nat → ServerState)
    (hstep : ∀ s k, k < sv.svs_clients.length → s.svs_clients.length = sv.svs_clients.length →
      getClient s k = getClient sv k → step s k = modifyClient s k g) :
    (List.range sv.svs_clients.length).foldl step sv
      = { sv with svs_clients := sv.svs_clients.map g } := by
  rw [foldl_range_table sv g step hstep _ (le_refl _)]
  simp

theorem sendWithRoom_drops (E : Env) (sv : ServerState) (cl : Option Nat) (text : String) :
    Drops E sv (sendWithRoom E sv cl text) := by
  unfold sendWithRoom
  cases cl with
  | some i => exact ((Drops.refl sv).write _ _ (DropWrite.queue E text)).emit _ rfl
  | none =>
    refine Drops.emit _ ?_ rfl
    dsimp only
    rw [← foldl_range_map sv _ (fun s j => modifyClient s j
      (fun c => if E.broadcastTo c then queueCommand E c text else c)) (fun _ _ _ _ _ => rfl)]
    apply foldl_drops
    · intro s j
      exact (Drops.refl s).write _ _ (DropWrite.ite_write _ (DropWrite.queue E text) DropWrite.same)
    · exact Drops.refl sv

theorem getClient_outside (sv : ServerState) (i : Nat) (h : ¬ i < sv.svs_clients.length) :
    getClient sv i = client_zero 0 0 0 := by
  unfold getClient
  rw [List.getElem?_eq_none (Nat.le_of_not_lt h)]
  rfl

theorem addServerCommandWith_room (E : Env) (D : ServerState → Nat → String → ServerState)
    (sv : ServerState) (i : Nat) (cmd : String)
    (hroom : i < sv.svs_clients.length → ringRoom E (getClient sv i) 1) :
    addServerCommandWith E D sv i cmd = modifyClient sv i (fun c => queueCommand E c cmd) := by
  unfold addServerCommandWith
  dsimp only
  unfold ringRoom at hroom
  rw [if_neg, modifyClient_modifyClient]
  · rfl
  · rw [getClient_modifyClient]
    split
    · rename_i hc
      have hr := hroom hc.2
      show ¬ (getClient sv i).reliableSequence + 1 - (getClient sv i).reliableAcknowledge = _
      push_cast at hr
      omega
    · rename_i hc
      rw [getClient_outside sv i (fun h => hc ⟨rfl, h⟩)]
      show ¬ ((0 : Int) - 0 = (E.MAX_RELIABLE_COMMANDS : Int) + 1)
      omega

theorem sendServerCommandWith_room (E : Env) (D : ServerState → Nat → String → ServerState)
    (sv : ServerState) (cl : Option Nat) (text : String)
    (hroom : ∀ j, j < sv.svs_clients.length → (cl = none ∨ cl = some j) →
      ringRoom E (getClient sv j) 1) :
    sendServerCommandWith E D sv cl text = sendWithRoom E sv cl text := by
  unfold sendServerCommandWith sendWithRoom
  cases cl with
  | some i =>
    dsimp only
    rw [addServerCommandWith_room E D sv i text (fun h => hroom i h (.inr rfl))]
  | none =>
    dsimp only
    rw [foldl_range_map sv (fun c => if E.broadcastTo c then queueCommand E c text else c)]
    intro s k hk _ hg
    dsimp only
    by_cases hb : E.broadcastTo (getClient s k) = true
    · rw [if_pos hb, addServerCommandWith_room E D s k text (fun _ => by rw [hg]; exact hroom k hk (.inl rfl))]
      unfold modifyClient
      dsimp only
      rw [if_pos hb]
    · rw [if_neg hb]
      unfold modifyClient
      dsimp only
      rw [if_neg hb]
      exact (modifyClient_same s k).symm

/-- The two fields of a record that say how much room its ring has. -/
theorem ringRoom_congr (E : Env) (c c' : client_t) (n : Nat)
    (h : (c'.reliableSequence, c'.reliableAcknowledge) = (c.reliableSequence, c.reliableAcknowledge))
    (hr : ringRoom E c n) : ringRoom E c' n := by
  unfold ringRoom at hr ⊢
  have h1 := congrArg Prod.fst h
  have h2 := congrArg Prod.snd h
  dsimp only at h1 h2
  rw [h1, h2]
  exact hr

theorem ringRoom_one (E : Env) (c : client_t) (h : ringRoom E c 2) : ringRoom E c 1 := by
  unfold ringRoom at h ⊢
  push_cast at h ⊢
  omega

theorem dropRoom.one {E : Env} {sv : ServerState} {drop : Nat} (h : dropRoom E sv drop) (j : Nat)
    (hj : j < sv.svs_clients.length) : ringRoom E (getClient sv j) 1 := by
  have := h j hj
  split at this
  · exact ringRoom_one E _ this
  · exact this

theorem sendWithRoom_ring (E : Env) (sv : ServerState) (cl : Option Nat) (text : String) (j : Nat)
    (h2 : ringRoom E (getClient sv j) 2) : ringRoom E (getClient (sendWithRoom E sv cl text) j) 1 := by
  have hq : ∀ c : client_t, ringRoom E c 2 → ringRoom E (queueCommand E c text) 1 := by
    intro c hc
    unfold ringRoom at hc ⊢
    show c.reliableSequence + 1 + ((1 : Nat) : Int) - c.reliableAcknowledge ≤ _
    push_cast at hc ⊢
    omega
  unfold sendWithRoom
  cases cl with
  | some i =>
    dsimp only
    rw [getClient_emit, getClient_modifyClient]
    split
    · rename_i hc
      rw [← hc.1]
      exact hq _ h2
    · exact ringRoom_one E _ h2
  | none =>
    dsimp only
    rw [getClient_emit]
    by_cases hj : j < sv.svs_clients.length
    · rw [getClient_map _ _ _ hj]
      split
      · exact hq _ h2
      · exact ringRoom_one E _ h2
    · rw [getClient_outside _ _ (by simpa using hj), ← getClient_outside sv j hj]
      exact ringRoom_one E _ h2

theorem dropClientWith_room (E : Env) (D : ServerState → Nat → String → ServerState)
    (sv : ServerState) (drop : Nat) (reason : String) (hroom : dropRoom E sv drop) :
    dropClientWith E (sendServerCommandWith E D) sv drop reason
      = dropClientWith E (sendWithRoom E) sv drop reason := by
  unfold dropClientWith
  lift_lets
  intro d isBot sv1 sv2 sv3 sv4 sv5 sv6 sv7 sv8 count bots sv9 sw2 sw3 sw4 sw5 sw6 sw7 sw8 cw bw sw9
  have k1 : Keeps (fun c => (c.reliableSequence, c.reliableAcknowledge)) sv sv1 := by
    dsimp only [sv1]
    apply Keeps.ite_keeps _ (Keeps.refl_keeps _ _)
    refine Keeps.closeDownload_keeps ?_ _ ?_
    · exact (Keeps.refl_keeps _ sv).congr_keeps rfl rfl rfl
    · intro _
      rfl
  have e2 : sv2 = sw2 := by
    dsimp only [sv2, sw2]
    split
    · apply sendServerCommandWith_room
      intro j hj _
      rw [k1.1] at hj
      exact ringRoom_congr E _ _ 1 (k1.2.2.2 j) (hroom.one j hj)
    · rfl
  have hd2 : drop < sv.svs_clients.length → ringRoom E (getClient sw2 drop) 1 := by
    intro hd
    have h1 : ringRoom E (getClient sv1 drop) 2 := by
      have := hroom drop hd
      rw [if_pos rfl] at this
      exact ringRoom_congr E _ _ 2 (k1.2.2.2 drop) this
    dsimp only [sw2]
    split
    · exact sendWithRoom_ring E sv1 none _ drop h1
    · exact ringRoom_one E _ h1
  have l2 : sw2.svs_clients.length = sv.svs_clients.length := by
    rw [← k1.1]
    exact (Drops.ite_drops (sendWithRoom_drops E sv1 none _) (Drops.refl sv1)).length
  have e3 : sv3 = sw3 := by
    dsimp only [sv3, sw3]
    rw [e2]
  have e4 : sv4 = sw4 := by
    dsimp only [sv4, sw4]
    rw [e3]
  have e5 : sv5 = sw5 := by
    dsimp only [sv5, sw5]
    rw [e4]
  have k5 : Keeps (fun c => (c.reliableSequence, c.reliableAcknowledge)) sw2 sw5 := by
    have k3 : Keeps (fun c => (c.reliableSequence, c.reliableAcknowledge)) sw2 sw3 :=
      (Keeps.refl_keeps _ sw2).modifyClient_keeps _ _ (fun _ => rfl)
    have k4 : Keeps (fun c => (c.reliableSequence, c.reliableAcknowledge)) sw2 sw4 := by
      dsimp only [sw4]
      apply Keeps.ite_keeps _ k3
      exact (k3.emit_keeps _).modifyClient_keeps _ _ (fun _ => rfl)
    exact k4.emit_keeps _
  have e6 : sv6 = sw6 := by
    dsimp only [sv6, sw6]
    rw [e5]
    apply sendServerCommandWith_room
    intro j hj hc
    rcases hc with hc | hc
    · exact Option.noConfusion hc
    · have hjd : drop = j := Option.some.inj hc
      subst hjd
      rw [k5.1, l2] at hj
      exact ringRoom_congr E _ _ 1 (k5.2.2.2 drop) (hd2 hj)
  have e7 : sv7 = sw7 := by
    dsimp only [sv7, sw7]
    rw [e6]
  have e8 : sv8 = sw8 := by
    dsimp only [sv8, sw8]
    rw [e7]
  have ec : count = cw := by
    dsimp only [count, cw]
    rw [e8]
  have eb : bots = bw := by
    dsimp only [bots, bw]
    rw [e8]
  have e9 : sv9 = sw9 := by
    dsimp only [sv9, sw9]
    rw [e8, ec]
  rw [e9, ec, eb]

/-- On rings with room a drop drops nobody else. -/
theorem SV_DropClient_room (E : Env) (sv : ServerState) (drop : Nat) (reason : String)
    (hroom : dropRoom E sv drop) : SV_DropClient E sv drop reason = dropWithRoom E sv drop reason :=
  dropClientWith_room E _ sv drop reason hroom

theorem SV_SendServerCommand_room (E : Env) (sv : ServerState) (cl : Option Nat) (text : String)
    (hroom : ∀ j, j < sv.svs_clients.length → (cl = none ∨ cl = some j) →
      ringRoom E (getClient sv j) 1) :
    SV_SendServerCommand E sv cl text = sendWithRoom E sv cl text :=
  sendServerCommandWith_room E _ sv cl text hroom

theorem SV_AddServerCommand_room (E : Env) (sv : ServerState) (i : Nat) (cmd : String)
    (hroom : i < sv.svs_clients.length → ringRoom E (getClient sv i) 1) :
    SV_AddServerCommand E sv i cmd = modifyClient sv i (fun c => queueCommand E c cmd) :=
  addServerCommandWith_room E _ sv i cmd hroom

/-! ## The drops inside a drop come to an end -/

theorem countP_set_le {α : Type} (p : α → Bool) (l : List α) (i : Nat) (x : α)
    (h : ∀ hi : i < l.length, p x = true → p (l.get ⟨i, hi⟩) = true) :
    (l.set i x).countP p ≤ l.countP p := by
  induction l generalizing i with
  | nil => simp
  | cons a t ih =>
    cases i with
    | zero =>
      have h0 := h (by simp)
      simp only [List.set_cons_zero, List.countP_cons]
      by_cases hx : p x = true
      · have ha : p a = true := h0 hx
        simp [hx, ha]
      · have hx2 : p x = false := by simpa using hx
        simp only [hx2]
        by_cases ha : p a = true
        · simp [ha]
        · simp [ha]
    | succ i =>
      simp only [List.set_cons_succ, List.countP_cons]
      have := ih i (fun hi hx => h (by simpa using hi) hx)
      omega

theorem countP_set_lt {α : Type} (p : α → Bool) (l : List α) (i : Nat) (x : α)
    (hi : i < l.length) (hold : p (l.get ⟨i, hi⟩) = true) (hnew : p x = false) :
    (l.set i x).countP p < l.countP p := by
  induction l generalizing i with
  | nil => simp at hi
  | cons a t ih =>
    cases i with
    | zero =>
      have ha : p a = true := hold
      simp [List.countP_cons, ha, hnew]
    | succ i =>
      simp only [List.set_cons_succ, List.countP_cons]
      have := ih i (by simpa using hi) hold
      omega

theorem getClient_inside (sv : ServerState) (i : Nat) (hi : i < sv.svs_clients.length) :
    getClient sv i = sv.svs_clients.get ⟨i, hi⟩ := by
  unfold getClient
  rw [List.getElem?_eq_getElem hi]
  rfl

theorem ringsInWindow_le_length (E : Env) (sv : ServerState) :
    ringsInWindow E sv ≤ sv.svs_clients.length :=
  List.countP_le_length _

theorem Drops.ringsInWindow_le {E : Env} {a b : ServerState} (h : Drops E a b) :
    ringsInWindow E b ≤ ringsInWindow E a := by
  induction h with
  | refl => exact le_refl _
  | emit e _ _ ih => exact ih
  | @write b i f _ hf ih =>
    refine le_trans ?_ ih
    unfold ringsInWindow modifyClient setClient
    apply countP_set_le
    intro hi hx
    rw [← getClient_inside b i hi]
    obtain ⟨h1, _, _, h4, _, _⟩ := hf (getClient b i)
    have hack : (f (getClient b i)).reliableAcknowledge = (getClient b i).reliableAcknowledge :=
      congrArg (fun c => c.reliableAcknowledge) h1
    simp only [decide_eq_true_eq] at hx ⊢
    omega
  | challenge adr _ ih => exact ih
  | left t _ ih => exact ih

theorem addServerCommandWith_congr (E : Env) (D D' : ServerState → Nat → String → ServerState)
    (k : Nat) (hag : ∀ s d r, ringsInWindow E s < k → D s d r = D' s d r) (sv : ServerState)
    (i : Nat) (cmd : String) (hk : ringsInWindow E sv ≤ k) :
    addServerCommandWith E D sv i cmd = addServerCommandWith E D' sv i cmd := by
  unfold addServerCommandWith
  dsimp only
  split
  · rename_i hov
    apply hag
    refine lt_of_lt_of_le ?_ hk
    by_cases hi : i < sv.svs_clients.length
    · rw [getClient_modifyClient_self _ _ _ hi] at hov
      have hov2 : (getClient sv i).reliableSequence + 1 - (getClient sv i).reliableAcknowledge
          = (E.MAX_RELIABLE_COMMANDS : Int) + 1 := hov
      unfold ringsInWindow modifyClient setClient
      apply countP_set_lt _ _ _ _ hi
      · rw [← getClient_inside sv i hi]
        simp only [decide_eq_true_eq]
        omega
      · show decide ((getClient sv i).reliableSequence + 1 - (getClient sv i).reliableAcknowledge
          ≤ (E.MAX_RELIABLE_COMMANDS : Int)) = false
        simp only [decide_eq_false_iff_not]
        omega
    · exfalso
      rw [getClient_outside _ _ (by simpa using hi)] at hov
      have hov2 : (0 : Int) - 0 = (E.MAX_RELIABLE_COMMANDS : Int) + 1 := hov
      omega
  · rfl

theorem sendServerCommandWith_congr (E : Env) (D D' : ServerState → Nat → String → ServerState)
    (hD : ∀ s d r, Drops E s (D s d r)) (k : Nat)
    (hag : ∀ s d r, ringsInWindow E s < k → D s d r = D' s d r) (sv : ServerState)
    (cl : Option Nat) (text : String) (hk : ringsInWindow E sv ≤ k) :
    sendServerCommandWith E D sv cl text = sendServerCommandWith E D' sv cl text := by
  unfold sendServerCommandWith
  cases cl with
  | some i =>
    dsimp only
    rw [addServerCommandWith_congr E D D' k hag sv i text hk]
  | none =>
    dsimp only
    congr 1
    generalize List.range sv.svs_clients.length = l
    induction l generalizing sv with
    | nil => rfl
    | cons j l ih =>
      simp only [List.foldl_cons]
      have hstep : (if E.broadcastTo (getClient sv j) then addServerCommandWith E D sv j text else sv)
          = (if E.broadcastTo (getClient sv j) then addServerCommandWith E D' sv j text else sv) := by
        rw [addServerCommandWith_congr E D D' k hag sv j text hk]
      rw [← hstep]
      apply ih
      refine le_trans (Drops.ringsInWindow_le ?_) hk
      exact Drops.ite_drops (addServerCommandWith_drops E D hD sv j text) (Drops.refl sv)

theorem dropClientWith_congr (E : Env) (send send' : ServerState → Option Nat → String → ServerState)
    (sv : ServerState) (drop : Nat) (reason : String)
    (hS : ∀ s cl t, Drops E s (send s cl t))
    (hag : ∀ s cl t, Drops E sv s → send s cl t = send' s cl t) :
    dropClientWith E send sv drop reason = dropClientWith E send' sv drop reason := by
  unfold dropClientWith
  lift_lets
  intro d isBot sv1 sv2 sv3 sv4 sv5 sv6 sv7 sv8 count bots sv9 sw2 sw3 sw4 sw5 sw6 sw7 sw8 cw bw sw9
  have h1 : Drops E sv sv1 :=
    Drops.ite_drops (((Drops.refl sv).challenge _).closeDownload_drops _) (Drops.refl sv)
  have h2 : Drops E sv sv2 := Drops.ite_drops (h1.trans_drops (hS _ _ _)) h1
  have h3 : Drops E sv sv3 := h2.write _ _ DropWrite.zombie
  have h4 : Drops E sv sv4 :=
    Drops.ite_drops ((h3.emit (.FS_FCloseFile _) rfl).write _ _ DropWrite.handle) h3
  have h5 : Drops E sv sv5 := h4.emit (.VM_Call .GAME_CLIENT_DISCONNECT _) rfl
  have e2 : sv2 = sw2 := by
    dsimp only [sv2, sw2]
    rw [hag _ _ _ h1]
  have e3 : sv3 = sw3 := by
    dsimp only [sv3, sw3]
    rw [e2]
  have e4 : sv4 = sw4 := by
    dsimp only [sv4, sw4]
    rw [e3]
  have e5 : sv5 = sw5 := by
    dsimp only [sv5, sw5]
    rw [e4]
  have e6 : sv6 = sw6 := by
    dsimp only [sv6, sw6]
    rw [hag _ _ _ h5, e5]
  have e7 : sv7 = sw7 := by
    dsimp only [sv7, sw7]
    rw [e6]
  have e8 : sv8 = sw8 := by
    dsimp only [sv8, sw8]
    rw [e7]
  have ec : count = cw := by
    dsimp only [count, cw]
    rw [e8]
  have eb : bots = bw := by
    dsimp only [bots, bw]
    rw [e8]
  have e9 : sv9 = sw9 := by
    dsimp only [sv9, sw9]
    rw [e8, ec]
  rw [e9, ec, eb]

/-- More fuel than rings in the window is enough fuel: the result is that for any
larger amount. -/
theorem SV_DropClient_fuel_stable (E : Env) (n m : Nat) (sv : ServerState) (drop : Nat)
    (reason : String) (hn : ringsInWindow E sv < n) (hm : ringsInWindow E sv < m) :
    SV_DropClient_fuel E n sv drop reason = SV_DropClient_fuel E m sv drop reason := by
  induction n generalizing m sv drop reason with
  | zero => exact absurd hn (Nat.not_lt_zero _)
  | succ n ih =>
    cases m with
    | zero => exact absurd hm (Nat.not_lt_zero _)
    | succ m =>
      show dropClientWith E (sendServerCommandWith E (SV_DropClient_fuel E n)) sv drop reason
        = dropClientWith E (sendServerCommandWith E (SV_DropClient_fuel E m)) sv drop reason
      apply dropClientWith_congr
      · exact sendServerCommandWith_drops E _ (SV_DropClient_fuel_drops E n)
      · intro s cl t hs
        apply sendServerCommandWith_congr E _ _ (SV_DropClient_fuel_drops E n) (ringsInWindow E sv)
        · intro s' d r hs'
          exact ih m s' d r (by omega) (by omega)
        · exact hs.ringsInWindow_le

/-- `SV_DropClient` is its body: the bound on the depth of the drops inside a drop is
never reached. -/
theorem SV_DropClient_eq (E : Env) (sv : ServerState) (drop : Nat) (reason : String) :
    SV_DropClient E sv drop reason = dropClientWith E (SV_SendServerCommand E) sv drop reason := by
  show dropClientWith E (sendServerCommandWith E (SV_DropClient_fuel E sv.svs_clients.length))
      sv drop reason
    = dropClientWith E (sendServerCommandWith E (SV_DropClient E)) sv drop reason
  apply dropClientWith_congr
  · exact sendServerCommandWith_drops E _ (SV_DropClient_fuel_drops E _)
  · intro s cl t hs
    apply sendServerCommandWith_congr E _ _ (SV_DropClient_fuel_drops E _) sv.svs_clients.length
    · intro s' d r hs'
      exact SV_DropClient_fuel_stable E _ _ s' d r hs'
        (Nat.lt_succ_of_le (ringsInWindow_le_length E s'))
    · exact le_trans hs.ringsInWindow_le (ringsInWindow_le_length E sv)

/-- Any amount of fuel above the size of the table gives `SV_DropClient`. -/
theorem SV_DropClient_fuel_enough (E : Env) (n : Nat) (sv : ServerState) (drop : Nat)
    (reason : String) (hn : sv.svs_clients.length < n) :
    SV_DropClient_fuel E n sv drop reason = SV_DropClient E sv drop reason :=
  SV_DropClient_fuel_stable E _ _ sv drop reason
    (lt_of_le_of_lt (ringsInWindow_le_length E sv) hn)
    (Nat.lt_succ_of_le (ringsInWindow_le_length E sv))

/-! ## Dropping a client -/

theorem LogExt.drops_log {P : Effect → Prop} {E : Env} {a b c : ServerState} (h : LogExt P a b)
    (hd : Drops E b c) (hp : ∀ e, e.isDropKind = true → P e) : LogExt P a c :=
  h.trans (hd.logExt.mono hp)

theorem LogExt.sendServerCommand {P : Effect → Prop} {a b : ServerState} (h : LogExt P a b)
    (E : Env) (cl : Option Nat) (text : String) (hp : ∀ e, e.isDropKind = true → P e) :
    LogExt P a (SV_SendServerCommand E b cl text) :=
  h.drops_log (SV_SendServerCommand_drops E b cl text) hp

theorem logExt_SV_DropClient (E : Env) (sv : ServerState) (drop : Nat) (reason : String) :
    LogExt (fun e => e.isDropKind = true) sv (SV_DropClient E sv drop reason) :=
  (SV_DropClient_drops E sv drop reason).logExt

theorem Keeps.drops_keeps {α : Type} {π : client_t → α} {E : Env} {a b c : ServerState}
    (h1 : Keeps π a b) (hd : Drops E b c) (hπ : ∀ f, DropWrite f → ∀ c, π (f c) = π c) :
    Keeps π a c :=
  h1.trans_keeps (hd.keeps hπ)

theorem Keeps.sendServerCommand_keeps {α : Type} {π : client_t → α} {a b : ServerState}
    (h1 : Keeps π a b) (E : Env) (cl : Option Nat) (text : String)
    (hπ : ∀ f, DropWrite f → ∀ c, π (f c) = π c) :
    Keeps π a (SV_SendServerCommand E b cl text) :=
  h1.drops_keeps (SV_SendServerCommand_drops E b cl text) hπ

/-- The dropped slot is a zombie after the drop, whoever else the drop drops. -/
theorem dropClientWith_zombie (E : Env) (send : ServerState → Option Nat → String → ServerState)
    (hS : ∀ s cl t, Drops E s (send s cl t)) (sv : ServerState) (drop : Nat) (reason : String)
    (hd : drop < sv.svs_clients.length) :
    (getClient (dropClientWith E send sv drop reason) drop).state = .CS_ZOMBIE := by
  unfold dropClientWith
  lift_lets
  intro d isBot sv1 sv2 sv3 sv4 sv5 sv6 sv7 sv8 count bots sv9
  split
  · rename_i hz
    exact hz
  have h1 : Drops E sv sv1 :=
    Drops.ite_drops (((Drops.refl sv).challenge _).closeDownload_drops _) (Drops.refl sv)
  have h2 : Drops E sv sv2 := Drops.ite_drops (h1.trans_drops (hS _ _ _)) h1
  have hz3 : (getClient sv3 drop).state = .CS_ZOMBIE := by
    dsimp only [sv3]
    rw [getClient_modifyClient_self _ _ _ (by rw [h2.length]; exact hd)]
  have h4 : Drops E sv3 sv4 :=
    Drops.ite_drops (((Drops.refl sv3).emit (.FS_FCloseFile _) rfl).write _ _ DropWrite.handle)
      (Drops.refl sv3)
  have h5 : Drops E sv3 sv5 := h4.emit (.VM_Call .GAME_CLIENT_DISCONNECT _) rfl
  have h6 : Drops E sv3 sv6 := h5.trans_drops (hS _ _ _)
  have h7 : Drops E sv3 sv7 := Drops.ite_drops (h6.emit (.SV_BotFreeClient _) rfl)
    (Drops.ite_drops (h6.emit (.SV_SendToChatConnectedServers _) rfl) h6)
  have h8 : Drops E sv3 sv8 := h7.setUserinfo_drops _ _
  have h9 : Drops E sv3 sv9 := Drops.ite_drops (Drops.ite_drops (h8.emit .SV_Heartbeat_f rfl) h8) h8
  have hf : Drops E sv3 (if (getClient sv9 drop).netchan.remoteAddress.type ≠ .NA_BOT ∧
      count - bots = 0 then { sv9 with svs_lastPlayerLeftTime := 0x7FFFFFFF } else sv9) :=
    Drops.ite_drops (h9.left _) h9
  exact hf.zombie_stays drop hz3

theorem LogExt.sendWithRoom {P : Effect → Prop} {a b : ServerState} (h : LogExt P a b)
    (E : Env) (cl : Option Nat) (text : String) (hp : P (.SV_SendServerCommand cl text)) :
    LogExt P a (ET.sendWithRoom E b cl text) := by
  unfold ET.sendWithRoom
  cases cl with
  | none => exact (h.congr (c := { b with svs_clients := _ }) rfl).emit hp
  | some i => exact (h.modifyClient i _).emit hp

theorem Keeps.sendWithRoom_keeps {α : Type} {π : client_t → α} {a b : ServerState}
    (h1 : Keeps π a b) (E : Env) (cl : Option Nat) (text : String)
    (hπ : ∀ c s, π (queueCommand E c s) = π c) :
    Keeps π a (sendWithRoom E b cl text) := by
  unfold sendWithRoom
  cases cl with
  | none =>
    apply Keeps.emit_keeps
    apply h1.mapClients
    intro c
    split
    · exact hπ c text
    · rfl
  | some i => exact (h1.modifyClient_keeps i _ (fun c => hπ c text)).emit_keeps _

theorem log_sendWithRoom (E : Env) (sv : ServerState) (cl : Option Nat) (text : String) :
    (sendWithRoom E sv cl text).log = sv.log ++ [Effect.SV_SendServerCommand cl text] := by
  unfold sendWithRoom
  cases cl <;> rfl

theorem tableRoom.send {E : Env} {sv : ServerState} (h : tableRoom E sv 1) (cl : Option Nat)
    (text : String) : SV_SendServerCommand E sv cl text = sendWithRoom E sv cl text :=
  SV_SendServerCommand_room E sv cl text (fun j hj _ => h j hj)

theorem tableRoom.of_ring {E : Env} {a b : ServerState} {n : Nat} (h : tableRoom E a n)
    (k : Keeps (fun c => (c.reliableSequence, c.reliableAcknowledge)) a b) : tableRoom E b n := by
  intro j hj
  rw [k.1] at hj
  exact ringRoom_congr E _ _ n (k.2.2.2 j) (h j hj)

/-- A drop of a zombie does nothing. -/
theorem SV_DropClient_of_zombie (E : Env) (sv : ServerState) (drop : Nat) (reason : String)
    (hz : (getClient sv drop).state = .CS_ZOMBIE) : SV_DropClient E sv drop reason = sv := by
  rw [SV_DropClient_eq]
  unfold dropClientWith
  dsimp only
  rw [if_pos hz]

/-- What `SV_DropClient` does to the table: every slot keeps what a drop does not
write, and the dropped slot is a zombie. -/
theorem SV_DropClient_clients (E : Env) (sv : ServerState) (drop : Nat) (reason : String) :
    Keeps dropView sv (SV_DropClient E sv drop reason) ∧
      (drop < sv.svs_clients.length →
        (getClient (SV_DropClient E sv drop reason) drop).state = .CS_ZOMBIE) := by
  refine ⟨(SV_DropClient_drops E sv drop reason).keeps_dropView, fun hd => ?_⟩
  rw [SV_DropClient_eq]
  exact dropClientWith_zombie E _ (SV_SendServerCommand_drops E) sv drop reason hd

/-! ## Movement commands -/

theorem logExt_SV_ClientThink (E : Env) (sv : ServerState) (cl : Nat) (cmd : usercmd_t) :
    LogExt (fun e => e.isThinkKind = true ∧
        (e.isThink = true →
          e = .call_SV_ClientThink cl cmd (getClient sv cl).lastUsercmd.serverTime))
      sv (SV_ClientThink E sv cl cmd) := by
  unfold SV_ClientThink
  lift_lets
  intro sv0 c c1 c2 sv1 sv2 sv3
  have h0 : LogExt (fun e => e.isThinkKind = true ∧
        (e.isThink = true →
          e = .call_SV_ClientThink cl cmd (getClient sv cl).lastUsercmd.serverTime)) sv sv0 := by
    apply (LogExt.refl _ sv).emit
    exact ⟨rfl, fun _ => rfl⟩
  have h1 : LogExt (fun e => e.isThinkKind = true ∧
        (e.isThink = true →
          e = .call_SV_ClientThink cl cmd (getClient sv cl).lastUsercmd.serverTime)) sv sv1 :=
    h0.congr rfl
  apply LogExt.ite h1
  apply LogExt.modifyClient
  apply LogExt.emit
  · dsimp only [sv2]
    apply LogExt.ite _ h1
    apply h1.emit
    exact ⟨rfl, fun h => by simp [Effect.isThink] at h⟩
  · exact ⟨rfl, fun h => by simp [Effect.isThink] at h⟩

theorem keeps_SV_ClientThink (E : Env) (sv : ServerState) (cl : Nat) (cmd : usercmd_t) :
    Keeps thinkView sv (SV_ClientThink E sv cl cmd) := by
  unfold SV_ClientThink
  lift_lets
  intro sv0 c c1 c2 sv1 sv2 sv3
  have h1 : Keeps thinkView sv sv1 := by
    apply ((Keeps.refl_keeps thinkView sv).emit_keeps _).setClient
    dsimp only [c2, c1]
    split <;> rfl
  apply Keeps.ite_keeps h1
  apply Keeps.modifyClient_keeps
  · apply Keeps.emit_keeps
    dsimp only [sv2]
    exact Keeps.ite_keeps (h1.emit_keeps _) h1
  · intro x
    rfl

theorem lastUsercmd_SV_ClientThink (E : Env) (sv : ServerState) (cl : Nat) (cmd : usercmd_t)
    (h : cl < sv.svs_clients.length) :
    (getClient (SV_ClientThink E sv cl cmd) cl).lastUsercmd = cmd := by
  unfold SV_ClientThink
  lift_lets
  intro sv0 c c1 c2 sv1 sv2 sv3
  have h1 : getClient sv1 cl = c2 := by
    dsimp only [sv1]
    rw [getClient_setClient]
    simp [sv0, h]
  have h3 : getClient sv3 cl = getClient sv1 cl := by
    dsimp only [sv3, sv2]
    split <;> rfl
  have hl : cl < sv3.svs_clients.length := by
    dsimp only [sv3, sv2]
    split <;> simpa [sv1, sv0] using h
  split
  · rw [h1]
  · rw [getClient_modifyClient_self _ _ _ hl]
    show (getClient sv3 cl).lastUsercmd = cmd
    rw [h3, h1]

theorem freshThink_of_not_isThink (e : Effect) (h : e.isThink = false) : e.freshThink := by
  cases e <;> simp_all [Effect.isThink, Effect.freshThink]

theorem logExt_SV_UserMove_loop (E : Env) (T : Int) (cl : Nat) (cmds : List usercmd_t) :
    ∀ sv, LogExt (fun e => e.isThinkKind = true) sv (SV_UserMove_loop E T cl sv cmds) := by
  induction cmds with
  | nil => intro sv; exact LogExt.refl _ _
  | cons cmd rest ih =>
    intro sv
    unfold SV_UserMove_loop
    split
    · exact ih sv
    · split
      · exact ih sv
      · exact ((logExt_SV_ClientThink E sv cl cmd).mono (fun e h => h.1)).trans (ih _)

theorem logExt_SV_UserMove_loop_fresh (E : Env) (hmp : E.SV_GameIsSinglePlayer = false) (T : Int)
    (cl : Nat) (cmds : List usercmd_t) :
    ∀ sv, LogExt (fun e => e.isThinkKind = true ∧ e.freshThink) sv
      (SV_UserMove_loop E T cl sv cmds) := by
  induction cmds with
  | nil => intro sv; exact LogExt.refl _ _
  | cons cmd rest ih =>
    intro sv
    unfold SV_UserMove_loop
    split
    · exact ih sv
    · split
      · exact ih sv
      · rename_i _ hstale
        have hlt : (getClient sv cl).lastUsercmd.serverTime < cmd.serverTime := by
          simp [hmp] at hstale
          exact hstale
        refine ((logExt_SV_ClientThink E sv cl cmd).mono (fun e h => ⟨h.1, ?_⟩)).trans (ih _)
        by_cases ht : e.isThink = true
        · rw [h.2 ht]
          exact hlt
        · exact freshThink_of_not_isThink e (by simpa using ht)

theorem keeps_SV_UserMove_loop (E : Env) (T : Int) (cl : Nat) (cmds : List usercmd_t) :
    ∀ sv, Keeps thinkView sv (SV_UserMove_loop E T cl sv cmds) := by
  induction cmds with
  | nil => intro sv; exact Keeps.refl_keeps _ _
  | cons cmd rest ih =>
    intro sv
    unfold SV_UserMove_loop
    split
    · exact ih sv
    · split
      · exact ih sv
      · exact (keeps_SV_ClientThink E sv cl cmd).trans_keeps (ih _)

/-- In a multiplayer game the loop leaves `lastUsercmd.serverTime` at least as large as
it was and at least as large as the time of every command it did not skip as coming
from before a map restart. -/
theorem SV_UserMove_loop_mono (E : Env) (hmp : E.SV_GameIsSinglePlayer = false) (T : Int)
    (cl : Nat) (cmds : List usercmd_t) :
    ∀ sv, cl < sv.svs_clients.length →
      (getClient sv cl).lastUsercmd.serverTime
          ≤ (getClient (SV_UserMove_loop E T cl sv cmds) cl).lastUsercmd.serverTime ∧
        ∀ cmd ∈ cmds, cmd.serverTime ≤ T →
          cmd.serverTime ≤ (getClient (SV_UserMove_loop E T cl sv cmds) cl).lastUsercmd.serverTime := by
  induction cmds with
  | nil => intro sv _; exact ⟨le_refl _, by simp⟩
  | cons cmd rest ih =>
    intro sv hcl
    unfold SV_UserMove_loop
    split
    · rename_i hT
      refine ⟨(ih sv hcl).1, fun c hc hcT => ?_⟩
      rcases List.mem_cons.1 hc with h | h
      · subst h; omega
      · exact (ih sv hcl).2 c h hcT
    · split
      · rename_i _ hstale
        refine ⟨(ih sv hcl).1, fun c hc hcT => ?_⟩
        rcases List.mem_cons.1 hc with h | h
        · subst h
          exact le_trans hstale.2 (ih sv hcl).1
        · exact (ih sv hcl).2 c h hcT
      · rename_i _ hstale
        have hlt : (getClient sv cl).lastUsercmd.serverTime < cmd.serverTime := by
          simp [hmp] at hstale
          exact hstale
        have hcl2 : cl < (SV_ClientThink E sv cl cmd).svs_clients.length := by
          rw [(keeps_SV_ClientThink E sv cl cmd).1]; exact hcl
        have hL : (getClient (SV_ClientThink E sv cl cmd) cl).lastUsercmd.serverTime = cmd.serverTime := by
          rw [lastUsercmd_SV_ClientThink E sv cl cmd hcl]
        have := ih (SV_ClientThink E sv cl cmd) hcl2
        rw [hL] at this
        refine ⟨by omega, fun c hc hcT => ?_⟩
        rcases List.mem_cons.1 hc with h | h
        · subst h
          exact this.1
        · exact this.2 c h hcT

/-- In a multiplayer game a batch whose commands are all stale passes through the loop
without any effect. -/
theorem SV_UserMove_loop_stale (E : Env) (hmp : E.SV_GameIsSinglePlayer = false) (T : Int)
    (cl : Nat) (cmds : List usercmd_t) (sv : ServerState)
    (h : ∀ cmd ∈ cmds, cmd.serverTime ≤ T →
      cmd.serverTime ≤ (getClient sv cl).lastUsercmd.serverTime) :
    SV_UserMove_loop E T cl sv cmds = sv := by
  induction cmds with
  | nil => rfl
  | cons cmd rest ih =>
    unfold SV_UserMove_loop
    have ih2 := ih (fun c hc => h c (List.mem_cons_of_mem _ hc))
    split
    · exact ih2
    · rename_i hT
      have := h cmd (List.mem_cons_self _ _) (by omega)
      simp [hmp, this, ih2]

/-! ## `SV_UserMove` -/

theorem keeps_SV_SendClientGameState {α : Type} (π : client_t → α) (sv : ServerState) (cl : Nat)
    (hπ : ∀ c : client_t, π { c with state := .CS_PRIMED, pureAuthentic := 0, gotCP := false,
                                      gamestateMessageNum := c.netchan.outgoingSequence } = π c) :
    Keeps π sv (SV_SendClientGameState sv cl) :=
  ((Keeps.refl_keeps π sv).modifyClient_keeps cl _ hπ).emit_keeps _

theorem getClient_SV_SendClientGameState (sv : ServerState) (cl : Nat)
    (hcl : cl < sv.svs_clients.length) :
    getClient (SV_SendClientGameState sv cl) cl =
      { getClient sv cl with
        state := .CS_PRIMED, pureAuthentic := 0, gotCP := false,
        gamestateMessageNum := (getClient sv cl).netchan.outgoingSequence } := by
  simp [SV_SendClientGameState, getClient_modifyClient, hcl]

theorem keeps_SV_ClientEnterWorld {α : Type} (π : client_t → α) (sv : ServerState) (cl : Nat)
    (cmd : usercmd_t)
    (hπ : ∀ c : client_t, π { c with state := .CS_ACTIVE, gentity := some cl, deltaMessage := -1,
                                      nextSnapshotTime := sv.svs_time, lastUsercmd := cmd } = π c) :
    Keeps π sv (SV_ClientEnterWorld sv cl cmd) :=
  ((Keeps.refl_keeps π sv).modifyClient_keeps cl _ hπ).emit_keeps _

theorem getClient_SV_ClientEnterWorld (sv : ServerState) (cl : Nat) (cmd : usercmd_t)
    (hcl : cl < sv.svs_clients.length) :
    getClient (SV_ClientEnterWorld sv cl cmd) cl =
      { getClient sv cl with
        state := .CS_ACTIVE, gentity := some cl, deltaMessage := -1,
        nextSnapshotTime := sv.svs_time, lastUsercmd := cmd } := by
  simp [SV_ClientEnterWorld, getClient_modifyClient, hcl]

/-- On a settled state `SV_UserMove_apply` changes at most `deltaMessage` of the slot
and has no effect outside the server. -/
theorem SV_UserMove_apply_of_settled (E : Env) (hmp : E.SV_GameIsSinglePlayer = false)
    (sv : ServerState) (cl : Nat) (cmds : List usercmd_t) (h : Settled sv cl cmds) :
    SV_UserMove_apply E sv cl cmds = sv ∨
      SV_UserMove_apply E sv cl cmds = modifyClient sv cl (fun c => { c with deltaMessage := -1 }) := by
  unfold SV_UserMove_apply
  dsimp only
  rcases h with ⟨hp, ha, hg, hs⟩ | ⟨hp, ha, hg, hs⟩ | ⟨hd, hs1, hs2⟩ | ⟨hd, hs, hst⟩
  · left
    rw [if_pos ⟨hp, ha, hg⟩, if_neg hs]
  · left
    have h3 : (if (getClient sv cl).state = .CS_PRIMED then
        SV_ClientEnterWorld sv cl (cmds.headD usercmd_zero) else sv) = sv :=
      if_neg (by simp [hs])
    rw [if_neg (by simp [hg]), h3, if_pos ⟨hp, ha⟩]
    exact SV_DropClient_of_zombie E sv cl _ hs
  · right
    have h3 : (if (getClient sv cl).state = .CS_PRIMED then
        SV_ClientEnterWorld sv cl (cmds.headD usercmd_zero) else sv) = sv :=
      if_neg hs1
    rw [if_neg (fun h => hd ⟨h.1, h.2.1⟩), h3, if_neg hd, if_pos hs2]
  · left
    have h3 : (if (getClient sv cl).state = .CS_PRIMED then
        SV_ClientEnterWorld sv cl (cmds.headD usercmd_zero) else sv) = sv :=
      if_neg (by simp [hs])
    rw [if_neg (fun h => hd ⟨h.1, h.2.1⟩), h3, if_neg hd, if_neg (by simp [hs])]
    exact SV_UserMove_loop_stale E hmp _ cl cmds sv hst

/-- What `SV_UserMove_apply` leaves behind is settled. -/
theorem settled_SV_UserMove_apply (E : Env) (hmp : E.SV_GameIsSinglePlayer = false)
    (sv : ServerState) (cl : Nat) (cmds : List usercmd_t) (hcl : cl < sv.svs_clients.length) :
    Settled (SV_UserMove_apply E sv cl cmds) cl cmds := by
  unfold SV_UserMove_apply
  dsimp only
  by_cases hgate : sv.cvars.sv_pure ≠ 0 ∧ (getClient sv cl).pureAuthentic = 0
      ∧ (getClient sv cl).gotCP = false
  · rw [if_pos hgate]
    left
    by_cases hact : (getClient sv cl).state = .CS_ACTIVE
    · rw [if_pos hact]
      rw [getClient_SV_SendClientGameState sv cl hcl]
      exact ⟨hgate.1, rfl, rfl, by simp⟩
    · rw [if_neg hact]
      exact ⟨hgate.1, hgate.2.1, hgate.2.2, hact⟩
  · rw [if_neg hgate]
    generalize hsv3 : (if (getClient sv cl).state = .CS_PRIMED then
        SV_ClientEnterWorld sv cl (cmds.headD usercmd_zero) else sv) = sv3
    have hk : Keeps (fun c => (c.pureAuthentic, c.gotCP)) sv sv3 := by
      rw [← hsv3]
      exact Keeps.ite_keeps (keeps_SV_ClientEnterWorld _ sv cl _ (fun _ => rfl)) (Keeps.refl_keeps _ _)
    have hcl3 : cl < sv3.svs_clients.length := by rw [hk.1]; exact hcl
    have hpa : (getClient sv3 cl).pureAuthentic = (getClient sv cl).pureAuthentic :=
      congrArg Prod.fst (hk.2.2.2 cl)
    have hcp : (getClient sv3 cl).gotCP = (getClient sv cl).gotCP :=
      congrArg Prod.snd (hk.2.2.2 cl)
    have hnp : (getClient sv3 cl).state ≠ .CS_PRIMED := by
      rw [← hsv3]
      split
      · rw [getClient_SV_ClientEnterWorld sv cl _ hcl]
        simp
      · assumption
    by_cases hdrop : sv3.cvars.sv_pure ≠ 0 ∧ (getClient sv3 cl).pureAuthentic = 0
    · rw [if_pos hdrop]
      right; left
      have hd := SV_DropClient_clients E sv3 cl "Cannot validate pure client!"
      have h1 := congrArg client_t.pureAuthentic (hd.1.2.2.2 cl)
      have h2 := congrArg client_t.gotCP (hd.1.2.2.2 cl)
      dsimp only [dropView] at h1 h2
      refine ⟨by rw [hd.1.2.2.1]; exact hdrop.1, by rw [h1]; exact hdrop.2, ?_, hd.2 hcl3⟩
      rw [h2, hcp]
      by_contra hc
      apply hgate
      rw [hk.2.2.1] at hdrop
      exact ⟨hdrop.1, hpa ▸ hdrop.2, by simpa using hc⟩
    · rw [if_neg hdrop]
      by_cases hact : (getClient sv3 cl).state = .CS_ACTIVE
      · rw [if_neg (by simpa using hact)]
        right; right; right
        have hkl := keeps_SV_UserMove_loop E ((cmds.getLastD usercmd_zero).serverTime) cl cmds sv3
        have h1 := congrArg client_t.pureAuthentic (hkl.2.2.2 cl)
        have h2 := congrArg client_t.state (hkl.2.2.2 cl)
        dsimp only [thinkView] at h1 h2
        refine ⟨by rw [hkl.2.2.1, h1]; exact hdrop, by rw [h2]; exact hact, ?_⟩
        exact (SV_UserMove_loop_mono E hmp _ cl cmds sv3 hcl3).2
      · rw [if_pos hact]
        right; right; left
        rw [getClient_modifyClient_self _ _ _ hcl3]
        exact ⟨hdrop, hnp, hact⟩

theorem keeps_ack_SV_UserMove_apply (E : Env) (sv : ServerState) (cl : Nat)
    (cmds : List usercmd_t) :
    Keeps (fun c => (c.messageAcknowledge, c.messageAcked)) sv (SV_UserMove_apply E sv cl cmds) := by
  unfold SV_UserMove_apply
  dsimp only
  apply Keeps.ite_keeps
  · exact Keeps.ite_keeps (keeps_SV_SendClientGameState _ sv cl (fun _ => rfl)) (Keeps.refl_keeps _ _)
  · generalize hsv3 : (if (getClient sv cl).state = .CS_PRIMED then
        SV_ClientEnterWorld sv cl (cmds.headD usercmd_zero) else sv) = sv3
    have hk : Keeps (fun c => (c.messageAcknowledge, c.messageAcked)) sv sv3 := by
      rw [← hsv3]
      exact Keeps.ite_keeps (keeps_SV_ClientEnterWorld _ sv cl _ (fun _ => rfl)) (Keeps.refl_keeps _ _)
    apply Keeps.ite_keeps
    · exact hk.trans_keeps ((SV_DropClient_clients E sv3 cl _).1.map
        (fun c => (c.messageAcknowledge, c.messageAcked)))
    · apply Keeps.ite_keeps
      · exact hk.modifyClient_keeps _ _ (fun _ => rfl)
      · exact hk.trans_keeps ((keeps_SV_UserMove_loop E _ cl cmds sv3).map
          (fun c => (c.messageAcknowledge, c.messageAcked)))

theorem freshThink_of_isDropKind (e : Effect) (h : e.isDropKind = true) : e.freshThink := by
  cases e <;> simp_all [Effect.isDropKind, Effect.freshThink]

/-- In a multiplayer game every call of `SV_ClientThink` made by `SV_UserMove_apply`
passes a command newer than the one applied last. -/
theorem logExt_fresh_SV_UserMove_apply (E : Env) (hmp : E.SV_GameIsSinglePlayer = false)
    (sv : ServerState) (cl : Nat) (cmds : List usercmd_t) :
    LogExt (fun e => e.freshThink) sv (SV_UserMove_apply E sv cl cmds) := by
  unfold SV_UserMove_apply
  dsimp only
  apply LogExt.ite
  · apply LogExt.ite _ (LogExt.refl _ _)
    apply LogExt.emit ((LogExt.refl _ sv).modifyClient _ _)
    trivial
  · generalize hsv3 : (if (getClient sv cl).state = .CS_PRIMED then
        SV_ClientEnterWorld sv cl (cmds.headD usercmd_zero) else sv) = sv3
    have hk : LogExt (fun e => e.freshThink) sv sv3 := by
      rw [← hsv3]
      apply LogExt.ite _ (LogExt.refl _ _)
      apply LogExt.emit ((LogExt.refl _ sv).modifyClient _ _)
      trivial
    apply LogExt.ite
    · exact hk.trans ((logExt_SV_DropClient E sv3 cl _).mono freshThink_of_isDropKind)
    · apply LogExt.ite
      · exact hk.modifyClient _ _
      · exact hk.trans ((logExt_SV_UserMove_loop_fresh E hmp _ cl cmds sv3).mono (fun e h => h.2))


theorem Settled.of_keeps {x y : ServerState} {cl : Nat} {cmds : List usercmd_t}
    (h : Keeps moveView x y) (hs : Settled x cl cmds) : Settled y cl cmds := by
  have e1 := congrArg client_t.state (h.2.2.2 cl)
  have e2 := congrArg client_t.pureAuthentic (h.2.2.2 cl)
  have e3 := congrArg client_t.gotCP (h.2.2.2 cl)
  have e4 := congrArg client_t.lastUsercmd (h.2.2.2 cl)
  dsimp only [moveView] at e1 e2 e3 e4
  unfold Settled at *
  dsimp only at *
  rw [e1, e2, e3, e4, h.2.2.1]
  exact hs

theorem SV_UserMove_eq_bad (E : Env) (sv : ServerState) (cl : Nat) (delta : Bool)
    (cmds : List usercmd_t) (h : cmds.length < 1 ∨ cmds.length > E.MAX_PACKET_USERCMDS) :
    SV_UserMove E sv cl delta cmds =
      modifyClient sv cl (fun c =>
        { c with deltaMessage := if delta then c.messageAcknowledge else -1 }) := by
  unfold SV_UserMove
  dsimp only
  by_cases h0 : cmds.length < 1
  · rw [if_pos h0]
  · rw [if_neg h0, if_pos (by omega)]

theorem SV_UserMove_eq_good (E : Env) (sv : ServerState) (cl : Nat) (delta : Bool)
    (cmds : List usercmd_t) (h1 : 1 ≤ cmds.length) (h2 : cmds.length ≤ E.MAX_PACKET_USERCMDS) :
    SV_UserMove E sv cl delta cmds =
      SV_UserMove_apply E
        (modifyClient
          (modifyClient sv cl (fun c =>
            { c with deltaMessage := if delta then c.messageAcknowledge else -1 }))
          cl (fun c =>
            { c with messageAcked :=
                c.messageAcked.set (c.messageAcknowledge % (E.PACKET_BACKUP : Int)).toNat sv.svs_time }))
        cl cmds := by
  unfold SV_UserMove
  dsimp only
  rw [if_neg (by omega), if_neg (by omega)]
  rfl

theorem keeps_moveView_writes (sv : ServerState) (cl : Nat) (d : client_t → Int)
    (a : client_t → List Int) :
    Keeps moveView sv
      (modifyClient (modifyClient sv cl (fun c => { c with deltaMessage := d c })) cl
        (fun c => { c with messageAcked := a c })) := by
  apply Keeps.modifyClient_keeps
  · apply Keeps.modifyClient_keeps (Keeps.refl_keeps moveView sv)
    intro _
    rfl
  · intro _
    rfl


/-! ## Properties of `SV_UserMove` -/

theorem set_acked_idem (E : Env) (sv : ServerState) (cl : Nat)
    (x : ServerState) (c0 : client_t) (t : Int)
    (hx : (getClient x cl).messageAcknowledge = c0.messageAcknowledge)
    (ha : (getClient x cl).messageAcked =
      c0.messageAcked.set (c0.messageAcknowledge % (E.PACKET_BACKUP : Int)).toNat t)
    (hk : Keeps (fun c => (c.messageAcknowledge, c.messageAcked)) x sv) :
    (getClient sv cl).messageAcked.set
        ((getClient sv cl).messageAcknowledge % (E.PACKET_BACKUP : Int)).toNat t
      = (getClient sv cl).messageAcked := by
  have h1 : (getClient sv cl).messageAcknowledge = (getClient x cl).messageAcknowledge :=
    congrArg Prod.fst (hk.2.2.2 cl)
  have h2 : (getClient sv cl).messageAcked = (getClient x cl).messageAcked :=
    congrArg Prod.snd (hk.2.2.2 cl)
  rw [h1, h2, hx, ha, List.set_set]

/-- C4 (amended). In a multiplayer game `SV_UserMove` never passes to `SV_ClientThink`
a command whose `serverTime` does not exceed `cl->lastUsercmd.serverTime` at that
moment; processing the identical batch a second time calls `SV_ClientThink` for no
command and leaves the client record as the first pass left it, `deltaMessage` apart. -/
theorem SV_UserMove_multiplayer_no_stale_command (E : Env)
    (hmp : E.SV_GameIsSinglePlayer = false) (sv : ServerState) (cl : Nat) (delta : Bool)
    (cmds : List usercmd_t) (hcl : cl < sv.svs_clients.length) :
    LogExt (fun e => e.freshThink) sv (SV_UserMove E sv cl delta cmds) ∧
    LogExt (fun e => e.isThink = false) (SV_UserMove E sv cl delta cmds)
      (SV_UserMove E (SV_UserMove E sv cl delta cmds) cl delta cmds) ∧
    { getClient (SV_UserMove E (SV_UserMove E sv cl delta cmds) cl delta cmds) cl with
        deltaMessage := (getClient (SV_UserMove E sv cl delta cmds) cl).deltaMessage }
      = getClient (SV_UserMove E sv cl delta cmds) cl := by
  by_cases hbad : cmds.length < 1 ∨ cmds.length > E.MAX_PACKET_USERCMDS
  · rw [SV_UserMove_eq_bad E sv cl delta cmds hbad, SV_UserMove_eq_bad E _ cl delta cmds hbad]
    refine ⟨LogExt.of_eq rfl, LogExt.of_eq rfl, ?_⟩
    rw [getClient_modifyClient_self _ _ _ (by simpa using hcl),
      getClient_modifyClient_self _ _ _ hcl]
  · have h1 : 1 ≤ cmds.length := by omega
    have h2 : cmds.length ≤ E.MAX_PACKET_USERCMDS := by omega
    rw [SV_UserMove_eq_good E sv cl delta cmds h1 h2]
    generalize hw : (modifyClient
          (modifyClient sv cl (fun c =>
            { c with deltaMessage := if delta then c.messageAcknowledge else -1 }))
          cl (fun c =>
            { c with messageAcked :=
                c.messageAcked.set (c.messageAcknowledge % (E.PACKET_BACKUP : Int)).toNat sv.svs_time }))
      = w
    have hkw : Keeps moveView sv w := by
      rw [← hw]
      exact keeps_moveView_writes sv cl _ _
    have hclw : cl < w.svs_clients.length := by rw [hkw.1]; exact hcl
    have hwc : getClient w cl = { getClient sv cl with
        deltaMessage := if delta then (getClient sv cl).messageAcknowledge else -1
        messageAcked := (getClient sv cl).messageAcked.set
          ((getClient sv cl).messageAcknowledge % (E.PACKET_BACKUP : Int)).toNat sv.svs_time } := by
      rw [← hw]
      simp [getClient_modifyClient, hcl]
    generalize hr : SV_UserMove_apply E w cl cmds = r
    have hset : Settled r cl cmds := by
      rw [← hr]
      exact settled_SV_UserMove_apply E hmp w cl cmds hclw
    have hkr := keeps_ack_SV_UserMove_apply E w cl cmds
    rw [hr] at hkr
    have hclr : cl < r.svs_clients.length := by rw [hkr.1]; exact hclw
    rw [SV_UserMove_eq_good E r cl delta cmds h1 h2]
    have hfresh : LogExt (fun e => e.freshThink) sv r := by
      rw [← hr]
      exact (LogExt.of_eq (by rw [← hw]; rfl)).trans (logExt_fresh_SV_UserMove_apply E hmp w cl cmds)
    generalize hw2 : (modifyClient
          (modifyClient r cl (fun c =>
            { c with deltaMessage := if delta then c.messageAcknowledge else -1 }))
          cl (fun c =>
            { c with messageAcked :=
                c.messageAcked.set (c.messageAcknowledge % (E.PACKET_BACKUP : Int)).toNat r.svs_time }))
      = w2
    have hkw2 : Keeps moveView r w2 := by
      rw [← hw2]
      exact keeps_moveView_writes r cl _ _
    have hclw2 : cl < w2.svs_clients.length := by rw [hkw2.1]; exact hclr
    have hidem := set_acked_idem E r cl w (getClient sv cl) sv.svs_time
      (by rw [hwc]) (by rw [hwc]) hkr
    have hw2c : getClient w2 cl = { getClient r cl with
        deltaMessage := if delta then (getClient r cl).messageAcknowledge else -1 } := by
      rw [← hw2]
      rw [getClient_modifyClient_self _ _ _ (by simpa using hclr),
        getClient_modifyClient_self _ _ _ hclr]
      have ht : r.svs_time = sv.svs_time := by rw [hkr.2.1, hkw.2.1]
      dsimp only
      rw [ht, hidem]
    have hlogw2 : w2.log = r.log := by rw [← hw2]; rfl
    refine ⟨hfresh, ?_, ?_⟩
    · rcases SV_UserMove_apply_of_settled E hmp w2 cl cmds (hset.of_keeps hkw2) with h | h
      · rw [h]; exact LogExt.of_eq hlogw2
      · rw [h]; exact LogExt.of_eq hlogw2
    · rcases SV_UserMove_apply_of_settled E hmp w2 cl cmds (hset.of_keeps hkw2) with h | h
      · rw [h, hw2c]
      · rw [h, getClient_modifyClient_self _ _ _ hclw2, hw2c]


theorem not_isBegin_of_isThinkKind (e : Effect) (h : e.isThinkKind = true) : e.isBegin = false := by
  cases e <;> simp_all [Effect.isThinkKind, Effect.isBegin]
  rename_i entry _
  cases entry <;> simp_all

theorem not_isBegin_of_isDropKind (e : Effect) (h : e.isDropKind = true) : e.isBegin = false := by
  cases e <;> simp_all [Effect.isDropKind, Effect.isBegin]
  rename_i entry _
  cases entry <;> simp_all

theorem not_isThink_of_isDropKind (e : Effect) (h : e.isDropKind = true) : e.isThink = false := by
  cases e <;> simp_all [Effect.isDropKind, Effect.isThink]

/-- The state after the two writes of `SV_UserMove` that precede the pure gate. -/
theorem getClient_writes (E : Env) (sv : ServerState) (cl : Nat) (delta : Bool)
    (hcl : cl < sv.svs_clients.length) :
    getClient (modifyClient
          (modifyClient sv cl (fun c =>
            { c with deltaMessage := if delta then c.messageAcknowledge else -1 }))
          cl (fun c =>
            { c with messageAcked :=
                c.messageAcked.set (c.messageAcknowledge % (E.PACKET_BACKUP : Int)).toNat sv.svs_time }))
        cl =
      { getClient sv cl with
        deltaMessage := if delta then (getClient sv cl).messageAcknowledge else -1
        messageAcked := (getClient sv cl).messageAcked.set
          ((getClient sv cl).messageAcknowledge % (E.PACKET_BACKUP : Int)).toNat sv.svs_time } := by
  simp [getClient_modifyClient, hcl]

theorem SV_UserMove_apply_primed (E : Env) (x : ServerState) (cl : Nat) (cmds : List usercmd_t)
    (hcl : cl < x.svs_clients.length) (hst : (getClient x cl).state = .CS_PRIMED)
    (hgate : x.cvars.sv_pure = 0 ∨ (getClient x cl).pureAuthentic ≠ 0) :
    SV_UserMove_apply E x cl cmds =
      SV_UserMove_loop E ((cmds.getLastD usercmd_zero).serverTime) cl
        (SV_ClientEnterWorld x cl (cmds.headD usercmd_zero)) cmds := by
  unfold SV_UserMove_apply
  dsimp only
  have h3 : (if (getClient x cl).state = .CS_PRIMED then
      SV_ClientEnterWorld x cl (cmds.headD usercmd_zero) else x)
      = SV_ClientEnterWorld x cl (cmds.headD usercmd_zero) := if_pos hst
  have hc3 := getClient_SV_ClientEnterWorld x cl (cmds.headD usercmd_zero) hcl
  have hnd : ¬ (x.cvars.sv_pure ≠ 0 ∧ (getClient x cl).pureAuthentic = 0) := by
    rcases hgate with h | h <;> simp [h]
  have hpa3 : (getClient (SV_ClientEnterWorld x cl (cmds.headD usercmd_zero)) cl).pureAuthentic
      = (getClient x cl).pureAuthentic := by rw [hc3]
  have hs3 : (getClient (SV_ClientEnterWorld x cl (cmds.headD usercmd_zero)) cl).state
      = .CS_ACTIVE := by rw [hc3]
  have hcv3 : (SV_ClientEnterWorld x cl (cmds.headD usercmd_zero)).cvars = x.cvars := rfl
  rw [if_neg (fun h => hnd ⟨h.1, h.2.1⟩), h3, if_neg (by rw [hcv3, hpa3]; exact hnd),
    if_neg (by rw [hs3]; simp)]

theorem SV_UserMove_apply_notPrimed_noBegin (E : Env) (x : ServerState) (cl : Nat)
    (cmds : List usercmd_t) (hst : (getClient x cl).state ≠ .CS_PRIMED) :
    LogExt (fun e => e.isBegin = false) x (SV_UserMove_apply E x cl cmds) := by
  unfold SV_UserMove_apply
  dsimp only
  have h3 : (if (getClient x cl).state = .CS_PRIMED then
      SV_ClientEnterWorld x cl (cmds.headD usercmd_zero) else x) = x := if_neg hst
  rw [h3]
  apply LogExt.ite
  · apply LogExt.ite _ (LogExt.refl _ _)
    apply LogExt.emit ((LogExt.refl _ x).modifyClient _ _)
    rfl
  · apply LogExt.ite
    · exact (logExt_SV_DropClient E x cl _).mono not_isBegin_of_isDropKind
    · apply LogExt.ite
      · exact (LogExt.refl _ x).modifyClient _ _
      · exact (logExt_SV_UserMove_loop E _ cl cmds x).mono not_isBegin_of_isThinkKind

/-- C5. A primed client that passes the pure gate is made active by its first batch
of 1 to `MAX_PACKET_USERCMDS` commands, and the game's client-begin is called exactly
once, as the first effect of the call, hence before any command is passed to
`SV_ClientThink`; for a client that is already active client-begin is not called. -/
theorem SV_UserMove_enters_world_once (E : Env) (sv : ServerState) (cl : Nat) (delta : Bool)
    (cmds : List usercmd_t) :
    (cl < sv.svs_clients.length ∧ (getClient sv cl).state = .CS_PRIMED ∧
        (sv.cvars.sv_pure = 0 ∨ (getClient sv cl).pureAuthentic ≠ 0) ∧
        1 ≤ cmds.length ∧ cmds.length ≤ E.MAX_PACKET_USERCMDS →
      (getClient (SV_UserMove E sv cl delta cmds) cl).state = .CS_ACTIVE ∧
      ∃ rest, (SV_UserMove E sv cl delta cmds).log
          = sv.log ++ Effect.VM_Call .GAME_CLIENT_BEGIN cl :: rest ∧
        ∀ e ∈ rest, e.isThinkKind = true ∧ e.isBegin = false) ∧
    ((getClient sv cl).state = .CS_ACTIVE →
      LogExt (fun e => e.isBegin = false) sv (SV_UserMove E sv cl delta cmds)) := by
  constructor
  · rintro ⟨hcl, hst, hgate, h1, h2⟩
    rw [SV_UserMove_eq_good E sv cl delta cmds h1 h2]
    have hwc := getClient_writes E sv cl delta hcl
    generalize hw : (modifyClient
          (modifyClient sv cl (fun c =>
            { c with deltaMessage := if delta then c.messageAcknowledge else -1 }))
          cl (fun c =>
            { c with messageAcked :=
                c.messageAcked.set (c.messageAcknowledge % (E.PACKET_BACKUP : Int)).toNat sv.svs_time }))
      = w at hwc
    have hclw : cl < w.svs_clients.length := by rw [← hw]; simpa using hcl
    have hlw : w.log = sv.log := by rw [← hw]; rfl
    have hcw : w.cvars = sv.cvars := by rw [← hw]; rfl
    rw [SV_UserMove_apply_primed E w cl cmds hclw (by rw [hwc]; exact hst)
      (by rw [hcw, hwc]; exact hgate)]
    have hk := keeps_SV_UserMove_loop E ((cmds.getLastD usercmd_zero).serverTime) cl cmds
      (SV_ClientEnterWorld w cl (cmds.headD usercmd_zero))
    have hs := congrArg client_t.state (hk.2.2.2 cl)
    dsimp only [thinkView] at hs
    refine ⟨by rw [hs, getClient_SV_ClientEnterWorld w cl _ hclw], ?_⟩
    obtain ⟨new, hnew, hall⟩ := logExt_SV_UserMove_loop E ((cmds.getLastD usercmd_zero).serverTime)
      cl cmds (SV_ClientEnterWorld w cl (cmds.headD usercmd_zero))
    refine ⟨new, ?_, fun e he => ⟨hall e he, not_isBegin_of_isThinkKind e (hall e he)⟩⟩
    rw [hnew]
    simp [SV_ClientEnterWorld, hlw]
  · intro hst
    have hcl : cl < sv.svs_clients.length := by
      by_contra hc
      have : getClient sv cl = client_zero 0 0 0 := by
        simp [getClient, List.getElem?_eq_none (Nat.le_of_not_lt hc)]
      rw [this] at hst
      simp [client_zero] at hst
    by_cases hbad : cmds.length < 1 ∨ cmds.length > E.MAX_PACKET_USERCMDS
    · rw [SV_UserMove_eq_bad E sv cl delta cmds hbad]
      exact LogExt.of_eq rfl
    · rw [SV_UserMove_eq_good E sv cl delta cmds (by omega) (by omega)]
      have hwc := getClient_writes E sv cl delta hcl
      generalize hw : (modifyClient
            (modifyClient sv cl (fun c =>
              { c with deltaMessage := if delta then c.messageAcknowledge else -1 }))
            cl (fun c =>
              { c with messageAcked :=
                  c.messageAcked.set (c.messageAcknowledge % (E.PACKET_BACKUP : Int)).toNat sv.svs_time }))
        = w at hwc
      have hlw : w.log = sv.log := by rw [← hw]; rfl
      exact (LogExt.of_eq hlw).trans
        (SV_UserMove_apply_notPrimed_noBegin E w cl cmds (by rw [hwc]; simp [hst]))


theorem SV_UserMove_apply_unpure_noCP (E : Env) (x : ServerState) (cl : Nat) (cmds : List usercmd_t)
    (hp : x.cvars.sv_pure ≠ 0) (ha : (getClient x cl).pureAuthentic = 0)
    (hg : (getClient x cl).gotCP = false) :
    SV_UserMove_apply E x cl cmds =
      if (getClient x cl).state = .CS_ACTIVE then SV_SendClientGameState x cl else x := by
  unfold SV_UserMove_apply
  dsimp only
  rw [if_pos ⟨hp, ha, hg⟩]

theorem SV_UserMove_apply_unpure_CP (E : Env) (x : ServerState) (cl : Nat) (cmds : List usercmd_t)
    (hp : x.cvars.sv_pure ≠ 0) (ha : (getClient x cl).pureAuthentic = 0)
    (hg : (getClient x cl).gotCP = true) :
    SV_UserMove_apply E x cl cmds =
      SV_DropClient E
        (if (getClient x cl).state = .CS_PRIMED then
          SV_ClientEnterWorld x cl (cmds.headD usercmd_zero) else x)
        cl "Cannot validate pure client!" := by
  unfold SV_UserMove_apply
  dsimp only
  rw [if_neg (by simp [hg])]
  generalize hsv3 : (if (getClient x cl).state = .CS_PRIMED then
      SV_ClientEnterWorld x cl (cmds.headD usercmd_zero) else x) = sv3
  have hk : Keeps (fun c => c.pureAuthentic) x sv3 := by
    rw [← hsv3]
    exact Keeps.ite_keeps (keeps_SV_ClientEnterWorld _ x cl _ (fun _ => rfl)) (Keeps.refl_keeps _ _)
  rw [if_pos ⟨by rw [hk.2.2.1]; exact hp, (hk.2.2.2 cl).trans ha⟩]

/-- C6 (amended). On a pure server a client that has not passed pure validation is
not let through by a batch of 1 to `MAX_PACKET_USERCMDS` commands: `SV_ClientThink`
is not called and the client does not end the call active. When no `cp` report has
been received client-begin is not called either, and an active client is sent the
gamestate again and ends primed. -/
theorem SV_UserMove_unpure_client_held (E : Env) (sv : ServerState) (cl : Nat) (delta : Bool)
    (cmds : List usercmd_t) (hcl : cl < sv.svs_clients.length)
    (hpure : sv.cvars.sv_pure ≠ 0) (hpa : (getClient sv cl).pureAuthentic = 0)
    (h1 : 1 ≤ cmds.length) (h2 : cmds.length ≤ E.MAX_PACKET_USERCMDS) :
    LogExt (fun e => e.isThink = false) sv (SV_UserMove E sv cl delta cmds) ∧
    (getClient (SV_UserMove E sv cl delta cmds) cl).state ≠ .CS_ACTIVE ∧
    ((getClient sv cl).gotCP = false →
      LogExt (fun e => e.isBegin = false) sv (SV_UserMove E sv cl delta cmds) ∧
      ((getClient sv cl).state = .CS_ACTIVE →
        (getClient (SV_UserMove E sv cl delta cmds) cl).state = .CS_PRIMED ∧
        (SV_UserMove E sv cl delta cmds).log = sv.log ++ [Effect.SV_SendMessageToClient cl])) := by
  rw [SV_UserMove_eq_good E sv cl delta cmds h1 h2]
  have hwc := getClient_writes E sv cl delta hcl
  generalize hw : (modifyClient
        (modifyClient sv cl (fun c =>
          { c with deltaMessage := if delta then c.messageAcknowledge else -1 }))
        cl (fun c =>
          { c with messageAcked :=
              c.messageAcked.set (c.messageAcknowledge % (E.PACKET_BACKUP : Int)).toNat sv.svs_time }))
    = w at hwc
  have hclw : cl < w.svs_clients.length := by rw [← hw]; simpa using hcl
  have hlw : w.log = sv.log := by rw [← hw]; rfl
  have hcw : w.cvars = sv.cvars := by rw [← hw]; rfl
  have hpw : w.cvars.sv_pure ≠ 0 := by rw [hcw]; exact hpure
  have haw : (getClient w cl).pureAuthentic = 0 := by rw [hwc]; exact hpa
  have hgw : (getClient w cl).gotCP = (getClient sv cl).gotCP := by rw [hwc]
  have hsw : (getClient w cl).state = (getClient sv cl).state := by rw [hwc]
  by_cases hg : (getClient sv cl).gotCP = false
  · rw [SV_UserMove_apply_unpure_noCP E w cl cmds hpw haw (by rw [hgw]; exact hg)]
    by_cases hact : (getClient sv cl).state = .CS_ACTIVE
    · rw [if_pos (by rw [hsw]; exact hact)]
      have hst : (getClient (SV_SendClientGameState w cl) cl).state = .CS_PRIMED := by
        rw [getClient_SV_SendClientGameState w cl hclw]
      have hlog : (SV_SendClientGameState w cl).log = sv.log ++ [Effect.SV_SendMessageToClient cl] := by
        simp [SV_SendClientGameState, hlw]
      refine ⟨⟨_, hlog, by simp [Effect.isThink]⟩, by rw [hst]; simp, fun _ =>
        ⟨⟨_, hlog, by simp [Effect.isBegin]⟩, fun _ => ⟨hst, hlog⟩⟩⟩
    · rw [if_neg (by rw [hsw]; exact hact)]
      exact ⟨LogExt.of_eq hlw, by rw [hsw]; exact hact, fun _ =>
        ⟨LogExt.of_eq hlw, fun h => absurd h hact⟩⟩
  · have hg' : (getClient sv cl).gotCP = true := by simpa using hg
    rw [SV_UserMove_apply_unpure_CP E w cl cmds hpw haw (by rw [hgw]; exact hg')]
    generalize hsv3 : (if (getClient w cl).state = .CS_PRIMED then
        SV_ClientEnterWorld w cl (cmds.headD usercmd_zero) else w) = sv3
    have hk : Keeps (fun c => c.pureAuthentic) w sv3 := by
      rw [← hsv3]
      exact Keeps.ite_keeps (keeps_SV_ClientEnterWorld _ w cl _ (fun _ => rfl)) (Keeps.refl_keeps _ _)
    have hl3 : LogExt (fun e => e.isThink = false) sv sv3 := by
      rw [← hsv3]
      apply LogExt.ite _ (LogExt.of_eq hlw)
      apply LogExt.emit ((LogExt.of_eq hlw).modifyClient _ _)
      rfl
    have hd := SV_DropClient_clients E sv3 cl "Cannot validate pure client!"
    refine ⟨hl3.trans ((logExt_SV_DropClient E sv3 cl _).mono not_isThink_of_isDropKind), ?_,
      fun h => absurd h hg⟩
    rw [hd.2 (by rw [hk.1]; exact hclw)]
    simp


/-- C4, counterexample. In a single-player game the command with `serverTime` 50 is
passed to `SV_ClientThink` although the command applied last has `serverTime` 100;
and in a multiplayer game a primed client is left with `deltaMessage` -1 by the first
pass of a delta batch and with `deltaMessage` 7 by the second pass of the same batch. -/
theorem SV_UserMove_stale_command_counterexample :
    (envSP.SV_GameIsSinglePlayer = true ∧
      (getClient (server1 cvars0 clientActive) 0).lastUsercmd.serverTime = 100 ∧
      (SV_UserMove envSP (server1 cvars0 clientActive) 0 true [cmdAt 50]).log =
        [.call_SV_ClientThink 0 (cmdAt 50) 100, .VM_Call .GAME_CLIENT_THINK 0]) ∧
    ((getClient (SV_UserMove env0 (server1 cvars0 clientPrimed) 0 true [cmdAt 150]) 0).deltaMessage
        = -1 ∧
      (getClient (SV_UserMove env0
        (SV_UserMove env0 (server1 cvars0 clientPrimed) 0 true [cmdAt 150]) 0 true [cmdAt 150])
        0).deltaMessage = 7) := by
  decide

/-- C4 (amended), witness: a multiplayer server with one active client and a batch of
two commands. -/
theorem SV_UserMove_multiplayer_no_stale_command_witness :
    env0.SV_GameIsSinglePlayer = false ∧ 0 < (server1 cvars0 clientActive).svs_clients.length ∧
    (LogExt (fun e => e.freshThink) (server1 cvars0 clientActive)
        (SV_UserMove env0 (server1 cvars0 clientActive) 0 true [cmdAt 50, cmdAt 150]) ∧
      LogExt (fun e => e.isThink = false)
        (SV_UserMove env0 (server1 cvars0 clientActive) 0 true [cmdAt 50, cmdAt 150])
        (SV_UserMove env0 (SV_UserMove env0 (server1 cvars0 clientActive) 0 true [cmdAt 50, cmdAt 150])
          0 true [cmdAt 50, cmdAt 150]) ∧
      { getClient (SV_UserMove env0
            (SV_UserMove env0 (server1 cvars0 clientActive) 0 true [cmdAt 50, cmdAt 150])
            0 true [cmdAt 50, cmdAt 150]) 0 with
          deltaMessage := (getClient
            (SV_UserMove env0 (server1 cvars0 clientActive) 0 true [cmdAt 50, cmdAt 150]) 0).deltaMessage }
        = getClient (SV_UserMove env0 (server1 cvars0 clientActive) 0 true [cmdAt 50, cmdAt 150]) 0) :=
  ⟨rfl, by decide,
    SV_UserMove_multiplayer_no_stale_command env0 rfl (server1 cvars0 clientActive) 0 true
      [cmdAt 50, cmdAt 150] (by decide)⟩

/-- C5, witness: a primed client on a server that is not pure, and an active one. -/
theorem SV_UserMove_enters_world_once_witness :
    ((0 < (server1 cvars0 clientPrimed).svs_clients.length ∧
        (getClient (server1 cvars0 clientPrimed) 0).state = .CS_PRIMED ∧
        ((server1 cvars0 clientPrimed).cvars.sv_pure = 0 ∨
          (getClient (server1 cvars0 clientPrimed) 0).pureAuthentic ≠ 0) ∧
        1 ≤ [cmdAt 150, cmdAt 160].length ∧ [cmdAt 150, cmdAt 160].length ≤ env0.MAX_PACKET_USERCMDS) ∧
      (getClient (SV_UserMove env0 (server1 cvars0 clientPrimed) 0 true [cmdAt 150, cmdAt 160]) 0).state
        = .CS_ACTIVE ∧
      ∃ rest, (SV_UserMove env0 (server1 cvars0 clientPrimed) 0 true [cmdAt 150, cmdAt 160]).log
          = (server1 cvars0 clientPrimed).log ++ Effect.VM_Call .GAME_CLIENT_BEGIN 0 :: rest ∧
        ∀ e ∈ rest, e.isThinkKind = true ∧ e.isBegin = false) ∧
    ((getClient (server1 cvars0 clientActive) 0).state = .CS_ACTIVE ∧
      LogExt (fun e => e.isBegin = false) (server1 cvars0 clientActive)
        (SV_UserMove env0 (server1 cvars0 clientActive) 0 true [cmdAt 150])) :=
  ⟨⟨by decide,
      (SV_UserMove_enters_world_once env0 (server1 cvars0 clientPrimed) 0 true
        [cmdAt 150, cmdAt 160]).1 (by decide)⟩,
    by decide,
    (SV_UserMove_enters_world_once env0 (server1 cvars0 clientActive) 0 true [cmdAt 150]).2
      (by decide)⟩

/-- C6, counterexample. On a pure server an active client that has sent no `cp`
report stays active when the batch is empty, and no gamestate is sent; and a primed
client whose `cp` report failed has client-begin called before it is dropped. -/
theorem SV_UserMove_unpure_client_counterexample :
    ((server1 cvarsPure clientActive).cvars.sv_pure ≠ 0 ∧
      (getClient (server1 cvarsPure clientActive) 0).pureAuthentic = 0 ∧
      (getClient (server1 cvarsPure clientActive) 0).gotCP = false ∧
      (getClient (SV_UserMove env0 (server1 cvarsPure clientActive) 0 true []) 0).state = .CS_ACTIVE ∧
      (SV_UserMove env0 (server1 cvarsPure clientActive) 0 true []).log = []) ∧
    ((getClient (server1 cvarsPure clientPrimedBadCP) 0).pureAuthentic = 0 ∧
      (SV_UserMove env0 (server1 cvarsPure clientPrimedBadCP) 0 true [cmdAt 150]).log.head?
        = some (.VM_Call .GAME_CLIENT_BEGIN 0)) := by
  decide

/-- C6 (amended), witness: an active client without `cp` report on a pure server. -/
theorem SV_UserMove_unpure_client_held_witness :
    (0 < (server1 cvarsPure clientActive).svs_clients.length ∧
      (server1 cvarsPure clientActive).cvars.sv_pure ≠ 0 ∧
      (getClient (server1 cvarsPure clientActive) 0).pureAuthentic = 0 ∧
      1 ≤ [cmdAt 150].length ∧ [cmdAt 150].length ≤ env0.MAX_PACKET_USERCMDS ∧
      (getClient (server1 cvarsPure clientActive) 0).gotCP = false ∧
      (getClient (server1 cvarsPure clientActive) 0).state = .CS_ACTIVE) ∧
    LogExt (fun e => e.isThink = false) (server1 cvarsPure clientActive)
      (SV_UserMove env0 (server1 cvarsPure clientActive) 0 true [cmdAt 150]) ∧
    (getClient (SV_UserMove env0 (server1 cvarsPure clientActive) 0 true [cmdAt 150]) 0).state
      ≠ .CS_ACTIVE ∧
    LogExt (fun e => e.isBegin = false) (server1 cvarsPure clientActive)
      (SV_UserMove env0 (server1 cvarsPure clientActive) 0 true [cmdAt 150]) ∧
    (getClient (SV_UserMove env0 (server1 cvarsPure clientActive) 0 true [cmdAt 150]) 0).state
      = .CS_PRIMED ∧
    (SV_UserMove env0 (server1 cvarsPure clientActive) 0 true [cmdAt 150]).log
      = (server1 cvarsPure clientActive).log ++ [Effect.SV_SendMessageToClient 0] :=
  ⟨by decide,
    (SV_UserMove_unpure_client_held env0 (server1 cvarsPure clientActive) 0 true [cmdAt 150]
      (by decide) (by decide) (by decide) (by decide) (by decide)).1,
    (SV_UserMove_unpure_client_held env0 (server1 cvarsPure clientActive) 0 true [cmdAt 150]
      (by decide) (by decide) (by decide) (by decide) (by decide)).2.1,
    ((SV_UserMove_unpure_client_held env0 (server1 cvarsPure clientActive) 0 true [cmdAt 150]
      (by decide) (by decide) (by decide) (by decide) (by decide)).2.2 (by decide)).1,
    ((SV_UserMove_unpure_client_held env0 (server1 cvarsPure clientActive) 0 true [cmdAt 150]
      (by decide) (by decide) (by decide) (by decide) (by decide)).2.2 (by decide)).2 (by decide)⟩


/-! ## Pure validation -/

theorem hasEqualPair_iff (paks : List Int) : hasEqualPair paks = true ↔ ¬ paks.Nodup := by
  unfold hasEqualPair
  rw [List.nodup_iff_injective_getElem]
  simp only [List.any_eq_true, List.mem_range, Bool.and_eq_true, bne_iff_ne, beq_iff_eq,
    Function.Injective, not_forall]
  constructor
  · rintro ⟨i, hi, j, hj, hne, heq⟩
    refine ⟨⟨i, hi⟩, ⟨j, hj⟩, ?_, fun h => hne (Fin.val_eq_of_eq h)⟩
    simpa [List.getD_eq_getElem?_getD, List.getElem?_eq_getElem hi, List.getElem?_eq_getElem hj]
      using heq
  · rintro ⟨⟨i, hi⟩, ⟨j, hj⟩, heq, hne⟩
    refine ⟨i, hi, j, hj, fun h => hne (Fin.ext h), ?_⟩
    simpa [List.getD_eq_getElem?_getD, List.getElem?_eq_getElem hi, List.getElem?_eq_getElem hj]
      using heq

theorem all_any_iff (paks server : List Int) :
    paks.all (fun p => server.any (fun q => p == q)) = true ↔ ∀ p ∈ paks, p ∈ server := by
  simp [List.all_eq_true, List.any_eq_true]

theorem getD_stored (vals old : List Int) (h : vals ≠ []) :
    (vals ++ old.drop vals.length).getD (vals.length - 1) 0 = vals.getLastD 0 := by
  have hl : vals.length - 1 < vals.length := by
    have := List.length_pos.2 h
    omega
  rw [List.getD_eq_getElem?_getD, List.getElem?_append_left hl, List.getElem?_eq_getElem hl]
  rw [List.getLastD_eq_getLast?, List.getLast?_eq_getElem?]
  simp [List.getElem?_eq_getElem hl]

/-- The checks of the source accept a report exactly when it is valid in the words of
the specification. -/
theorem verifyPaks_bGood_iff (E : Env) (feed : Int) (args : List String) (old : List Int) :
    (verifyPaks_bGood E feed args old).1 = true ↔ cpReportValid E feed args := by
  unfold verifyPaks_bGood cpReportValid
  dsimp only
  cases hc : E.FS_FileIsInPAK_cgame with
  | none => simp
  | some c1 =>
    cases hu : E.FS_FileIsInPAK_ui with
    | none => simp
    | some c2 =>
      simp only [Option.isSome_some, Bool.and_self, if_true, Option.getD_some, Option.some.injEq]
      unfold verifyPaksChecks Cmd_Argc
      by_cases h6 : (args.length : Int) < 6
      · rw [if_pos h6]
        simp only [Bool.false_eq_true, false_iff, not_and]
        intro h
        omega
      rw [if_neg h6]
      have h6' : 6 ≤ args.length := by omega
      by_cases h2 : startsWithAt (Cmd_Argv args 2) = true ∨ atoi (Cmd_Argv args 2) ≠ c1
      · rw [if_pos h2]
        simp only [Bool.false_eq_true, false_iff]
        rintro ⟨_, ⟨ha, hb⟩, _⟩
        rcases h2 with h | h
        · simp [ha] at h
        · exact h hb.symm
      rw [if_neg h2]
      by_cases h3 : startsWithAt (Cmd_Argv args 3) = true ∨ atoi (Cmd_Argv args 3) ≠ c2
      · rw [if_pos h3]
        simp only [Bool.false_eq_true, false_iff]
        rintro ⟨_, _, ⟨ha, hb⟩, _⟩
        rcases h3 with h | h
        · simp [ha] at h
        · exact h hb.symm
      rw [if_neg h3]
      by_cases h4 : (!startsWithAt (Cmd_Argv args 4)) = true
      · rw [if_pos h4]
        simp only [Bool.false_eq_true, false_iff]
        rintro ⟨_, _, _, ha, _⟩
        simp [ha] at h4
      rw [if_neg h4]
      dsimp only
      have hv : (List.map atoi (List.drop 5 args)) ≠ [] := by
        intro h
        have := congrArg List.length h
        simp at this
        omega
      have htake : List.take ((List.map atoi (List.drop 5 args)).length - 1)
          (List.map atoi (List.drop 5 args)) = cpTrailing args := by
        unfold cpTrailing
        rw [List.dropLast_eq_take]
      rw [htake]
      have hbase : 6 ≤ args.length ∧
          (startsWithAt (Cmd_Argv args 2) = false ∧ c1 = atoi (Cmd_Argv args 2)) ∧
          (startsWithAt (Cmd_Argv args 3) = false ∧ c2 = atoi (Cmd_Argv args 3)) ∧
          startsWithAt (Cmd_Argv args 4) = true := by
        refine ⟨h6', ⟨?_, ?_⟩, ⟨?_, ?_⟩, ?_⟩
        · simpa using fun h => h2 (Or.inl h)
        · by_contra h; exact h2 (Or.inr (fun e => h e.symm))
        · simpa using fun h => h3 (Or.inl h)
        · by_contra h; exact h3 (Or.inr (fun e => h e.symm))
        · simpa using h4
      by_cases hdup : hasEqualPair (cpTrailing args) = true
      · rw [if_pos hdup]
        simp only [Bool.false_eq_true, false_iff]
        rintro ⟨_, _, _, _, hn, _⟩
        exact (hasEqualPair_iff _).1 hdup hn
      rw [if_neg hdup]
      have hnd : (cpTrailing args).Nodup := by
        by_contra h
        exact hdup ((hasEqualPair_iff _).2 h)
      by_cases hmem : (!(cpTrailing args).all (fun p => (nServerChkSum E).any (fun q => p == q))) = true
      · rw [if_pos hmem]
        simp only [Bool.false_eq_true, false_iff]
        rintro ⟨_, _, _, _, _, hm, _⟩
        have := (all_any_iff _ _).2 hm
        simp [this] at hmem
      rw [if_neg hmem]
      have hm : ∀ p ∈ cpTrailing args, p ∈ nServerChkSum E := by
        apply (all_any_iff _ _).1
        simpa using hmem
      rw [getD_stored _ _ hv]
      simp only [decide_eq_true_eq]
      constructor
      · intro h
        exact ⟨hbase.1, hbase.2.1, hbase.2.2.1, hbase.2.2.2, hnd, hm, h.symm⟩
      · rintro ⟨_, _, _, _, _, _, h⟩
        exact h.symm


/-- What `SV_VerifyPaks_f` does with a report that is not outdated, by the three
outcomes of the checks and the policy. -/
theorem SV_VerifyPaks_f_outcome (E : Env) (sv : ServerState) (cl : Nat) (args : List String)
    (hcl : cl < sv.svs_clients.length) (hpure : sv.cvars.sv_pure ≠ 0)
    (hsid : ¬ atoi (Cmd_Argv args 1) < sv.sv_checksumFeedServerId) :
    (cpReportValid E sv.sv_checksumFeed args →
      (getClient (SV_VerifyPaks_f E sv cl args) cl).pureAuthentic = 1 ∧
      (getClient (SV_VerifyPaks_f E sv cl args) cl).gotCP = true ∧
      (getClient (SV_VerifyPaks_f E sv cl args) cl).state = (getClient sv cl).state ∧
      (SV_VerifyPaks_f E sv cl args).log = sv.log) ∧
    (¬ cpReportValid E sv.sv_checksumFeed args → sv.cvars.sv_allowUnpureClients ≠ 0 →
      (getClient (SV_VerifyPaks_f E sv cl args) cl).pureAuthentic = 1 ∧
      (getClient (SV_VerifyPaks_f E sv cl args) cl).gotCP = true ∧
      (tableRoom E sv 1 →
        (getClient (SV_VerifyPaks_f E sv cl args) cl).state = (getClient sv cl).state ∧
        (SV_VerifyPaks_f E sv cl args).log = sv.log ++
          [Effect.SV_SendServerCommand none
            ("cpm \"" ++ ("Unpure client detected: " ++ (getClient sv cl).name ++
              "^7 has invalid .PK3 files referenced!") ++ "\n\"")])) ∧
    (¬ cpReportValid E sv.sv_checksumFeed args → sv.cvars.sv_allowUnpureClients = 0 →
      (getClient (SV_VerifyPaks_f E sv cl args) cl).pureAuthentic = 0 ∧
      (getClient (SV_VerifyPaks_f E sv cl args) cl).gotCP = true ∧
      (getClient (SV_VerifyPaks_f E sv cl args) cl).state = .CS_ZOMBIE) := by
  unfold SV_VerifyPaks_f
  rw [if_neg hpure]
  dsimp only
  rw [if_neg hsid]
  generalize hr : verifyPaks_bGood E sv.sv_checksumFeed args
      (getClient (modifyClient sv cl (fun c => { c with numPaks := Cmd_Argc args })) cl).pakChecksums
    = r
  have hiff := verifyPaks_bGood_iff E sv.sv_checksumFeed args
      (getClient (modifyClient sv cl (fun c => { c with numPaks := Cmd_Argc args })) cl).pakChecksums
  rw [hr] at hiff
  generalize hsv2 : modifyClient (modifyClient sv cl (fun c => { c with numPaks := Cmd_Argc args })) cl
      (fun c => { c with pakChecksums := r.2, gotCP := true }) = sv2
  have hc2 : getClient sv2 cl = { getClient sv cl with
      numPaks := Cmd_Argc args, pakChecksums := r.2, gotCP := true } := by
    rw [← hsv2]
    simp [getClient_modifyClient, hcl]
  have hl2 : cl < sv2.svs_clients.length := by rw [← hsv2]; simpa using hcl
  have hlog2 : sv2.log = sv.log := by rw [← hsv2]; rfl
  have hcv2 : sv2.cvars = sv.cvars := by rw [← hsv2]; rfl
  refine ⟨fun hv => ?_, fun hv ha => ?_, fun hv ha => ?_⟩
  · rw [if_pos (hiff.2 hv), getClient_modifyClient_self _ _ _ hl2, hc2]
    exact ⟨rfl, rfl, rfl, hlog2⟩
  · rw [if_neg (fun h => hv (hiff.1 h)), if_pos ha]
    have hk : Keeps client_t.gotCP sv2
        (SV_SendServerCommand E sv2 none ("cpm \"" ++ ("Unpure client detected: " ++
          (getClient sv2 cl).name ++ "^7 has invalid .PK3 files referenced!") ++ "\n\"")) :=
      (Keeps.refl_keeps _ sv2).sendServerCommand_keeps E none _
        (fun f hf c => congrArg (fun c => c.gotCP) (hf c).1)
    rw [getClient_modifyClient_self _ _ _ (by rw [hk.1]; exact hl2)]
    refine ⟨rfl, ?_, fun hroom => ?_⟩
    · show (getClient _ cl).gotCP = true
      rw [hk.2.2.2 cl, hc2]
    · have hroom2 : tableRoom E sv2 1 := by
        apply hroom.of_ring
        rw [← hsv2]
        apply Keeps.modifyClient_keeps
        · apply Keeps.modifyClient_keeps
          · exact Keeps.refl_keeps _ sv
          · intro c
            rfl
        · intro c
          rfl
      rw [hroom2.send]
      have hs : Keeps client_t.state sv2
          (sendWithRoom E sv2 none ("cpm \"" ++ ("Unpure client detected: " ++
            (getClient sv2 cl).name ++ "^7 has invalid .PK3 files referenced!") ++ "\n\"")) :=
        (Keeps.refl_keeps _ sv2).sendWithRoom_keeps E none _ (fun _ _ => rfl)
      refine ⟨?_, ?_⟩
      · show (getClient _ cl).state = _
        rw [hs.2.2.2 cl, hc2]
      · show (sendWithRoom E sv2 none _).log = _
        have hn : (getClient sv2 cl).name = (getClient sv cl).name := by rw [hc2]
        rw [hn, log_sendWithRoom, hlog2]
  · rw [if_neg (fun h => hv (hiff.1 h)), if_neg (by simpa using ha)]
    generalize hsv3 : emit (modifyClient sv2 cl (fun c =>
        { c with pureAuthentic := 0, nextSnapshotTime := -1, state := .CS_ACTIVE }))
        (.SV_SendClientSnapshot cl) = sv3
    have hc3 : getClient sv3 cl = { getClient sv2 cl with
        pureAuthentic := 0, nextSnapshotTime := -1, state := .CS_ACTIVE } := by
      rw [← hsv3]
      simp [getClient_modifyClient, hl2]
    have hl3 : cl < sv3.svs_clients.length := by rw [← hsv3]; simpa using hl2
    have hd := SV_DropClient_clients E sv3 cl "Unpure client detected. Invalid .PK3 files referenced!"
    have h1 := congrArg client_t.pureAuthentic (hd.1.2.2.2 cl)
    have h2 := congrArg client_t.gotCP (hd.1.2.2.2 cl)
    dsimp only [dropView] at h1 h2
    refine ⟨by rw [h1, hc3], by rw [h2, hc3, hc2], hd.2 hl3⟩


/-- C7. Round trip of pure validation: on a pure server that found both modules, a
report `cp <serverId> c1 c2 @ p1 ... pn x` whose `serverId` is not outdated, whose
`c1`, `c2` are the module checksums, whose `p1 ... pn` are pairwise distinct values of
the server's loaded-archive checksums and whose `x` is the feed XOR `p1 ... pn` XOR
`n`, validates: `pureAuthentic` is 1, `gotCP` is true and the client is not dropped
(its state is unchanged and nothing is sent). -/
theorem SV_VerifyPaks_f_round_trip (E : Env) (sv : ServerState) (cl : Nat)
    (sid t1 t2 sep x : String) (ps : List String)
    (hcl : cl < sv.svs_clients.length) (hpure : sv.cvars.sv_pure ≠ 0)
    (hsid : sv.sv_checksumFeedServerId ≤ atoi sid)
    (hc1 : E.FS_FileIsInPAK_cgame = some (atoi t1)) (ht1 : startsWithAt t1 = false)
    (hc2 : E.FS_FileIsInPAK_ui = some (atoi t2)) (ht2 : startsWithAt t2 = false)
    (hsep : startsWithAt sep = true)
    (hnd : (ps.map atoi).Nodup) (hmem : ∀ p ∈ ps.map atoi, p ∈ nServerChkSum E)
    (hx : atoi x = rollingChecksum sv.sv_checksumFeed (ps.map atoi)) :
    (getClient (SV_VerifyPaks_f E sv cl (["cp", sid, t1, t2, sep] ++ ps ++ [x])) cl).pureAuthentic = 1 ∧
    (getClient (SV_VerifyPaks_f E sv cl (["cp", sid, t1, t2, sep] ++ ps ++ [x])) cl).gotCP = true ∧
    (getClient (SV_VerifyPaks_f E sv cl (["cp", sid, t1, t2, sep] ++ ps ++ [x])) cl).state
      = (getClient sv cl).state ∧
    (SV_VerifyPaks_f E sv cl (["cp", sid, t1, t2, sep] ++ ps ++ [x])).log = sv.log := by
  apply (SV_VerifyPaks_f_outcome E sv cl _ hcl hpure ?_).1
  · have htr : cpTrailing (["cp", sid, t1, t2, sep] ++ ps ++ [x]) = ps.map atoi := by
      simp [cpTrailing]
    have hap : cpAppended (["cp", sid, t1, t2, sep] ++ ps ++ [x]) = atoi x := by
      simp [cpAppended]
    refine ⟨by simp, ⟨?_, ?_⟩, ⟨?_, ?_⟩, ?_, ?_, ?_, ?_⟩
    · simpa [Cmd_Argv] using ht1
    · simpa [Cmd_Argv] using hc1
    · simpa [Cmd_Argv] using ht2
    · simpa [Cmd_Argv] using hc2
    · simpa [Cmd_Argv] using hsep
    · rw [htr]; exact hnd
    · rw [htr]; exact hmem
    · rw [htr, hap]; exact hx
  · simp [Cmd_Argv]
    exact hsid

/-- C7, witness: the report `cp 10 100 200 @ 11 22 564` on the pure server with feed
555. -/
theorem SV_VerifyPaks_f_round_trip_witness :
    (getClient (SV_VerifyPaks_f env0 (server1 cvarsPure clientPrimed) 0 cpGood) 0).pureAuthentic = 1 ∧
    (getClient (SV_VerifyPaks_f env0 (server1 cvarsPure clientPrimed) 0 cpGood) 0).gotCP = true ∧
    (getClient (SV_VerifyPaks_f env0 (server1 cvarsPure clientPrimed) 0 cpGood) 0).state
      = (getClient (server1 cvarsPure clientPrimed) 0).state ∧
    (SV_VerifyPaks_f env0 (server1 cvarsPure clientPrimed) 0 cpGood).log
      = (server1 cvarsPure clientPrimed).log :=
  SV_VerifyPaks_f_round_trip env0 (server1 cvarsPure clientPrimed) 0 "10" "100" "200" "@" "564"
    ["11", "22"] (by decide) (by decide) (by decide) (by decide) (by decide) (by decide)
    (by decide) (by decide) (by decide) (by decide) (by decide)

/-- C9 (amended). Policy on a `cp` report that is not outdated, on a pure server: a
failed report in strict mode drops the client and leaves `pureAuthentic` 0; a failed
report in lenient mode sets `pureAuthentic` to 1 and, when the reliable command ring
of every client has room for one more command, leaves the client's state as it is,
its only effect outside the server being the warning naming the client, broadcast to
all clients; in both cases and on success `gotCP` is true afterwards. -/
theorem SV_VerifyPaks_f_policy (E : Env) (sv : ServerState) (cl : Nat) (args : List String)
    (hcl : cl < sv.svs_clients.length) (hpure : sv.cvars.sv_pure ≠ 0)
    (hsid : ¬ atoi (Cmd_Argv args 1) < sv.sv_checksumFeedServerId) :
    (¬ cpReportValid E sv.sv_checksumFeed args → sv.cvars.sv_allowUnpureClients = 0 →
      (getClient (SV_VerifyPaks_f E sv cl args) cl).state = .CS_ZOMBIE ∧
      (getClient (SV_VerifyPaks_f E sv cl args) cl).pureAuthentic = 0 ∧
      (getClient (SV_VerifyPaks_f E sv cl args) cl).gotCP = true) ∧
    (¬ cpReportValid E sv.sv_checksumFeed args → sv.cvars.sv_allowUnpureClients ≠ 0 →
      (tableRoom E sv 1 →
        (getClient (SV_VerifyPaks_f E sv cl args) cl).state = (getClient sv cl).state ∧
        (SV_VerifyPaks_f E sv cl args).log = sv.log ++
          [Effect.SV_SendServerCommand none
            ("cpm \"" ++ ("Unpure client detected: " ++ (getClient sv cl).name ++
              "^7 has invalid .PK3 files referenced!") ++ "\n\"")]) ∧
      (getClient (SV_VerifyPaks_f E sv cl args) cl).pureAuthentic = 1 ∧
      (getClient (SV_VerifyPaks_f E sv cl args) cl).gotCP = true) ∧
    (cpReportValid E sv.sv_checksumFeed args →
      (getClient (SV_VerifyPaks_f E sv cl args) cl).gotCP = true) := by
  have h := SV_VerifyPaks_f_outcome E sv cl args hcl hpure hsid
  refine ⟨fun hv ha => ?_, fun hv ha => ?_, fun hv => (h.1 hv).2.1⟩
  · have := h.2.2 hv ha
    exact ⟨this.2.2, this.1, this.2.1⟩
  · have := h.2.1 hv ha
    exact ⟨this.2.2, this.1, this.2.1⟩

/-- C9, counterexample. A lenient server and a primed client whose ring holds 64
commands it has not acknowledged. The failed report `cpBad` makes the server
broadcast its warning; the command does not fit on the ring of the client, which is
dropped for it: its state is not unchanged, it is a zombie. -/
theorem SV_VerifyPaks_f_policy_counterexample :
    (server1 cvarsLenient clientFullRing).cvars.sv_pure ≠ 0 ∧
    (server1 cvarsLenient clientFullRing).cvars.sv_allowUnpureClients ≠ 0 ∧
    ¬ atoi (Cmd_Argv cpBad 1) < (server1 cvarsLenient clientFullRing).sv_checksumFeedServerId ∧
    cpAppended cpBad ≠ rollingChecksum (server1 cvarsLenient clientFullRing).sv_checksumFeed
      (cpTrailing cpBad) ∧
    (getClient (server1 cvarsLenient clientFullRing) 0).state = .CS_PRIMED ∧
    (getClient (server1 cvarsLenient clientFullRing) 0).reliableSequence
      - (getClient (server1 cvarsLenient clientFullRing) 0).reliableAcknowledge
      = (env0.MAX_RELIABLE_COMMANDS : Int) ∧
    (getClient (SV_VerifyPaks_f env0 (server1 cvarsLenient clientFullRing) 0 cpBad) 0).state
      = .CS_ZOMBIE ∧
    (getClient (SV_VerifyPaks_f env0 (server1 cvarsLenient clientFullRing) 0 cpBad) 0).state
      ≠ (getClient (server1 cvarsLenient clientFullRing) 0).state := by
  decide

/-- C9, witness: the failed report `cpBad` on the lenient server. -/
theorem SV_VerifyPaks_f_policy_witness :
    (0 < (server1 cvarsLenient clientPrimed).svs_clients.length ∧
      (server1 cvarsLenient clientPrimed).cvars.sv_pure ≠ 0 ∧
      ¬ atoi (Cmd_Argv cpBad 1) < (server1 cvarsLenient clientPrimed).sv_checksumFeedServerId ∧
      (server1 cvarsLenient clientPrimed).cvars.sv_allowUnpureClients ≠ 0 ∧
      tableRoom env0 (server1 cvarsLenient clientPrimed) 1) ∧
    (getClient (SV_VerifyPaks_f env0 (server1 cvarsLenient clientPrimed) 0 cpBad) 0).state
      = .CS_PRIMED ∧
    (getClient (SV_VerifyPaks_f env0 (server1 cvarsLenient clientPrimed) 0 cpBad) 0).pureAuthentic = 1 :=
  ⟨by decide,
    (((SV_VerifyPaks_f_policy env0 (server1 cvarsLenient clientPrimed) 0 cpBad (by decide)
      (by decide) (by decide)).2.1
        (fun h => absurd h.2.2.2.2.2.2 (by decide)) (by decide)).1 (by decide)).1,
    ((SV_VerifyPaks_f_policy env0 (server1 cvarsLenient clientPrimed) 0 cpBad (by decide)
      (by decide) (by decide)).2.1
        (fun h => absurd h.2.2.2.2.2.2 (by decide)) (by decide)).2.1⟩


/-! ## Handlers keep the table and call no handler themselves -/

theorem Tame.refl_tame (P : Effect → Prop) (sv : ServerState) : Tame P sv sv :=
  ⟨rfl, LogExt.refl _ _⟩

theorem Tame.trans_tame {P : Effect → Prop} {a b c : ServerState} (h1 : Tame P a b) (h2 : Tame P b c) :
    Tame P a c :=
  ⟨h2.1.trans h1.1, h1.2.trans h2.2⟩

theorem Tame.congr_tame {P : Effect → Prop} {a b c : ServerState} (h1 : Tame P a b)
    (hl : c.svs_clients.length = b.svs_clients.length) (h : c.log = b.log) : Tame P a c :=
  ⟨hl.trans h1.1, h1.2.congr h⟩

theorem Tame.emit_tame {P : Effect → Prop} {a b : ServerState} {e : Effect} (h1 : Tame P a b)
    (he : P e) : Tame P a (emit b e) :=
  ⟨h1.1, h1.2.emit he⟩

theorem Tame.ite_tame {P : Effect → Prop} {a x y : ServerState} {c : Prop} [Decidable c]
    (hx : Tame P a x) (hy : Tame P a y) : Tame P a (if c then x else y) := by
  split
  · exact hx
  · exact hy

theorem Tame.modifyClient_tame {P : Effect → Prop} {a b : ServerState} (h : Tame P a b) (cl : Nat)
    (f : client_t → client_t) : Tame P a (modifyClient b cl f) :=
  h.congr_tame (by simp) rfl

theorem Tame.sendServerCommand_tame {P : Effect → Prop} {a b : ServerState} (h : Tame P a b)
    (E : Env) (cl : Option Nat) (text : String) (hp : ∀ e, e.isDropKind = true → P e) :
    Tame P a (SV_SendServerCommand E b cl text) :=
  h.trans_tame ⟨(SV_SendServerCommand_drops E b cl text).length,
    (SV_SendServerCommand_drops E b cl text).logExt.mono hp⟩

theorem Tame.closeDownload_tame {P : Effect → Prop} {a b : ServerState} (h : Tame P a b) (cl : Nat)
    (hp : ∀ hd, P (.FS_FCloseFile hd)) : Tame P a (SV_CloseDownload b cl) := by
  refine ⟨?_, h.2.closeDownload cl hp⟩
  rw [← h.1]
  unfold SV_CloseDownload
  dsimp only
  rw [length_modifyClient]
  split <;> rfl

theorem Tame.dropClient {P : Effect → Prop} {a b : ServerState} (h : Tame P a b) (E : Env)
    (cl : Nat) (reason : String) (hp : ∀ e, e.isDropKind = true → P e) :
    Tame P a (SV_DropClient E b cl reason) :=
  h.trans_tame ⟨(SV_DropClient_clients E b cl reason).1.1, (logExt_SV_DropClient E b cl reason).mono hp⟩

theorem Tame.sendClientGameState {P : Effect → Prop} {a b : ServerState} (h : Tame P a b)
    (cl : Nat) (hp : P (.SV_SendMessageToClient cl)) : Tame P a (SV_SendClientGameState b cl) :=
  (h.modifyClient_tame cl _).emit_tame hp

theorem not_isExec_of_isDropKind (e : Effect) (h : e.isDropKind = true) : e.isExec = false := by
  cases e <;> simp_all [Effect.isDropKind, Effect.isExec]

theorem tame_SV_NumberName (P : Effect → Prop) (sv : ServerState) (cl : Nat) :
    Tame P sv (SV_NumberName sv cl) := by
  unfold SV_NumberName
  dsimp only
  have h1 : Tame P sv (if sv.cvars.sv_numberedNamesDecoration_modified = true then
      { sv with
        numberName_static1 := beforeFirstSemicolon sv.cvars.sv_numberedNamesDecoration
        numberName_static2 := afterLastSemicolon sv.cvars.sv_numberedNamesDecoration
        cvars := { sv.cvars with sv_numberedNamesDecoration_modified := false } }
      else sv) :=
    Tame.ite_tame ((Tame.refl_tame P sv).congr_tame rfl rfl) (Tame.refl_tame P sv)
  exact Tame.ite_tame ((h1.modifyClient_tame _ _).modifyClient_tame _ _) (h1.modifyClient_tame _ _)

theorem tame_SV_UserinfoChanged (P : Effect → Prop) (E : Env) (sv : ServerState) (cl : Nat) :
    Tame P sv (SV_UserinfoChanged E sv cl) :=
  (Tame.refl_tame P sv).modifyClient_tame _ _

theorem tame_SV_VerifyPaks_f (E : Env) (sv : ServerState) (cl : Nat) (args : List String) :
    Tame (fun e => e.isExec = false) sv (SV_VerifyPaks_f E sv cl args) := by
  unfold SV_VerifyPaks_f
  lift_lets
  intro sv1 r sv2 message sv3
  have h0 := Tame.refl_tame (fun e => e.isExec = false) sv
  have h1 : Tame (fun e => e.isExec = false) sv sv1 := h0.modifyClient_tame _ _
  have h2 : Tame (fun e => e.isExec = false) sv sv2 := h1.modifyClient_tame _ _
  apply Tame.ite_tame h0
  apply Tame.ite_tame h1
  apply Tame.ite_tame (h2.modifyClient_tame _ _)
  apply Tame.ite_tame
  · exact (h2.sendServerCommand_tame E none _ not_isExec_of_isDropKind).modifyClient_tame _ _
  · apply Tame.dropClient _ E cl _ not_isExec_of_isDropKind
    apply Tame.emit_tame (h2.modifyClient_tame _ _)
    rfl

theorem tame_runUcmd (E : Env) (sv : ServerState) (cl : Nat) (args : List String) (f : ucmd_func) :
    Tame (fun e => e.isExec = false) sv (runUcmd E sv cl args f) := by
  have h0 := Tame.refl_tame (fun e => e.isExec = false) sv
  cases f <;> unfold runUcmd <;> dsimp only
  · -- SV_UpdateUserinfo_f
    unfold SV_UpdateUserinfo_f
    lift_lets
    intro cl_guid sv1 sv2
    have h2 : Tame (fun e => e.isExec = false) sv sv2 :=
      Tame.ite_tame ((h0.modifyClient_tame _ _).modifyClient_tame _ _) (h0.modifyClient_tame _ _)
    refine Tame.emit_tame ?_ ?_
    · exact (h2.trans_tame (tame_SV_NumberName _ sv2 cl)).trans_tame (tame_SV_UserinfoChanged _ E _ cl)
    · rfl
  · exact h0.dropClient E cl _ not_isExec_of_isDropKind
  · exact tame_SV_VerifyPaks_f E sv cl args
  · exact h0.modifyClient_tame _ _
  · -- SV_BeginDownload_f
    unfold SV_BeginDownload_f
    exact (h0.closeDownload_tame cl (fun _ => rfl)).modifyClient_tame _ _
  · -- SV_NextDownload_f
    unfold SV_NextDownload_f
    dsimp only
    apply Tame.ite_tame
    · exact Tame.ite_tame (h0.closeDownload_tame cl (fun _ => rfl)) (h0.modifyClient_tame _ _)
    · exact h0.dropClient E cl _ not_isExec_of_isDropKind
  · exact h0.closeDownload_tame cl (fun _ => rfl)
  · exact h0.sendClientGameState cl rfl
  · -- SV_WWWDownload_f
    unfold SV_WWWDownload_f
    dsimp only
    apply Tame.ite_tame (h0.dropClient E cl _ not_isExec_of_isDropKind)
    apply Tame.ite_tame (h0.modifyClient_tame _ _)
    apply Tame.ite_tame (h0.dropClient E cl _ not_isExec_of_isDropKind)
    apply Tame.ite_tame (h0.dropClient E cl _ not_isExec_of_isDropKind)
    apply Tame.ite_tame (h0.modifyClient_tame _ _)
    apply Tame.ite_tame ((h0.modifyClient_tame _ _).sendClientGameState cl rfl)
    exact h0.dropClient E cl _ not_isExec_of_isDropKind
  · exact h0.emit_tame rfl
  · exact h0.emit_tame rfl
  · exact h0.emit_tame rfl
  · exact h0.emit_tame rfl
  · exact Tame.ite_tame (h0.emit_tame rfl) h0
  · exact h0.emit_tame rfl


theorem tame_SV_CV_f (sv : ServerState) (cl : Nat) :
    Tame (fun e => e.isExec = false) sv (SV_CV_f sv cl) :=
  Tame.ite_tame ((Tame.refl_tame _ sv).emit_tame rfl) (Tame.refl_tame _ sv)

theorem tame_chatCommand (E : Env) (sv : ServerState) (cl : Nat) (targs : List String) :
    Tame (fun e => e.isExec = false) sv (chatCommand E sv cl targs) := by
  have h0 := Tame.refl_tame (fun e => e.isExec = false) sv
  unfold chatCommand
  dsimp only
  split
  · repeat' apply Tame.ite_tame
    all_goals first
      | exact h0
      | exact h0.emit_tame rfl
      | exact (h0.sendServerCommand_tame E _ _ not_isExec_of_isDropKind).emit_tame rfl
  · exact h0

/-- After the record of its own call `SV_ExecuteClientCommand` keeps the size of the
table and calls no handler dispatch again. -/
theorem tame_SV_ExecuteClientCommand (E : Env) (sv : ServerState) (cl : Nat) (s : String)
    (clientOK premaprestart : Bool) :
    Tame (fun e => e.isExec = false)
      (emit sv (.call_SV_ExecuteClientCommand cl s clientOK premaprestart))
      (SV_ExecuteClientCommand E sv cl s clientOK premaprestart) := by
  unfold SV_ExecuteClientCommand
  dsimp only
  generalize List.find? (fun u => u.name == Q_strlwr (Cmd_Argv (E.Cmd_TokenizeString s) 0)
      && !(premaprestart && !u.allowedpostmapchange)) ucmds = u
  generalize emit sv (.call_SV_ExecuteClientCommand cl s clientOK premaprestart) = sv0
  have key : ∀ sv1 : ServerState, Tame (fun e => e.isExec = false) sv0 sv1 →
      ∀ found : Bool, Tame (fun e => e.isExec = false) sv0
      (if sv1.cvars.sv_save ≠ 0 ∧ Q_strlwr (Cmd_Argv (E.Cmd_TokenizeString s) 0) = "save" then
        emit sv1 (.ucmd "SV_Save_f" cl (E.Cmd_TokenizeString s))
      else if sv1.cvars.sv_save ≠ 0 ∧ Q_strlwr (Cmd_Argv (E.Cmd_TokenizeString s) 0) = "load" then
        emit sv1 (.ucmd "SV_Load_f" cl (E.Cmd_TokenizeString s))
      else if clientOK = true then
        if sv1.cvars.sv_processVoiceChats ≠ 0 ∧ Q_strlwr (Cmd_Argv (E.Cmd_TokenizeString s) 0) = "vsay" then
          if E.playerMuted cl = true then sv1 else
          let sv2 := modifyClient sv1 cl (fun c =>
            if c.voiceChatTime < sv1.svs_time - 30000 then { c with voiceChatTime := sv1.svs_time - 30000 }
            else c)
          if (getClient sv2 cl).voiceChatTime + 30000 / sv2.cvars.sv_processVoiceChats > sv2.svs_time then
            SV_SendServerCommand E sv2 (some cl) "cpm \"^1Spam Protection^7: VoiceChat ignored\n\""
          else
            modifyClient
              (SV_SendServerCommand E sv2 none ("vchat 0 " ++ toString cl ++ " 50 " ++
                Cmd_Argv (E.Cmd_TokenizeString s) 1))
              cl (fun c => { c with voiceChatTime := c.voiceChatTime + 30000 / sv2.cvars.sv_processVoiceChats })
        else
          let sv2 :=
            if found = true ∧ sv1.sv_state = .SS_GAME then emit sv1 (.VM_Call .GAME_CLIENT_COMMAND cl) else sv1
          let isSay : Bool := Q_strlwr (Cmd_Argv (E.Cmd_TokenizeString s) 0) == "say"
            || Q_strlwr (Cmd_Argv (E.Cmd_TokenizeString s) 0) == "enc_say"
          let sv3 :=
            if sv2.cvars.sv_chatConnectedServers ≠ "" ∧ isSay = true ∧ E.playerMuted cl = false then
              emit sv2 (.SV_SendToChatConnectedServers
                ("rsay " ++ (if sv2.cvars.sv_chatHostname ≠ "" then sv2.cvars.sv_chatHostname
                             else sv2.cvars.sv_hostname)
                  ++ ":^7" ++ (getClient sv2 cl).name ++ "^7: ^2" ++ Cmd_Args (E.Cmd_TokenizeString s)))
            else sv2
          if sv3.cvars.sv_chatCommands ≠ 0 ∧ isSay = true then
            chatCommand E sv3 cl (E.Cmd_TokenizeString (Cmd_Args (E.Cmd_TokenizeString s)))
          else sv3
      else sv1) := by
    intro sv1 h1 found
    dsimp only
    repeat' first
      | exact h1
      | rfl
      | exact not_isExec_of_isDropKind
      | apply Tame.ite_tame
      | refine Tame.sendServerCommand_tame ?_ _ _ _ ?_
      | refine Tame.trans_tame ?_ (tame_chatCommand E _ cl _)
      | apply Tame.modifyClient_tame
      | refine Tame.emit_tame ?_ ?_
  cases u with
  | none => exact key sv0 (Tame.refl_tame _ _) true
  | some u => exact key _ (tame_runUcmd E sv0 cl _ u.func) false


/-! ## `SV_ClientCommand` -/

theorem mem_log_SV_SendServerCommand (E : Env) (sv : ServerState) (cl : Option Nat)
    (text : String) :
    Effect.SV_SendServerCommand cl text ∈ (SV_SendServerCommand E sv cl text).log := by
  unfold SV_SendServerCommand sendServerCommandWith
  cases cl <;> simp

theorem mem_log_SV_DropClient (E : Env) (sv : ServerState) (drop : Nat) (reason : String)
    (hz : (getClient sv drop).state ≠ .CS_ZOMBIE) :
    Effect.SV_SendServerCommand (some drop) ("disconnect \"" ++ reason ++ "\"\n")
      ∈ (SV_DropClient E sv drop reason).log := by
  rw [SV_DropClient_eq]
  unfold dropClientWith
  lift_lets
  intro d isBot sv1 sv2 sv3 sv4 sv5 sv6 sv7 sv8 count bots sv9
  rw [if_neg hz]
  have h6 : Effect.SV_SendServerCommand (some drop) ("disconnect \"" ++ reason ++ "\"\n") ∈ sv6.log :=
    mem_log_SV_SendServerCommand E sv5 _ _
  have h7 : LogExt (fun _ => True) sv6 sv7 := by
    dsimp only [sv7]
    exact LogExt.ite ((LogExt.refl _ _).emit trivial)
      (LogExt.ite ((LogExt.refl _ _).emit trivial) (LogExt.refl _ _))
  have h8 : LogExt (fun _ => True) sv6 sv8 := h7.modifyClient _ _
  have h9 : LogExt (fun _ => True) sv6 sv9 := by
    dsimp only [sv9]
    exact LogExt.ite (LogExt.ite (h8.emit trivial) h8) h8
  clear_value sv9 sv6
  have hf : LogExt (fun _ => True) sv6
      (if (getClient sv9 drop).netchan.remoteAddress.type ≠ .NA_BOT ∧ count - bots = 0 then
        { sv9 with svs_lastPlayerLeftTime := 0x7FFFFFFF } else sv9) :=
    LogExt.ite (h9.congr rfl) h9
  obtain ⟨new, hnew, _⟩ := hf
  rw [hnew]
  exact List.mem_append_left _ h6

/-- C1. A client-command record whose sequence number is not above
`cl->lastClientCommand` is a no-op: the call returns `qtrue` and the whole server state,
the client record and the log of effects included, is unchanged. -/
theorem SV_ClientCommand_replay_is_noop (E : Env) (sv : ServerState) (cl : Nat) (seq : Int)
    (s : String) (premaprestart : Bool) (h : seq ≤ (getClient sv cl).lastClientCommand) :
    SV_ClientCommand E sv cl seq s premaprestart = (sv, true) := by
  unfold SV_ClientCommand
  rw [if_pos (by simpa using h)]

/-- The state in which `SV_ClientCommand` reaches the lost-commands test when the
flood-threshold throttle does not fire: only `floodTime` and `lastActivityTime` of the
slot were written, and nothing was logged. -/
theorem SV_ClientCommand_not_throttled (E : Env) (sv : ServerState) (cl : Nat) (seq : Int)
    (s : String) (premaprestart : Bool) (hcl : cl < sv.svs_clients.length)
    (hnew : ¬ (getClient sv cl).lastClientCommand ≥ seq) (hthr : ¬ floodThrottled sv cl) :
    ∃ sv3, sv3.log = sv.log ∧ Keeps (fun c => (c.lastClientCommand, c.state)) sv sv3 ∧
      SV_ClientCommand E sv cl seq s premaprestart =
        if seq > (getClient sv3 cl).lastClientCommand + 1 then
          (SV_DropClient E sv3 cl "Lost reliable commands", false)
        else
          last_client_command
            (SV_ExecuteClientCommand E
              (if sv3.cvars.sv_floodProtect ≠ 0 ∧ (!(sv3.cvars.sv_floodProtect ≠ 0 && floodExempt s)) = true
                  ∧ sv3.svs_time ≥ (getClient sv3 cl).nextReliableTime then
                modifyClient sv3 cl (fun c => { c with nextReliableTime := sv3.svs_time + 800 })
              else sv3)
              cl s
              (!(sv3.cvars.sv_floodProtect ≠ 0 && sv3.cvars.com_cl_running == 0
                && decide ((getClient sv3 cl).state.toNat ≥ 4)
                && decide (sv3.svs_time < (getClient sv3 cl).nextReliableTime)
                && !(sv3.cvars.sv_floodProtect ≠ 0 && floodExempt s)))
              premaprestart)
            cl seq s := by
  unfold SV_ClientCommand
  rw [if_neg hnew]
  lift_lets
  intro thr sv1 sv2 sv3 floodprotect clientOk sv4
  have k1 : Keeps (fun c => (c.lastClientCommand, c.state)) sv sv1 :=
    Keeps.ite_keeps ((Keeps.refl_keeps _ sv).modifyClient_keeps _ _ (fun _ => rfl)) (Keeps.refl_keeps _ sv)
  have l1 : sv1.log = sv.log := by
    dsimp only [sv1]
    split <;> rfl
  have hnt : ¬ (thr > 0 ∧ (getClient sv1 cl).floodTime ≥ sv1.svs_time) := by
    rintro ⟨hpos, hge⟩
    apply hthr
    refine ⟨hpos, ?_⟩
    have ht : sv1.svs_time = sv.svs_time := k1.2.1
    rw [ht] at hge
    dsimp only [sv1] at hge
    split at hge
    · rw [getClient_modifyClient_self _ _ _ hcl] at hge
      dsimp only at hge
      omega
    · exact hge
  rw [if_neg hnt]
  have k2 : Keeps (fun c => (c.lastClientCommand, c.state)) sv sv2 :=
    Keeps.ite_keeps (k1.modifyClient_keeps _ _ (fun _ => rfl)) k1
  have l2 : sv2.log = sv.log := by
    dsimp only [sv2]
    split
    · exact l1
    · exact l1
  have k3 : Keeps (fun c => (c.lastClientCommand, c.state)) sv sv3 :=
    Keeps.ite_keeps (k2.modifyClient_keeps _ _ (fun _ => rfl)) k2
  have l3 : sv3.log = sv.log := by
    dsimp only [sv3]
    split
    · exact l2
    · exact l2
  exact ⟨sv3, l3, k3, rfl⟩

/-- C2 (amended). A client-command record with `seq == cl->lastClientCommand + 1` is
applied unless the flood-threshold throttle fires: its text is handed to
`SV_ExecuteClientCommand` exactly once. When the throttle fires the command is not
executed. In both cases `cl->lastClientCommand == seq` afterwards and the call returns
`qtrue`. -/
theorem SV_ClientCommand_next_in_sequence (E : Env) (sv : ServerState) (cl : Nat) (seq : Int)
    (s : String) (premaprestart : Bool) (hcl : cl < sv.svs_clients.length)
    (hseq : seq = (getClient sv cl).lastClientCommand + 1) :
    (SV_ClientCommand E sv cl seq s premaprestart).2 = true ∧
    (getClient (SV_ClientCommand E sv cl seq s premaprestart).1 cl).lastClientCommand = seq ∧
    (¬ floodThrottled sv cl →
      ∃ clientOK rest, (SV_ClientCommand E sv cl seq s premaprestart).1.log
          = sv.log ++ Effect.call_SV_ExecuteClientCommand cl s clientOK premaprestart :: rest ∧
        ∀ e ∈ rest, e.isExec = false) ∧
    (floodThrottled sv cl → (SV_ClientCommand E sv cl seq s premaprestart).1.log = sv.log) := by
  have hnew : ¬ (getClient sv cl).lastClientCommand ≥ seq := by omega
  by_cases hthr : floodThrottled sv cl
  · have hres : ∃ sv1, sv1.log = sv.log ∧ sv1.svs_clients.length = sv.svs_clients.length ∧
        SV_ClientCommand E sv cl seq s premaprestart = last_client_command sv1 cl seq s := by
      unfold SV_ClientCommand
      rw [if_neg hnew]
      lift_lets
      intro thr sv1 sv2 sv3 floodprotect clientOk sv4
      have hnc : ¬ (thr > 0 ∧ sv.svs_time - (getClient sv cl).floodTime > 9500) := by
        rintro ⟨_, h⟩
        have := hthr.2
        omega
      have h1 : sv1 = sv := if_neg hnc
      refine ⟨sv1, by rw [h1], by rw [h1], ?_⟩
      rw [if_pos (by rw [h1]; exact hthr)]
    obtain ⟨sv1, hl1, hlen1, hres⟩ := hres
    rw [hres]
    refine ⟨rfl, ?_, fun h => absurd hthr h, fun _ => hl1⟩
    unfold last_client_command
    rw [getClient_modifyClient_self _ _ _ (by rw [hlen1]; exact hcl)]
  · obtain ⟨sv3, hl3, hk3, hres⟩ :=
      SV_ClientCommand_not_throttled E sv cl seq s premaprestart hcl hnew hthr
    have hlast : (getClient sv3 cl).lastClientCommand = (getClient sv cl).lastClientCommand :=
      congrArg Prod.fst (hk3.2.2.2 cl)
    rw [hres, if_neg (by rw [hlast]; omega)]
    generalize hsv4 : (if sv3.cvars.sv_floodProtect ≠ 0
          ∧ (!(sv3.cvars.sv_floodProtect ≠ 0 && floodExempt s)) = true
          ∧ sv3.svs_time ≥ (getClient sv3 cl).nextReliableTime then
        modifyClient sv3 cl (fun c => { c with nextReliableTime := sv3.svs_time + 800 })
      else sv3) = sv4
    have hl4 : sv4.log = sv.log := by
      rw [← hsv4]
      split
      · exact hl3
      · exact hl3
    have hlen4 : sv4.svs_clients.length = sv.svs_clients.length := by
      rw [← hsv4]
      split
      · simpa using hk3.1
      · exact hk3.1
    generalize (!(sv3.cvars.sv_floodProtect ≠ 0 && sv3.cvars.com_cl_running == 0
        && decide ((getClient sv3 cl).state.toNat ≥ 4)
        && decide (sv3.svs_time < (getClient sv3 cl).nextReliableTime)
        && !(sv3.cvars.sv_floodProtect ≠ 0 && floodExempt s))) = clientOk
    have ht := tame_SV_ExecuteClientCommand E sv4 cl s clientOk premaprestart
    unfold last_client_command
    refine ⟨rfl, ?_, fun _ => ?_, fun h => absurd h hthr⟩
    · rw [getClient_modifyClient_self _ _ _ (by rw [ht.1]; simpa [hlen4] using hcl)]
    · obtain ⟨new, hnew2, hall⟩ := ht.2
      refine ⟨clientOk, new, ?_, hall⟩
      show (SV_ExecuteClientCommand E sv4 cl s clientOk premaprestart).log = _
      rw [hnew2]
      simp [hl4]

/-- C3 (amended). When the flood-threshold throttle does not fire, a client-command
record with `seq > cl->lastClientCommand + 1` for a client that is not a zombie drops
the client with the reason "Lost reliable commands": the client ends a zombie, the
command is not executed and the call returns `qfalse`. -/
theorem SV_ClientCommand_gap_drops_client (E : Env) (sv : ServerState) (cl : Nat) (seq : Int)
    (s : String) (premaprestart : Bool) (hcl : cl < sv.svs_clients.length)
    (hnz : (getClient sv cl).state ≠ .CS_ZOMBIE)
    (hgap : seq > (getClient sv cl).lastClientCommand + 1) (hthr : ¬ floodThrottled sv cl) :
    (SV_ClientCommand E sv cl seq s premaprestart).2 = false ∧
    (getClient (SV_ClientCommand E sv cl seq s premaprestart).1 cl).state = .CS_ZOMBIE ∧
    Effect.SV_SendServerCommand (some cl) ("disconnect \"" ++ "Lost reliable commands" ++ "\"\n")
      ∈ (SV_ClientCommand E sv cl seq s premaprestart).1.log ∧
    LogExt (fun e => e.isExec = false) sv (SV_ClientCommand E sv cl seq s premaprestart).1 := by
  have hnew : ¬ (getClient sv cl).lastClientCommand ≥ seq := by omega
  obtain ⟨sv3, hl3, hk3, hres⟩ :=
    SV_ClientCommand_not_throttled E sv cl seq s premaprestart hcl hnew hthr
  have hlast : (getClient sv3 cl).lastClientCommand = (getClient sv cl).lastClientCommand :=
    congrArg Prod.fst (hk3.2.2.2 cl)
  have hst : (getClient sv3 cl).state = (getClient sv cl).state :=
    congrArg Prod.snd (hk3.2.2.2 cl)
  rw [hres, if_pos (by rw [hlast]; exact hgap)]
  refine ⟨rfl, ?_, ?_, ?_⟩
  · exact (SV_DropClient_clients E sv3 cl _).2 (by rw [hk3.1]; exact hcl)
  · exact mem_log_SV_DropClient E sv3 cl _ (by rw [hst]; exact hnz)
  · exact (LogExt.of_eq hl3).trans ((logExt_SV_DropClient E sv3 cl _).mono not_isExec_of_isDropKind)


/-- C1, witness: command 3 again for a client that has applied command 3. -/
theorem SV_ClientCommand_replay_is_noop_witness :
    (3 : Int) ≤ (getClient (server1 cvars0 clientFlooding) 0).lastClientCommand ∧
    SV_ClientCommand env0 (server1 cvars0 clientFlooding) 0 3 "say hi" false
      = (server1 cvars0 clientFlooding, true) :=
  ⟨by decide,
    SV_ClientCommand_replay_is_noop env0 (server1 cvars0 clientFlooding) 0 3 "say hi" false
      (by decide)⟩

/-- C2, counterexample. With `sv_floodThreshold` 1 and the client's flood time at the
server time, command 4 follows command 3 and is not handed to
`SV_ExecuteClientCommand`: nothing is logged, yet the counter advances to 4. -/
theorem SV_ClientCommand_next_in_sequence_counterexample :
    (4 : Int) = (getClient (server1 cvarsFlood clientFlooding) 0).lastClientCommand + 1 ∧
    (SV_ClientCommand env0 (server1 cvarsFlood clientFlooding) 0 4 "say hi" false).1.log = [] ∧
    (getClient (SV_ClientCommand env0 (server1 cvarsFlood clientFlooding) 0 4 "say hi" false).1
      0).lastClientCommand = 4 ∧
    (SV_ClientCommand env0 (server1 cvarsFlood clientFlooding) 0 4 "say hi" false).2 = true := by
  decide

/-- C2 (amended), witness: command 4 after command 3 without flood threshold. -/
theorem SV_ClientCommand_next_in_sequence_witness :
    (0 < (server1 cvars0 clientFlooding).svs_clients.length ∧
      (4 : Int) = (getClient (server1 cvars0 clientFlooding) 0).lastClientCommand + 1) ∧
    (SV_ClientCommand env0 (server1 cvars0 clientFlooding) 0 4 "say hi" false).2 = true ∧
    (getClient (SV_ClientCommand env0 (server1 cvars0 clientFlooding) 0 4 "say hi" false).1
      0).lastClientCommand = 4 ∧
    ∃ clientOK rest, (SV_ClientCommand env0 (server1 cvars0 clientFlooding) 0 4 "say hi" false).1.log
        = (server1 cvars0 clientFlooding).log
          ++ Effect.call_SV_ExecuteClientCommand 0 "say hi" clientOK false :: rest ∧
      ∀ e ∈ rest, e.isExec = false :=
  ⟨by decide,
    (SV_ClientCommand_next_in_sequence env0 (server1 cvars0 clientFlooding) 0 4 "say hi" false
      (by decide) (by decide)).1,
    (SV_ClientCommand_next_in_sequence env0 (server1 cvars0 clientFlooding) 0 4 "say hi" false
      (by decide) (by decide)).2.1,
    (SV_ClientCommand_next_in_sequence env0 (server1 cvars0 clientFlooding) 0 4 "say hi" false
      (by decide) (by decide)).2.2.1 (by unfold floodThrottled; decide)⟩

/-- C3, counterexample. With `sv_floodThreshold` 1 and the client's flood time at the
server time, command 9 after command 3 does not drop the client: the call returns
`qtrue`, the client stays active and the counter jumps to 9. -/
theorem SV_ClientCommand_gap_counterexample :
    (9 : Int) > (getClient (server1 cvarsFlood clientFlooding) 0).lastClientCommand + 1 ∧
    (getClient (server1 cvarsFlood clientFlooding) 0).state ≠ .CS_ZOMBIE ∧
    (SV_ClientCommand env0 (server1 cvarsFlood clientFlooding) 0 9 "say hi" false).2 = true ∧
    (getClient (SV_ClientCommand env0 (server1 cvarsFlood clientFlooding) 0 9 "say hi" false).1
      0).state = .CS_ACTIVE ∧
    (getClient (SV_ClientCommand env0 (server1 cvarsFlood clientFlooding) 0 9 "say hi" false).1
      0).lastClientCommand = 9 := by
  decide

/-- C3 (amended), witness: command 9 after command 3 without flood threshold. -/
theorem SV_ClientCommand_gap_drops_client_witness :
    (0 < (server1 cvars0 clientFlooding).svs_clients.length ∧
      (getClient (server1 cvars0 clientFlooding) 0).state ≠ .CS_ZOMBIE ∧
      (9 : Int) > (getClient (server1 cvars0 clientFlooding) 0).lastClientCommand + 1 ∧
      ¬ floodThrottled (server1 cvars0 clientFlooding) 0) ∧
    ((SV_ClientCommand env0 (server1 cvars0 clientFlooding) 0 9 "say hi" false).2 = false ∧
    (getClient (SV_ClientCommand env0 (server1 cvars0 clientFlooding) 0 9 "say hi" false).1
      0).state = .CS_ZOMBIE ∧
    Effect.SV_SendServerCommand (some 0) ("disconnect \"" ++ "Lost reliable commands" ++ "\"\n")
      ∈ (SV_ClientCommand env0 (server1 cvars0 clientFlooding) 0 9 "say hi" false).1.log ∧
    LogExt (fun e => e.isExec = false) (server1 cvars0 clientFlooding)
      (SV_ClientCommand env0 (server1 cvars0 clientFlooding) 0 9 "say hi" false).1) :=
  ⟨⟨by decide, by decide, by decide, by unfold floodThrottled; decide⟩,
    SV_ClientCommand_gap_drops_client env0 (server1 cvars0 clientFlooding) 0 9 "say hi" false
      (by decide) (by decide) (by decide) (by unfold floodThrottled; decide)⟩

/-! ## Accepting a connection -/

theorem KeepsOn.refl_on {α β : Type} (S : Nat → Prop) (π : client_t → α) (ρ : cvars_t → β)
    (sv : ServerState) : KeepsOn S π ρ sv sv :=
  ⟨rfl, rfl, rfl, fun _ _ => rfl⟩

theorem KeepsOn.trans_on {α β : Type} {S : Nat → Prop} {π : client_t → α} {ρ : cvars_t → β}
    {a b c : ServerState} (h1 : KeepsOn S π ρ a b) (h2 : KeepsOn S π ρ b c) : KeepsOn S π ρ a c :=
  ⟨h2.1.trans h1.1, h2.2.1.trans h1.2.1, h2.2.2.1.trans h1.2.2.1,
    fun i hi => (h2.2.2.2 i hi).trans (h1.2.2.2 i hi)⟩

theorem KeepsOn.congr_on {α β : Type} {S : Nat → Prop} {π : client_t → α} {ρ : cvars_t → β}
    {a b c : ServerState} (h1 : KeepsOn S π ρ a b)
    (h : c.svs_clients = b.svs_clients) (ht : c.svs_time = b.svs_time)
    (hc : ρ c.cvars = ρ b.cvars) : KeepsOn S π ρ a c := by
  refine ⟨by rw [h]; exact h1.1, ht.trans h1.2.1, hc.trans h1.2.2.1, fun i hi => ?_⟩
  have : getClient c i = getClient b i := by simp [getClient, h]
  rw [this]
  exact h1.2.2.2 i hi

theorem KeepsOn.emit_on {α β : Type} {S : Nat → Prop} {π : client_t → α} {ρ : cvars_t → β}
    {a b : ServerState} (h1 : KeepsOn S π ρ a b) (e : Effect) : KeepsOn S π ρ a (emit b e) :=
  h1.congr_on rfl rfl rfl

theorem KeepsOn.ite_on {α β : Type} {S : Nat → Prop} {π : client_t → α} {ρ : cvars_t → β}
    {a x y : ServerState} {c : Prop} [Decidable c]
    (hx : KeepsOn S π ρ a x) (hy : KeepsOn S π ρ a y) : KeepsOn S π ρ a (if c then x else y) := by
  split
  · exact hx
  · exact hy

theorem KeepsOn.setClient_on {α β : Type} {S : Nat → Prop} {π : client_t → α} {ρ : cvars_t → β}
    {a b : ServerState} (h1 : KeepsOn S π ρ a b) (cl : Nat) (c : client_t)
    (hc : S cl → π c = π (getClient b cl)) : KeepsOn S π ρ a (setClient b cl c) := by
  refine ⟨by simpa using h1.1, h1.2.1, h1.2.2.1, fun i hi => ?_⟩
  rw [getClient_setClient]
  split
  · rename_i h
    obtain ⟨h, -⟩ := h
    subst h
    rw [hc hi]
    exact h1.2.2.2 i hi
  · exact h1.2.2.2 i hi

theorem KeepsOn.modifyClient_on {α β : Type} {S : Nat → Prop} {π : client_t → α}
    {ρ : cvars_t → β} {a b : ServerState} (h1 : KeepsOn S π ρ a b) (cl : Nat)
    (f : client_t → client_t) (hf : S cl → ∀ c, π (f c) = π c) :
    KeepsOn S π ρ a (modifyClient b cl f) :=
  h1.setClient_on cl _ (fun h => hf h _)

theorem KeepsOn.mapClients_on {α β : Type} {S : Nat → Prop} {π : client_t → α}
    {ρ : cvars_t → β} {a b : ServerState} (h1 : KeepsOn S π ρ a b)
    (g : client_t → client_t) (hg : ∀ c, π (g c) = π c) :
    KeepsOn S π ρ a { b with svs_clients := b.svs_clients.map g } := by
  refine ⟨by simpa using h1.1, h1.2.1, h1.2.2.1, fun i hi => ?_⟩
  by_cases hl : i < b.svs_clients.length
  · rw [getClient_map b g i hl, hg]
    exact h1.2.2.2 i hi
  · have : getClient { b with svs_clients := b.svs_clients.map g } i = getClient b i := by
      have h3 : b.svs_clients.length ≤ i := Nat.le_of_not_lt hl
      simp [getClient, List.getElem?_eq_none h3]
    rw [this]
    exact h1.2.2.2 i hi

theorem KeepsOn.sendWithRoom_on {α β : Type} {S : Nat → Prop} {π : client_t → α}
    {ρ : cvars_t → β} {a b : ServerState} (h1 : KeepsOn S π ρ a b) (E : Env) (cl : Option Nat)
    (text : String) (hπ : ∀ c s, π (queueCommand E c s) = π c) :
    KeepsOn S π ρ a (sendWithRoom E b cl text) := by
  unfold sendWithRoom
  cases cl with
  | none =>
    apply KeepsOn.emit_on
    apply h1.mapClients_on
    intro c
    split
    · exact hπ c text
    · rfl
  | some i => exact (h1.modifyClient_on i _ (fun _ c => hπ c text)).emit_on _

theorem KeepsOn.numberName_on {α β : Type} {S : Nat → Prop} {π : client_t → α}
    {ρ : cvars_t → β} {a b : ServerState} (h1 : KeepsOn S π ρ a b) (cl : Nat)
    (hπ : S cl → ∀ (c : client_t) (u : userinfo_t), π { c with userinfo := u } = π c)
    (hρ : ∀ cv : cvars_t, ρ { cv with sv_numberedNamesDecoration_modified := false } = ρ cv) :
    KeepsOn S π ρ a (SV_NumberName b cl) := by
  unfold SV_NumberName
  dsimp only
  have k1 : KeepsOn S π ρ a (if b.cvars.sv_numberedNamesDecoration_modified = true then
      { b with
        numberName_static1 := beforeFirstSemicolon b.cvars.sv_numberedNamesDecoration
        numberName_static2 := afterLastSemicolon b.cvars.sv_numberedNamesDecoration
        cvars := { b.cvars with sv_numberedNamesDecoration_modified := false } }
    else b) := KeepsOn.ite_on (h1.congr_on rfl rfl (hρ _)) h1
  generalize (if b.cvars.sv_numberedNamesDecoration_modified = true then
      { b with
        numberName_static1 := beforeFirstSemicolon b.cvars.sv_numberedNamesDecoration
        numberName_static2 := afterLastSemicolon b.cvars.sv_numberedNamesDecoration
        cvars := { b.cvars with sv_numberedNamesDecoration_modified := false } }
    else b) = b1 at k1 ⊢
  split
  · refine KeepsOn.modifyClient_on (KeepsOn.modifyClient_on k1 cl _ ?_) cl _ ?_
    · exact fun hs c => hπ hs c _
    · exact fun hs c => hπ hs c _
  · exact KeepsOn.modifyClient_on k1 cl _ (fun hs c => hπ hs c _)

theorem userinfoWrites_userinfo {c x : client_t} (h : userinfoWrites c x) (u : userinfo_t) :
    userinfoWrites c { x with userinfo := u } := by
  obtain ⟨u0, n, r, m, d, e⟩ := h
  subst e
  exact ⟨u, n, r, m, d, rfl⟩

theorem userinfoWrites_rate {c x : client_t} (h : userinfoWrites c x) (r : Int) :
    userinfoWrites c { x with rate := r } := by
  obtain ⟨u, n, r0, m, d, e⟩ := h
  subst e
  exact ⟨u, n, r, m, d, rfl⟩

theorem userinfoWrites_snapshotMsec {c x : client_t} (h : userinfoWrites c x) (m : Int) :
    userinfoWrites c { x with snapshotMsec := m } := by
  obtain ⟨u, n, r, m0, d, e⟩ := h
  subst e
  exact ⟨u, n, r, m, d, rfl⟩

theorem KeepsOn.userinfoChanged_on {α β : Type} {S : Nat → Prop} {π : client_t → α}
    {ρ : cvars_t → β} {a b : ServerState} (h1 : KeepsOn S π ρ a b) (E : Env) (cl : Nat)
    (hπ : S cl → ∀ (c : client_t) (u : userinfo_t) (n : String) (r m : Int) (d : Bool),
      π { c with userinfo := u, name := n, rate := r, snapshotMsec := m, bDlOK := d } = π c) :
    KeepsOn S π ρ a (SV_UserinfoChanged E b cl) := by
  unfold SV_UserinfoChanged
  refine h1.modifyClient_on cl _ (fun hs c => ?_)
  beta_reduce
  lift_lets
  intro c1 rateVal c2 hc c3 snaps c4 c5 www
  have w1 : userinfoWrites c c1 := ⟨c.userinfo, _, c.rate, c.snapshotMsec, c.bDlOK, rfl⟩
  have w2 : userinfoWrites c c2 := by
    dsimp only [c2]
    split_ifs <;> exact userinfoWrites_rate w1 _
  have w3 : userinfoWrites c c3 := by
    dsimp only [c3]
    split_ifs
    · exact userinfoWrites_userinfo w2 _
    · exact w2
  have w4 : userinfoWrites c c4 := by
    dsimp only [c4]
    split_ifs <;> exact userinfoWrites_snapshotMsec w3 _
  have w5 : userinfoWrites c c5 := by
    dsimp only [c5]
    split_ifs
    · exact userinfoWrites_userinfo w4 _
    · exact userinfoWrites_userinfo w4 _
  clear_value c5
  obtain ⟨u, n, r, m, d, e⟩ := w5
  subst e
  exact hπ hs c u n r m _

theorem connectView_queueCommand (E : Env) (c : client_t) (s : String) :
    connectView (queueCommand E c s)
      = ((connectView c).1 + 1, (connectView c).2) := rfl

/-- The part of `SV_DirectConnect` from the label `gotnewcl` on, when it accepts. -/
theorem gotnewcl_accepts (E : Env) (sv : ServerState) (fromAdr : netadr_t) (userinfo : userinfo_t)
    (challenge qport : Int) (newcl : Nat) (sv' : ServerState) (k : Nat)
    (hring : 0 < E.MAX_RELIABLE_COMMANDS) (hk : newcl < sv.svs_clients.length)
    (h : gotnewcl E sv fromAdr userinfo challenge qport newcl = (sv', some k)) :
    k = newcl ∧ Accepted fromAdr challenge qport sv sv' k ∧
      ∀ j, j ≠ k → (getClient sv' j).state = (getClient sv j).state := by
  revert h
  unfold gotnewcl
  lift_lets
  intro temp sv1 cl_guid userinfo1 sv2 sv3 sv4 c4 sv5 sv6 sv7 sv8 sv9 count sv10 h
  split at h
  · exact absurd (Prod.mk.inj h).2 (by simp)
  obtain ⟨e1, e2⟩ := Prod.mk.inj h
  have e2 := Option.some.inj e2
  subst e2
  rw [← e1]
  clear h e1
  refine ⟨rfl, ?_⟩
  -- the other slots, the clock and the console variables
  have o1 : KeepsOn (· ≠ newcl) (fun c => c) connectCvars sv sv1 :=
    (KeepsOn.refl_on _ _ _ sv).setClient_on newcl _ (fun hs => absurd rfl hs)
  have o2 : KeepsOn (· ≠ newcl) (fun c => c) connectCvars sv sv2 := by
    dsimp only [sv2]
    exact (o1.modifyClient_on newcl _ (fun hs => absurd rfl hs)).numberName_on newcl
      (fun hs => absurd rfl hs) (fun _ => rfl)
  have o3 : KeepsOn (· ≠ newcl) (fun c => c) connectCvars sv sv3 := o2.emit_on _
  have o4 : KeepsOn (· ≠ newcl) (fun c => c) connectCvars sv sv4 :=
    o3.userinfoChanged_on E newcl (fun hs => absurd rfl hs)
  have o5 : KeepsOn (· ≠ newcl) (fun c => c) connectCvars sv sv5 := by
    dsimp only [sv5]
    exact KeepsOn.ite_on (o4.emit_on _) o4
  -- the ring of the chosen slot is fresh when the first message is queued
  have g1 : connectView (getClient sv1 newcl) = (0, 0, 0, challenge, Netchan_Setup fromAdr qport) := by
    dsimp only [sv1]
    rw [getClient_setClient, if_pos ⟨rfl, hk⟩]
    rfl
  have a2 : KeepsOn (fun _ => True) connectView connectCvars sv1 sv2 := by
    dsimp only [sv2]
    refine KeepsOn.numberName_on (KeepsOn.modifyClient_on (KeepsOn.refl_on _ _ _ sv1) newcl _ ?_)
      newcl ?_ ?_
    · intro _ _
      rfl
    · intro _ _ _
      rfl
    · intro _
      rfl
  have a3 : KeepsOn (fun _ => True) connectView connectCvars sv1 sv3 := a2.emit_on _
  have a4 : KeepsOn (fun _ => True) connectView connectCvars sv1 sv4 := by
    refine a3.userinfoChanged_on E newcl ?_
    intro _ _ _ _ _ _ _
    rfl
  have a5 : KeepsOn (fun _ => True) connectView connectCvars sv1 sv5 := by
    dsimp only [sv5]
    exact KeepsOn.ite_on (a4.emit_on _) a4
  have v5 := (a5.2.2.2 newcl trivial).trans g1
  have hs6 : SV_SendServerCommand E sv5 (some newcl) ("chat \"" ++ sv5.cvars.sv_firstMessage ++ "\"")
      = sendWithRoom E sv5 (some newcl) ("chat \"" ++ sv5.cvars.sv_firstMessage ++ "\"") := by
    apply SV_SendServerCommand_room
    intro j _ hc
    rcases hc with hc | hc
    · exact Option.noConfusion hc
    · have hj : newcl = j := Option.some.inj hc
      subst hj
      have q1 : (getClient sv5 newcl).reliableSequence = 0 := congrArg (fun v => v.1) v5
      have q2 : (getClient sv5 newcl).reliableAcknowledge = 0 := congrArg (fun v => v.2.1) v5
      unfold ringRoom
      rw [q1, q2]
      push_cast
      omega
  have d6 : sv6 = if c4.netchan.remoteAddress.type ≠ .NA_BOT ∧ sv5.cvars.sv_firstMessage ≠ "" then
      sendWithRoom E sv5 (some newcl) ("chat \"" ++ sv5.cvars.sv_firstMessage ++ "\"")
    else sv5 := by
    dsimp only [sv6]
    rw [hs6]
  have o6 : KeepsOn (· ≠ newcl) (fun c => c) connectCvars sv sv6 := by
    rw [d6]
    refine KeepsOn.ite_on ?_ o5
    dsimp only [sendWithRoom]
    exact (o5.modifyClient_on _ _ (fun hs => absurd rfl hs)).emit_on _
  have o7 : KeepsOn (· ≠ newcl) (fun c => c) connectCvars sv sv7 := o6.congr_on rfl rfl rfl
  have o8 : KeepsOn (· ≠ newcl) (fun c => c) connectCvars sv sv8 := o7.emit_on _
  have o9 : KeepsOn (· ≠ newcl) (fun c => c) connectCvars sv sv9 :=
    o8.modifyClient_on _ _ (fun hs => absurd rfl hs)
  have o10 : KeepsOn (· ≠ newcl) (fun c => c) connectCvars sv sv10 := by
    dsimp only [sv10]
    exact KeepsOn.ite_on (o9.emit_on _) o9
  -- the log
  have l1 : LogExt (fun _ => True) sv sv1 := LogExt.of_eq rfl
  have l2 : LogExt (fun _ => True) sv sv2 :=
    (l1.modifyClient newcl _).trans (tame_SV_NumberName _ _ newcl).2
  have l3 : LogExt (fun _ => True) sv sv3 := l2.emit trivial
  have l4 : LogExt (fun _ => True) sv sv4 := l3.trans (tame_SV_UserinfoChanged _ E sv3 newcl).2
  have l5 : LogExt (fun _ => True) sv sv5 := by
    dsimp only [sv5]
    exact LogExt.ite (l4.emit trivial) l4
  have l6 : LogExt (fun _ => True) sv sv6 := by
    dsimp only [sv6]
    exact LogExt.ite (l5.sendServerCommand E _ _ (fun _ _ => trivial)) l5
  have l7 : LogExt (fun _ => True) sv sv7 := l6.congr rfl
  have l8 : sv8.log = sv7.log ++ [Effect.NET_OutOfBandPrint fromAdr "connectResponse"] := rfl
  have l10 : LogExt (fun _ => True) sv8 sv10 := by
    dsimp only [sv10]
    exact LogExt.ite (((LogExt.refl _ sv8).modifyClient newcl _).emit trivial)
      ((LogExt.refl _ sv8).modifyClient newcl _)
  -- the chosen slot after the first message
  have a10 : KeepsOn (fun _ => True) connectView connectCvars sv6 sv10 := by
    have b7 : KeepsOn (fun _ => True) connectView connectCvars sv6 sv7 :=
      (KeepsOn.refl_on _ _ _ sv6).congr_on rfl rfl rfl
    have b9 : KeepsOn (fun _ => True) connectView connectCvars sv6 sv9 := by
      refine (b7.emit_on _).modifyClient_on _ _ ?_
      intro _ _
      rfl
    dsimp only [sv10]
    exact KeepsOn.ite_on (b9.emit_on _) b9
  have d4 : c4 = getClient sv4 newcl := rfl
  have s10 : getClient sv10 newcl = getClient sv9 newcl := by
    dsimp only [sv10]
    split <;> rfl
  have n8 : newcl < sv8.svs_clients.length := by rw [o8.1]; exact hk
  have s9 : getClient sv9 newcl =
      { getClient sv8 newcl with
        state := .CS_CONNECTED
        nextSnapshotTime := sv8.svs_time
        lastPacketTime := sv8.svs_time
        lastConnectTime := sv8.svs_time
        gamestateMessageNum := -1 } := getClient_modifyClient_self _ _ _ n8
  have t8 : sv8.svs_time = sv.svs_time := o8.2.1
  have n5 : newcl < sv5.svs_clients.length := by rw [o5.1]; exact hk
  have c5 : connectCvars sv5.cvars = connectCvars sv.cvars := o5.2.2.1
  have v4 := (a4.2.2.2 newcl trivial).trans g1
  have v10 := a10.2.2.2 newcl trivial
  have oo := o10.2.2.2
  clear_value sv10
  clear o1 o2 o3 o4 o5 o6 o7 o8 o9 o10 l1 l2 l3 l4 l5 l6 a2 a3 a4 a5 a10 g1 hs6
  rw [d4] at d6
  have g4 : (getClient sv4 newcl).netchan.remoteAddress.type = fromAdr.type :=
    congrArg (fun v => v.2.2.2.2.remoteAddress.type) v4
  have c5 : sv5.cvars.sv_firstMessage = sv.cvars.sv_firstMessage := congrArg (fun v => v.1) c5
  rw [g4, c5] at d6
  have g6 : connectView (getClient sv6 newcl)
      = ((if fromAdr.type ≠ .NA_BOT ∧ sv.cvars.sv_firstMessage ≠ "" then 1 else 0), 0, 0, challenge,
          Netchan_Setup fromAdr qport) := by
    by_cases hc : fromAdr.type ≠ .NA_BOT ∧ sv.cvars.sv_firstMessage ≠ ""
    · rw [if_pos hc] at d6
      rw [if_pos hc, d6]
      dsimp only [sendWithRoom]
      rw [getClient_emit, getClient_modifyClient_self _ _ _ n5, connectView_queueCommand, v5]
      rfl
    · rw [if_neg hc] at d6
      rw [if_neg hc, d6]
      exact v5
  have g10 := v10.trans g6
  dsimp only [connectView] at g10
  simp only [Prod.mk.injEq] at g10
  obtain ⟨q1, q2, q3, q4, q5⟩ := g10
  obtain ⟨n7, e7, -⟩ := l7
  obtain ⟨n10, e10, -⟩ := l10
  refine ⟨⟨hk, ?_, q1, q2, q3, q4, ?_, ?_, ?_, ?_, ⟨n7, n10, ?_⟩⟩, fun j hj => ?_⟩
  · rw [s10, s9]
  · rw [q5]
    rfl
  · rw [q5]
    rfl
  · rw [s10, s9]
  · rw [s10, s9]
    exact t8
  · rw [e10, l8, e7]
    simp
  · exact congrArg client_t.state (oo j hj)

theorem findIndex_lt {α : Type} (p : α → Bool) :
    ∀ (l : List α) (k : Nat), findIndex p l = some k → k < l.length
  | [], k, h => by simp [findIndex] at h
  | x :: xs, k, h => by
    unfold findIndex at h
    split at h
    · have := Option.some.inj h
      subst this
      simp
    · cases hf : findIndex p xs with
      | none => simp [hf] at h
      | some m =>
        rw [hf] at h
        have := Option.some.inj h
        subst this
        have := findIndex_lt p xs m hf
        simp only [List.length_cons]
        omega

/-- On rings with room every slot other than the dropped one keeps its connection
state through `SV_DropClient`; the clock and the console variables are the same. -/
theorem SV_DropClient_others (E : Env) (sv : ServerState) (drop : Nat) (reason : String)
    (hroom : dropRoom E sv drop) :
    KeepsOn (· ≠ drop) client_t.state (fun cv => cv) sv (SV_DropClient E sv drop reason) := by
  rw [SV_DropClient_room E sv drop reason hroom]
  unfold dropWithRoom dropClientWith
  lift_lets
  intro d isBot sv1 sv2 sv3 sv4 sv5 sv6 sv7 sv8 count bots sv9
  have h0 : KeepsOn (· ≠ drop) client_t.state (fun cv => cv) sv sv := KeepsOn.refl_on _ _ _ _
  split
  · exact h0
  have h1 : KeepsOn (· ≠ drop) client_t.state (fun cv => cv) sv sv1 := by
    dsimp only [sv1]
    refine KeepsOn.ite_on ?_ h0
    unfold SV_CloseDownload
    refine KeepsOn.modifyClient_on (KeepsOn.ite_on (KeepsOn.emit_on ?_ _) ?_) _ _ ?_
    · exact h0.congr_on rfl rfl rfl
    · exact h0.congr_on rfl rfl rfl
    · intro _ _
      rfl
  have h2 : KeepsOn (· ≠ drop) client_t.state (fun cv => cv) sv sv2 := by
    dsimp only [sv2]
    refine KeepsOn.ite_on ?_ h1
    refine h1.sendWithRoom_on E _ _ ?_
    intro _ _
    rfl
  have h3 : KeepsOn (· ≠ drop) client_t.state (fun cv => cv) sv sv3 :=
    h2.modifyClient_on _ _ (fun hs => absurd rfl hs)
  have h4 : KeepsOn (· ≠ drop) client_t.state (fun cv => cv) sv sv4 := by
    dsimp only [sv4]
    refine KeepsOn.ite_on ?_ h3
    exact (h3.emit_on _).modifyClient_on _ _ (fun hs => absurd rfl hs)
  have h5 : KeepsOn (· ≠ drop) client_t.state (fun cv => cv) sv sv5 := h4.emit_on _
  have h6 : KeepsOn (· ≠ drop) client_t.state (fun cv => cv) sv sv6 := by
    dsimp only [sv6]
    refine h5.sendWithRoom_on E _ _ ?_
    intro _ _
    rfl
  have h7 : KeepsOn (· ≠ drop) client_t.state (fun cv => cv) sv sv7 := by
    dsimp only [sv7]
    exact KeepsOn.ite_on (h6.emit_on _) (KeepsOn.ite_on (h6.emit_on _) h6)
  have h8 : KeepsOn (· ≠ drop) client_t.state (fun cv => cv) sv sv8 := by
    dsimp only [sv8]
    unfold SV_SetUserinfo
    exact h7.modifyClient_on _ _ (fun hs => absurd rfl hs)
  have h9 : KeepsOn (· ≠ drop) client_t.state (fun cv => cv) sv sv9 := by
    dsimp only [sv9]
    exact KeepsOn.ite_on (KeepsOn.ite_on (h8.emit_on _) h8) h8
  clear_value sv9
  exact KeepsOn.ite_on (h9.congr_on rfl rfl rfl) h9

/-- An acceptance seen from a later state is an acceptance seen from an earlier one,
when the steps between them keep what the acceptance reads. -/
theorem Accepted.of_later {fromAdr : netadr_t} {challenge qport : Int} {sv a sv' : ServerState}
    {k : Nat} (hl : a.svs_clients.length = sv.svs_clients.length)
    (ht : a.svs_time = sv.svs_time) (hc : a.cvars.sv_firstMessage = sv.cvars.sv_firstMessage)
    (hlog : LogExt (fun _ => True) sv a)
    (h : Accepted fromAdr challenge qport a sv' k) : Accepted fromAdr challenge qport sv sv' k := by
  obtain ⟨p1, p2, p3, p4, p5, p6, p7, p8, p9, p10, ⟨pre, post, p11⟩⟩ := h
  obtain ⟨n, e, -⟩ := hlog
  refine ⟨hl ▸ p1, p2, ?_, p4, p5, p6, p7, p8, p9, ht ▸ p10, ⟨n ++ pre, post, ?_⟩⟩
  · rw [p3, hc]
  · rw [p11, e]
    simp

theorem SV_DirectConnect_no_accept {x sv' : ServerState} {k : Nat}
    (h : (x, (none : Option Nat)) = (sv', some k)) : False :=
  absurd (Prod.mk.inj h).2 (by simp)

/-- The slot search of `SV_DirectConnect`, when the connection is accepted. A local
requester can evict a bot; the other slots keep their connection state through that
drop when the rings have room for its commands. -/
theorem selectSlot_accepts (E : Env) (fromAdr : netadr_t) (sv : ServerState)
    (userinfo : userinfo_t) (challenge qport : Int) (sv' : ServerState) (k : Nat)
    (hring : 0 < E.MAX_RELIABLE_COMMANDS) (hn : 0 < sv.svs_clients.length)
    (h : SV_DirectConnect.selectSlot E fromAdr sv userinfo challenge qport = (sv', some k)) :
    Accepted fromAdr challenge qport sv sv' k ∧
      ((E.NET_IsLocalAddress fromAdr = true → dropRoom E sv (sv.svs_clients.length - 1)) →
        ∀ j, j ≠ k → (getClient sv' j).state = (getClient sv j).state) := by
  unfold SV_DirectConnect.selectSlot at h
  split at h
  · rename_i k0 hk0
    have hacc := gotnewcl_accepts E sv fromAdr userinfo challenge qport k0 sv' k hring
      (findIndex_lt _ _ _ hk0) h
    exact ⟨hacc.2.1, fun _ => hacc.2.2⟩
  dsimp only at h
  generalize (if Info_ValueForKey userinfo "password" = sv.cvars.sv_privatePassword then 0
    else sv.cvars.sv_privateClients) = startIndex at h
  split at h
  · rename_i k1 hk1
    have hlt := findIndex_lt _ _ _ hk1
    rw [List.length_drop] at hlt
    have hacc := gotnewcl_accepts E _ fromAdr userinfo challenge qport _ sv' k hring
      (by rw [length_modifyClient]; omega) h
    refine ⟨Accepted.of_later ?_ ?_ ?_ ?_ hacc.2.1, fun _ j hj => ?_⟩
    · rw [length_modifyClient]
    · rfl
    · rfl
    · exact LogExt.of_eq rfl
    rw [hacc.2.2 j hj, getClient_modifyClient]
    split <;> rename_i hj2
    · rw [hj2.1]
    · rfl
  by_cases hloc : E.NET_IsLocalAddress fromAdr = true
  swap
  · rw [if_neg hloc] at h
    exact (SV_DirectConnect_no_accept h).elim
  rw [if_pos hloc] at h
  have hd := (SV_DropClient_drops E sv (sv.svs_clients.length - 1)
    "only bots on server").keeps_dropView
  have hlog := logExt_SV_DropClient E sv (sv.svs_clients.length - 1) "only bots on server"
  have hfr : dropRoom E sv (sv.svs_clients.length - 1) → ∀ j, j ≠ sv.svs_clients.length - 1 →
      (getClient (SV_DropClient E sv (sv.svs_clients.length - 1) "only bots on server") j).state
        = (getClient sv j).state :=
    fun hroom => (SV_DropClient_others E sv _ "only bots on server" hroom).2.2.2
  generalize SV_DropClient E sv (sv.svs_clients.length - 1) "only bots on server" = sv1
    at h hd hlog hfr
  have key : ∀ cl : Nat,
      gotnewcl E (modifyClient sv1 cl
          (fun c => { c with reliableAcknowledge := 0, reliableSequence := 0 }))
        fromAdr userinfo challenge qport (sv.svs_clients.length - 1) = (sv', some k) →
      Accepted fromAdr challenge qport sv sv' k ∧
        ((E.NET_IsLocalAddress fromAdr = true → dropRoom E sv (sv.svs_clients.length - 1)) →
          ∀ j, j ≠ k → (getClient sv' j).state = (getClient sv j).state) := by
    intro cl h
    have hacc := gotnewcl_accepts E _ fromAdr userinfo challenge qport _ sv' k hring
      (by rw [length_modifyClient, hd.1]; omega) h
    obtain ⟨hk, hacc, hoth⟩ := hacc
    refine ⟨Accepted.of_later ?_ ?_ ?_ ?_ hacc, fun hroom j hj => ?_⟩
    · rw [length_modifyClient, hd.1]
    · exact hd.2.1
    · exact congrArg cvars_t.sv_firstMessage hd.2.2.1
    · exact (hlog.mono (fun _ _ => trivial)).modifyClient _ _
    rw [hoth j hj, getClient_modifyClient]
    split <;> rename_i hj2
    · rw [← hj2.1]
      exact hfr (hroom hloc) j (hk ▸ hj)
    · exact hfr (hroom hloc) j (hk ▸ hj)
  split_ifs at h
  all_goals first
    | exact (SV_DirectConnect_no_accept h).elim
    | exact key _ h

/-- C10 (amended): when `SV_DirectConnect` accepts a connection on a server with at
least one slot and a reliable command ring of at least one command, the chosen slot
`k` ends in `CS_CONNECTED` with `reliableAcknowledge` and `lastClientCommand` 0;
`reliableSequence` is 0, or 1 when `sv_firstMessage` is not empty and the requester is
not a bot (the first message was queued); the slot holds the challenge and the qport
of the request and the address of the requester, `gamestateMessageNum` is -1 and
`lastConnectTime` is `svs.time`; "connectResponse" is among the effects the call adds,
addressed to the requester; and every other slot has the connection state it had,
provided that, when the requester is local and so may evict the bot of the last slot,
every ring has room for the commands of that drop (two on the ring of the bot, one on
every other ring). -/
theorem SV_DirectConnect_accepts (E : Env) (sv : ServerState) (fromAdr : netadr_t)
    (args : List String) (sv' : ServerState) (k : Nat)
    (hring : 0 < E.MAX_RELIABLE_COMMANDS) (hn : 0 < sv.svs_clients.length)
    (h : SV_DirectConnect E sv fromAdr args = (sv', some k)) :
    k < sv.svs_clients.length ∧
    (getClient sv' k).state = .CS_CONNECTED ∧
    (getClient sv' k).reliableSequence
      = (if fromAdr.type ≠ .NA_BOT ∧ sv.cvars.sv_firstMessage ≠ "" then 1 else 0) ∧
    (getClient sv' k).reliableAcknowledge = 0 ∧
    (getClient sv' k).lastClientCommand = 0 ∧
    (getClient sv' k).challenge
      = atoi (Info_ValueForKey (E.Info_decode (Cmd_Argv args 1)) "challenge") ∧
    (getClient sv' k).netchan.remoteAddress = fromAdr ∧
    (getClient sv' k).netchan.qport
      = atoi (Info_ValueForKey (E.Info_decode (Cmd_Argv args 1)) "qport") ∧
    (getClient sv' k).gamestateMessageNum = -1 ∧
    (getClient sv' k).lastConnectTime = sv.svs_time ∧
    (∃ pre post, sv'.log
      = sv.log ++ pre ++ Effect.NET_OutOfBandPrint fromAdr "connectResponse" :: post) ∧
    ((E.NET_IsLocalAddress fromAdr = true → dropRoom E sv (sv.svs_clients.length - 1)) →
      ∀ j, j ≠ k → (getClient sv' j).state = (getClient sv j).state) := by
  have key : Accepted fromAdr
      (atoi (Info_ValueForKey (E.Info_decode (Cmd_Argv args 1)) "challenge"))
      (atoi (Info_ValueForKey (E.Info_decode (Cmd_Argv args 1)) "qport")) sv sv' k ∧
      ((E.NET_IsLocalAddress fromAdr = true → dropRoom E sv (sv.svs_clients.length - 1)) →
        ∀ j, j ≠ k → (getClient sv' j).state = (getClient sv j).state) := by
    revert h
    unfold SV_DirectConnect
    lift_lets
    intro userinfo challenge qport quick tooSoon userinfo1 h
    clear_value tooSoon
    split at h
    · exact (SV_DirectConnect_no_accept h).elim
    split at h
    · exact (SV_DirectConnect_no_accept h).elim
    split at h
    · exact (SV_DirectConnect_no_accept h).elim
    split at h
    · split at h
      · exact (SV_DirectConnect_no_accept h).elim
      · revert h
        lift_lets
        intro ch ping sv1 h
        split at h
        · exact (SV_DirectConnect_no_accept h).elim
        split at h
        · exact (SV_DirectConnect_no_accept h).elim
        have hn1 : 0 < sv1.svs_clients.length := hn
        have hacc := selectSlot_accepts E fromAdr sv1 userinfo1 challenge qport sv' k hring hn1 h
        refine ⟨Accepted.of_later ?_ ?_ ?_ ?_ hacc.1, hacc.2⟩
        · rfl
        · rfl
        · rfl
        · exact LogExt.of_eq rfl
    · have hacc := selectSlot_accepts E fromAdr sv (Info_SetValueForKey userinfo "ip" "localhost")
        challenge qport sv' k hring hn h
      exact hacc
  obtain ⟨⟨p1, p2, p3, p4, p5, p6, p7, p8, p9, p10, p11⟩, p12⟩ := key
  exact ⟨p1, p2, p3, p4, p5, p6, p7, p8, p9, p10, p11, p12⟩

/-- C10, counterexample. A client at 10.0.0.1:27960 with a valid challenge connects to
a server whose `sv_firstMessage` is "Welcome": the connection is accepted into slot 0,
which ends in `CS_CONNECTED`, and the queued first message has taken reliable sequence
number 1, so `reliableSequence` is not 0. -/
theorem SV_DirectConnect_first_message_counterexample :
    (SV_DirectConnect env0 (serverOpen cvarsWelcome) adr1 connectArgs).2 = some 0 ∧
    (getClient (SV_DirectConnect env0 (serverOpen cvarsWelcome) adr1 connectArgs).1 0).state
      = .CS_CONNECTED ∧
    (getClient (SV_DirectConnect env0 (serverOpen cvarsWelcome) adr1 connectArgs).1
      0).reliableSequence = 1 ∧
    (getClient (SV_DirectConnect env0 (serverOpen cvarsWelcome) adr1 connectArgs).1
      0).reliableSequence ≠ 0 := by
  decide

/-- C10 (amended), witness: the same connection, accepted into slot 0. -/
theorem SV_DirectConnect_accepts_witness :
    (0 < env0.MAX_RELIABLE_COMMANDS ∧ 0 < (serverOpen cvarsWelcome).svs_clients.length ∧
      SV_DirectConnect env0 (serverOpen cvarsWelcome) adr1 connectArgs
        = (serverWelcomed, some 0)) ∧
    (0 < (serverOpen cvarsWelcome).svs_clients.length ∧
    (getClient serverWelcomed 0).state = .CS_CONNECTED ∧
    (getClient serverWelcomed 0).reliableSequence
      = (if adr1.type ≠ .NA_BOT ∧ (serverOpen cvarsWelcome).cvars.sv_firstMessage ≠ "" then 1
          else 0) ∧
    (getClient serverWelcomed 0).reliableAcknowledge = 0 ∧
    (getClient serverWelcomed 0).lastClientCommand = 0 ∧
    (getClient serverWelcomed 0).challenge
      = atoi (Info_ValueForKey (env0.Info_decode (Cmd_Argv connectArgs 1)) "challenge") ∧
    (getClient serverWelcomed 0).netchan.remoteAddress = adr1 ∧
    (getClient serverWelcomed 0).netchan.qport
      = atoi (Info_ValueForKey (env0.Info_decode (Cmd_Argv connectArgs 1)) "qport") ∧
    (getClient serverWelcomed 0).gamestateMessageNum = -1 ∧
    (getClient serverWelcomed 0).lastConnectTime = (serverOpen cvarsWelcome).svs_time ∧
    (∃ pre post, serverWelcomed.log
      = (serverOpen cvarsWelcome).log ++ pre
        ++ Effect.NET_OutOfBandPrint adr1 "connectResponse" :: post) ∧
    ((env0.NET_IsLocalAddress adr1 = true →
        dropRoom env0 (serverOpen cvarsWelcome) ((serverOpen cvarsWelcome).svs_clients.length - 1)) →
      ∀ j, j ≠ 0 → (getClient serverWelcomed j).state
        = (getClient (serverOpen cvarsWelcome) j).state)) :=
  ⟨⟨by decide, by decide, Prod.ext rfl (by decide)⟩,
    SV_DirectConnect_accepts env0 (serverOpen cvarsWelcome) adr1 connectArgs serverWelcomed 0
      (by decide) (by decide) (Prod.ext rfl (by decide))⟩

/-! ## Rejections of `SV_DirectConnect` -/

theorem findIndex_eq_none_iff {α : Type} (p : α → Bool) :
    ∀ l : List α, findIndex p l = none ↔ ∀ x ∈ l, p x = false
  | [] => by simp [findIndex]
  | x :: xs => by
    unfold findIndex
    by_cases hx : p x = true
    · simp [hx]
    · have ih := findIndex_eq_none_iff p xs
      simp only [hx, Bool.false_eq_true, if_false, Option.map_eq_none', ih, List.mem_cons,
        forall_eq_or_imp]
      simp [hx]

theorem findIndex_eq_some_iff {α : Type} (p : α → Bool) :
    ∀ (l : List α) (k : Nat), findIndex p l = some k ↔
      (∃ x, l[k]? = some x ∧ p x = true) ∧ ∀ j, j < k → ∀ y, l[j]? = some y → p y = false
  | [], k => by simp [findIndex]
  | x :: xs, k => by
    unfold findIndex
    by_cases hx : p x = true
    · rw [if_pos hx]
      constructor
      · intro h
        have := Option.some.inj h
        subst this
        exact ⟨⟨x, by simp, hx⟩, fun j hj => absurd hj (Nat.not_lt_zero j)⟩
      · rintro ⟨-, h2⟩
        cases k with
        | zero => rfl
        | succ m =>
          have := h2 0 (Nat.succ_pos m) x (by simp)
          rw [hx] at this
          exact absurd this (by simp)
    · rw [if_neg hx]
      have hx2 : p x = false := by simpa using hx
      cases k with
      | zero =>
        constructor
        · intro h
          cases hf : findIndex p xs with
          | none => simp [hf] at h
          | some m => simp [hf] at h
        · rintro ⟨⟨y, hy, hpy⟩, -⟩
          simp at hy
          subst hy
          exact absurd hpy hx
      | succ m =>
        have ih := findIndex_eq_some_iff p xs m
        constructor
        · intro h
          have hm : findIndex p xs = some m := by
            cases hf : findIndex p xs with
            | none => simp [hf] at h
            | some m2 =>
              rw [hf] at h
              simp at h
              rw [h]
          obtain ⟨h1, h2⟩ := ih.1 hm
          refine ⟨by simpa using h1, fun j hj y hy => ?_⟩
          cases j with
          | zero =>
            simp at hy
            subst hy
            exact hx2
          | succ j2 => exact h2 j2 (Nat.lt_of_succ_lt_succ hj) y (by simpa using hy)
        · rintro ⟨h1, h2⟩
          have hm : findIndex p xs = some m :=
            ih.2 ⟨by simpa using h1, fun j hj y hy =>
              h2 (j + 1) (Nat.succ_lt_succ hj) y (by simpa using hy)⟩
          rw [hm]
          rfl

theorem getElem?_clients (sv : ServerState) (k : Nat) (hk : k < sv.svs_clients.length) :
    sv.svs_clients[k]? = some (getClient sv k) := by
  unfold getClient
  rw [List.getElem?_eq_getElem hk]
  rfl

theorem findIndex_clients_iff (p : client_t → Bool) (sv : ServerState) (k : Nat) :
    findIndex p sv.svs_clients = some k ↔ firstSlotWith p sv k := by
  rw [findIndex_eq_some_iff]
  constructor
  · rintro ⟨⟨x, hx, hp⟩, h2⟩
    have hk : k < sv.svs_clients.length := by
      by_contra hc
      rw [List.getElem?_eq_none (Nat.le_of_not_lt hc)] at hx
      exact absurd hx (by simp)
    rw [getElem?_clients sv k hk] at hx
    have := Option.some.inj hx
    subst this
    exact ⟨hk, hp, fun j hj => h2 j hj _ (getElem?_clients sv j (Nat.lt_trans hj hk))⟩
  · rintro ⟨hk, hp, h2⟩
    refine ⟨⟨_, getElem?_clients sv k hk, hp⟩, fun j hj y hy => ?_⟩
    rw [getElem?_clients sv j (Nat.lt_trans hj hk)] at hy
    have := Option.some.inj hy
    subst this
    exact h2 j hj

/-- The quick-reject test of `SV_DirectConnect` in the words of `reconnectTooSoon`. -/
theorem tooSoon_iff (E : Env) (sv : ServerState) (fromAdr : netadr_t) (qport : Int) :
    (match findIndex (sameClientAddress E fromAdr qport) sv.svs_clients with
      | some k =>
        decide (sv.svs_time - (getClient sv k).lastConnectTime < sv.cvars.sv_reconnectlimit * 1000)
      | none => false) = true ↔ reconnectTooSoon E sv fromAdr qport := by
  unfold reconnectTooSoon
  cases hf : findIndex (sameClientAddress E fromAdr qport) sv.svs_clients with
  | none =>
    simp only [Bool.false_eq_true, false_iff]
    rintro ⟨k, hk, -⟩
    rw [← findIndex_clients_iff, hf] at hk
    exact absurd hk (by simp)
  | some k =>
    simp only [decide_eq_true_eq]
    constructor
    · intro h
      exact ⟨k, (findIndex_clients_iff _ sv k).1 hf, h⟩
    · rintro ⟨k2, hk2, h⟩
      rw [← findIndex_clients_iff, hf] at hk2
      have := Option.some.inj hk2
      subst this
      exact h

/-- What every rejection of `SV_DirectConnect` before the slot search has in common,
and what the function does when the challenge of a non-local requester is not found:
`bad` says that no record of the requester's address holds the challenge. -/
theorem SV_DirectConnect_early (E : Env) (sv : ServerState) (fromAdr : netadr_t)
    (args : List String)
    (hearly : reconnectTooSoon E sv fromAdr
        (atoi (Info_ValueForKey (E.Info_decode (Cmd_Argv args 1)) "qport")) ∨
      (E.NET_IsLocalAddress fromAdr = false ∧
        ∀ ch ∈ sv.svs_challenges, E.NET_CompareAdr fromAdr ch.adr = true →
          ch.challenge ≠ atoi (Info_ValueForKey (E.Info_decode (Cmd_Argv args 1)) "challenge"))) :
    (SV_DirectConnect E sv fromAdr args).2 = none ∧
    (SV_DirectConnect E sv fromAdr args).1.svs_clients = sv.svs_clients ∧
    (SV_DirectConnect E sv fromAdr args).1.svs_challenges = sv.svs_challenges ∧
    (atoi (Info_ValueForKey (E.Info_decode (Cmd_Argv args 1)) "protocol") = E.PROTOCOL_VERSION →
      SV_TempBanIsBanned E sv fromAdr = false →
      (reconnectTooSoon E sv fromAdr
          (atoi (Info_ValueForKey (E.Info_decode (Cmd_Argv args 1)) "qport")) →
        (SV_DirectConnect E sv fromAdr args).1 = sv) ∧
      (¬ reconnectTooSoon E sv fromAdr
          (atoi (Info_ValueForKey (E.Info_decode (Cmd_Argv args 1)) "qport")) →
        (SV_DirectConnect E sv fromAdr args).1 = emit sv (.NET_OutOfBandPrint fromAdr
          "print\n[err_dialog]No or bad challenge for address.\n"))) := by
  have hts := tooSoon_iff E sv fromAdr
    (atoi (Info_ValueForKey (E.Info_decode (Cmd_Argv args 1)) "qport"))
  unfold SV_DirectConnect
  lift_lets
  intro userinfo challenge qport quick tooSoon userinfo1
  have hts2 : tooSoon = true ↔ reconnectTooSoon E sv fromAdr qport := hts
  clear_value tooSoon
  split
  · rename_i hp
    exact ⟨rfl, rfl, rfl, fun h => absurd h hp⟩
  split
  · rename_i hb
    exact ⟨rfl, rfl, rfl, fun _ h => absurd hb (by simp [h])⟩
  split
  · rename_i ht
    exact ⟨rfl, rfl, rfl, fun _ _ => ⟨fun _ => rfl, fun h => absurd (hts2.1 ht) h⟩⟩
  rename_i ht
  rcases hearly with h | ⟨hloc, hbad⟩
  · exact absurd (hts2.2 h) ht
  have hnone : findIndex (fun ch => E.NET_CompareAdr fromAdr ch.adr && (challenge == ch.challenge))
      sv.svs_challenges = none := by
    rw [findIndex_eq_none_iff]
    intro ch hch
    by_cases hc : E.NET_CompareAdr fromAdr ch.adr = true
    · have := hbad ch hch hc
      simp only [hc, Bool.true_and, beq_eq_false_iff_ne, ne_eq]
      exact fun h => this h.symm
    · simp [hc]
  rw [if_pos (by simp [hloc])]
  split
  · exact ⟨rfl, rfl, rfl, fun _ _ => ⟨fun h => absurd (hts2.2 h) ht, fun _ => rfl⟩⟩
  · rename_i i hi
    rw [hnone] at hi
    exact absurd hi (by simp)

/-- C11 (amended). A connect request from a non-local address whose challenge is not
the token of any challenge record of exactly that address is rejected and modifies no
client slot and no challenge record. When the request has the server's protocol
version, the address is not temp-banned and the reconnect limit does not apply, the
rejection is the fixed message "No or bad challenge for address." and nothing else
happens. -/
theorem SV_DirectConnect_bad_challenge (E : Env) (sv : ServerState) (fromAdr : netadr_t)
    (args : List String) (hloc : E.NET_IsLocalAddress fromAdr = false)
    (hbad : ∀ ch ∈ sv.svs_challenges, E.NET_CompareAdr fromAdr ch.adr = true →
      ch.challenge ≠ atoi (Info_ValueForKey (E.Info_decode (Cmd_Argv args 1)) "challenge")) :
    (SV_DirectConnect E sv fromAdr args).2 = none ∧
    (SV_DirectConnect E sv fromAdr args).1.svs_clients = sv.svs_clients ∧
    (SV_DirectConnect E sv fromAdr args).1.svs_challenges = sv.svs_challenges ∧
    (atoi (Info_ValueForKey (E.Info_decode (Cmd_Argv args 1)) "protocol") = E.PROTOCOL_VERSION →
      SV_TempBanIsBanned E sv fromAdr = false →
      ¬ reconnectTooSoon E sv fromAdr
          (atoi (Info_ValueForKey (E.Info_decode (Cmd_Argv args 1)) "qport")) →
      (SV_DirectConnect E sv fromAdr args).1 = emit sv (.NET_OutOfBandPrint fromAdr
        "print\n[err_dialog]No or bad challenge for address.\n")) := by
  have h := SV_DirectConnect_early E sv fromAdr args (Or.inr ⟨hloc, hbad⟩)
  exact ⟨h.1, h.2.1, h.2.2.1, fun hp hb ht => (h.2.2.2 hp hb).2 ht⟩

/-- C11, counterexample. A remote client answers with the challenge 111 that was never
issued to it, in a packet of protocol 83: the only message sent is the protocol
mismatch, not "No or bad challenge for address.". -/
theorem SV_DirectConnect_bad_challenge_counterexample :
    env0.NET_IsLocalAddress adr1 = false ∧
    (∀ ch ∈ (serverOpen cvars0).svs_challenges, env0.NET_CompareAdr adr1 ch.adr = true →
      ch.challenge ≠ atoi (Info_ValueForKey (env0.Info_decode (Cmd_Argv connectArgsOld 1))
        "challenge")) ∧
    (SV_DirectConnect env0 (serverOpen cvars0) adr1 connectArgsOld).1.log
      = [.NET_OutOfBandPrint adr1 "print\n[err_prot]Protocol Mismatch Between Client and Server."] ∧
    Effect.NET_OutOfBandPrint adr1 "print\n[err_dialog]No or bad challenge for address.\n"
      ∉ (SV_DirectConnect env0 (serverOpen cvars0) adr1 connectArgsOld).1.log := by
  decide

/-- C11 (amended), witness: the same client with the right protocol version. -/
theorem SV_DirectConnect_bad_challenge_witness :
    (env0.NET_IsLocalAddress adr1 = false ∧
      (∀ ch ∈ (serverOpen cvars0).svs_challenges, env0.NET_CompareAdr adr1 ch.adr = true →
        ch.challenge ≠ atoi (Info_ValueForKey (env0.Info_decode (Cmd_Argv connectArgsBad 1))
          "challenge")) ∧
      atoi (Info_ValueForKey (env0.Info_decode (Cmd_Argv connectArgsBad 1)) "protocol")
        = env0.PROTOCOL_VERSION ∧
      SV_TempBanIsBanned env0 (serverOpen cvars0) adr1 = false) ∧
    (SV_DirectConnect env0 (serverOpen cvars0) adr1 connectArgsBad).2 = none ∧
    (SV_DirectConnect env0 (serverOpen cvars0) adr1 connectArgsBad).1.svs_clients
      = (serverOpen cvars0).svs_clients ∧
    (SV_DirectConnect env0 (serverOpen cvars0) adr1 connectArgsBad).1.svs_challenges
      = (serverOpen cvars0).svs_challenges ∧
    (SV_DirectConnect env0 (serverOpen cvars0) adr1 connectArgsBad).1
      = emit (serverOpen cvars0) (.NET_OutOfBandPrint adr1
        "print\n[err_dialog]No or bad challenge for address.\n") :=
  ⟨by decide,
    (SV_DirectConnect_bad_challenge env0 (serverOpen cvars0) adr1 connectArgsBad (by decide)
      (by decide)).1,
    (SV_DirectConnect_bad_challenge env0 (serverOpen cvars0) adr1 connectArgsBad (by decide)
      (by decide)).2.1,
    (SV_DirectConnect_bad_challenge env0 (serverOpen cvars0) adr1 connectArgsBad (by decide)
      (by decide)).2.2.1,
    (SV_DirectConnect_bad_challenge env0 (serverOpen cvars0) adr1 connectArgsBad (by decide)
      (by decide)).2.2.2 (by decide) (by decide)
      (fun h => absurd ((tooSoon_iff env0 _ adr1 _).2 h) (by decide))⟩

/-- C14 (amended). A connect request is rejected, and no client slot and no challenge
record is modified, whenever the lowest-index slot with the requester's base address
and the same qport or the same port has
`svs.time - lastConnectTime < sv_reconnectlimit * 1000`. When the request has the
server's protocol version and the address is not temp-banned, nothing at all happens:
the request is dropped without an answer. -/
theorem SV_DirectConnect_reconnect_limit (E : Env) (sv : ServerState) (fromAdr : netadr_t)
    (args : List String) (k : Nat)
    (hk : firstSlotWith (sameClientAddress E fromAdr
      (atoi (Info_ValueForKey (E.Info_decode (Cmd_Argv args 1)) "qport"))) sv k)
    (ht : sv.svs_time - (getClient sv k).lastConnectTime < sv.cvars.sv_reconnectlimit * 1000) :
    (SV_DirectConnect E sv fromAdr args).2 = none ∧
    (SV_DirectConnect E sv fromAdr args).1.svs_clients = sv.svs_clients ∧
    (SV_DirectConnect E sv fromAdr args).1.svs_challenges = sv.svs_challenges ∧
    (atoi (Info_ValueForKey (E.Info_decode (Cmd_Argv args 1)) "protocol") = E.PROTOCOL_VERSION →
      SV_TempBanIsBanned E sv fromAdr = false →
      (SV_DirectConnect E sv fromAdr args).1 = sv) := by
  have hsoon : reconnectTooSoon E sv fromAdr
      (atoi (Info_ValueForKey (E.Info_decode (Cmd_Argv args 1)) "qport")) := ⟨k, hk, ht⟩
  have h := SV_DirectConnect_early E sv fromAdr args (Or.inl hsoon)
  exact ⟨h.1, h.2.1, h.2.2.1, fun hp hb => (h.2.2.2 hp hb).1 hsoon⟩

/-- C14, counterexample. With a reconnect limit of three seconds, slot 1 holds a session
from the requester's base address and qport that connected 100 ms ago, and slot 0 a
zombie of the same address and qport that connected five seconds ago: the loop stops
at slot 0, and the request is accepted into slot 0. -/
theorem SV_DirectConnect_reconnect_limit_counterexample :
    (sameClientAddress env0 adr1 4321 (getClient (serverTwo cvarsLimit zombieOld clientRecent) 1)
        = true ∧
      (getClient (serverTwo cvarsLimit zombieOld clientRecent) 1).netchan.qport = 4321 ∧
      (serverTwo cvarsLimit zombieOld clientRecent).svs_time
          - (getClient (serverTwo cvarsLimit zombieOld clientRecent) 1).lastConnectTime
        < (serverTwo cvarsLimit zombieOld clientRecent).cvars.sv_reconnectlimit * 1000) ∧
    (SV_DirectConnect env0 (serverTwo cvarsLimit zombieOld clientRecent) adr1 connectArgs).2
      = some 0 ∧
    (getClient (SV_DirectConnect env0 (serverTwo cvarsLimit zombieOld clientRecent) adr1
      connectArgs).1 0).state = .CS_CONNECTED := by
  decide

/-- C14 (amended), witness: the recent session is in the only slot. -/
theorem SV_DirectConnect_reconnect_limit_witness :
    ((0 < (server1 cvarsLimit clientRecent).svs_clients.length ∧
        sameClientAddress env0 adr1
          (atoi (Info_ValueForKey (env0.Info_decode (Cmd_Argv connectArgs 1)) "qport"))
          (getClient (server1 cvarsLimit clientRecent) 0) = true) ∧
      (server1 cvarsLimit clientRecent).svs_time
          - (getClient (server1 cvarsLimit clientRecent) 0).lastConnectTime
        < (server1 cvarsLimit clientRecent).cvars.sv_reconnectlimit * 1000) ∧
    (SV_DirectConnect env0 (server1 cvarsLimit clientRecent) adr1 connectArgs).2 = none ∧
    (SV_DirectConnect env0 (server1 cvarsLimit clientRecent) adr1 connectArgs).1.svs_clients
      = (server1 cvarsLimit clientRecent).svs_clients ∧
    (SV_DirectConnect env0 (server1 cvarsLimit clientRecent) adr1 connectArgs).1.svs_challenges
      = (server1 cvarsLimit clientRecent).svs_challenges ∧
    (SV_DirectConnect env0 (server1 cvarsLimit clientRecent) adr1 connectArgs).1
      = server1 cvarsLimit clientRecent :=
  ⟨by decide,
    (SV_DirectConnect_reconnect_limit env0 (server1 cvarsLimit clientRecent) adr1 connectArgs 0
      ⟨by decide, by decide, fun j hj => absurd hj (Nat.not_lt_zero j)⟩ (by decide)).1,
    (SV_DirectConnect_reconnect_limit env0 (server1 cvarsLimit clientRecent) adr1 connectArgs 0
      ⟨by decide, by decide, fun j hj => absurd hj (Nat.not_lt_zero j)⟩ (by decide)).2.1,
    (SV_DirectConnect_reconnect_limit env0 (server1 cvarsLimit clientRecent) adr1 connectArgs 0
      ⟨by decide, by decide, fun j hj => absurd hj (Nat.not_lt_zero j)⟩ (by decide)).2.2.1,
    (SV_DirectConnect_reconnect_limit env0 (server1 cvarsLimit clientRecent) adr1 connectArgs 0
      ⟨by decide, by decide, fun j hj => absurd hj (Nat.not_lt_zero j)⟩ (by decide)).2.2.2
      (by decide) (by decide)⟩

/-! ## The game denies a connection -/

@[simp] theorem challenges_emit (sv : ServerState) (e : Effect) :
    (emit sv e).svs_challenges = sv.svs_challenges := rfl

@[simp] theorem challenges_setClient (sv : ServerState) (cl : Nat) (c : client_t) :
    (setClient sv cl c).svs_challenges = sv.svs_challenges := rfl

@[simp] theorem challenges_modifyClient (sv : ServerState) (cl : Nat) (f : client_t → client_t) :
    (modifyClient sv cl f).svs_challenges = sv.svs_challenges := rfl

@[simp] theorem challenges_sendWithRoom (E : Env) (sv : ServerState) (cl : Option Nat)
    (text : String) : (sendWithRoom E sv cl text).svs_challenges = sv.svs_challenges := by
  cases cl <;> rfl

@[simp] theorem challenges_SV_CloseDownload (sv : ServerState) (cl : Nat) :
    (SV_CloseDownload sv cl).svs_challenges = sv.svs_challenges := by
  unfold SV_CloseDownload
  dsimp only
  split <;> rfl

@[simp] theorem challenges_SV_NumberName (sv : ServerState) (cl : Nat) :
    (SV_NumberName sv cl).svs_challenges = sv.svs_challenges := by
  unfold SV_NumberName
  dsimp only
  split <;> split <;> rfl

@[simp] theorem challenges_SV_UserinfoChanged (E : Env) (sv : ServerState) (cl : Nat) :
    (SV_UserinfoChanged E sv cl).svs_challenges = sv.svs_challenges := rfl

theorem challengeView_dropChallenge (E : Env) (adr : netadr_t) :
    ∀ l : List challenge_t, (dropChallenge E adr l).map challengeView = l.map challengeView
  | [] => rfl
  | ch :: rest => by
    unfold dropChallenge
    split
    · rfl
    · rw [List.map_cons, List.map_cons, challengeView_dropChallenge E adr rest]

theorem challengeView_set (l : List challenge_t) (i : Nat) (ch : challenge_t)
    (h : ∀ x, l[i]? = some x → challengeView ch = challengeView x) :
    (l.set i ch).map challengeView = l.map challengeView := by
  apply List.ext_getElem?
  intro n
  rw [List.getElem?_map, List.getElem?_map, List.getElem?_set]
  by_cases hn : i = n
  · subst hn
    rw [if_pos rfl]
    by_cases hl : i < l.length
    · simp only [hl, if_true, Option.map_some']
      rw [List.getElem?_eq_getElem hl, Option.map_some', h _ (List.getElem?_eq_getElem hl)]
    · simp only [hl, if_false, Option.map_none']
      rw [List.getElem?_eq_none (Nat.le_of_not_lt hl)]
      rfl
  · rw [if_neg hn]

theorem challenges_ite {c : Prop} [Decidable c] {x y : ServerState} {l : List challenge_t}
    (hx : x.svs_challenges = l) (hy : y.svs_challenges = l) :
    (if c then x else y).svs_challenges = l := by
  split
  · exact hx
  · exact hy

/-- Drops leave the address, the token and the times of every challenge record. -/
theorem Drops.challengeView {E : Env} {a b : ServerState} (h : Drops E a b) :
    b.svs_challenges.map ET.challengeView = a.svs_challenges.map ET.challengeView := by
  induction h with
  | refl => rfl
  | emit e _ _ ih => exact ih
  | write i f _ _ ih => exact ih
  | challenge adr _ ih => exact (challengeView_dropChallenge E adr _).trans ih
  | left t _ ih => exact ih

theorem challengeView_SV_DropClient (E : Env) (sv : ServerState) (drop : Nat) (reason : String) :
    (SV_DropClient E sv drop reason).svs_challenges.map challengeView
      = sv.svs_challenges.map challengeView :=
  (SV_DropClient_drops E sv drop reason).challengeView

theorem log_of_logExt_false {sv sv' : ServerState} (h : LogExt (fun _ => False) sv sv') :
    sv'.log = sv.log := by
  obtain ⟨new, e, hall⟩ := h
  cases new with
  | nil => simpa using e
  | cons x xs => exact (hall x (List.mem_cons_self x xs)).elim

theorem find?_key_filter (u : userinfo_t) (k key : String) (h : key ≠ k) :
    (u.filter (fun kv => !(kv.1 == k))).find? (fun kv => kv.1 == key)
      = u.find? (fun kv => kv.1 == key) := by
  induction u with
  | nil => rfl
  | cons x xs ih =>
    by_cases hx : x.1 = key
    · have hk : (x.1 == k) = false := by
        rw [hx]
        simpa using h
      have hkey : (x.1 == key) = true := by simpa using hx
      simp only [List.filter_cons, hk, Bool.not_false, if_true, List.find?_cons, hkey]
    · have hkey : (x.1 == key) = false := by simpa using hx
      by_cases hk : (x.1 == k) = true
      · simp only [List.filter_cons, hk, Bool.not_true, Bool.false_eq_true, if_false,
          List.find?_cons, hkey]
        exact ih
      · have hk2 : (x.1 == k) = false := by simpa using hk
        simp only [List.filter_cons, hk2, Bool.not_false, if_true, List.find?_cons, hkey]
        exact ih

/-- Setting one key of a user-info leaves the value of every other key. -/
theorem Info_ValueForKey_set_ne (u : userinfo_t) (k v key : String) (h : key ≠ k) :
    Info_ValueForKey (Info_SetValueForKey u k v) key = Info_ValueForKey u key := by
  have hf : (Info_SetValueForKey u k v).find? (fun kv => kv.1 == key)
      = u.find? (fun kv => kv.1 == key) := by
    unfold Info_SetValueForKey
    dsimp only
    split
    · exact find?_key_filter u k key h
    · have hk : (k == key) = false := by
        simpa using (Ne.symm h)
      rw [List.find?_append, find?_key_filter u k key h]
      simp [List.find?_cons, hk]
  unfold Info_ValueForKey
  rw [hf]

/-- `SV_NumberName` writes the keys `originalname` and `name` of the user-info of its
slot and no other key. -/
theorem SV_NumberName_userinfo (sv : ServerState) (cl : Nat) (key : String)
    (h1 : key ≠ "originalname") (h2 : key ≠ "name") :
    Info_ValueForKey (getClient (SV_NumberName sv cl) cl).userinfo key
      = Info_ValueForKey (getClient sv cl).userinfo key := by
  unfold SV_NumberName
  lift_lets
  intro cv0 sv1 p1 p2 originalname sv2 mode newname
  have e1 : getClient sv1 cl = getClient sv cl := by
    dsimp only [sv1]
    split
    · rfl
    · rfl
  have e2 : Info_ValueForKey (getClient sv2 cl).userinfo key
      = Info_ValueForKey (getClient sv cl).userinfo key := by
    dsimp only [sv2]
    rw [getClient_modifyClient]
    split
    · show Info_ValueForKey (Info_SetValueForKey _ _ _) key = _
      rw [Info_ValueForKey_set_ne _ _ _ _ h1, e1]
    · rw [e1]
  have e3 : ∀ newname : String, Info_ValueForKey (getClient (modifyClient sv2 cl (fun c =>
      { c with userinfo := Info_SetValueForKey c.userinfo "name" newname })) cl).userinfo key
      = Info_ValueForKey (getClient sv cl).userinfo key := by
    intro newname
    rw [getClient_modifyClient]
    split
    · show Info_ValueForKey (Info_SetValueForKey _ _ _) key = _
      rw [Info_ValueForKey_set_ne _ _ _ _ h2, e2]
    · exact e2
  clear_value sv2 sv1
  by_cases hm : mode ≠ 0
  · rw [if_pos hm]
    exact e3 _
  · rw [if_neg hm]
    exact e2

theorem not_isConnectCall_of_isDropKind (e : Effect) (h : e.isDropKind = true) :
    e.isConnectCall = false := by
  unfold Effect.isDropKind at h
  unfold Effect.isConnectCall
  split at h <;> first | rfl | exact absurd h (by simp)

/-- From the label `gotnewcl` to the answer of the game: the slot holds a zeroed
record with the data of the request and is `CS_FREE`, no other slot and no challenge
record is touched, and the one effect is the call of the game. -/
theorem gotnewcl_asks (E : Env) (sv : ServerState) (fromAdr : netadr_t) (userinfo : userinfo_t)
    (challenge qport : Int) (newcl : Nat) (hk : newcl < sv.svs_clients.length) :
    ∃ sv3 : ServerState,
      sv3.log = sv.log ++ [.VM_Call .GAME_CLIENT_CONNECT newcl] ∧
      sv3.svs_challenges = sv.svs_challenges ∧
      sv3.svs_clients.length = sv.svs_clients.length ∧
      (∃ u, getClient sv3 newcl =
          { client_zero E.MAX_RELIABLE_COMMANDS E.MAX_DOWNLOAD_WINDOW E.PACKET_BACKUP with
            gentity := some newcl, challenge := challenge,
            netchan := Netchan_Setup fromAdr qport, userinfo := u } ∧
        ∀ key, key ≠ "cl_guid" → key ≠ "originalname" → key ≠ "name" →
          Info_ValueForKey u key = Info_ValueForKey userinfo key) ∧
      (∀ j, j ≠ newcl → getClient sv3 j = getClient sv j) ∧
      (∀ reason, E.gameClientConnect newcl true false = some reason →
        gotnewcl E sv fromAdr userinfo challenge qport newcl
          = (emit sv3 (.NET_OutOfBandPrint fromAdr ("print\n[err_dialog]" ++ reason ++ "\n")),
              none)) ∧
      (E.gameClientConnect newcl true false = none →
        (gotnewcl E sv fromAdr userinfo challenge qport newcl).2 = some newcl ∧
        LogExt (fun e => e.isConnectCall = false) sv3
          (gotnewcl E sv fromAdr userinfo challenge qport newcl).1) := by
  unfold gotnewcl
  lift_lets
  intro temp sv1 cl_guid userinfo1 sv2 sv3 sv4 c4 sv5 sv6 sv7 sv8 sv9 count sv10
  have o1 : KeepsOn (· ≠ newcl) (fun c => c) connectCvars sv sv1 :=
    (KeepsOn.refl_on _ _ _ sv).setClient_on newcl _ (fun hs => absurd rfl hs)
  have o2 : KeepsOn (· ≠ newcl) (fun c => c) connectCvars sv sv2 := by
    dsimp only [sv2]
    exact (o1.modifyClient_on newcl _ (fun hs => absurd rfl hs)).numberName_on newcl
      (fun hs => absurd rfl hs) (fun _ => rfl)
  have o3 : KeepsOn (· ≠ newcl) (fun c => c) connectCvars sv sv3 := o2.emit_on _
  have g1 : getClient sv1 newcl
      = { temp with gentity := some newcl, challenge := challenge,
                    netchan := Netchan_Setup fromAdr qport } := by
    dsimp only [sv1]
    rw [getClient_setClient, if_pos ⟨rfl, hk⟩]
  have a2 : KeepsOn (fun _ => True) (fun c => { c with userinfo := [] }) connectCvars sv1 sv2 := by
    dsimp only [sv2]
    refine KeepsOn.numberName_on (KeepsOn.modifyClient_on (KeepsOn.refl_on _ _ _ sv1) newcl _ ?_)
      newcl ?_ ?_
    · intro _ _
      rfl
    · intro _ _ _
      rfl
    · intro _
      rfl
  have a3 : KeepsOn (fun _ => True) (fun c => { c with userinfo := [] }) connectCvars sv1 sv3 :=
    a2.emit_on _
  have r3 : getClient sv3 newcl
      = { temp with gentity := some newcl, challenge := challenge,
                    netchan := Netchan_Setup fromAdr qport,
                    userinfo := (getClient sv3 newcl).userinfo } := by
    have h := a3.2.2.2 newcl trivial
    rw [g1] at h
    have h2 : getClient sv3 newcl
        = { ({ getClient sv3 newcl with userinfo := [] } : client_t) with
            userinfo := (getClient sv3 newcl).userinfo } := rfl
    rw [h2]
    dsimp only at h
    rw [h]
  have u3 : ∀ key, key ≠ "cl_guid" → key ≠ "originalname" → key ≠ "name" →
      Info_ValueForKey (getClient sv3 newcl).userinfo key = Info_ValueForKey userinfo key := by
    intro key k1 k2 k3
    show Info_ValueForKey (getClient sv2 newcl).userinfo key = _
    dsimp only [sv2]
    rw [SV_NumberName_userinfo _ _ _ k2 k3, getClient_modifyClient_self _ _ _ (by
      dsimp only [sv1]
      rw [length_setClient]
      exact hk)]
    show Info_ValueForKey userinfo1 key = _
    dsimp only [userinfo1]
    split
    · exact Info_ValueForKey_set_ne _ _ _ _ k1
    · rfl
  have l2 : sv2.log = sv.log := by
    have : LogExt (fun _ => False) sv sv2 :=
      ((LogExt.of_eq rfl : LogExt (fun _ => False) sv sv1).modifyClient newcl _).trans
        (tame_SV_NumberName _ _ newcl).2
    exact log_of_logExt_false this
  have l3 : sv3.log = sv.log ++ [.VM_Call .GAME_CLIENT_CONNECT newcl] := by
    dsimp only [sv3]
    rw [log_emit, l2]
  have c3 : sv3.svs_challenges = sv.svs_challenges := by
    dsimp only [sv3, sv2]
    rw [challenges_emit, challenges_SV_NumberName]
    rfl
  have l10 : LogExt (fun e => e.isConnectCall = false) sv3 sv10 := by
    have l4 : LogExt (fun e => e.isConnectCall = false) sv3 sv4 :=
      (tame_SV_UserinfoChanged _ E sv3 newcl).2
    have l5 : LogExt (fun e => e.isConnectCall = false) sv3 sv5 := by
      dsimp only [sv5]
      exact LogExt.ite (l4.emit rfl) l4
    have l6 : LogExt (fun e => e.isConnectCall = false) sv3 sv6 := by
      dsimp only [sv6]
      exact LogExt.ite (l5.sendServerCommand E _ _ not_isConnectCall_of_isDropKind) l5
    have l7 : LogExt (fun e => e.isConnectCall = false) sv3 sv7 := l6.congr rfl
    have l8 : LogExt (fun e => e.isConnectCall = false) sv3 sv8 := by
      dsimp only [sv8]
      exact l7.emit rfl
    have l9 : LogExt (fun e => e.isConnectCall = false) sv3 sv9 := l8.modifyClient _ _
    dsimp only [sv10]
    exact LogExt.ite (l9.emit rfl) l9
  refine ⟨sv3, l3, c3, o3.1, ⟨_, r3, u3⟩,
    fun j hj => o3.2.2.2 j hj, fun reason hden => ?_, fun hacc => ?_⟩
  · split
    · rename_i denied hd
      rw [hden] at hd
      have := Option.some.inj hd
      subst this
      rfl
    · rename_i hd
      rw [hden] at hd
      exact absurd hd (by simp)
  · split
    · rename_i denied hd
      rw [hacc] at hd
      exact absurd hd (by simp)
    · exact ⟨rfl, l10⟩

/-- The slot search of `SV_DirectConnect` either refuses with one effect that is not a
call of the game, or reaches the label `gotnewcl`. -/
theorem selectSlot_cases (E : Env) (fromAdr : netadr_t) (sv : ServerState)
    (userinfo : userinfo_t) (challenge qport : Int) (hn : 0 < sv.svs_clients.length) :
    (∃ e : Effect, e.isConnectCall = false ∧
      SV_DirectConnect.selectSlot E fromAdr sv userinfo challenge qport = (emit sv e, none)) ∨
    ∃ a newcl,
      AtGotnewcl (E.NET_IsLocalAddress fromAdr = true → dropRoom E sv (sv.svs_clients.length - 1))
        sv a newcl ∧
      SV_DirectConnect.selectSlot E fromAdr sv userinfo challenge qport
        = gotnewcl E a fromAdr userinfo challenge qport newcl := by
  unfold SV_DirectConnect.selectSlot
  split
  · rename_i k0 hk0
    exact Or.inr ⟨sv, k0, ⟨findIndex_lt _ _ _ hk0, rfl, fun _ _ _ => rfl, LogExt.refl _ _, rfl⟩,
      rfl⟩
  dsimp only
  generalize (if Info_ValueForKey userinfo "password" = sv.cvars.sv_privatePassword then 0
    else sv.cvars.sv_privateClients) = startIndex
  split
  · rename_i k1 hk1
    have hlt := findIndex_lt _ _ _ hk1
    rw [List.length_drop] at hlt
    refine Or.inr ⟨_, _, ⟨?_, ?_, fun _ j hj => ?_, ?_, ?_⟩, rfl⟩
    · rw [length_modifyClient]
      omega
    · rw [length_modifyClient]
    · rw [getClient_modifyClient, if_neg (fun h => hj h.1)]
    · exact LogExt.of_eq rfl
    · rfl
  by_cases hloc : E.NET_IsLocalAddress fromAdr = true
  swap
  · rw [if_neg hloc]
    exact Or.inl ⟨_, by rfl, rfl⟩
  rw [if_pos hloc]
  have hd := (SV_DropClient_drops E sv (sv.svs_clients.length - 1)
    "only bots on server").length
  have hfr : dropRoom E sv (sv.svs_clients.length - 1) → ∀ j, j ≠ sv.svs_clients.length - 1 →
      (getClient (SV_DropClient E sv (sv.svs_clients.length - 1) "only bots on server") j).state
        = (getClient sv j).state :=
    fun hroom => (SV_DropClient_others E sv _ "only bots on server" hroom).2.2.2
  have hlog := logExt_SV_DropClient E sv (sv.svs_clients.length - 1) "only bots on server"
  have hch := challengeView_SV_DropClient E sv (sv.svs_clients.length - 1) "only bots on server"
  generalize SV_DropClient E sv (sv.svs_clients.length - 1) "only bots on server" = sv1
    at hd hfr hlog hch
  have key : ∀ cl : Nat,
      AtGotnewcl (E.NET_IsLocalAddress fromAdr = true → dropRoom E sv (sv.svs_clients.length - 1))
        sv (modifyClient sv1 cl
          (fun c => { c with reliableAcknowledge := 0, reliableSequence := 0 }))
        (sv.svs_clients.length - 1) := by
    intro cl
    refine ⟨?_, ?_, fun hroom j hj => ?_, ?_, ?_⟩
    · rw [length_modifyClient, hd]
      omega
    · rw [length_modifyClient, hd]
    · rw [getClient_modifyClient]
      split <;> rename_i hj2
      · rw [← hj2.1]
        exact hfr (hroom hloc) j hj
      · exact hfr (hroom hloc) j hj
    · exact hlog.modifyClient _ _
    · exact hch
  split_ifs
  all_goals first
    | exact Or.inl ⟨_, by rfl, rfl⟩
    | exact Or.inr ⟨_, _, key _, rfl⟩

/-- `SV_DirectConnect` either rejects the request without asking the game, leaving
every client slot as it is, or reaches the label `gotnewcl`. -/
theorem SV_DirectConnect_cases (E : Env) (sv : ServerState) (fromAdr : netadr_t)
    (args : List String) (hn : 0 < sv.svs_clients.length) :
    ((SV_DirectConnect E sv fromAdr args).2 = none ∧
      (SV_DirectConnect E sv fromAdr args).1.svs_clients = sv.svs_clients ∧
      (SV_DirectConnect E sv fromAdr args).1.svs_challenges.map challengeView
        = sv.svs_challenges.map challengeView ∧
      LogExt (fun e => e.isConnectCall = false) sv (SV_DirectConnect E sv fromAdr args).1) ∨
    ∃ a userinfo newcl,
      AtGotnewcl (E.NET_IsLocalAddress fromAdr = true → dropRoom E sv (sv.svs_clients.length - 1))
        sv a newcl ∧
      (∀ key, key ≠ "ip" →
        Info_ValueForKey userinfo key = Info_ValueForKey (E.Info_decode (Cmd_Argv args 1)) key) ∧
      SV_DirectConnect E sv fromAdr args
        = gotnewcl E a fromAdr userinfo
            (atoi (Info_ValueForKey (E.Info_decode (Cmd_Argv args 1)) "challenge"))
            (atoi (Info_ValueForKey (E.Info_decode (Cmd_Argv args 1)) "qport")) newcl := by
  unfold SV_DirectConnect
  lift_lets
  intro userinfo challenge qport quick tooSoon userinfo1
  clear_value tooSoon
  have hrej : ∀ e : Effect, e.isConnectCall = false →
      ((emit sv e, (none : Option Nat)).2 = none ∧
        (emit sv e, (none : Option Nat)).1.svs_clients = sv.svs_clients ∧
        (emit sv e, (none : Option Nat)).1.svs_challenges.map challengeView
          = sv.svs_challenges.map challengeView ∧
        LogExt (fun e => e.isConnectCall = false) sv (emit sv e, (none : Option Nat)).1) :=
    fun e he => ⟨rfl, rfl, rfl, (LogExt.refl _ sv).emit he⟩
  split
  · exact Or.inl (hrej _ rfl)
  split
  · exact Or.inl (hrej _ rfl)
  split
  · exact Or.inl ⟨rfl, rfl, rfl, LogExt.refl _ _⟩
  split
  · split
    · exact Or.inl (hrej _ rfl)
    · rename_i i hi
      lift_lets
      intro ch ping sv1
      have hview : sv1.svs_challenges.map challengeView = sv.svs_challenges.map challengeView := by
        dsimp only [sv1]
        apply challengeView_set
        intro x hx
        have : ch = x := by
          dsimp only [ch]
          rw [List.getD_eq_getElem?_getD, hx]
          rfl
        rw [← this]
        rfl
      have hrej1 : ∀ e : Effect, e.isConnectCall = false →
          ((emit sv1 e, (none : Option Nat)).2 = none ∧
            (emit sv1 e, (none : Option Nat)).1.svs_clients = sv.svs_clients ∧
            (emit sv1 e, (none : Option Nat)).1.svs_challenges.map challengeView
              = sv.svs_challenges.map challengeView ∧
            LogExt (fun e => e.isConnectCall = false) sv (emit sv1 e, (none : Option Nat)).1) :=
        fun e he => ⟨rfl, rfl, hview, (LogExt.of_eq rfl : LogExt _ sv sv1).emit he⟩
      split
      · exact Or.inl (hrej1 _ rfl)
      split
      · exact Or.inl (hrej1 _ rfl)
      have hn1 : 0 < sv1.svs_clients.length := hn
      rcases selectSlot_cases E fromAdr sv1 userinfo1 challenge qport hn1 with
        ⟨e, he, hr⟩ | ⟨a, newcl, hat, hr⟩
      · rw [hr]
        exact Or.inl (hrej1 e he)
      · rw [hr]
        refine Or.inr ⟨a, userinfo1, newcl, ⟨hat.1, hat.2.1, hat.2.2.1, ?_, ?_⟩,
          fun key hkey => Info_ValueForKey_set_ne _ _ _ _ hkey, rfl⟩
        · obtain ⟨new, e1, e2⟩ := hat.2.2.2.1
          exact ⟨new, e1, e2⟩
        · exact hat.2.2.2.2.trans hview
  · rcases selectSlot_cases E fromAdr sv (Info_SetValueForKey userinfo "ip" "localhost")
      challenge qport hn with ⟨e, he, hr⟩ | ⟨a, newcl, hat, hr⟩
    · rw [hr]
      exact Or.inl (hrej e he)
    · rw [hr]
      exact Or.inr ⟨a, _, newcl, hat, fun key hkey => Info_ValueForKey_set_ne _ _ _ _ hkey, rfl⟩

/-- C13 (amended). If the game is asked about slot `k` and denies the connection, no
session is established: the request is rejected; slot `k` is left `CS_FREE`, its old
content gone: it holds a zeroed record with the entity of the slot, the challenge
and the qport of the request, the address of the requester and the user-info of the
request (up to the keys `ip`, `cl_guid`, `originalname` and `name`, which the server
writes); every other slot keeps its connection state, provided that, when the
requester is local and so may evict the bot of the last slot, every ring has room for
the commands of that drop; every challenge record keeps its address, token and times
(it can differ in `firstPing` and `connected`, stamped before the game is asked); and
the effects are, after those of evicting a bot for a local requester, the call of the
game and the denial message to the requester. -/
theorem SV_DirectConnect_denied (E : Env) (sv : ServerState) (fromAdr : netadr_t)
    (args : List String) (k : Nat) (reason : String) (hn : 0 < sv.svs_clients.length)
    (hden : E.gameClientConnect k true false = some reason)
    (hask : ∃ pre post, (SV_DirectConnect E sv fromAdr args).1.log
      = sv.log ++ pre ++ Effect.VM_Call .GAME_CLIENT_CONNECT k :: post) :
    (SV_DirectConnect E sv fromAdr args).2 = none ∧
    k < sv.svs_clients.length ∧
    (getClient (SV_DirectConnect E sv fromAdr args).1 k).state = .CS_FREE ∧
    (∃ u, getClient (SV_DirectConnect E sv fromAdr args).1 k =
        { client_zero E.MAX_RELIABLE_COMMANDS E.MAX_DOWNLOAD_WINDOW E.PACKET_BACKUP with
          gentity := some k
          challenge := atoi (Info_ValueForKey (E.Info_decode (Cmd_Argv args 1)) "challenge")
          netchan := Netchan_Setup fromAdr
            (atoi (Info_ValueForKey (E.Info_decode (Cmd_Argv args 1)) "qport"))
          userinfo := u } ∧
      ∀ key, key ≠ "ip" → key ≠ "cl_guid" → key ≠ "originalname" → key ≠ "name" →
        Info_ValueForKey u key = Info_ValueForKey (E.Info_decode (Cmd_Argv args 1)) key) ∧
    ((E.NET_IsLocalAddress fromAdr = true → dropRoom E sv (sv.svs_clients.length - 1)) →
      ∀ j, j ≠ k → (getClient (SV_DirectConnect E sv fromAdr args).1 j).state
        = (getClient sv j).state) ∧
    (SV_DirectConnect E sv fromAdr args).1.svs_challenges.map challengeView
      = sv.svs_challenges.map challengeView ∧
    ∃ pre, (SV_DirectConnect E sv fromAdr args).1.log
        = sv.log ++ pre ++ [Effect.VM_Call .GAME_CLIENT_CONNECT k,
            Effect.NET_OutOfBandPrint fromAdr ("print\n[err_dialog]" ++ reason ++ "\n")] ∧
      ∀ e ∈ pre, e.isDropKind = true := by
  obtain ⟨pre0, post0, hlog0⟩ := hask
  rcases SV_DirectConnect_cases E sv fromAdr args hn with
    ⟨-, -, -, new, hnew, hall⟩ |
    ⟨a, userinfo, newcl, ⟨hlt, hlen, hkeep, ⟨prea, hprea, hdrop⟩, hch⟩, huser, hr⟩
  · rw [hnew, List.append_assoc] at hlog0
    have hmem : Effect.VM_Call .GAME_CLIENT_CONNECT k ∈ new := by
      rw [List.append_cancel_left hlog0]
      simp
    exact absurd (hall _ hmem) (by simp [Effect.isConnectCall])
  obtain ⟨sv3, l3, c3, n3, ⟨u, r3, u3⟩, o3, hd3, ha3⟩ :=
    gotnewcl_asks E a fromAdr userinfo
      (atoi (Info_ValueForKey (E.Info_decode (Cmd_Argv args 1)) "challenge"))
      (atoi (Info_ValueForKey (E.Info_decode (Cmd_Argv args 1)) "qport")) newcl hlt
  rw [hr] at hlog0 ⊢
  have hkn : k = newcl := by
    cases hg : E.gameClientConnect newcl true false with
    | some r2 =>
      rw [hd3 r2 hg] at hlog0
      simp only [log_emit, l3, hprea, List.append_assoc] at hlog0
      have h2 := List.append_cancel_left hlog0
      have hmem : Effect.VM_Call .GAME_CLIENT_CONNECT k ∈
          prea ++ ([.VM_Call .GAME_CLIENT_CONNECT newcl] ++
            [.NET_OutOfBandPrint fromAdr ("print\n[err_dialog]" ++ r2 ++ "\n")]) := by
        rw [h2]
        simp
      simp only [List.mem_append, List.mem_singleton] at hmem
      rcases hmem with h | h | h
      · exact absurd (hdrop _ h) (by simp [Effect.isDropKind])
      · injection h with _ h
      · exact absurd h (by simp)
    | none =>
      obtain ⟨-, new, hnew, hall⟩ := ha3 hg
      rw [hnew, l3, hprea] at hlog0
      simp only [List.append_assoc] at hlog0
      have h2 := List.append_cancel_left hlog0
      have hmem : Effect.VM_Call .GAME_CLIENT_CONNECT k ∈
          prea ++ ([.VM_Call .GAME_CLIENT_CONNECT newcl] ++ new) := by
        rw [h2]
        simp
      simp only [List.mem_append, List.mem_singleton] at hmem
      rcases hmem with h | h | h
      · exact absurd (hdrop _ h) (by simp [Effect.isDropKind])
      · injection h with _ h
      · exact absurd (hall _ h) (by simp [Effect.isConnectCall])
  subst hkn
  rw [hd3 reason hden]
  refine ⟨rfl, ?_, ?_, ⟨u, r3, fun key k0 k1 k2 k3 => ?_⟩, fun hroom j hj => ?_, ?_, prea, ?_,
    hdrop⟩
  · rw [← hlen]
    exact hlt
  · show (getClient sv3 k).state = _
    rw [r3]
    rfl
  · rw [u3 key k1 k2 k3]
    exact huser key k0
  · show (getClient sv3 j).state = _
    rw [o3 j hj]
    exact hkeep hroom j hj
  · show sv3.svs_challenges.map challengeView = _
    rw [c3, hch]
  · show sv3.log ++ _ = _
    rw [l3, hprea]
    simp

/-- C13, counterexample. An active session from 10.0.0.1 with qport 4321 is in slot 0;
a connect request from the same address and qport is denied by the game: slot 0 is
`CS_FREE` afterwards, so the client table is not as it was, and neither is the
challenge record, which is now marked connected. -/
theorem SV_DirectConnect_denied_counterexample :
    (SV_DirectConnect envDeny (serverTwo cvars0 clientRecent clientFree) adr1 connectArgs).2
      = none ∧
    (SV_DirectConnect envDeny (serverTwo cvars0 clientRecent clientFree) adr1 connectArgs).1.log
      = [.VM_Call .GAME_CLIENT_CONNECT 0, .NET_OutOfBandPrint adr1 "print\n[err_dialog]Banned.\n"] ∧
    (getClient (serverTwo cvars0 clientRecent clientFree) 0).state = .CS_ACTIVE ∧
    (getClient (SV_DirectConnect envDeny (serverTwo cvars0 clientRecent clientFree) adr1
      connectArgs).1 0).state = .CS_FREE ∧
    (SV_DirectConnect envDeny (serverTwo cvars0 clientRecent clientFree) adr1
      connectArgs).1.svs_clients ≠ (serverTwo cvars0 clientRecent clientFree).svs_clients ∧
    (SV_DirectConnect envDeny (serverTwo cvars0 clientRecent clientFree) adr1
      connectArgs).1.svs_challenges ≠ (serverTwo cvars0 clientRecent clientFree).svs_challenges := by
  decide

/-- C13 (amended), witness: the same denied request. -/
theorem SV_DirectConnect_denied_witness :
    (0 < (serverTwo cvars0 clientRecent clientFree).svs_clients.length ∧
      envDeny.gameClientConnect 0 true false = some "Banned.") ∧
    (SV_DirectConnect envDeny (serverTwo cvars0 clientRecent clientFree) adr1 connectArgs).2
      = none ∧
    0 < (serverTwo cvars0 clientRecent clientFree).svs_clients.length ∧
    (getClient (SV_DirectConnect envDeny (serverTwo cvars0 clientRecent clientFree) adr1
      connectArgs).1 0).state = .CS_FREE ∧
    (∃ u, getClient (SV_DirectConnect envDeny (serverTwo cvars0 clientRecent clientFree) adr1
        connectArgs).1 0 =
        { client_zero envDeny.MAX_RELIABLE_COMMANDS envDeny.MAX_DOWNLOAD_WINDOW
            envDeny.PACKET_BACKUP with
          gentity := some 0
          challenge :=
            atoi (Info_ValueForKey (envDeny.Info_decode (Cmd_Argv connectArgs 1)) "challenge")
          netchan := Netchan_Setup adr1
            (atoi (Info_ValueForKey (envDeny.Info_decode (Cmd_Argv connectArgs 1)) "qport"))
          userinfo := u } ∧
      ∀ key, key ≠ "ip" → key ≠ "cl_guid" → key ≠ "originalname" → key ≠ "name" →
        Info_ValueForKey u key
          = Info_ValueForKey (envDeny.Info_decode (Cmd_Argv connectArgs 1)) key) ∧
    ((envDeny.NET_IsLocalAddress adr1 = true →
        dropRoom envDeny (serverTwo cvars0 clientRecent clientFree)
          ((serverTwo cvars0 clientRecent clientFree).svs_clients.length - 1)) →
      ∀ j, j ≠ 0 → (getClient (SV_DirectConnect envDeny (serverTwo cvars0 clientRecent clientFree)
          adr1 connectArgs).1 j).state
        = (getClient (serverTwo cvars0 clientRecent clientFree) j).state) ∧
    (SV_DirectConnect envDeny (serverTwo cvars0 clientRecent clientFree) adr1
        connectArgs).1.svs_challenges.map challengeView
      = (serverTwo cvars0 clientRecent clientFree).svs_challenges.map challengeView ∧
    ∃ pre, (SV_DirectConnect envDeny (serverTwo cvars0 clientRecent clientFree) adr1
          connectArgs).1.log
        = (serverTwo cvars0 clientRecent clientFree).log ++ pre ++
          [Effect.VM_Call .GAME_CLIENT_CONNECT 0,
            Effect.NET_OutOfBandPrint adr1 ("print\n[err_dialog]" ++ "Banned." ++ "\n")] ∧
      ∀ e ∈ pre, e.isDropKind = true :=
  ⟨⟨by decide, rfl⟩,
    SV_DirectConnect_denied envDeny (serverTwo cvars0 clientRecent clientFree) adr1 connectArgs 0
      "Banned." (by decide) rfl
      ⟨[], [.NET_OutOfBandPrint adr1 "print\n[err_dialog]Banned.\n"], by decide⟩⟩

/-! ## Slot selection -/

theorem findIndex_clients_eq_find (p : client_t → Bool) (sv : ServerState) :
    findIndex p sv.svs_clients
      = (List.range sv.svs_clients.length).find? (fun i => p (getClient sv i)) := by
  cases hf : findIndex p sv.svs_clients with
  | none =>
    symm
    rw [List.find?_range_eq_none]
    intro i hi
    have := (findIndex_eq_none_iff p _).1 hf (getClient sv i)
      (List.getElem?_mem (getElem?_clients sv i hi))
    simp [this]
  | some k =>
    symm
    obtain ⟨hk, hp, hlow⟩ := (findIndex_clients_iff p sv k).1 hf
    rw [List.find?_range_eq_some]
    exact ⟨hp, List.mem_range.2 hk, fun j hj => by simp [hlow j hj]⟩

theorem findIndex_drop_eq_find (p : client_t → Bool) (sv : ServerState) (s : Nat) :
    (findIndex p (sv.svs_clients.drop s)).map (s + ·)
      = (List.range sv.svs_clients.length).find? (fun i => decide (s ≤ i) && p (getClient sv i)) := by
  have hget : ∀ j x, (sv.svs_clients.drop s)[j]? = some x → s + j < sv.svs_clients.length ∧
      x = getClient sv (s + j) := by
    intro j x hx
    rw [List.getElem?_drop] at hx
    have hlt : s + j < sv.svs_clients.length := by
      by_contra hc
      rw [List.getElem?_eq_none (Nat.le_of_not_lt hc)] at hx
      exact absurd hx (by simp)
    rw [getElem?_clients sv _ hlt] at hx
    exact ⟨hlt, (Option.some.inj hx).symm⟩
  cases hf : findIndex p (sv.svs_clients.drop s) with
  | none =>
    symm
    rw [Option.map_none', List.find?_range_eq_none]
    intro i hi
    by_cases hs : s ≤ i
    · have hmem : getClient sv i ∈ sv.svs_clients.drop s := by
        apply List.getElem?_mem (n := i - s)
        rw [List.getElem?_drop, Nat.add_sub_cancel' hs]
        exact getElem?_clients sv i hi
      have := (findIndex_eq_none_iff p _).1 hf _ hmem
      simp [this]
    · simp [hs]
  | some k =>
    symm
    obtain ⟨⟨x, hx, hp⟩, hlow⟩ := (findIndex_eq_some_iff p _ k).1 hf
    obtain ⟨hlt, hxe⟩ := hget k x hx
    subst hxe
    rw [Option.map_some', List.find?_range_eq_some]
    refine ⟨by simp [hp], List.mem_range.2 hlt, fun j hj => ?_⟩
    by_cases hs : s ≤ j
    · have hj2 : j - s < k := by omega
      have hjl : j < sv.svs_clients.length := by omega
      have := hlow (j - s) hj2 (getClient sv j) (by
        rw [List.getElem?_drop, Nat.add_sub_cancel' hs]
        exact getElem?_clients sv j hjl)
      simp [this]
    · simp [hs]

/-- C12 (amended). Slot selection in `SV_DirectConnect` equals the reference
`slotReference`: when the reference names slot `k` (the lowest-index slot that is not
free and has the requester's base address and its qport or port; otherwise the
lowest-index `CS_FREE` slot at or after the offset), the function continues at the
label `gotnewcl` with `newcl` slot `k`, in a state that differs from the one before in
slot `k` at most, and an accepted request gets slot `k`; when the reference names no
slot and the requester is not local, the request is refused with the server-full
message and nothing else changes. -/
theorem selectSlot_reference (E : Env) (fromAdr : netadr_t) (sv : ServerState)
    (userinfo : userinfo_t) (challenge qport : Int) :
    (∀ k, slotReference E fromAdr qport sv userinfo = some k →
      k < sv.svs_clients.length ∧
      (E.gameClientConnect k true false = none →
        (SV_DirectConnect.selectSlot E fromAdr sv userinfo challenge qport).2 = some k) ∧
      ∃ sv1 : ServerState,
        (∀ j, j ≠ k → getClient sv1 j = getClient sv j) ∧
        sv1.svs_clients.length = sv.svs_clients.length ∧
        sv1.svs_challenges = sv.svs_challenges ∧ sv1.log = sv.log ∧
        SV_DirectConnect.selectSlot E fromAdr sv userinfo challenge qport
          = gotnewcl E sv1 fromAdr userinfo challenge qport k) ∧
    (slotReference E fromAdr qport sv userinfo = none → E.NET_IsLocalAddress fromAdr = false →
      SV_DirectConnect.selectSlot E fromAdr sv userinfo challenge qport
        = (emit sv (.NET_OutOfBandPrint fromAdr ("print\n" ++ sv.cvars.sv_fullmsg ++ "\n")),
            none)) := by
  have h1 := findIndex_clients_eq_find
    (fun c => c.state != .CS_FREE && sameClientAddress E fromAdr qport c) sv
  have h2 := findIndex_drop_eq_find (fun c => c.state == .CS_FREE) sv (slotStartIndex sv userinfo)
  have hacc : ∀ (sv1 : ServerState) (k : Nat), k < sv1.svs_clients.length →
      E.gameClientConnect k true false = none →
      (gotnewcl E sv1 fromAdr userinfo challenge qport k).2 = some k := by
    intro sv1 k hk hg
    obtain ⟨sv3, -, -, -, -, -, -, ha⟩ := gotnewcl_asks E sv1 fromAdr userinfo challenge qport k hk
    exact (ha hg).1
  unfold slotReference
  unfold sameClientAddress at h1
  rw [← h1, ← h2]
  unfold SV_DirectConnect.selectSlot
  unfold sameClientAddress
  cases hf1 : findIndex (fun c => c.state != .CS_FREE &&
      (E.NET_CompareBaseAdr fromAdr c.netchan.remoteAddress &&
        (c.netchan.qport == qport || fromAdr.port == c.netchan.remoteAddress.port)))
      sv.svs_clients with
  | some k0 =>
    have hk0 := findIndex_lt _ _ _ hf1
    refine ⟨fun k hk => ?_, fun hk => absurd hk (by simp)⟩
    have := Option.some.inj hk
    subst this
    exact ⟨hk0, hacc sv _ hk0, sv, fun _ _ => rfl, rfl, rfl, rfl, rfl⟩
  | none =>
    dsimp only
    unfold slotStartIndex
    generalize (if Info_ValueForKey userinfo "password" = sv.cvars.sv_privatePassword then 0
      else sv.cvars.sv_privateClients) = startIndex
    cases hf2 : findIndex (fun c => c.state == .CS_FREE) (sv.svs_clients.drop startIndex) with
    | some k1 =>
      have hlt := findIndex_lt _ _ _ hf2
      rw [List.length_drop] at hlt
      refine ⟨fun k hk => ?_, fun hk => absurd hk (by simp)⟩
      have := Option.some.inj hk
      subst this
      have hk1 : startIndex + k1 < sv.svs_clients.length := by omega
      refine ⟨hk1, hacc _ _ (by rw [length_modifyClient]; exact hk1), _, fun j hj => ?_,
        length_modifyClient _ _ _, rfl, rfl, rfl⟩
      rw [getClient_modifyClient, if_neg (fun h => hj h.1)]
    | none =>
      refine ⟨fun k hk => absurd hk (by simp), fun _ hloc => ?_⟩
      dsimp only
      rw [if_neg (by simp [hloc])]

/-- C12, counterexample. Slot 0 is free; slot 1 is a zombie with the requester's base
address and port but qport 9999, while the request has qport 4321. No slot that is not
free has the requester's base address and qport, and the offset is 0, so the claim
names slot 0; the request is accepted into slot 1, and slot 0 stays free. -/
theorem SV_DirectConnect_slot_counterexample :
    (∀ i, i < (serverTwo cvars0 clientFree zombieOtherQport).svs_clients.length →
      ¬ ((getClient (serverTwo cvars0 clientFree zombieOtherQport) i).state ≠ .CS_FREE ∧
        env0.NET_CompareBaseAdr adr1
          (getClient (serverTwo cvars0 clientFree zombieOtherQport) i).netchan.remoteAddress = true ∧
        (getClient (serverTwo cvars0 clientFree zombieOtherQport) i).netchan.qport = 4321)) ∧
    (getClient (serverTwo cvars0 clientFree zombieOtherQport) 0).state = .CS_FREE ∧
    slotStartIndex (serverTwo cvars0 clientFree zombieOtherQport)
      (env0.Info_decode (Cmd_Argv connectArgs 1)) = 0 ∧
    (SV_DirectConnect env0 (serverTwo cvars0 clientFree zombieOtherQport) adr1 connectArgs).2
      = some 1 ∧
    (getClient (SV_DirectConnect env0 (serverTwo cvars0 clientFree zombieOtherQport) adr1
      connectArgs).1 0).state = .CS_FREE := by
  decide

/-- C12 (amended), witness: the reference names slot 1 of that server. -/
theorem selectSlot_reference_witness :
    (slotReference env0 adr1 4321 (serverTwo cvars0 clientFree zombieOtherQport)
        (env0.Info_decode (Cmd_Argv connectArgs 1)) = some 1 ∧
      env0.gameClientConnect 1 true false = none) ∧
    1 < (serverTwo cvars0 clientFree zombieOtherQport).svs_clients.length ∧
    (SV_DirectConnect.selectSlot env0 adr1 (serverTwo cvars0 clientFree zombieOtherQport)
      (env0.Info_decode (Cmd_Argv connectArgs 1)) 777 4321).2 = some 1 ∧
    ∃ sv1 : ServerState,
      (∀ j, j ≠ 1 → getClient sv1 j = getClient (serverTwo cvars0 clientFree zombieOtherQport) j) ∧
      sv1.svs_clients.length = (serverTwo cvars0 clientFree zombieOtherQport).svs_clients.length ∧
      sv1.svs_challenges = (serverTwo cvars0 clientFree zombieOtherQport).svs_challenges ∧
      sv1.log = (serverTwo cvars0 clientFree zombieOtherQport).log ∧
      SV_DirectConnect.selectSlot env0 adr1 (serverTwo cvars0 clientFree zombieOtherQport)
          (env0.Info_decode (Cmd_Argv connectArgs 1)) 777 4321
        = gotnewcl env0 sv1 adr1 (env0.Info_decode (Cmd_Argv connectArgs 1)) 777 4321 1 :=
  ⟨⟨by decide, rfl⟩,
    ((selectSlot_reference env0 adr1 (serverTwo cvars0 clientFree zombieOtherQport)
      (env0.Info_decode (Cmd_Argv connectArgs 1)) 777 4321).1 1 (by decide)).1,
    ((selectSlot_reference env0 adr1 (serverTwo cvars0 clientFree zombieOtherQport)
      (env0.Info_decode (Cmd_Argv connectArgs 1)) 777 4321).1 1 (by decide)).2.1 rfl,
    ((selectSlot_reference env0 adr1 (serverTwo cvars0 clientFree zombieOtherQport)
      (env0.Info_decode (Cmd_Argv connectArgs 1)) 777 4321).1 1 (by decide)).2.2⟩

/-! ## The challenge table -/

theorem challengeScan_fst (E : Env) (fromAdr : netadr_t) :
    ∀ (l : List challenge_t) (i oldest : Nat) (oldestTime : Int),
      (challengeScan E fromAdr l i oldest oldestTime).1
        = (findIndex (unconnectedOf E fromAdr) l).map (· + i)
  | [], _, _, _ => rfl
  | ch :: rest, i, oldest, oldestTime => by
    unfold challengeScan findIndex
    by_cases h : unconnectedOf E fromAdr ch = true
    · have h2 : (!ch.connected && E.NET_CompareAdr fromAdr ch.adr) = true := h
      rw [if_pos h2, if_pos h]
      simp
    · have h2 : ¬ (!ch.connected && E.NET_CompareAdr fromAdr ch.adr) = true := h
      rw [if_neg h2, if_neg h]
      have e : ∀ o t, (challengeScan E fromAdr rest (i + 1) o t).1
          = Option.map (· + i) (Option.map (· + 1) (findIndex (unconnectedOf E fromAdr) rest)) := by
        intro o t
        rw [challengeScan_fst E fromAdr rest (i + 1) o t, Option.map_map]
        congr 1
        funext x
        simp only [Function.comp]
        omega
      split
      · exact e _ _
      · exact e _ _

/-- The value of `oldest` when the scan runs to the end of the table: either no record
is older than the bound and `oldest` is as it was, or it is the index of a record with
the smallest `time`, the lowest such index. -/
theorem challengeScan_oldest (E : Env) (fromAdr : netadr_t) :
    ∀ (l : List challenge_t) (i oldest : Nat) (oldestTime : Int),
      (∀ ch ∈ l, unconnectedOf E fromAdr ch = false) →
      ((challengeScan E fromAdr l i oldest oldestTime).2 = oldest ∧
        ∀ ch ∈ l, oldestTime ≤ ch.time) ∨
      ∃ j ch, (challengeScan E fromAdr l i oldest oldestTime).2 = i + j ∧ l[j]? = some ch ∧
        ch.time < oldestTime ∧
        (∀ (j2 : Nat) (ch2 : challenge_t), l[j2]? = some ch2 → ch.time ≤ ch2.time) ∧
        ∀ (j2 : Nat) (ch2 : challenge_t), j2 < j → l[j2]? = some ch2 → ch.time < ch2.time
  | [], _, _, _, _ => Or.inl ⟨rfl, by simp⟩
  | x :: xs, i, oldest, oldestTime, hno => by
    have hx : ¬ (!x.connected && E.NET_CompareAdr fromAdr x.adr) = true := by
      have := hno x (List.mem_cons_self x xs)
      unfold unconnectedOf at this
      simp [this]
    have hxs : ∀ ch ∈ xs, unconnectedOf E fromAdr ch = false :=
      fun ch hch => hno ch (List.mem_cons_of_mem x hch)
    unfold challengeScan
    rw [if_neg hx]
    by_cases ht : x.time < oldestTime
    · rw [if_pos ht]
      rcases challengeScan_oldest E fromAdr xs (i + 1) i x.time hxs with
        ⟨h1, h2⟩ | ⟨j, ch, h1, h2, h3, h4, h5⟩
      · refine Or.inr ⟨0, x, by rw [h1]; rfl, by simp, ht, fun j2 ch2 h => ?_, fun j2 ch2 hj => ?_⟩
        · cases j2 with
          | zero =>
            simp at h
            rw [h]
          | succ j3 => exact h2 ch2 (List.getElem?_mem (by simpa using h))
        · exact absurd hj (Nat.not_lt_zero j2)
      · refine Or.inr ⟨j + 1, ch, by rw [h1]; omega, by simpa using h2, by omega,
          fun j2 ch2 h => ?_, fun j2 ch2 hj h => ?_⟩
        · cases j2 with
          | zero =>
            simp at h
            rw [← h]
            omega
          | succ j3 => exact h4 j3 ch2 (by simpa using h)
        · cases j2 with
          | zero =>
            simp at h
            rw [← h]
            exact h3
          | succ j3 => exact h5 j3 ch2 (by omega) (by simpa using h)
    · rw [if_neg ht]
      rcases challengeScan_oldest E fromAdr xs (i + 1) oldest oldestTime hxs with
        ⟨h1, h2⟩ | ⟨j, ch, h1, h2, h3, h4, h5⟩
      · refine Or.inl ⟨h1, fun ch hch => ?_⟩
        rcases List.mem_cons.1 hch with h | h
        · rw [h]
          omega
        · exact h2 ch h
      · refine Or.inr ⟨j + 1, ch, by rw [h1]; omega, by simpa using h2, h3,
          fun j2 ch2 h => ?_, fun j2 ch2 hj h => ?_⟩
        · cases j2 with
          | zero =>
            simp at h
            rw [← h]
            omega
          | succ j3 => exact h4 j3 ch2 (by simpa using h)
        · cases j2 with
          | zero =>
            simp at h
            rw [← h]
            omega
          | succ j3 => exact h5 j3 ch2 (by omega) (by simpa using h)

theorem findIndex_set_same {α : Type} (p : α → Bool) (l : List α) (i : Nat) (c x : α)
    (h : findIndex p l = some i) (hc : l[i]? = some c) (hx : p x = p c) :
    findIndex p (l.set i x) = some i := by
  obtain ⟨⟨y, hy, hpy⟩, hlow⟩ := (findIndex_eq_some_iff p l i).1 h
  rw [hc] at hy
  have := Option.some.inj hy
  subst this
  have hi : i < l.length := by
    by_contra hcon
    rw [List.getElem?_eq_none (Nat.le_of_not_lt hcon)] at hc
    exact absurd hc (by simp)
  rw [findIndex_eq_some_iff]
  refine ⟨⟨x, ?_, hx.trans hpy⟩, fun j hj y hy2 => ?_⟩
  · rw [List.getElem?_set_self hi]
  · rw [List.getElem?_set_ne (Nat.ne_of_gt hj)] at hy2
    exact hlow j hj y hy2

theorem map_withoutPing_set (l : List challenge_t) (i : Nat) (c x : challenge_t)
    (hc : l[i]? = some c) (hx : withoutPing x = withoutPing c) :
    (l.set i x).map withoutPing = l.map withoutPing := by
  apply List.ext_getElem?
  intro n
  rw [List.getElem?_map, List.getElem?_map, List.getElem?_set]
  by_cases hn : i = n
  · subst hn
    have hi : i < l.length := by
      by_contra hcon
      rw [List.getElem?_eq_none (Nat.le_of_not_lt hcon)] at hc
      exact absurd hc (by simp)
    simp only [hi, if_true, Option.map_some', hc, hx]
  · rw [if_neg hn]

/-- The first part of `SV_GetChallenge`: only the challenge table can change, and in
the table after it the first unconnected record of the address is record `i`. -/
theorem findChallenge_spec (E : Env) (sv : ServerState) (fromAdr : netadr_t) (rand1 rand2 : Int)
    (hne : sv.svs_challenges ≠ []) (hrefl : E.NET_CompareAdr fromAdr fromAdr = true) :
    ∃ (T : List challenge_t) (i : Nat),
      findChallenge E sv fromAdr rand1 rand2 = ({ sv with svs_challenges := T }, i) ∧
      findIndex (unconnectedOf E fromAdr) T = some i := by
  unfold findChallenge
  dsimp only
  have h1 := challengeScan_fst E fromAdr sv.svs_challenges 0 0 0x7fffffff
  cases hf : findIndex (unconnectedOf E fromAdr) sv.svs_challenges with
  | some i =>
    rw [hf] at h1
    simp only [Option.map_some', Nat.add_zero] at h1
    rw [h1]
    exact ⟨sv.svs_challenges, i, rfl, hf⟩
  | none =>
    rw [hf] at h1
    simp only [Option.map_none'] at h1
    rw [h1]
    refine ⟨_, _, rfl, ?_⟩
    have hall := (findIndex_eq_none_iff _ _).1 hf
    have hlt : (challengeScan E fromAdr sv.svs_challenges 0 0 0x7fffffff).2
        < sv.svs_challenges.length := by
      rcases challengeScan_oldest E fromAdr sv.svs_challenges 0 0 0x7fffffff hall with
        ⟨h, -⟩ | ⟨j, ch, h, hj, -⟩
      · rw [h]
        exact List.length_pos.2 hne
      · rw [h, Nat.zero_add]
        by_contra hcon
        rw [List.getElem?_eq_none (Nat.le_of_not_lt hcon)] at hj
        exact absurd hj (by simp)
    rw [findIndex_eq_some_iff]
    refine ⟨⟨_, List.getElem?_set_self hlt, ?_⟩, fun j hj y hy => ?_⟩
    · simp [unconnectedOf, hrefl]
    · rw [List.getElem?_set_ne (Nat.ne_of_gt hj)] at hy
      exact hall y (List.getElem?_mem hy)

theorem findChallenge_found (E : Env) (sv : ServerState) (fromAdr : netadr_t) (rand1 rand2 : Int)
    (i : Nat) (h : findIndex (unconnectedOf E fromAdr) sv.svs_challenges = some i) :
    findChallenge E sv fromAdr rand1 rand2 = (sv, i) := by
  unfold findChallenge
  dsimp only
  have h1 := challengeScan_fst E fromAdr sv.svs_challenges 0 0 0x7fffffff
  rw [h] at h1
  simp only [Option.map_some', Nat.add_zero] at h1
  rw [h1]

/-- The second part of `SV_GetChallenge`: the table is as it was or record `i` has a
new ping time stamp, the clock, the console variables and the bans are as they were,
and every effect carries the token of record `i`. -/
theorem answerChallenge_spec (E : Env) (sv1 : ServerState) (fromAdr : netadr_t) (i : Nat)
    (ch : challenge_t) (hch : sv1.svs_challenges[i]? = some ch) :
    ((answerChallenge E sv1 fromAdr i).svs_challenges = sv1.svs_challenges ∨
      (answerChallenge E sv1 fromAdr i).svs_challenges
        = sv1.svs_challenges.set i { ch with pingTime := sv1.svs_time }) ∧
    (answerChallenge E sv1 fromAdr i).svs_time = sv1.svs_time ∧
    (answerChallenge E sv1 fromAdr i).cvars = sv1.cvars ∧
    (answerChallenge E sv1 fromAdr i).svs_tempBanAddresses = sv1.svs_tempBanAddresses ∧
    LogExt (answersWith ch.challenge fromAdr sv1.cvars) sv1 (answerChallenge E sv1 fromAdr i) ∧
    ((E.AUTHORIZE_SUPPORT = false ∨ E.Sys_IsLANAddress fromAdr = true) →
      (answerChallenge E sv1 fromAdr i).log = sv1.log ++ [.NET_OutOfBandPrint fromAdr
        (challengeResponse ch.challenge sv1.cvars.sv_onlyVisibleClients)]) := by
  have hget : sv1.svs_challenges.getD i challenge_zero = ch := by
    rw [List.getD_eq_getElem?_getD, hch]
    rfl
  unfold answerChallenge
  lift_lets
  intro ch1 stamped resolve src resolved sv2 stamped2
  have e1 : ch1 = ch := hget
  have h2t : sv2.svs_time = sv1.svs_time := by
    dsimp only [sv2]
    split <;> rfl
  have h2c : sv2.svs_challenges = sv1.svs_challenges := by
    dsimp only [sv2]
    split <;> rfl
  have h2v : sv2.cvars = sv1.cvars := by
    dsimp only [sv2]
    split <;> rfl
  have h2b : sv2.svs_tempBanAddresses = sv1.svs_tempBanAddresses := by
    dsimp only [sv2]
    split <;> rfl
  have h2l : sv2.log = sv1.log := by
    dsimp only [sv2]
    split <;> rfl
  have es : stamped = { ch with pingTime := sv1.svs_time } := by
    dsimp only [stamped]
    rw [e1]
  have es2 : stamped2 = { ch with pingTime := sv1.svs_time } := by
    dsimp only [stamped2]
    rw [e1, h2t]
  clear_value sv2 stamped stamped2 ch1
  subst e1 es es2
  split
  · refine ⟨Or.inr rfl, rfl, rfl, rfl, ?_, fun _ => rfl⟩
    exact (LogExt.of_eq rfl : LogExt _ sv1 { sv1 with svs_challenges := _ }).emit ⟨_, Or.inl rfl⟩
  rename_i hfast
  have hnf : ¬ (E.AUTHORIZE_SUPPORT = false ∨ E.Sys_IsLANAddress fromAdr = true) := by
    intro h
    apply hfast
    rcases h with h | h <;> simp [h]
  split
  · exact ⟨Or.inl rfl, rfl, rfl, rfl, LogExt.of_eq rfl, fun h => absurd h hnf⟩
  split
  · refine ⟨Or.inr ?_, h2t, h2v, h2b, ?_, fun h => absurd h hnf⟩
    · show sv2.svs_challenges.set i _ = _
      rw [h2c]
    · rw [← h2v]
      exact (LogExt.of_eq h2l : LogExt _ sv1 { sv2 with svs_challenges := _ }).emit ⟨_, Or.inl rfl⟩
  split
  · refine ⟨Or.inl h2c, h2t, h2v, h2b, ?_, fun h => absurd h hnf⟩
    rw [← h2v]
    exact (LogExt.of_eq h2l : LogExt _ sv1 sv2).emit ⟨_, Or.inr rfl⟩
  · exact ⟨Or.inl h2c, h2t, h2v, h2b, LogExt.of_eq h2l, fun h => absurd h hnf⟩

theorem SV_TempBanIsBanned_later (E : Env) (sv sv' : ServerState) (fromAdr : netadr_t)
    (hb : sv'.svs_tempBanAddresses = sv.svs_tempBanAddresses) (ht : sv.svs_time ≤ sv'.svs_time)
    (h : SV_TempBanIsBanned E sv fromAdr = false) : SV_TempBanIsBanned E sv' fromAdr = false := by
  unfold SV_TempBanIsBanned at h ⊢
  rw [hb]
  rw [List.any_eq_false] at h ⊢
  intro b hbm
  have := h b hbm
  simp only [Bool.and_eq_true, decide_eq_true_eq, not_and] at this ⊢
  intro h1
  exact this ⟨h1.1, by have := h1.2; omega⟩

/-- C15. In a multiplayer game, for an address that is not temp-banned, two consecutive
calls of `SV_GetChallenge` from that address (the clock may advance between them)
answer with the same challenge token, the token of the unconnected record `i` of the
address, and the second call creates or overwrites no challenge record: every record
is as the first call left it, the ping time stamp apart. The challenge table is not
empty and the address compares equal to itself. -/
theorem SV_GetChallenge_twice (E : Env) (sv : ServerState) (fromAdr : netadr_t)
    (rand1 rand2 rand3 rand4 t2 : Int)
    (hmp : E.SV_GameIsSinglePlayer = false) (hban : SV_TempBanIsBanned E sv fromAdr = false)
    (hne : sv.svs_challenges ≠ []) (hrefl : E.NET_CompareAdr fromAdr fromAdr = true)
    (ht : sv.svs_time ≤ t2) :
    ∃ (i : Nat) (ch : challenge_t),
      (SV_GetChallenge E sv fromAdr rand1 rand2).svs_challenges[i]? = some ch ∧
      unconnectedOf E fromAdr ch = true ∧
      (SV_GetChallenge E (atTime (SV_GetChallenge E sv fromAdr rand1 rand2) t2) fromAdr rand3
          rand4).svs_challenges.map withoutPing
        = (SV_GetChallenge E sv fromAdr rand1 rand2).svs_challenges.map withoutPing ∧
      LogExt (answersWith ch.challenge fromAdr sv.cvars) sv
        (SV_GetChallenge E sv fromAdr rand1 rand2) ∧
      LogExt (answersWith ch.challenge fromAdr sv.cvars)
        (atTime (SV_GetChallenge E sv fromAdr rand1 rand2) t2)
        (SV_GetChallenge E (atTime (SV_GetChallenge E sv fromAdr rand1 rand2) t2) fromAdr rand3
          rand4) ∧
      ((E.AUTHORIZE_SUPPORT = false ∨ E.Sys_IsLANAddress fromAdr = true) →
        (SV_GetChallenge E sv fromAdr rand1 rand2).log = sv.log ++ [.NET_OutOfBandPrint fromAdr
          (challengeResponse ch.challenge sv.cvars.sv_onlyVisibleClients)] ∧
        (SV_GetChallenge E (atTime (SV_GetChallenge E sv fromAdr rand1 rand2) t2) fromAdr rand3
            rand4).log
          = (SV_GetChallenge E sv fromAdr rand1 rand2).log ++ [.NET_OutOfBandPrint fromAdr
            (challengeResponse ch.challenge sv.cvars.sv_onlyVisibleClients)]) := by
  obtain ⟨T, i, hfc, hfi⟩ := findChallenge_spec E sv fromAdr rand1 rand2 hne hrefl
  have hs1 : SV_GetChallenge E sv fromAdr rand1 rand2
      = answerChallenge E { sv with svs_challenges := T } fromAdr i := by
    unfold SV_GetChallenge
    rw [if_neg (by simp [hmp]), if_neg (by simp [hban]), hfc]
  obtain ⟨⟨ch1, hch1, hp1⟩, -⟩ := (findIndex_eq_some_iff _ T i).1 hfi
  obtain ⟨hT1, ht1, hv1, hb1, hl1, hfast1⟩ :=
    answerChallenge_spec E { sv with svs_challenges := T } fromAdr i ch1 hch1
  rw [← hs1] at hT1 ht1 hv1 hb1 hl1 hfast1
  generalize SV_GetChallenge E sv fromAdr rand1 rand2 = s1 at *
  -- the record of the address after the first call
  have hrec : ∃ ch, s1.svs_challenges[i]? = some ch ∧ ch.challenge = ch1.challenge ∧
      unconnectedOf E fromAdr ch = true ∧
      findIndex (unconnectedOf E fromAdr) s1.svs_challenges = some i := by
    rcases hT1 with h | h
    · rw [h]
      exact ⟨ch1, hch1, rfl, hp1, hfi⟩
    · rw [h]
      have hi : i < T.length := by
        by_contra hcon
        rw [List.getElem?_eq_none (Nat.le_of_not_lt hcon)] at hch1
        exact absurd hch1 (by simp)
      exact ⟨_, List.getElem?_set_self hi, rfl, hp1, findIndex_set_same _ T i ch1 _ hfi hch1 rfl⟩
  obtain ⟨ch, hch, htok, hp, hfi2⟩ := hrec
  have hs2 : SV_GetChallenge E (atTime s1 t2) fromAdr rand3 rand4
      = answerChallenge E (atTime s1 t2) fromAdr i := by
    unfold SV_GetChallenge
    have hb2 : SV_TempBanIsBanned E (atTime s1 t2) fromAdr = false :=
      SV_TempBanIsBanned_later E sv (atTime s1 t2) fromAdr hb1 ht hban
    rw [if_neg (by simp [hmp]), if_neg (by simp [hb2]),
      findChallenge_found E (atTime s1 t2) fromAdr rand3 rand4 i hfi2]
  obtain ⟨hT2, -, -, -, hl2, hfast2⟩ := answerChallenge_spec E (atTime s1 t2) fromAdr i ch hch
  rw [← hs2] at hT2 hl2 hfast2
  generalize SV_GetChallenge E (atTime s1 t2) fromAdr rand3 rand4 = s2 at *
  have hcv : (atTime s1 t2).cvars = sv.cvars := hv1
  rw [hcv] at hl2 hfast2
  rw [htok] at hl2 hfast2
  refine ⟨i, ch, hch, hp, ?_, ?_, ?_, fun hf => ⟨?_, ?_⟩⟩
  · rcases hT2 with h | h
    · rw [h]
      rfl
    · rw [h]
      exact map_withoutPing_set _ i ch _ hch rfl
  · rw [htok]
    exact hl1
  · rw [htok]
    exact hl2
  · rw [htok]
    exact hfast1 hf
  · rw [htok]
    exact hfast2 hf

/-- C15, witness: two requests from 10.0.0.1, at times 1000 and 1500. -/
theorem SV_GetChallenge_twice_witness :
    (env0.SV_GameIsSinglePlayer = false ∧ SV_TempBanIsBanned env0 serverFresh adr1 = false ∧
      serverFresh.svs_challenges ≠ [] ∧ env0.NET_CompareAdr adr1 adr1 = true ∧
      serverFresh.svs_time ≤ 1500) ∧
    ∃ (i : Nat) (ch : challenge_t),
      (SV_GetChallenge env0 serverFresh adr1 5 6).svs_challenges[i]? = some ch ∧
      unconnectedOf env0 adr1 ch = true ∧
      (SV_GetChallenge env0 (atTime (SV_GetChallenge env0 serverFresh adr1 5 6) 1500) adr1 9
          10).svs_challenges.map withoutPing
        = (SV_GetChallenge env0 serverFresh adr1 5 6).svs_challenges.map withoutPing ∧
      LogExt (answersWith ch.challenge adr1 serverFresh.cvars) serverFresh
        (SV_GetChallenge env0 serverFresh adr1 5 6) ∧
      LogExt (answersWith ch.challenge adr1 serverFresh.cvars)
        (atTime (SV_GetChallenge env0 serverFresh adr1 5 6) 1500)
        (SV_GetChallenge env0 (atTime (SV_GetChallenge env0 serverFresh adr1 5 6) 1500) adr1 9
          10) ∧
      ((env0.AUTHORIZE_SUPPORT = false ∨ env0.Sys_IsLANAddress adr1 = true) →
        (SV_GetChallenge env0 serverFresh adr1 5 6).log = serverFresh.log ++
          [.NET_OutOfBandPrint adr1
            (challengeResponse ch.challenge serverFresh.cvars.sv_onlyVisibleClients)] ∧
        (SV_GetChallenge env0 (atTime (SV_GetChallenge env0 serverFresh adr1 5 6) 1500) adr1 9
            10).log
          = (SV_GetChallenge env0 serverFresh adr1 5 6).log ++ [.NET_OutOfBandPrint adr1
            (challengeResponse ch.challenge serverFresh.cvars.sv_onlyVisibleClients)]) :=
  ⟨by decide,
    SV_GetChallenge_twice env0 serverFresh adr1 5 6 9 10 1500 (by decide) (by decide) (by decide)
      (by decide) (by decide)⟩

/-- C16 (amended). When `SV_GetChallenge` is called from an address that has no
unconnected record, the record overwritten is one with the smallest `time`, the lowest
index among them; `time` is the time at which the record was made, so the record made
earliest goes first. The new record has the address, a new token and the current
time. -/
theorem SV_GetChallenge_evicts_oldest (E : Env) (sv : ServerState) (fromAdr : netadr_t)
    (rand1 rand2 : Int)
    (hmp : E.SV_GameIsSinglePlayer = false) (hban : SV_TempBanIsBanned E sv fromAdr = false)
    (hnew : ∀ ch ∈ sv.svs_challenges, unconnectedOf E fromAdr ch = false)
    (hne : sv.svs_challenges ≠ [])
    (hrange : ∀ ch ∈ sv.svs_challenges, ch.time ≤ 0x7fffffff) :
    ∃ (o : Nat) (old new : challenge_t), sv.svs_challenges[o]? = some old ∧
      (∀ (j : Nat) (ch : challenge_t), sv.svs_challenges[j]? = some ch → old.time ≤ ch.time) ∧
      (∀ (j : Nat) (ch : challenge_t), j < o → sv.svs_challenges[j]? = some ch →
        old.time < ch.time) ∧
      (SV_GetChallenge E sv fromAdr rand1 rand2).svs_challenges = sv.svs_challenges.set o new ∧
      new.adr = fromAdr ∧ new.challenge = challengeToken rand1 rand2 sv.svs_time ∧
      new.time = sv.svs_time ∧ new.firstTime = sv.svs_time ∧ new.firstPing = 0 ∧
      new.connected = false := by
  have hscan := challengeScan_oldest E fromAdr sv.svs_challenges 0 0 0x7fffffff hnew
  have hfst := challengeScan_fst E fromAdr sv.svs_challenges 0 0 0x7fffffff
  rw [(findIndex_eq_none_iff _ _).2 hnew] at hfst
  simp only [Option.map_none'] at hfst
  have hfc : ∃ (fresh : challenge_t) (l : List challenge_t),
      l = sv.svs_challenges.set (challengeScan E fromAdr sv.svs_challenges 0 0 0x7fffffff).2 fresh ∧
      findChallenge E sv fromAdr rand1 rand2
        = ({ sv with svs_challenges := l },
            (challengeScan E fromAdr sv.svs_challenges 0 0 0x7fffffff).2) ∧
      fresh.adr = fromAdr ∧ fresh.challenge = challengeToken rand1 rand2 sv.svs_time ∧
      fresh.time = sv.svs_time ∧ fresh.firstTime = sv.svs_time ∧ fresh.firstPing = 0 ∧
      fresh.connected = false := by
    unfold findChallenge
    dsimp only
    rw [hfst]
    exact ⟨_, _, rfl, rfl, rfl, rfl, rfl, rfl, rfl, rfl⟩
  obtain ⟨fresh, l, hl, hfc, f1, f2, f3, f4, f5, f6⟩ := hfc
  generalize (challengeScan E fromAdr sv.svs_challenges 0 0 0x7fffffff).2 = o at hscan hfc hl
  subst hl
  have hold : ∃ old, sv.svs_challenges[o]? = some old ∧
      (∀ (j : Nat) (ch : challenge_t), sv.svs_challenges[j]? = some ch → old.time ≤ ch.time) ∧
      (∀ (j : Nat) (ch : challenge_t), j < o → sv.svs_challenges[j]? = some ch →
        old.time < ch.time) := by
    rcases hscan with ⟨h1, h2⟩ | ⟨j, ch, h1, h2, -, h4, h5⟩
    · subst h1
      obtain ⟨x, hx0⟩ : ∃ x, sv.svs_challenges[0]? = some x := by
        cases hl : sv.svs_challenges with
        | nil => exact absurd hl hne
        | cons x xs => exact ⟨x, by simp⟩
      refine ⟨x, hx0, fun j ch hj => ?_, fun j ch hj => absurd hj (Nat.not_lt_zero j)⟩
      have hx := hrange x (List.getElem?_mem hx0)
      have hc := h2 ch (List.getElem?_mem hj)
      omega
    · rw [Nat.zero_add] at h1
      subst h1
      exact ⟨ch, h2, h4, h5⟩
  obtain ⟨old, ho, hmin, hfirst⟩ := hold
  have ho2 : o < sv.svs_challenges.length := by
    by_contra hcon
    rw [List.getElem?_eq_none (Nat.le_of_not_lt hcon)] at ho
    exact absurd ho (by simp)
  have hs1 : SV_GetChallenge E sv fromAdr rand1 rand2
      = answerChallenge E { sv with svs_challenges := sv.svs_challenges.set o fresh } fromAdr o := by
    unfold SV_GetChallenge
    rw [if_neg (by simp [hmp]), if_neg (by simp [hban]), hfc]
  obtain ⟨hT, -⟩ := answerChallenge_spec E
    { sv with svs_challenges := sv.svs_challenges.set o fresh } fromAdr o fresh
    (List.getElem?_set_self ho2)
  rw [← hs1] at hT
  rcases hT with h | h
  · exact ⟨o, old, fresh, ho, hmin, hfirst, h, f1, f2, f3, f4, f5, f6⟩
  · refine ⟨o, old, { fresh with pingTime := sv.svs_time }, ho, hmin, hfirst, ?_, f1, f2, f3, f4,
      f5, f6⟩
    rw [h]
    exact List.set_set _ _ _ _

/-- C16, counterexample. Both records of the table are in use: 10.0.0.1 asked for a
challenge at time 1000 and again at time 3000, 10.0.0.2 asked at time 2000. A request
from 10.0.0.3 at time 4000 overwrites the record of 10.0.0.1, the address that asked
most recently, and keeps the record of 10.0.0.2. -/
theorem SV_GetChallenge_evicts_counterexample :
    serverRequested.svs_challenges.map (fun c => (c.adr, c.time, c.pingTime))
      = [(adr1, 1000, 3000), (adr2, 2000, 2000)] ∧
    (SV_GetChallenge env0 (atTime serverRequested 4000) adr3 11 12).svs_challenges.map
        (fun c => (c.adr, c.time, c.pingTime))
      = [(adr3, 4000, 4000), (adr2, 2000, 2000)] := by
  decide

/-- C16 (amended), witness: the request from 10.0.0.3 at time 4000. -/
theorem SV_GetChallenge_evicts_oldest_witness :
    (env0.SV_GameIsSinglePlayer = false ∧
      SV_TempBanIsBanned env0 (atTime serverRequested 4000) adr3 = false ∧
      (∀ ch ∈ (atTime serverRequested 4000).svs_challenges, unconnectedOf env0 adr3 ch = false) ∧
      (atTime serverRequested 4000).svs_challenges ≠ [] ∧
      ∀ ch ∈ (atTime serverRequested 4000).svs_challenges, ch.time ≤ 0x7fffffff) ∧
    ∃ (o : Nat) (old new : challenge_t),
      (atTime serverRequested 4000).svs_challenges[o]? = some old ∧
      (∀ (j : Nat) (ch : challenge_t), (atTime serverRequested 4000).svs_challenges[j]? = some ch →
        old.time ≤ ch.time) ∧
      (∀ (j : Nat) (ch : challenge_t), j < o →
        (atTime serverRequested 4000).svs_challenges[j]? = some ch → old.time < ch.time) ∧
      (SV_GetChallenge env0 (atTime serverRequested 4000) adr3 11 12).svs_challenges
        = (atTime serverRequested 4000).svs_challenges.set o new ∧
      new.adr = adr3 ∧ new.challenge = challengeToken 11 12 (atTime serverRequested 4000).svs_time ∧
      new.time = (atTime serverRequested 4000).svs_time ∧
      new.firstTime = (atTime serverRequested 4000).svs_time ∧ new.firstPing = 0 ∧
      new.connected = false :=
  ⟨by decide,
    SV_GetChallenge_evicts_oldest env0 (atTime serverRequested 4000) adr3 11 12 (by decide)
      (by decide) (by decide) (by decide) (by decide)⟩

/-! ## Properties of the download handlers -/

/-- C18. When the integer value of the argument of `nextdl` differs from
`cl->downloadClientBlock`, `SV_NextDownload_f` is the call
`SV_DropClient( cl, "broken download" )`: `downloadClientBlock` keeps its value, a
client in the table is a zombie afterwards, and a client that was not a zombie
already is sent the disconnect command with that reason. -/
theorem SV_NextDownload_f_mismatch (E : Env) (sv : ServerState) (cl : Nat) (args : List String)
    (hne : atoi (Cmd_Argv args 1) ≠ (getClient sv cl).downloadClientBlock) :
    SV_NextDownload_f E sv cl args = SV_DropClient E sv cl "broken download" ∧
    (getClient (SV_NextDownload_f E sv cl args) cl).downloadClientBlock
      = (getClient sv cl).downloadClientBlock ∧
    (cl < sv.svs_clients.length →
      (getClient (SV_NextDownload_f E sv cl args) cl).state = .CS_ZOMBIE) ∧
    ((getClient sv cl).state ≠ .CS_ZOMBIE →
      Effect.SV_SendServerCommand (some cl) ("disconnect \"" ++ "broken download" ++ "\"\n")
        ∈ (SV_NextDownload_f E sv cl args).log) := by
  have h : SV_NextDownload_f E sv cl args = SV_DropClient E sv cl "broken download" := by
    unfold SV_NextDownload_f
    dsimp only
    rw [if_neg hne]
  have hd := SV_DropClient_clients E sv cl "broken download"
  rw [h]
  refine ⟨rfl, ?_, hd.2, fun hz => mem_log_SV_DropClient E sv cl _ hz⟩
  have hv := hd.1.2.2.2 cl
  have hb := congrArg (fun c : client_t => c.downloadClientBlock) hv
  exact hb

/-- C18, witness: the download of `etmain/map.pk3` after the first write; the client
is expected to acknowledge block 0 and acknowledges block 5. -/
theorem SV_NextDownload_f_mismatch_witness :
    atoi (Cmd_Argv ["nextdl", "5"] 1)
      ≠ (getClient (downloadRun env0 0 serverAsking [.write]) 0).downloadClientBlock ∧
    (SV_NextDownload_f env0 (downloadRun env0 0 serverAsking [.write]) 0 ["nextdl", "5"]
      = SV_DropClient env0 (downloadRun env0 0 serverAsking [.write]) 0 "broken download" ∧
    (getClient (SV_NextDownload_f env0 (downloadRun env0 0 serverAsking [.write]) 0
        ["nextdl", "5"]) 0).downloadClientBlock
      = (getClient (downloadRun env0 0 serverAsking [.write]) 0).downloadClientBlock ∧
    (0 < (downloadRun env0 0 serverAsking [.write]).svs_clients.length →
      (getClient (SV_NextDownload_f env0 (downloadRun env0 0 serverAsking [.write]) 0
        ["nextdl", "5"]) 0).state = .CS_ZOMBIE) ∧
    ((getClient (downloadRun env0 0 serverAsking [.write]) 0).state ≠ .CS_ZOMBIE →
      Effect.SV_SendServerCommand (some 0) ("disconnect \"" ++ "broken download" ++ "\"\n")
        ∈ (SV_NextDownload_f env0 (downloadRun env0 0 serverAsking [.write]) 0
            ["nextdl", "5"]).log)) :=
  ⟨by decide,
    SV_NextDownload_f_mismatch env0 (downloadRun env0 0 serverAsking [.write]) 0 ["nextdl", "5"]
      (by decide)⟩

theorem getClient_out (sv : ServerState) (cl : Nat) (h : ¬ cl < sv.svs_clients.length) :
    getClient sv cl = client_zero 0 0 0 := by
  unfold getClient
  rw [List.getElem?_eq_none (by omega)]
  rfl

theorem getClient_modifyClient_out (sv : ServerState) (cl : Nat) (f : client_t → client_t)
    (h : ¬ cl < sv.svs_clients.length) :
    getClient (modifyClient sv cl f) cl = getClient sv cl := by
  rw [getClient_modifyClient, if_neg (fun hh => h hh.2)]

theorem getClient_SV_CloseDownload (sv : ServerState) (cl : Nat) :
    (getClient (SV_CloseDownload sv cl) cl).download = 0 ∧
    (getClient (SV_CloseDownload sv cl) cl).downloadName = "" ∧
    (getClient (SV_CloseDownload sv cl) cl).downloadBlocks
      = List.replicate (getClient sv cl).downloadBlocks.length none := by
  unfold SV_CloseDownload
  lift_lets
  intro c sv1
  have h1 : getClient sv1 cl = getClient sv cl := by
    dsimp only [sv1]
    split <;> rfl
  have hl : sv1.svs_clients.length = sv.svs_clients.length := by
    dsimp only [sv1]
    split <;> rfl
  by_cases hcl : cl < sv.svs_clients.length
  · rw [getClient_modifyClient_self _ _ _ (by rw [hl]; exact hcl), h1]
    refine ⟨rfl, rfl, ?_⟩
    simp [List.eq_replicate_iff]
  · rw [getClient_modifyClient_out _ _ _ (by rw [hl]; exact hcl), h1,
      getClient_out sv cl hcl]
    exact ⟨rfl, rfl, rfl⟩

/-- C20. Ending a download releases it. After `stopdl`, and after a `nextdl` that
acknowledges the expected block when that block has length zero, the file handle of
the client is 0, `downloadName` is empty and every buffer of the window is `NULL`; the
window keeps its size, and the buffers are still all `NULL` when the client asks for
another file. -/
theorem SV_CloseDownload_releases (E : Env) (sv : ServerState) (cl : Nat)
    (args next : List String) :
    ((getClient (SV_StopDownload_f sv cl) cl).download = 0 ∧
      (getClient (SV_StopDownload_f sv cl) cl).downloadName = "" ∧
      (getClient (SV_StopDownload_f sv cl) cl).downloadBlocks
        = List.replicate (getClient sv cl).downloadBlocks.length none ∧
      (getClient (SV_BeginDownload_f E (SV_StopDownload_f sv cl) cl next) cl).downloadBlocks
        = List.replicate (getClient sv cl).downloadBlocks.length none) ∧
    (atoi (Cmd_Argv args 1) = (getClient sv cl).downloadClientBlock →
      (getClient sv cl).downloadBlockSize.getD
        ((getClient sv cl).downloadClientBlock % (E.MAX_DOWNLOAD_WINDOW : Int)).toNat 0 = 0 →
      (getClient (SV_NextDownload_f E sv cl args) cl).download = 0 ∧
      (getClient (SV_NextDownload_f E sv cl args) cl).downloadName = "" ∧
      (getClient (SV_NextDownload_f E sv cl args) cl).downloadBlocks
        = List.replicate (getClient sv cl).downloadBlocks.length none ∧
      (getClient (SV_BeginDownload_f E (SV_NextDownload_f E sv cl args) cl next) cl).downloadBlocks
        = List.replicate (getClient sv cl).downloadBlocks.length none) := by
  have hc := getClient_SV_CloseDownload sv cl
  have hb : (getClient (SV_BeginDownload_f E (SV_CloseDownload sv cl) cl next) cl).downloadBlocks
      = List.replicate (getClient sv cl).downloadBlocks.length none := by
    have h2 := (getClient_SV_CloseDownload (SV_CloseDownload sv cl) cl).2.2
    rw [hc.2.2, List.length_replicate] at h2
    unfold SV_BeginDownload_f
    lift_lets
    intro sv1
    by_cases hcl : cl < sv1.svs_clients.length
    · rw [getClient_modifyClient_self _ _ _ hcl]
      exact h2
    · rw [getClient_modifyClient_out _ _ _ hcl]
      exact h2
  refine ⟨⟨hc.1, hc.2.1, hc.2.2, hb⟩, fun h1 h2 => ?_⟩
  have h : SV_NextDownload_f E sv cl args = SV_CloseDownload sv cl := by
    unfold SV_NextDownload_f
    dsimp only
    rw [if_pos h1, if_pos h2]
  rw [h]
  exact ⟨hc.1, hc.2.1, hc.2.2, hb⟩

/-- C20, witness: `etmain/map.pk3` was sent up to its end, block 3 is the block of
length zero, and the client acknowledges it. -/
theorem SV_CloseDownload_releases_witness :
    (atoi (Cmd_Argv ["nextdl", "3"] 1)
        = (getClient (downloadRun env0 0 serverAsking eventsToEOF) 0).downloadClientBlock ∧
      (getClient (downloadRun env0 0 serverAsking eventsToEOF) 0).downloadBlockSize.getD
        ((getClient (downloadRun env0 0 serverAsking eventsToEOF) 0).downloadClientBlock
          % (env0.MAX_DOWNLOAD_WINDOW : Int)).toNat 0 = 0 ∧
      (getClient (downloadRun env0 0 serverAsking eventsToEOF) 0).download = 7 ∧
      (getClient (downloadRun env0 0 serverAsking eventsToEOF) 0).downloadBlocks
        = [some [], some [], some [], none, none, none, none, none]) ∧
    (getClient (SV_NextDownload_f env0 (downloadRun env0 0 serverAsking eventsToEOF) 0
        ["nextdl", "3"]) 0).download = 0 ∧
    (getClient (SV_NextDownload_f env0 (downloadRun env0 0 serverAsking eventsToEOF) 0
        ["nextdl", "3"]) 0).downloadName = "" ∧
    (getClient (SV_NextDownload_f env0 (downloadRun env0 0 serverAsking eventsToEOF) 0
        ["nextdl", "3"]) 0).downloadBlocks
      = List.replicate
          (getClient (downloadRun env0 0 serverAsking eventsToEOF) 0).downloadBlocks.length none ∧
    (getClient (SV_BeginDownload_f env0
        (SV_NextDownload_f env0 (downloadRun env0 0 serverAsking eventsToEOF) 0 ["nextdl", "3"]) 0
        ["download", "etmain/other.pk3"]) 0).downloadBlocks
      = List.replicate
          (getClient (downloadRun env0 0 serverAsking eventsToEOF) 0).downloadBlocks.length none :=
  ⟨by decide,
    (SV_CloseDownload_releases env0 (downloadRun env0 0 serverAsking eventsToEOF) 0
      ["nextdl", "3"] ["download", "etmain/other.pk3"]).2 (by decide) (by decide)⟩

/-! ## The download window -/

theorem readBlocks_window (E : Env) (cl : Nat) (n : Nat) (c : client_t)
    (h : c.downloadCurrentBlock - c.downloadClientBlock ≤ (E.MAX_DOWNLOAD_WINDOW : Int)) :
    (readBlocks E cl n c).1.downloadCurrentBlock - (readBlocks E cl n c).1.downloadClientBlock
      ≤ (E.MAX_DOWNLOAD_WINDOW : Int) := by
  induction n generalizing c with
  | zero => exact h
  | succ n ih =>
    unfold readBlocks
    split
    · rename_i hc
      lift_lets
      intro curindex blocks size c1
      split
      · exact h
      · intro c2 rest
        refine ih c2 ?_
        have h1 := hc.1
        show c.downloadCurrentBlock + 1 - c.downloadClientBlock ≤ _
        omega
    · exact h

/-- The read loop leaves by its own condition: the turns `pumpDownload` allows are
enough. -/
theorem readBlocks_exits (E : Env) (cl : Nat) (n : Nat) (c : client_t)
    (hn : (E.MAX_DOWNLOAD_WINDOW : Int) - (c.downloadCurrentBlock - c.downloadClientBlock) ≤ n) :
    ¬ ((readBlocks E cl n c).1.downloadCurrentBlock - (readBlocks E cl n c).1.downloadClientBlock
          < (E.MAX_DOWNLOAD_WINDOW : Int) ∧
        (readBlocks E cl n c).1.downloadSize ≠ (readBlocks E cl n c).1.downloadCount) := by
  induction n generalizing c with
  | zero =>
    intro hc
    have h1 : (readBlocks E cl 0 c).1 = c := rfl
    rw [h1] at hc
    have := hc.1
    omega
  | succ n ih =>
    unfold readBlocks
    split
    · rename_i hc
      lift_lets
      intro curindex blocks size c1
      split
      · intro _ _ h2
        exact h2.2 rfl
      · intro c2 rest
        refine ih c2 ?_
        show (E.MAX_DOWNLOAD_WINDOW : Int) - (c.downloadCurrentBlock + 1 - c.downloadClientBlock) ≤ n
        push_cast at hn
        omega
    · rename_i hc
      exact hc

theorem pumpDownload_turns (E : Env) (cl : Nat) (c : client_t) :
    ¬ ((readBlocks E cl
          ((E.MAX_DOWNLOAD_WINDOW : Int) - (c.downloadCurrentBlock - c.downloadClientBlock)).toNat
          c).1.downloadCurrentBlock -
        (readBlocks E cl
          ((E.MAX_DOWNLOAD_WINDOW : Int) - (c.downloadCurrentBlock - c.downloadClientBlock)).toNat
          c).1.downloadClientBlock < (E.MAX_DOWNLOAD_WINDOW : Int) ∧
      (readBlocks E cl
          ((E.MAX_DOWNLOAD_WINDOW : Int) - (c.downloadCurrentBlock - c.downloadClientBlock)).toNat
          c).1.downloadSize ≠
        (readBlocks E cl
          ((E.MAX_DOWNLOAD_WINDOW : Int) - (c.downloadCurrentBlock - c.downloadClientBlock)).toNat
          c).1.downloadCount) :=
  readBlocks_exits E cl _ c (Int.self_le_toNat _)

theorem eofBlock_window (E : Env) (cl : Nat) (c : client_t)
    (h : c.downloadCurrentBlock - c.downloadClientBlock ≤ (E.MAX_DOWNLOAD_WINDOW : Int)) :
    (eofBlock E cl c).1.downloadCurrentBlock - (eofBlock E cl c).1.downloadClientBlock
      ≤ (E.MAX_DOWNLOAD_WINDOW : Int) := by
  unfold eofBlock
  split
  · rename_i hc
    have := hc.2.2
    show c.downloadCurrentBlock + 1 - c.downloadClientBlock ≤ _
    omega
  · exact h

theorem transmitBlocks_view (E : Env) (cl : Nat) (time : Int) (n : Nat) (c : client_t) :
    transmitView (transmitBlocks E cl time n c).1 = transmitView c ∧
      ∀ e ∈ (transmitBlocks E cl time n c).2, ∃ b l, e = .svc_download cl b l "" := by
  induction n generalizing c with
  | zero => exact ⟨rfl, fun e he => absurd he (List.not_mem_nil e)⟩
  | succ n ih =>
    unfold transmitBlocks
    split
    · exact ⟨rfl, fun e he => absurd he (List.not_mem_nil e)⟩
    split
    · exact ⟨rfl, fun e he => absurd he (List.not_mem_nil e)⟩
    lift_lets
    intro c1 curindex message c2 rest
    have h1 : transmitView c1 = transmitView c := by
      dsimp only [c1]
      split <;> rfl
    have h2 : transmitView c2 = transmitView c := h1
    refine ⟨(ih c2).1.trans h2, fun e he => ?_⟩
    rcases List.mem_cons.1 he with h | h
    · exact ⟨_, _, h⟩
    · exact (ih c2).2 e h

theorem pumpDownload_window (E : Env) (cl : Nat) (time rate : Int) (c : client_t)
    (h : c.downloadCurrentBlock - c.downloadClientBlock ≤ (E.MAX_DOWNLOAD_WINDOW : Int)) :
    (pumpDownload E cl time rate c).1.downloadCurrentBlock -
        (pumpDownload E cl time rate c).1.downloadClientBlock
      ≤ (E.MAX_DOWNLOAD_WINDOW : Int) := by
  unfold pumpDownload
  lift_lets
  intro turns read eof sent
  have h1 := eofBlock_window E cl read.1 (readBlocks_window E cl turns c h)
  have h2 := (transmitBlocks_view E cl time (blocksPerSnap E rate eof.1).toNat eof.1).1
  have h3 := congrArg (fun c : client_t => c.downloadCurrentBlock) h2
  have h4 := congrArg (fun c : client_t => c.downloadClientBlock) h2
  have h5 : sent.1.downloadCurrentBlock = eof.1.downloadCurrentBlock := h3
  have h6 : sent.1.downloadClientBlock = eof.1.downloadClientBlock := h4
  show sent.1.downloadCurrentBlock - sent.1.downloadClientBlock ≤ _
  rw [h5, h6]
  exact h1

theorem wwwRedirect_window (E : Env) (cv : cvars_t) (cl : Nat) (c : client_t) :
    windowView (wwwRedirect E cv cl c).1.1 = windowView c := by
  unfold wwwRedirect
  lift_lets
  intro downloadSize url c1 download_flag
  split_ifs <;> rfl

theorem openDownload_window (E : Env) (cv : cvars_t) (cl : Nat) (c : client_t) :
    windowView (openDownload E cv cl c).1.1 = windowView c ∨
      windowView (openDownload E cv cl c).1.1 = (0, 0) := by
  unfold openDownload
  lift_lets
  intro c1 idPack errorMessage www c2 opened c3 bad
  have h1 : windowView c1 = windowView c := by
    dsimp only [c1]
    split <;> rfl
  have h2 : windowView www.1.1 = windowView c := (wwwRedirect_window E cv cl c1).trans h1
  split_ifs
  · exact Or.inl rfl
  · exact Or.inl h1
  · exact Or.inl h2
  · exact Or.inl h2
  · exact Or.inr rfl

theorem writeDownload_window (E : Env) (cv : cvars_t) (cl : Nat) (time : Int) (c : client_t)
    (h : c.downloadCurrentBlock - c.downloadClientBlock ≤ (E.MAX_DOWNLOAD_WINDOW : Int)) :
    (writeDownload E cv cl time c).1.downloadCurrentBlock -
        (writeDownload E cv cl time c).1.downloadClientBlock ≤ (E.MAX_DOWNLOAD_WINDOW : Int) := by
  have ho : (openDownload E cv cl c).1.1.downloadCurrentBlock -
      (openDownload E cv cl c).1.1.downloadClientBlock ≤ (E.MAX_DOWNLOAD_WINDOW : Int) := by
    rcases openDownload_window E cv cl c with h1 | h1
    · have h2 := congrArg Prod.fst h1
      have h3 := congrArg Prod.snd h1
      simp only [windowView] at h2 h3
      rw [h2, h3]
      exact h
    · have h2 := congrArg Prod.fst h1
      have h3 := congrArg Prod.snd h1
      simp only [windowView] at h2 h3
      rw [h2, h3]
      simp
  unfold writeDownload
  lift_lets
  intro opened pumped
  split
  · exact ho
  · exact pumpDownload_window E cl time _ _ ho

theorem SV_WriteDownloadToClient_window (E : Env) (sv : ServerState) (cl : Nat)
    (h : (getClient sv cl).downloadCurrentBlock - (getClient sv cl).downloadClientBlock
      ≤ (E.MAX_DOWNLOAD_WINDOW : Int)) :
    (getClient (SV_WriteDownloadToClient E sv cl) cl).downloadCurrentBlock -
        (getClient (SV_WriteDownloadToClient E sv cl) cl).downloadClientBlock
      ≤ (E.MAX_DOWNLOAD_WINDOW : Int) := by
  unfold SV_WriteDownloadToClient
  lift_lets
  intro c written
  split_ifs
  · exact h
  · exact h
  · have hv := (SV_DropClient_clients E sv cl "illegal download request").1.2.2.2 cl
    have h1 := congrArg (fun c : client_t => c.downloadCurrentBlock) hv
    have h2 := congrArg (fun c : client_t => c.downloadClientBlock) hv
    have h3 : (getClient (SV_DropClient E sv cl "illegal download request") cl).downloadCurrentBlock
        = (getClient sv cl).downloadCurrentBlock := h1
    have h4 : (getClient (SV_DropClient E sv cl "illegal download request") cl).downloadClientBlock
        = (getClient sv cl).downloadClientBlock := h2
    rw [h3, h4]
    exact h
  · show (getClient (setClient sv cl written.1) cl).downloadCurrentBlock -
      (getClient (setClient sv cl written.1) cl).downloadClientBlock ≤ _
    rw [getClient_setClient]
    split
    · exact writeDownload_window E sv.cvars cl sv.svs_time c h
    · exact h

theorem SV_CloseDownload_window (sv : ServerState) (cl : Nat) :
    windowView (getClient (SV_CloseDownload sv cl) cl) = windowView (getClient sv cl) :=
  (Keeps.closeDownload_keeps (Keeps.refl_keeps windowView sv) cl (fun _ => rfl)).2.2.2 cl

theorem downloadStep_window (E : Env) (cl : Nat) (sv : ServerState) (ev : DownloadEvent)
    (h : (getClient sv cl).downloadCurrentBlock - (getClient sv cl).downloadClientBlock
      ≤ (E.MAX_DOWNLOAD_WINDOW : Int)) :
    (getClient (downloadStep E cl sv ev) cl).downloadCurrentBlock -
        (getClient (downloadStep E cl sv ev) cl).downloadClientBlock
      ≤ (E.MAX_DOWNLOAD_WINDOW : Int) := by
  have hview : ∀ sv2 : ServerState, windowView (getClient sv2 cl) = windowView (getClient sv cl) →
      (getClient sv2 cl).downloadCurrentBlock - (getClient sv2 cl).downloadClientBlock
        ≤ (E.MAX_DOWNLOAD_WINDOW : Int) := by
    intro sv2 hv
    have h2 := congrArg Prod.fst hv
    have h3 := congrArg Prod.snd hv
    simp only [windowView] at h2 h3
    rw [h2, h3]
    exact h
  cases ev with
  | write => exact SV_WriteDownloadToClient_window E sv cl h
  | nextdl args =>
    show (getClient (SV_NextDownload_f E sv cl args) cl).downloadCurrentBlock -
      (getClient (SV_NextDownload_f E sv cl args) cl).downloadClientBlock ≤ _
    unfold SV_NextDownload_f
    lift_lets
    intro c block
    split_ifs
    · exact hview _ (SV_CloseDownload_window sv cl)
    · rw [getClient_modifyClient]
      split
      · show c.downloadCurrentBlock - (c.downloadClientBlock + 1) ≤ _
        have : c.downloadCurrentBlock - c.downloadClientBlock ≤ (E.MAX_DOWNLOAD_WINDOW : Int) := h
        omega
      · exact h
    · apply hview
      have hv := (SV_DropClient_clients E sv cl "broken download").1.2.2.2 cl
      have hw := congrArg windowView hv
      exact hw
  | stopdl => exact hview _ (SV_CloseDownload_window sv cl)
  | download args =>
    apply hview
    show windowView (getClient (SV_BeginDownload_f E sv cl args) cl) = _
    unfold SV_BeginDownload_f
    lift_lets
    intro sv1
    have hk : Keeps windowView sv sv1 :=
      Keeps.closeDownload_keeps (Keeps.refl_keeps windowView sv) cl (fun _ => rfl)
    exact (Keeps.modifyClient_keeps hk cl (fun c =>
      { c with
        downloadnotify := if c.downloadName ≠ Cmd_Argv args 1 then E.DLNOTIFY_ALL else c.downloadnotify
        downloadName := Cmd_Argv args 1 }) (fun _ => rfl)).2.2.2 cl
  | frame time => exact h

/-- C17. The download window: when `downloadCurrentBlock - downloadClientBlock` is at
most `MAX_DOWNLOAD_WINDOW` (as it is when a download is initialised, both being 0), it
is so after every sequence of calls of `SV_WriteDownloadToClient`, of `nextdl`,
`stopdl` and `download` commands of the client, and of steps of the server time. -/
theorem downloadRun_window (E : Env) (cl : Nat) (sv : ServerState) (events : List DownloadEvent)
    (h : (getClient sv cl).downloadCurrentBlock - (getClient sv cl).downloadClientBlock
      ≤ (E.MAX_DOWNLOAD_WINDOW : Int)) :
    (getClient (downloadRun E cl sv events) cl).downloadCurrentBlock -
        (getClient (downloadRun E cl sv events) cl).downloadClientBlock
      ≤ (E.MAX_DOWNLOAD_WINDOW : Int) := by
  induction events generalizing sv with
  | nil => exact h
  | cons ev rest ih => exact ih (downloadStep E cl sv ev) (downloadStep_window E cl sv ev h)

/-- C17, witness: a window of two blocks and three writes that the client does not
acknowledge; the window is full and stays within its bound. -/
theorem downloadRun_window_witness :
    ((getClient serverAsking 0).downloadCurrentBlock - (getClient serverAsking 0).downloadClientBlock
        ≤ (envNarrow.MAX_DOWNLOAD_WINDOW : Int) ∧
      (getClient (downloadRun envNarrow 0 serverAsking [.write, .write, .write])
        0).downloadCurrentBlock = 2 ∧
      (getClient (downloadRun envNarrow 0 serverAsking [.write, .write, .write])
        0).downloadClientBlock = 0) ∧
    (getClient (downloadRun envNarrow 0 serverAsking [.write, .write, .write])
        0).downloadCurrentBlock -
      (getClient (downloadRun envNarrow 0 serverAsking [.write, .write, .write])
        0).downloadClientBlock ≤ (envNarrow.MAX_DOWNLOAD_WINDOW : Int) :=
  ⟨by decide,
    downloadRun_window envNarrow 0 serverAsking [.write, .write, .write] (by decide)⟩

/-! ## The end of a download -/

theorem SV_DropClient_download (E : Env) (sv : ServerState) (drop : Nat) (reason : String) :
    (getClient (SV_DropClient E sv drop reason) drop).download = 0 ∨
      (getClient (SV_DropClient E sv drop reason) drop).download = (getClient sv drop).download := by
  obtain ⟨f, hf, e⟩ := (SV_DropClient_drops E sv drop reason).client drop
  rw [e]
  rcases (hf (getClient sv drop)).2.2.1 with h | h
  · exact Or.inr h
  · exact Or.inl h

theorem Quiet.refl_quiet (cl : Nat) (sv : ServerState) : Quiet cl sv sv :=
  ⟨rfl, Or.inl rfl, LogExt.refl _ _⟩

theorem Quiet.dropClient_quiet (E : Env) (sv : ServerState) (cl : Nat) (reason : String) :
    Quiet cl sv (SV_DropClient E sv cl reason) := by
  refine ⟨?_, (SV_DropClient_download E sv cl reason).symm, ?_⟩
  · have hv := (SV_DropClient_clients E sv cl reason).1.2.2.2 cl
    have hw := congrArg sessionView hv
    exact hw
  · refine (logExt_SV_DropClient E sv cl reason).mono ?_
    intro e he
    cases e <;> simp_all [Effect.isDropKind, Effect.isQueueOf, Effect.isOpen]

theorem Quiet.closeDownload_quiet (sv : ServerState) (cl : Nat) :
    Quiet cl sv (SV_CloseDownload sv cl) := by
  refine ⟨?_, Or.inr (getClient_SV_CloseDownload sv cl).1, ?_⟩
  · exact (Keeps.closeDownload_keeps (Keeps.refl_keeps sessionView sv) cl (fun _ => rfl)).2.2.2 cl
  · exact LogExt.closeDownload (LogExt.refl _ _) cl (fun _ => ⟨rfl, rfl⟩)

theorem Quiet.modify_quiet {cl : Nat} {sv sv' : ServerState} (h : Quiet cl sv sv')
    (f : client_t → client_t) (hs : ∀ c, sessionView (f c) = sessionView c)
    (hd : ∀ c, (f c).download = c.download) : Quiet cl sv (modifyClient sv' cl f) := by
  refine ⟨?_, ?_, h.2.2.modifyClient _ _⟩
  · rw [getClient_modifyClient]
    split
    · rw [hs]
      exact h.1
    · exact h.1
  · rw [getClient_modifyClient]
    split
    · rw [hd]
      exact h.2.1
    · exact h.2.1

theorem Session.of_fields {h S : Int} {c c2 : client_t} {q : List Effect} (hs : Session h S c q)
    (hv : sessionView c2 = sessionView c) (hd : c2.download = c.download ∨ c2.download = 0) :
    Session h S c2 q := by
  have h1 : c2.downloadSize = c.downloadSize := congrArg (fun v => v.1) hv
  have h2 : c2.downloadCount = c.downloadCount := congrArg (fun v => v.2.1) hv
  have h3 : c2.downloadEOF = c.downloadEOF := congrArg (fun v => v.2.2) hv
  obtain ⟨s1, s2, s3, s4, s5, s6⟩ := hs
  refine ⟨?_, h1.trans s2, by rw [h2]; exact s3, by rw [h2]; exact s4, ?_, by rw [h3]; exact s6⟩
  · rcases hd with hd | hd
    · rw [hd]
      exact s1
    · exact Or.inr hd
  · rw [h2, h3]
    exact s5

/-- The slot just written holds the length written. -/
theorem getD_set_self {α : Type} (l : List α) (i : Nat) (v : α) : (l.set i v).getD i v = v := by
  rw [List.getD_eq_getElem?_getD]
  by_cases h : i < l.length
  · rw [List.getElem?_set_self h]
    rfl
  · rw [List.getElem?_eq_none (by rw [List.length_set]; exact Nat.le_of_not_lt h)]
    rfl

theorem readBlocks_session (E : Env) (cl : Nat) (h S : Int) (hread : readsToEnd E h S) (n : Nat)
    (c : client_t) (q : List Effect) (hs : Session h S c q) (hd : c.download = h) :
    Session h S (readBlocks E cl n c).1
        (q ++ (readBlocks E cl n c).2.filter (Effect.isQueueOf cl)) ∧
      (readBlocks E cl n c).1.download = h ∧
      ∀ e ∈ (readBlocks E cl n c).2, e.isOpen = false := by
  induction n generalizing c q with
  | zero =>
    refine ⟨?_, hd, fun e he => absurd he (List.not_mem_nil e)⟩
    show Session h S c (q ++ [])
    rw [List.append_nil]
    exact hs
  | succ n ih =>
    unfold readBlocks
    split
    · rename_i hc
      lift_lets
      intro curindex blocks size c1 c2 rest
      have hback : c2.downloadBlockSize.getD curindex size = size := getD_set_self _ _ _
      rw [hback]
      obtain ⟨s1, s2, s3, s4, s5, s6⟩ := hs
      have hne : c.downloadCount ≠ S := fun hh => hc.2 (s2.trans hh.symm)
      have heof : c.downloadEOF = false := by
        cases hv : c.downloadEOF with
        | false => rfl
        | true => exact absurd (s5 hv) hne
      have hlt : c.downloadCount < S := lt_of_le_of_ne s4 hne
      have hr := hread c.downloadCount s3 hlt
      have hsz : size = E.FS_Read h c.downloadCount := by
        dsimp only [size]
        rw [hd]
      rw [← hsz] at hr
      obtain ⟨data, hdata, hq⟩ := s6
      rw [heof] at hq
      simp only [Bool.false_eq_true, if_false] at hq
      split
      · refine ⟨⟨Or.inl hd, s2, ?_, ?_, ?_, ?_⟩, hd, ?_⟩
        · show 0 ≤ c.downloadSize
          rw [s2]
          omega
        · show c.downloadSize ≤ S
          rw [s2]
        · intro _
          exact s2
        · refine ⟨data, hdata, ?_⟩
          show (if c.downloadEOF = true then _ else _)
          rw [heof]
          simp only [Bool.false_eq_true, if_false]
          simp [Effect.isQueueOf, hq]
        · intro e he
          simp only [List.mem_singleton] at he
          rw [he]
          rfl
      · rename_i hpos
        have hs2 : Session h S c2
            (q ++ [.queue_download_block cl c.downloadCurrentBlock size c2.downloadCount
              c2.downloadSize]) := by
          refine ⟨Or.inl hd, s2, ?_, ?_, ?_, ?_⟩
          · show 0 ≤ c.downloadCount + size
            omega
          · show c.downloadCount + size ≤ S
            exact hr.2
          · intro hh
            exact absurd (heof.symm.trans hh) (by simp)
          · refine ⟨data ++ [.queue_download_block cl c.downloadCurrentBlock size
              c2.downloadCount c2.downloadSize], ?_, ?_⟩
            · intro e he
              rcases List.mem_append.1 he with he | he
              · exact hdata e he
              · simp only [List.mem_singleton] at he
                rw [he]
                simp only [Effect.isDataBlock, decide_eq_true_eq]
                have := hr.1
                omega
            · show (if c.downloadEOF = true then _ else _)
              rw [heof]
              simp only [Bool.false_eq_true, if_false]
              rw [hq]
        have hi := ih c2 _ hs2 hd
        refine ⟨?_, hi.2.1, ?_⟩
        · have hf : q ++ List.filter (Effect.isQueueOf cl)
              ([Effect.FS_Read c.download c.downloadCount,
                  Effect.queue_download_block cl c.downloadCurrentBlock size c2.downloadCount
                    c2.downloadSize] ++ rest.2)
              = (q ++ [.queue_download_block cl c.downloadCurrentBlock size c2.downloadCount
                  c2.downloadSize]) ++ rest.2.filter (Effect.isQueueOf cl) := by
            simp [Effect.isQueueOf, List.filter_cons]
          rw [hf]
          exact hi.1
        · intro e he
          rcases List.mem_append.1 he with he | he
          · simp only [List.mem_cons, List.mem_singleton, List.not_mem_nil, or_false] at he
            rcases he with he | he <;> rw [he] <;> rfl
          · exact hi.2.2 e he
    · refine ⟨?_, hd, fun e he => absurd he (List.not_mem_nil e)⟩
      show Session h S c (q ++ [])
      rw [List.append_nil]
      exact hs

theorem eofBlock_session (E : Env) (cl : Nat) (h S : Int) (c : client_t) (q : List Effect)
    (hs : Session h S c q) :
    Session h S (eofBlock E cl c).1 (q ++ (eofBlock E cl c).2.filter (Effect.isQueueOf cl)) ∧
      (eofBlock E cl c).1.download = c.download ∧
      ∀ e ∈ (eofBlock E cl c).2, e.isOpen = false := by
  unfold eofBlock
  split
  · rename_i hc
    have hback : ∀ i : Nat, (c.downloadBlockSize.set i 0).getD i 0 = 0 :=
      fun i => getD_set_self _ i 0
    dsimp only
    rw [hback]
    obtain ⟨s1, s2, s3, s4, s5, s6⟩ := hs
    obtain ⟨data, hdata, hq⟩ := s6
    rw [hc.2.1] at hq
    simp only [Bool.false_eq_true, if_false] at hq
    refine ⟨⟨s1, s2, s3, s4, fun _ => hc.1.trans s2, data, hdata, ?_⟩, rfl, ?_⟩
    · show (if true = true then _ else _)
      simp only [if_true]
      refine ⟨.queue_download_block cl c.downloadCurrentBlock 0 c.downloadCount c.downloadSize,
        ?_, ?_⟩
      · simp [Effect.isEOFBlock, hc.1]
      · simp [Effect.isQueueOf, hq]
    · intro e he
      simp only [List.mem_singleton] at he
      rw [he]
      rfl
  · refine ⟨?_, rfl, fun e he => absurd he (List.not_mem_nil e)⟩
    show Session h S c (q ++ [])
    rw [List.append_nil]
    exact hs

theorem transmitBlocks_session (E : Env) (cl : Nat) (time : Int) (n : Nat) (h S : Int)
    (c : client_t) (q : List Effect) (hs : Session h S c q) :
    Session h S (transmitBlocks E cl time n c).1
        (q ++ (transmitBlocks E cl time n c).2.filter (Effect.isQueueOf cl)) ∧
      (transmitBlocks E cl time n c).1.download = c.download ∧
      ∀ e ∈ (transmitBlocks E cl time n c).2, e.isOpen = false := by
  obtain ⟨hv, hfx⟩ := transmitBlocks_view E cl time n c
  have hd0 := congrArg (fun c : client_t => c.download) hv
  have hd : (transmitBlocks E cl time n c).1.download = c.download := hd0
  have hv0 := congrArg sessionView hv
  have hv1 : sessionView (transmitBlocks E cl time n c).1 = sessionView c := hv0
  have hf : (transmitBlocks E cl time n c).2.filter (Effect.isQueueOf cl) = [] := by
    rw [List.filter_eq_nil_iff]
    intro e he
    obtain ⟨b, l, hb⟩ := hfx e he
    rw [hb]
    simp [Effect.isQueueOf]
  rw [hf, List.append_nil]
  refine ⟨hs.of_fields hv1 (Or.inl hd), hd, fun e he => ?_⟩
  obtain ⟨b, l, hb⟩ := hfx e he
  rw [hb]
  rfl

theorem pumpDownload_session (E : Env) (cl : Nat) (time rate : Int) (h S : Int)
    (hread : readsToEnd E h S) (c : client_t) (q : List Effect) (hs : Session h S c q)
    (hd : c.download = h) :
    Session h S (pumpDownload E cl time rate c).1
        (q ++ (pumpDownload E cl time rate c).2.filter (Effect.isQueueOf cl)) ∧
      (pumpDownload E cl time rate c).1.download = h ∧
      ∀ e ∈ (pumpDownload E cl time rate c).2, e.isOpen = false := by
  unfold pumpDownload
  lift_lets
  intro turns read eof sent
  obtain ⟨r1, r2, r3⟩ := readBlocks_session E cl h S hread turns c q hs hd
  obtain ⟨e1, e2, e3⟩ := eofBlock_session E cl h S read.1 _ r1
  obtain ⟨t1, t2, t3⟩ := transmitBlocks_session E cl time
    (blocksPerSnap E rate eof.1).toNat h S eof.1 _ e1
  refine ⟨?_, (t2.trans e2).trans r2, ?_⟩
  · show Session h S sent.1 (q ++ (read.2 ++ eof.2 ++ sent.2).filter (Effect.isQueueOf cl))
    rw [List.filter_append, List.filter_append, ← List.append_assoc, ← List.append_assoc]
    exact t1
  · intro e he
    show e.isOpen = false
    have he2 : e ∈ read.2 ++ eof.2 ++ sent.2 := he
    rcases List.mem_append.1 he2 with he3 | he3
    · rcases List.mem_append.1 he3 with he4 | he4
      · exact r3 e he4
      · exact e3 e he4
    · exact t3 e he3

theorem SV_CheckFallbackURL_effects (cv : cvars_t) (cl : Nat) :
    (SV_CheckFallbackURL cv cl).1.filter (Effect.isQueueOf cl) = [] := by
  unfold SV_CheckFallbackURL
  split <;> rfl

theorem wwwRedirect_session (E : Env) (cv : cvars_t) (cl : Nat) (c : client_t) :
    sessionView (wwwRedirect E cv cl c).1.1 = sessionView c ∧
      (wwwRedirect E cv cl c).1.1.download = c.download ∧
      (wwwRedirect E cv cl c).1.2.filter (Effect.isQueueOf cl) = [] := by
  unfold wwwRedirect
  lift_lets
  intro downloadSize url c1 download_flag
  split_ifs
  · exact ⟨rfl, rfl, rfl⟩
  · exact ⟨rfl, rfl, rfl⟩
  · exact ⟨rfl, rfl, SV_CheckFallbackURL_effects cv cl⟩
  · exact ⟨rfl, rfl, SV_CheckFallbackURL_effects cv cl⟩
  · exact ⟨rfl, rfl, rfl⟩

theorem openDownload_open (E : Env) (cv : cvars_t) (cl : Nat) (c : client_t)
    (hd : c.download ≠ 0) : openDownload E cv cl c = ((c, []), true) := by
  unfold openDownload
  rw [if_pos hd]

theorem openDownload_session (E : Env) (cv : cvars_t) (cl : Nat) (c : client_t)
    (hd : c.download = 0) :
    (∃ e ∈ (openDownload E cv cl c).1.2, e.isOpen = true) ∨
      ((openDownload E cv cl c).2 = false ∧
        sessionView (openDownload E cv cl c).1.1 = sessionView c ∧
        (openDownload E cv cl c).1.1.download = 0 ∧
        (openDownload E cv cl c).1.2.filter (Effect.isQueueOf cl) = []) := by
  unfold openDownload
  lift_lets
  intro c1 idPack errorMessage www c2 opened c3 bad
  have h1 : sessionView c1 = sessionView c ∧ c1.download = c.download := by
    dsimp only [c1]
    split <;> exact ⟨rfl, rfl⟩
  obtain ⟨w1, w2, w3⟩ := wwwRedirect_session E cv cl c1
  split_ifs
  · rename_i hne
    exact absurd hd hne
  · right
    exact ⟨rfl, h1.1, h1.2.trans hd, rfl⟩
  · right
    exact ⟨rfl, w1.trans h1.1, (w2.trans h1.2).trans hd, w3⟩
  · left
    refine ⟨.FS_SV_FOpenFileRead c2.downloadName, ?_, rfl⟩
    show _ ∈ www.1.2 ++ [Effect.FS_SV_FOpenFileRead c2.downloadName] ++ bad.2
    simp
  · left
    refine ⟨.FS_SV_FOpenFileRead c2.downloadName, ?_, rfl⟩
    show _ ∈ www.1.2 ++ [Effect.FS_SV_FOpenFileRead c2.downloadName]
    simp

theorem writeDownload_session (E : Env) (cv : cvars_t) (cl : Nat) (time : Int) (h S : Int)
    (hread : readsToEnd E h S) (c : client_t) (q : List Effect) (hs : Session h S c q) :
    (∃ e ∈ (writeDownload E cv cl time c).2, e.isOpen = true) ∨
      Session h S (writeDownload E cv cl time c).1
        (q ++ (writeDownload E cv cl time c).2.filter (Effect.isQueueOf cl)) := by
  unfold writeDownload
  lift_lets
  intro opened pumped
  by_cases hd : c.download = 0
  · rcases openDownload_session E cv cl c hd with ⟨e, he, ho⟩ | ⟨o1, o2, o3, o4⟩
    · left
      split
      · exact ⟨e, he, ho⟩
      · exact ⟨e, List.mem_append_left _ he, ho⟩
    · right
      have ho : (!opened.2) = true := by
        show (!(openDownload E cv cl c).2) = true
        rw [o1]
        rfl
      rw [if_pos ho]
      show Session h S (openDownload E cv cl c).1.1
        (q ++ (openDownload E cv cl c).1.2.filter (Effect.isQueueOf cl))
      rw [o4, List.append_nil]
      exact hs.of_fields o2 (Or.inr o3)
  · have ho := openDownload_open E cv cl c hd
    have hh : c.download = h := by
      rcases hs.1 with h1 | h1
      · exact h1
      · exact absurd h1 hd
    have hp := pumpDownload_session E cl time cv.sv_dl_maxRate h S hread c q hs hh
    right
    have e1 : opened = ((c, []), true) := ho
    have e2 : pumped = pumpDownload E cl time cv.sv_dl_maxRate c := by
      dsimp only [pumped]
      rw [e1]
    rw [e1, e2]
    simp only [Bool.not_true, Bool.false_eq_true, if_false, List.nil_append]
    exact hp.1

theorem SessionAt.quiet_step {cl : Nat} {h S : Int} {q0 : List Effect} {sv0 sv sv2 : ServerState}
    (hs : SessionAt cl h S q0 sv0 sv) (hq : Quiet cl sv sv2) : SessionAt cl h S q0 sv0 sv2 := by
  obtain ⟨new, hlog, hor⟩ := hs
  obtain ⟨q1, q2, new2, hlog2, hnew2⟩ := hq
  refine ⟨new ++ new2, by rw [hlog2, hlog, List.append_assoc], ?_⟩
  rcases hor with ⟨e, he, ho⟩ | hsess
  · exact Or.inl ⟨e, List.mem_append_left _ he, ho⟩
  · right
    have hf : new2.filter (Effect.isQueueOf cl) = [] := by
      rw [List.filter_eq_nil_iff]
      intro e he
      rw [(hnew2 e he).1]
      simp
    rw [List.filter_append, hf, List.append_nil]
    exact hsess.of_fields q1 q2

theorem valid_of_downloadName (sv : ServerState) (cl : Nat)
    (h : (getClient sv cl).downloadName ≠ "") : cl < sv.svs_clients.length := by
  by_contra hc
  rw [getClient_out sv cl hc] at h
  exact h rfl

theorem SV_WriteDownloadToClient_session (E : Env) (cl : Nat) (h S : Int)
    (hread : readsToEnd E h S) (q0 : List Effect) (sv0 sv : ServerState)
    (hs : SessionAt cl h S q0 sv0 sv) :
    SessionAt cl h S q0 sv0 (SV_WriteDownloadToClient E sv cl) := by
  unfold SV_WriteDownloadToClient
  lift_lets
  intro c written
  split_ifs
  · exact hs
  · exact hs
  · exact hs.quiet_step (Quiet.dropClient_quiet E sv cl _)
  · rename_i hname _ _
    have hvalid := valid_of_downloadName sv cl hname
    obtain ⟨new, hlog, hor⟩ := hs
    refine ⟨new ++ written.2, ?_, ?_⟩
    · show sv.log ++ written.2 = sv0.log ++ (new ++ written.2)
      rw [hlog, List.append_assoc]
    · rcases hor with ⟨e, he, ho⟩ | hsess
      · exact Or.inl ⟨e, List.mem_append_left _ he, ho⟩
      · have hg : getClient (setClient sv cl written.1) cl = written.1 := by
          rw [getClient_setClient, if_pos ⟨rfl, hvalid⟩]
        rcases writeDownload_session E sv.cvars cl sv.svs_time h S hread c _ hsess with
          ⟨e, he, ho⟩ | hw
        · exact Or.inl ⟨e, List.mem_append_right _ he, ho⟩
        · right
          show Session h S (getClient (setClient sv cl written.1) cl) _
          rw [hg, List.filter_append, ← List.append_assoc]
          exact hw

theorem downloadStep_session (E : Env) (cl : Nat) (h S : Int) (hread : readsToEnd E h S)
    (q0 : List Effect) (sv0 sv : ServerState) (ev : DownloadEvent)
    (hs : SessionAt cl h S q0 sv0 sv) :
    SessionAt cl h S q0 sv0 (downloadStep E cl sv ev) := by
  cases ev with
  | write => exact SV_WriteDownloadToClient_session E cl h S hread q0 sv0 sv hs
  | nextdl args =>
    show SessionAt cl h S q0 sv0 (SV_NextDownload_f E sv cl args)
    unfold SV_NextDownload_f
    lift_lets
    intro c block
    split_ifs
    · exact hs.quiet_step (Quiet.closeDownload_quiet sv cl)
    · exact hs.quiet_step ((Quiet.refl_quiet cl sv).modify_quiet _ (fun _ => rfl) (fun _ => rfl))
    · exact hs.quiet_step (Quiet.dropClient_quiet E sv cl _)
  | stopdl => exact hs.quiet_step (Quiet.closeDownload_quiet sv cl)
  | download args =>
    show SessionAt cl h S q0 sv0 (SV_BeginDownload_f E sv cl args)
    unfold SV_BeginDownload_f
    lift_lets
    intro sv1
    exact hs.quiet_step ((Quiet.closeDownload_quiet sv cl).modify_quiet _ (fun _ => rfl)
      (fun _ => rfl))
  | frame time =>
    exact hs.quiet_step ⟨rfl, Or.inl rfl, LogExt.of_eq rfl⟩

theorem downloadRun_session (E : Env) (cl : Nat) (h S : Int) (hread : readsToEnd E h S)
    (q0 : List Effect) (sv0 sv : ServerState) (events : List DownloadEvent)
    (hs : SessionAt cl h S q0 sv0 sv) :
    SessionAt cl h S q0 sv0 (downloadRun E cl sv events) := by
  induction events generalizing sv with
  | nil => exact hs
  | cons ev rest ih => exact ih (downloadStep E cl sv ev) (downloadStep_session E cl h S hread q0 sv0 sv ev hs)

theorem readBlocks_file (E : Env) (cl : Nat) (n : Nat) (c : client_t) :
    fileView (readBlocks E cl n c).1 = fileView c := by
  induction n generalizing c with
  | zero => rfl
  | succ n ih =>
    unfold readBlocks
    split
    · lift_lets
      intro curindex blocks size c1 c2 rest
      split
      · rfl
      · exact ih c2
    · rfl

theorem pumpDownload_file (E : Env) (cl : Nat) (time rate : Int) (c : client_t) :
    fileView (pumpDownload E cl time rate c).1 = fileView c := by
  unfold pumpDownload
  lift_lets
  intro turns read eof sent
  have h1 : fileView read.1 = fileView c := readBlocks_file E cl turns c
  have h2 : fileView eof.1 = fileView read.1 := by
    dsimp only [eof]
    unfold eofBlock
    split <;> rfl
  have h3 := congrArg fileView
    (transmitBlocks_view E cl time (blocksPerSnap E rate eof.1).toNat eof.1).1
  have h4 : fileView sent.1 = fileView eof.1 := h3
  exact (h4.trans h2).trans h1

theorem openDownload_init (E : Env) (cv : cvars_t) (cl : Nat) (c : client_t)
    (hd : c.download = 0) :
    ((openDownload E cv cl c).2 = false ∧
        ((openDownload E cv cl c).1.1.download = 0 ∨
          (openDownload E cv cl c).1.1.downloadSize ≤ 0)) ∨
      ((openDownload E cv cl c).2 = true ∧ (openDownload E cv cl c).1.1.downloadCount = 0 ∧
        (openDownload E cv cl c).1.1.downloadEOF = false ∧
        0 < (openDownload E cv cl c).1.1.downloadSize ∧
        (openDownload E cv cl c).1.2.filter (Effect.isQueueOf cl) = []) := by
  unfold openDownload
  lift_lets
  intro c1 idPack errorMessage www c2 opened c3 bad
  have h1 : c1.download = c.download := by
    dsimp only [c1]
    split <;> rfl
  obtain ⟨_, w2, w3⟩ := wwwRedirect_session E cv cl c1
  split_ifs
  · rename_i hne
    exact absurd hd hne
  · left
    exact ⟨rfl, Or.inl (h1.trans hd)⟩
  · left
    exact ⟨rfl, Or.inl ((w2.trans h1).trans hd)⟩
  · rename_i hle
    left
    exact ⟨rfl, Or.inr hle⟩
  · rename_i hle
    right
    refine ⟨rfl, rfl, rfl, lt_of_not_le hle, ?_⟩
    show (www.1.2 ++ [Effect.FS_SV_FOpenFileRead c2.downloadName]).filter (Effect.isQueueOf cl) = []
    rw [List.filter_append, w3]
    rfl

/-- The call of `SV_WriteDownloadToClient` that opens the file: no file was open
before, and afterwards one is open and its size is positive. The blocks queued in the
call are the first blocks of the session. -/
theorem SV_WriteDownloadToClient_opens (E : Env) (sv : ServerState) (cl : Nat)
    (h0 : (getClient sv cl).download = 0)
    (h1 : (getClient (SV_WriteDownloadToClient E sv cl) cl).download ≠ 0)
    (h2 : 0 < (getClient (SV_WriteDownloadToClient E sv cl) cl).downloadSize)
    (hread : readsToEnd E (getClient (SV_WriteDownloadToClient E sv cl) cl).download
      (getClient (SV_WriteDownloadToClient E sv cl) cl).downloadSize) :
    ∃ fx : List Effect, (SV_WriteDownloadToClient E sv cl).log = sv.log ++ fx ∧
      Session (getClient (SV_WriteDownloadToClient E sv cl) cl).download
        (getClient (SV_WriteDownloadToClient E sv cl) cl).downloadSize
        (getClient (SV_WriteDownloadToClient E sv cl) cl) (fx.filter (Effect.isQueueOf cl)) := by
  revert h1 h2 hread
  unfold SV_WriteDownloadToClient
  lift_lets
  intro c written src
  split_ifs
  · intro h1
    exact absurd h0 h1
  · intro h1
    exact absurd h0 h1
  · intro h1
    rcases SV_DropClient_download E sv cl "illegal download request" with hd | hd
    · exact absurd hd h1
    · exact absurd (hd.trans h0) h1
  · rename_i hname _ _
    have hvalid := valid_of_downloadName sv cl hname
    have hg : getClient (setClient sv cl written.1) cl = written.1 := by
      rw [getClient_setClient, if_pos ⟨rfl, hvalid⟩]
    show (getClient (setClient sv cl written.1) cl).download ≠ 0 →
      0 < (getClient (setClient sv cl written.1) cl).downloadSize →
      readsToEnd E (getClient (setClient sv cl written.1) cl).download
        (getClient (setClient sv cl written.1) cl).downloadSize →
      ∃ fx : List Effect, sv.log ++ written.2 = sv.log ++ fx ∧
        Session (getClient (setClient sv cl written.1) cl).download
          (getClient (setClient sv cl written.1) cl).downloadSize
          (getClient (setClient sv cl written.1) cl) (fx.filter (Effect.isQueueOf cl))
    rw [hg]
    intro h1 h2 hread
    refine ⟨written.2, rfl, ?_⟩
    revert h1 h2 hread
    dsimp only [written]
    unfold writeDownload
    lift_lets
    intro opened pumped
    rcases openDownload_init E sv.cvars cl c h0 with ⟨o1, o2⟩ | ⟨o1, o2, o3, o4, o5⟩
    · have ho : (!opened.2) = true := by
        show (!(openDownload E sv.cvars cl c).2) = true
        rw [o1]
        rfl
      rw [if_pos ho]
      intro h1 h2
      rcases o2 with o2 | o2
      · exact absurd o2 h1
      · exact absurd h2 (not_lt.2 o2)
    · have ho : ¬ (!opened.2) = true := by
        show ¬ (!(openDownload E sv.cvars cl c).2) = true
        rw [o1]
        simp
      rw [if_neg ho]
      have hf := pumpDownload_file E cl sv.svs_time sv.cvars.sv_dl_maxRate opened.1.1
      have hf1 : pumped.1.download = opened.1.1.download := congrArg Prod.fst hf
      have hf2 : pumped.1.downloadSize = opened.1.1.downloadSize := congrArg Prod.snd hf
      show pumped.1.download ≠ 0 → 0 < pumped.1.downloadSize →
        readsToEnd E pumped.1.download pumped.1.downloadSize →
        Session pumped.1.download pumped.1.downloadSize pumped.1
          ((opened.1.2 ++ pumped.2).filter (Effect.isQueueOf cl))
      rw [hf1, hf2]
      intro _ _ hread
      have hs0 : Session opened.1.1.download opened.1.1.downloadSize opened.1.1 [] := by
        refine ⟨Or.inl rfl, rfl, ?_, ?_, ?_, [], ?_, ?_⟩
        · exact le_of_eq o2.symm
        · have e : opened.1.1.downloadCount = 0 := o2
          rw [e]
          exact le_of_lt o4
        · intro hh
          have e : opened.1.1.downloadEOF = false := o3
          exact absurd (e.symm.trans hh) (by simp)
        · intro e he
          exact absurd he (List.not_mem_nil e)
        · have e : opened.1.1.downloadEOF = false := o3
          rw [e]
          rfl
      have hp := pumpDownload_session E cl sv.svs_time sv.cvars.sv_dl_maxRate _ _ hread
        opened.1.1 [] hs0 rfl
      have e5 : opened.1.2.filter (Effect.isQueueOf cl) = [] := o5
      rw [List.filter_append, e5]
      exact hp.1

theorem readBlocks_done (E : Env) (cl : Nat) (n : Nat) (c : client_t)
    (h : c.downloadCount = c.downloadSize) : readBlocks E cl n c = (c, []) := by
  cases n with
  | zero => rfl
  | succ n =>
    unfold readBlocks
    rw [if_neg (fun hc => hc.2 h.symm)]

/-- The write that finds every byte read and room in the window puts the block of
length zero into the window, if that was not done before. -/
theorem SV_WriteDownloadToClient_sets_eof (E : Env) (sv : ServerState) (cl : Nat)
    (hname : (getClient sv cl).downloadName ≠ "") (hw : (getClient sv cl).bWWWing = false)
    (hv : E.FS_VerifyPak (getClient sv cl).downloadName = true)
    (hd : (getClient sv cl).download ≠ 0)
    (hc : (getClient sv cl).downloadCount = (getClient sv cl).downloadSize)
    (hroom : (getClient sv cl).downloadCurrentBlock - (getClient sv cl).downloadClientBlock
      < (E.MAX_DOWNLOAD_WINDOW : Int)) :
    (getClient (SV_WriteDownloadToClient E sv cl) cl).downloadEOF = true := by
  have hvalid := valid_of_downloadName sv cl hname
  unfold SV_WriteDownloadToClient
  lift_lets
  intro c written src
  rw [if_neg hname, if_neg (by rw [hw]; simp), if_neg (by rw [hv]; simp)]
  show (getClient (setClient sv cl written.1) cl).downloadEOF = true
  rw [getClient_setClient, if_pos ⟨rfl, hvalid⟩]
  dsimp only [written]
  unfold writeDownload
  rw [openDownload_open E sv.cvars cl c hd]
  simp only [Bool.not_true, Bool.false_eq_true, if_false]
  unfold pumpDownload
  lift_lets
  intro turns read eof sent
  have hr : read = (c, []) := readBlocks_done E cl turns c hc
  have he : eof.1.downloadEOF = true := by
    dsimp only [eof]
    rw [hr]
    unfold eofBlock
    split
    · rfl
    · rename_i hn
      rcases Bool.eq_false_or_eq_true c.downloadEOF with hv2 | hv2
      · exact hv2
      · exact absurd ⟨hc, hv2, hroom⟩ hn
  have ht := congrArg (fun c : client_t => c.downloadEOF)
    (transmitBlocks_view E cl sv.svs_time (blocksPerSnap E sv.cvars.sv_dl_maxRate eof.1).toNat
      eof.1).1
  have ht2 : sent.1.downloadEOF = eof.1.downloadEOF := ht
  exact ht2.trans he

/-- C19 (amended). One download session of a client: a call of `SV_WriteDownloadToClient` opens
the file (no file was open before, afterwards one is open with a positive size), then
comes any sequence of `SV_WriteDownloadToClient`, `nextdl`, `stopdl`, `download` and
steps of the server time during which no file is opened, so that no other session
starts. Every read of the file before the announced size gives something else than 0
bytes and does not go past that size. Then the blocks queued for the client since the
first call are blocks with data followed, exactly when `downloadEOF` is set, by one
block of length zero that was queued when `downloadCount` was `downloadSize`: no block
of length zero comes earlier and no block comes after it. And that block does come:
when the download is still going on, every byte is read, and the window has room, the
next call of `SV_WriteDownloadToClient` leaves `downloadEOF` set. -/
theorem downloadRun_eof_once (E : Env) (cl : Nat) (sv : ServerState)
    (events : List DownloadEvent)
    (h0 : (getClient sv cl).download = 0)
    (h1 : (getClient (SV_WriteDownloadToClient E sv cl) cl).download ≠ 0)
    (h2 : 0 < (getClient (SV_WriteDownloadToClient E sv cl) cl).downloadSize)
    (hread : readsToEnd E (getClient (SV_WriteDownloadToClient E sv cl) cl).download
      (getClient (SV_WriteDownloadToClient E sv cl) cl).downloadSize)
    (hone : ∀ e ∈ (downloadRun E cl (SV_WriteDownloadToClient E sv cl) events).log.drop
      (SV_WriteDownloadToClient E sv cl).log.length, e.isOpen = false) :
    queuedOnce
        (getClient (downloadRun E cl (SV_WriteDownloadToClient E sv cl) events) cl).downloadEOF
        (((downloadRun E cl (SV_WriteDownloadToClient E sv cl) events).log.drop
          sv.log.length).filter (Effect.isQueueOf cl)) ∧
      ((getClient (downloadRun E cl (SV_WriteDownloadToClient E sv cl) events) cl).downloadName
          ≠ "" →
        (getClient (downloadRun E cl (SV_WriteDownloadToClient E sv cl) events) cl).bWWWing
          = false →
        E.FS_VerifyPak
          (getClient (downloadRun E cl (SV_WriteDownloadToClient E sv cl) events) cl).downloadName
          = true →
        (getClient (downloadRun E cl (SV_WriteDownloadToClient E sv cl) events) cl).download
          ≠ 0 →
        (getClient (downloadRun E cl (SV_WriteDownloadToClient E sv cl) events) cl).downloadCount
          = (getClient (downloadRun E cl (SV_WriteDownloadToClient E sv cl) events)
              cl).downloadSize →
        (getClient (downloadRun E cl (SV_WriteDownloadToClient E sv cl) events)
            cl).downloadCurrentBlock -
          (getClient (downloadRun E cl (SV_WriteDownloadToClient E sv cl) events)
            cl).downloadClientBlock < (E.MAX_DOWNLOAD_WINDOW : Int) →
        (getClient (SV_WriteDownloadToClient E
          (downloadRun E cl (SV_WriteDownloadToClient E sv cl) events) cl) cl).downloadEOF
          = true) := by
  refine ⟨?_, SV_WriteDownloadToClient_sets_eof E _ cl⟩
  obtain ⟨fx, hfx, hs⟩ := SV_WriteDownloadToClient_opens E sv cl h0 h1 h2 hread
  have hat : SessionAt cl (getClient (SV_WriteDownloadToClient E sv cl) cl).download
      (getClient (SV_WriteDownloadToClient E sv cl) cl).downloadSize
      (fx.filter (Effect.isQueueOf cl)) (SV_WriteDownloadToClient E sv cl)
      (SV_WriteDownloadToClient E sv cl) := by
    refine ⟨[], (List.append_nil _).symm, Or.inr ?_⟩
    show Session _ _ _ (fx.filter (Effect.isQueueOf cl) ++ [])
    rw [List.append_nil]
    exact hs
  obtain ⟨new, hlog, hor⟩ := downloadRun_session E cl _ _ hread _ _ _ events hat
  have hdrop1 : (downloadRun E cl (SV_WriteDownloadToClient E sv cl) events).log.drop
      (SV_WriteDownloadToClient E sv cl).log.length = new := by
    rw [hlog, List.drop_left]
  have hdrop2 : (downloadRun E cl (SV_WriteDownloadToClient E sv cl) events).log.drop
      sv.log.length = fx ++ new := by
    rw [hlog, hfx, List.append_assoc, List.drop_left]
  rw [hdrop1] at hone
  rw [hdrop2, List.filter_append]
  rcases hor with ⟨e, he, ho⟩ | hsess
  · exact absurd (hone e he) (by rw [ho]; simp)
  · exact hsess.2.2.2.2.2

theorem readsToEnd_envNarrow : readsToEnd envNarrow 7 5000 := by
  intro pos h1 h2
  show (if pos < 5000 then min 2048 (5000 - pos) else 0) ≠ 0 ∧
    pos + (if pos < 5000 then min 2048 (5000 - pos) else 0) ≤ 5000
  rw [if_pos h2]
  omega

/-- C19, witness: the download of `etmain/map.pk3` (5000 bytes) through a window of
two blocks. The first write opens the file and queues blocks 0 and 1; after the
acknowledgement of block 0 the next write queues block 2, the last 904 bytes, and the
window is full; after the acknowledgement of block 1 every byte is read, no block of
length zero is queued yet, and the next write sets `downloadEOF`. -/
theorem downloadRun_eof_once_witness :
    ((getClient serverAsking 0).download = 0 ∧
      (getClient (SV_WriteDownloadToClient envNarrow serverAsking 0) 0).download ≠ 0 ∧
      0 < (getClient (SV_WriteDownloadToClient envNarrow serverAsking 0) 0).downloadSize ∧
      (∀ e ∈ (downloadRun envNarrow 0 (SV_WriteDownloadToClient envNarrow serverAsking 0)
          eventsNarrow).log.drop (SV_WriteDownloadToClient envNarrow serverAsking 0).log.length,
        e.isOpen = false) ∧
      (getClient (downloadRun envNarrow 0 (SV_WriteDownloadToClient envNarrow serverAsking 0)
        eventsNarrow) 0).downloadEOF = false ∧
      ((downloadRun envNarrow 0 (SV_WriteDownloadToClient envNarrow serverAsking 0)
          eventsNarrow).log.drop serverAsking.log.length).filter (Effect.isQueueOf 0)
        = [.queue_download_block 0 0 2048 2048 5000, .queue_download_block 0 1 2048 4096 5000,
            .queue_download_block 0 2 904 5000 5000]) ∧
    queuedOnce
      (getClient (downloadRun envNarrow 0 (SV_WriteDownloadToClient envNarrow serverAsking 0)
        eventsNarrow) 0).downloadEOF
      (((downloadRun envNarrow 0 (SV_WriteDownloadToClient envNarrow serverAsking 0)
        eventsNarrow).log.drop serverAsking.log.length).filter (Effect.isQueueOf 0)) ∧
    (getClient (SV_WriteDownloadToClient envNarrow
      (downloadRun envNarrow 0 (SV_WriteDownloadToClient envNarrow serverAsking 0) eventsNarrow)
      0) 0).downloadEOF = true :=
  ⟨by decide,
    (downloadRun_eof_once envNarrow 0 serverAsking eventsNarrow (by decide) (by decide)
      (by decide) readsToEnd_envNarrow (by decide)).1,
    (downloadRun_eof_once envNarrow 0 serverAsking eventsNarrow (by decide) (by decide)
      (by decide) readsToEnd_envNarrow (by decide)).2 (by decide) (by decide) (by decide)
      (by decide) (by decide) (by decide)⟩

/-- C19, counterexample. The file is announced with 5000 bytes and the reads stop short
after 2048 bytes (`envShort`). The one call of `SV_WriteDownloadToClient` that opens the
file queues the block of 2048 bytes and then seven blocks of length zero, all of them
while `downloadCount` is 2048 of 5000; `downloadEOF` is not set. -/
theorem downloadRun_eof_once_counterexample :
    (getClient serverAsking 0).download = 0 ∧
    (getClient (SV_WriteDownloadToClient envShort serverAsking 0) 0).download ≠ 0 ∧
    (getClient (SV_WriteDownloadToClient envShort serverAsking 0) 0).downloadSize = 5000 ∧
    (getClient (SV_WriteDownloadToClient envShort serverAsking 0) 0).downloadCount = 2048 ∧
    (getClient (SV_WriteDownloadToClient envShort serverAsking 0) 0).downloadEOF = false ∧
    (getClient (SV_WriteDownloadToClient envShort serverAsking 0) 0).downloadBlockSize
      = [2048, 0, 0, 0, 0, 0, 0, 0] ∧
    ((SV_WriteDownloadToClient envShort serverAsking 0).log.drop
        serverAsking.log.length).filter (Effect.isQueueOf 0)
      = [.queue_download_block 0 0 2048 2048 5000, .queue_download_block 0 1 0 2048 5000,
          .queue_download_block 0 2 0 2048 5000, .queue_download_block 0 3 0 2048 5000,
          .queue_download_block 0 4 0 2048 5000, .queue_download_block 0 5 0 2048 5000,
          .queue_download_block 0 6 0 2048 5000, .queue_download_block 0 7 0 2048 5000] := by
  decide

/-! ## Properties of `SV_DropClient` -/

theorem dropChallenge_getElem? (E : Env) (adr : netadr_t) :
    ∀ (l : List challenge_t) (i : Nat) (ch : challenge_t), l[i]? = some ch →
      (firstRecordOf E adr l i →
        (dropChallenge E adr l)[i]? = some { ch with connected := false }) ∧
      (¬ firstRecordOf E adr l i → (dropChallenge E adr l)[i]? = some ch)
  | [], i, ch, h => by simp at h
  | x :: rest, i, ch, h => by
    unfold dropChallenge
    by_cases hx : E.NET_CompareAdr adr x.adr = true
    · rw [if_pos hx]
      cases i with
      | zero =>
        have e : x = ch := by simpa using h
        subst e
        refine ⟨fun _ => by simp, fun hn => absurd ⟨x, by simp, hx, ?_⟩ hn⟩
        intro j cj hj
        exact absurd hj (Nat.not_lt_zero j)
      | succ n =>
        refine ⟨fun hf => ?_, fun _ => by simpa using h⟩
        obtain ⟨_, _, _, hall⟩ := hf
        have := hall 0 x (Nat.succ_pos n) (by simp)
        rw [hx] at this
        exact absurd this (by simp)
    · rw [if_neg hx]
      cases i with
      | zero =>
        have e : x = ch := by simpa using h
        subst e
        refine ⟨fun hf => ?_, fun _ => by simp⟩
        obtain ⟨c2, h2, h3, _⟩ := hf
        have e2 : x = c2 := by simpa using h2
        subst e2
        exact absurd h3 hx
      | succ n =>
        have hr : rest[n]? = some ch := by simpa using h
        obtain ⟨i1, i2⟩ := dropChallenge_getElem? E adr rest n ch hr
        have hiff : firstRecordOf E adr (x :: rest) (n + 1) ↔ firstRecordOf E adr rest n := by
          constructor
          · rintro ⟨c2, h2, h3, hall⟩
            refine ⟨c2, by simpa using h2, h3, fun j cj hj hcj => ?_⟩
            exact hall (j + 1) cj (Nat.succ_lt_succ hj) (by simpa using hcj)
          · rintro ⟨c2, h2, h3, hall⟩
            refine ⟨c2, by simpa using h2, h3, fun j cj hj hcj => ?_⟩
            cases j with
            | zero =>
              have e : x = cj := by simpa using hcj
              subst e
              simpa using hx
            | succ m => exact hall m cj (Nat.lt_of_succ_lt_succ hj) (by simpa using hcj)
        refine ⟨fun hf => ?_, fun hn => ?_⟩
        · simpa using i1 (hiff.1 hf)
        · simpa using i2 (fun hh => hn (hiff.2 hh))

/-- The steps of `SV_DropClient` on a client that is not a zombie: after the release
block the state is `sv1`; in `sv4` the slot is a zombie without a file; every step
is a step of a drop. -/
theorem dropClientWith_parts (E : Env) (send : ServerState → Option Nat → String → ServerState)
    (hS : ∀ s cl t, Drops E s (send s cl t)) (sv : ServerState) (drop : Nat) (reason : String)
    (hz : (getClient sv drop).state ≠ .CS_ZOMBIE) :
    ∃ sv4 : ServerState,
      Drops E
        (if (!isBotClient E (getClient sv drop)) = true then
          SV_CloseDownload
            { sv with svs_challenges :=
                dropChallenge E (getClient sv drop).netchan.remoteAddress sv.svs_challenges } drop
        else sv) sv4 ∧
      (getClient sv4 drop).download = 0 ∧
      Drops E sv4 (dropClientWith E send sv drop reason) := by
  unfold dropClientWith
  lift_lets
  intro d isBot sv1 sv2 sv3 sv4 sv5 sv6 sv7 sv8 count bots sv9
  rw [if_neg hz]
  have h2 : Drops E sv1 sv2 := Drops.ite_drops (hS _ _ _) (Drops.refl sv1)
  have h3 : Drops E sv1 sv3 := h2.write _ _ DropWrite.zombie
  have h4 : Drops E sv1 sv4 :=
    Drops.ite_drops ((h3.emit (.FS_FCloseFile _) rfl).write _ _ DropWrite.handle) h3
  have g4 : (getClient sv4 drop).download = 0 := by
    dsimp only [sv4]
    split
    · rename_i hne
      rw [getClient_modifyClient]
      split
      · rfl
      · rename_i hv
        have hout : ¬ drop < sv3.svs_clients.length := fun hh => hv ⟨rfl, hh⟩
        exact absurd (by rw [getClient_out sv3 drop hout]; rfl) hne
    · rename_i hne
      exact not_not.1 hne
  have h5 : Drops E sv4 sv5 := (Drops.refl sv4).emit (.VM_Call .GAME_CLIENT_DISCONNECT _) rfl
  have h6 : Drops E sv4 sv6 := h5.trans_drops (hS _ _ _)
  have h7 : Drops E sv4 sv7 := Drops.ite_drops (h6.emit (.SV_BotFreeClient _) rfl)
    (Drops.ite_drops (h6.emit (.SV_SendToChatConnectedServers _) rfl) h6)
  have h8 : Drops E sv4 sv8 := h7.setUserinfo_drops _ _
  have h9 : Drops E sv4 sv9 := Drops.ite_drops (Drops.ite_drops (h8.emit .SV_Heartbeat_f rfl) h8) h8
  exact ⟨sv4, h4, g4, Drops.ite_drops (h9.left _) h9⟩

theorem SV_DropClient_parts (E : Env) (sv : ServerState) (drop : Nat) (reason : String)
    (hz : (getClient sv drop).state ≠ .CS_ZOMBIE) :
    ∃ sv4 : ServerState,
      Drops E
        (if (!isBotClient E (getClient sv drop)) = true then
          SV_CloseDownload
            { sv with svs_challenges :=
                dropChallenge E (getClient sv drop).netchan.remoteAddress sv.svs_challenges } drop
        else sv) sv4 ∧
      (getClient sv4 drop).download = 0 ∧
      Drops E sv4 (SV_DropClient E sv drop reason) := by
  rw [SV_DropClient_eq]
  exact dropClientWith_parts E _ (SV_SendServerCommand_drops E) sv drop reason hz

theorem SV_DropClient_handle (E : Env) (sv : ServerState) (drop : Nat) (reason : String)
    (hz : (getClient sv drop).state ≠ .CS_ZOMBIE) :
    (getClient (SV_DropClient E sv drop reason) drop).download = 0 := by
  obtain ⟨sv4, _, g4, h⟩ := SV_DropClient_parts E sv drop reason hz
  exact h.closed drop g4

theorem Drops.released {E : Env} {a b : ServerState} (h : Drops E a b) (i n : Nat)
    (hn : (getClient a i).downloadName = "")
    (hb : (getClient a i).downloadBlocks = List.replicate n none) :
    (getClient b i).downloadName = "" ∧ (getClient b i).downloadBlocks = List.replicate n none := by
  obtain ⟨f, hf, e⟩ := h.client i
  rw [e]
  obtain ⟨_, _, _, _, h5, h6⟩ := hf (getClient a i)
  refine ⟨h5 hn, ?_⟩
  rcases h6 with h6 | h6
  · rw [h6, hb]
  · rw [h6, hb]
    simp

theorem dropChallenge_record (E : Env) (adr : netadr_t) :
    ∀ (l : List challenge_t) (i : Nat) (x : challenge_t), l[i]? = some x →
      (dropChallenge E adr l)[i]? = some x ∨
        (dropChallenge E adr l)[i]? = some { x with connected := false }
  | [], i, x, h => by simp at h
  | y :: rest, i, x, h => by
    unfold dropChallenge
    split
    · cases i with
      | zero =>
        have e : y = x := by simpa using h
        subst e
        exact Or.inr (by simp)
      | succ n => exact Or.inl (by simpa using h)
    · cases i with
      | zero => exact Or.inl (by simpa using h)
      | succ n =>
        have hr : rest[n]? = some x := by simpa using h
        rcases dropChallenge_record E adr rest n x hr with h2 | h2
        · exact Or.inl (by simpa using h2)
        · exact Or.inr (by simpa using h2)

/-- Drops leave a challenge record or mark it not connected. -/
theorem Drops.record {E : Env} {a b : ServerState} (h : Drops E a b) (i : Nat) (x : challenge_t)
    (hx : a.svs_challenges[i]? = some x) :
    b.svs_challenges[i]? = some x ∨ b.svs_challenges[i]? = some { x with connected := false } := by
  induction h with
  | refl => exact Or.inl hx
  | emit e _ _ ih => exact ih
  | write j f _ _ ih => exact ih
  | @challenge b adr _ ih =>
    rcases ih with h1 | h1
    · exact dropChallenge_record E adr _ i x h1
    · rcases dropChallenge_record E adr _ i _ h1 with h2 | h2
      · exact Or.inr h2
      · exact Or.inr h2
  | left t _ ih => exact ih

/-- The release block of `SV_DropClient` for a client that is not a bot, whoever else
the drop drops: the name and the buffers of the download are released and the first
challenge record of the address is marked not connected. -/
theorem SV_DropClient_closes (E : Env) (sv : ServerState) (drop : Nat) (reason : String)
    (hz : (getClient sv drop).state ≠ .CS_ZOMBIE)
    (hbot : isBotClient E (getClient sv drop) = false) :
    (getClient (SV_DropClient E sv drop reason) drop).downloadName = "" ∧
      (getClient (SV_DropClient E sv drop reason) drop).downloadBlocks
        = List.replicate (getClient sv drop).downloadBlocks.length none ∧
      ∀ (i : Nat) (ch : challenge_t), sv.svs_challenges[i]? = some ch →
        firstRecordOf E (getClient sv drop).netchan.remoteAddress sv.svs_challenges i →
        (SV_DropClient E sv drop reason).svs_challenges[i]? = some { ch with connected := false } := by
  obtain ⟨sv4, h1, _, h4⟩ := SV_DropClient_parts E sv drop reason hz
  rw [hbot] at h1
  have h := h1.trans_drops h4
  have hc := getClient_SV_CloseDownload
    { sv with svs_challenges :=
        dropChallenge E (getClient sv drop).netchan.remoteAddress sv.svs_challenges } drop
  have hr := h.released drop _ hc.2.1 hc.2.2
  refine ⟨hr.1, hr.2, fun i ch hi hfirst => ?_⟩
  have h0 : (SV_CloseDownload
      { sv with svs_challenges :=
          dropChallenge E (getClient sv drop).netchan.remoteAddress sv.svs_challenges }
      drop).svs_challenges[i]? = some { ch with connected := false } := by
    rw [challenges_SV_CloseDownload]
    exact (dropChallenge_getElem? E _ _ i ch hi).1 hfirst
  rcases h.record i _ h0 with h2 | h2
  · exact h2
  · exact h2

/-- On rings with room the challenge table after a drop of a client that is not a
bot is the table after the challenge loop of that drop. -/
theorem SV_DropClient_challenges (E : Env) (sv : ServerState) (drop : Nat) (reason : String)
    (hz : (getClient sv drop).state ≠ .CS_ZOMBIE)
    (hbot : isBotClient E (getClient sv drop) = false) (hroom : dropRoom E sv drop) :
    (SV_DropClient E sv drop reason).svs_challenges
      = dropChallenge E (getClient sv drop).netchan.remoteAddress sv.svs_challenges := by
  rw [SV_DropClient_room E sv drop reason hroom]
  unfold dropWithRoom dropClientWith
  lift_lets
  intro d isBot sv1 sv2 sv3 sv4 sv5 sv6 sv7 sv8 count bots sv9
  rw [if_neg hz]
  have hb : isBot = false := hbot
  have e1 : sv1 = SV_CloseDownload
      { sv with svs_challenges := dropChallenge E d.netchan.remoteAddress sv.svs_challenges }
      drop := by
    dsimp only [sv1]
    rw [hb]
    rfl
  have c1 : sv1.svs_challenges = dropChallenge E d.netchan.remoteAddress sv.svs_challenges := by
    rw [e1, challenges_SV_CloseDownload]
  have h2 : sv2.svs_challenges = sv1.svs_challenges := by
    dsimp only [sv2]
    exact challenges_ite (challenges_sendWithRoom _ _ _ _) rfl
  have h3 : sv3.svs_challenges = sv2.svs_challenges := challenges_modifyClient _ _ _
  have h4 : sv4.svs_challenges = sv3.svs_challenges := by
    dsimp only [sv4]
    exact challenges_ite (challenges_modifyClient _ _ _) rfl
  have h5 : sv5.svs_challenges = sv4.svs_challenges := challenges_emit _ _
  have h6 : sv6.svs_challenges = sv5.svs_challenges := by
    dsimp only [sv6]
    exact challenges_sendWithRoom _ _ _ _
  have h7 : sv7.svs_challenges = sv6.svs_challenges := by
    dsimp only [sv7]
    exact challenges_ite (challenges_emit _ _) (challenges_ite (challenges_emit _ _) rfl)
  have h8 : sv8.svs_challenges = sv7.svs_challenges := challenges_modifyClient _ _ _
  have h9 : sv9.svs_challenges = sv8.svs_challenges := by
    dsimp only [sv9]
    exact challenges_ite (challenges_ite (challenges_emit _ _) rfl) rfl
  clear_value sv9 sv8 sv7 sv6 sv5 sv4 sv3 sv2 sv1
  have hf : ∀ (c : Prop) [Decidable c],
      (if c then { sv9 with svs_lastPlayerLeftTime := 0x7FFFFFFF } else sv9).svs_challenges
        = sv9.svs_challenges := fun c _ => challenges_ite rfl rfl
  rw [hf, h9, h8, h7, h6, h5, h4, h3, h2, c1]

/-- C21 (amended). A client of the table that is not a zombie is a zombie after
`SV_DropClient` and its download file handle is 0. When it is not a bot, its
`downloadName` is empty and every block buffer is `NULL`, and in the challenge table
the first record with the client's address is marked not connected, while every other
record, also a later one with the same address, is left as it was when every ring has
room for the commands of the drop (two on the ring of the dropped client, one on every
other ring), so that the drop drops nobody else. -/
theorem SV_DropClient_releases (E : Env) (sv : ServerState) (drop : Nat) (reason : String)
    (hz : (getClient sv drop).state ≠ .CS_ZOMBIE) (hv : drop < sv.svs_clients.length) :
    (getClient (SV_DropClient E sv drop reason) drop).state = .CS_ZOMBIE ∧
    (getClient (SV_DropClient E sv drop reason) drop).download = 0 ∧
    (isBotClient E (getClient sv drop) = false →
      (getClient (SV_DropClient E sv drop reason) drop).downloadName = "" ∧
      (getClient (SV_DropClient E sv drop reason) drop).downloadBlocks
        = List.replicate (getClient sv drop).downloadBlocks.length none ∧
      ∀ (i : Nat) (ch : challenge_t), sv.svs_challenges[i]? = some ch →
        (firstRecordOf E (getClient sv drop).netchan.remoteAddress sv.svs_challenges i →
          (SV_DropClient E sv drop reason).svs_challenges[i]?
            = some { ch with connected := false }) ∧
        (dropRoom E sv drop →
          ¬ firstRecordOf E (getClient sv drop).netchan.remoteAddress sv.svs_challenges i →
          (SV_DropClient E sv drop reason).svs_challenges[i]? = some ch)) := by
  refine ⟨(SV_DropClient_clients E sv drop reason).2 hv, SV_DropClient_handle E sv drop reason hz,
    fun hbot => ?_⟩
  obtain ⟨h1, h2, h3⟩ := SV_DropClient_closes E sv drop reason hz hbot
  refine ⟨h1, h2, fun i ch hi => ⟨h3 i ch hi, fun hroom hnot => ?_⟩⟩
  rw [SV_DropClient_challenges E sv drop reason hz hbot hroom]
  exact (dropChallenge_getElem? E _ _ i ch hi).2 hnot

/-- C21, counterexample. The client at 10.0.0.1 connected with challenge 777, asked for
a challenge again and connected with the new one, 6000: both records are marked
connected. After the drop the record of challenge 6000, with the client's address,
is still marked connected. -/
theorem SV_DropClient_challenge_counterexample :
    (getClient serverReconnected 0).state = .CS_CONNECTED ∧
    (getClient serverReconnected 0).netchan.remoteAddress = adr1 ∧
    serverReconnected.svs_challenges.map (fun c => (c.adr, c.challenge, c.connected))
      = [(adr1, 777, true), (adr1, 6000, true)] ∧
    (SV_DropClient env0 serverReconnected 0 "disconnected").svs_challenges.map
        (fun c => (c.adr, c.challenge, c.connected))
      = [(adr1, 777, false), (adr1, 6000, true)] := by
  decide

/-- C21 (amended), witness: the drop of the same client. -/
theorem SV_DropClient_releases_witness :
    ((getClient serverReconnected 0).state ≠ .CS_ZOMBIE ∧
      0 < serverReconnected.svs_clients.length ∧
      isBotClient env0 (getClient serverReconnected 0) = false) ∧
    (getClient (SV_DropClient env0 serverReconnected 0 "disconnected") 0).state = .CS_ZOMBIE ∧
    (getClient (SV_DropClient env0 serverReconnected 0 "disconnected") 0).download = 0 ∧
    (getClient (SV_DropClient env0 serverReconnected 0 "disconnected") 0).downloadName = "" ∧
    (getClient (SV_DropClient env0 serverReconnected 0 "disconnected") 0).downloadBlocks
      = List.replicate (getClient serverReconnected 0).downloadBlocks.length none ∧
    dropRoom env0 serverReconnected 0 ∧
    (SV_DropClient env0 serverReconnected 0 "disconnected").svs_challenges[1]?
      = serverReconnected.svs_challenges[1]? :=
  ⟨by decide,
    (SV_DropClient_releases env0 serverReconnected 0 "disconnected" (by decide) (by decide)).1,
    (SV_DropClient_releases env0 serverReconnected 0 "disconnected" (by decide) (by decide)).2.1,
    ((SV_DropClient_releases env0 serverReconnected 0 "disconnected" (by decide)
      (by decide)).2.2 (by decide)).1,
    ((SV_DropClient_releases env0 serverReconnected 0 "disconnected" (by decide)
      (by decide)).2.2 (by decide)).2.1,
    by decide,
    ((((SV_DropClient_releases env0 serverReconnected 0 "disconnected" (by decide)
      (by decide)).2.2 (by decide)).2.2 1
        (serverReconnected.svs_challenges.getD 1 challenge_zero) (by decide)).2 (by decide)
        (fun h => by
          obtain ⟨_, _, _, hlt⟩ := h
          exact absurd (hlt 0 (serverReconnected.svs_challenges.getD 0 challenge_zero)
            (by decide) (by decide)) (by decide))).trans (by decide)⟩

/-! ## Refused downloads -/

theorem ne_empty_of_prefix (a b : String) (h : 0 < a.length) : a ++ b ≠ "" := by
  intro he
  have hl := congrArg String.length he
  rw [String.length_append] at hl
  have h0 : ("" : String).length = 0 := rfl
  omega

/-- C22 (amended). A download is pending and no file is open, the client has not
acknowledged a www download, the name passes `FS_VerifyPak`, and downloads are
disabled or the file is an official pak. Then `SV_WriteDownloadToClient` writes one
message and nothing else: `svc_download`, block 0, size -1 and a reason that is not
empty and contains the name of the file. `downloadName` is empty afterwards, no file
is opened, and the client keeps its connection state. -/
theorem SV_WriteDownloadToClient_refuses (E : Env) (sv : ServerState) (cl : Nat)
    (hname : (getClient sv cl).downloadName ≠ "")
    (hwww : (getClient sv cl).bWWWing = false)
    (hpak : E.FS_VerifyPak (getClient sv cl).downloadName = true)
    (hfile : (getClient sv cl).download = 0)
    (hoff : sv.cvars.sv_allowDownload = 0 ∨ E.FS_idPak (getClient sv cl).downloadName = true) :
    ∃ before after : String,
      before ++ (getClient sv cl).downloadName ++ after ≠ "" ∧
      (SV_WriteDownloadToClient E sv cl).log = sv.log ++
        [.svc_download cl 0 [-1] (before ++ (getClient sv cl).downloadName ++ after)] ∧
      (getClient (SV_WriteDownloadToClient E sv cl) cl).downloadName = "" ∧
      (getClient (SV_WriteDownloadToClient E sv cl) cl).download = 0 ∧
      (getClient (SV_WriteDownloadToClient E sv cl) cl).state = (getClient sv cl).state := by
  have hvalid := valid_of_downloadName sv cl hname
  have hopen : ∃ before after : String, 0 < before.length ∧
      (openDownload E sv.cvars cl (getClient sv cl)).2 = false ∧
      (openDownload E sv.cvars cl (getClient sv cl)).1.2
        = [.svc_download cl 0 [-1] (before ++ (getClient sv cl).downloadName ++ after)] ∧
      (openDownload E sv.cvars cl (getClient sv cl)).1.1.downloadName = "" ∧
      (openDownload E sv.cvars cl (getClient sv cl)).1.1.download = 0 ∧
      (openDownload E sv.cvars cl (getClient sv cl)).1.1.state = (getClient sv cl).state := by
    unfold openDownload
    lift_lets
    intro c1 idPack errorMessage www c2 opened c3 bad
    have h1 : c1.downloadName = (getClient sv cl).downloadName ∧
        c1.download = (getClient sv cl).download ∧ c1.state = (getClient sv cl).state := by
      dsimp only [c1]
      split <;> exact ⟨rfl, rfl, rfl⟩
    have hid : idPack = E.FS_idPak (getClient sv cl).downloadName := by
      dsimp only [idPack]
      rw [h1.1]
    rw [if_neg (not_not.2 hfile), if_pos (by rw [hid]; exact hoff)]
    have hmsg : ∃ before after : String, 0 < before.length ∧
        errorMessage = before ++ (getClient sv cl).downloadName ++ after := by
      dsimp only [errorMessage]
      rw [h1.1]
      split_ifs
      · exact ⟨_, _, by decide, rfl⟩
      · refine ⟨"Could not download \"", "\" because autodownloading is disabled on the server.\n\n" ++
          "You will need to get this file elsewhere before you " ++
          "can connect to this pure server.\n", by decide, ?_⟩
        simp only [String.append_assoc]
      · refine ⟨"Could not download \"", "\" because autodownloading is disabled on the server.\n\n" ++
          "Set autodownload to No in your settings and you might be " ++
          "able to connect even if you don't have the file.\n", by decide, ?_⟩
        simp only [String.append_assoc]
    obtain ⟨before, after, hb, he⟩ := hmsg
    refine ⟨before, after, hb, rfl, ?_, rfl, h1.2.1.trans hfile, h1.2.2⟩
    show [Effect.svc_download cl 0 [-1] errorMessage] = _
    rw [he]
  obtain ⟨before, after, hb, o1, o2, o3, o4, o5⟩ := hopen
  refine ⟨before, after, ?_, ?_⟩
  · rw [String.append_assoc]
    exact ne_empty_of_prefix _ _ hb
  unfold SV_WriteDownloadToClient
  lift_lets
  intro c written src
  rw [if_neg hname, if_neg (by rw [hwww]; simp), if_neg (by rw [hpak]; simp)]
  have hw : written = (openDownload E sv.cvars cl c).1 := by
    dsimp only [written]
    unfold writeDownload
    lift_lets
    intro opened pumped
    have ho : (!opened.2) = true := by
      show (!(openDownload E sv.cvars cl (getClient sv cl)).2) = true
      rw [o1]
      rfl
    rw [if_pos ho]
  have hg : getClient (setClient sv cl written.1) cl = written.1 := by
    rw [getClient_setClient, if_pos ⟨rfl, hvalid⟩]
  refine ⟨?_, ?_, ?_, ?_⟩
  · show sv.log ++ written.2 = _
    rw [hw, o2]
  · show (getClient (setClient sv cl written.1) cl).downloadName = ""
    rw [hg, hw]
    exact o3
  · show (getClient (setClient sv cl written.1) cl).download = 0
    rw [hg, hw]
    exact o4
  · show (getClient (setClient sv cl written.1) cl).state = _
    rw [hg, hw]
    exact o5

/-- C22, counterexample. Downloads are disabled, a download is pending and no file is
open. A client that asked for `server.cfg`, a name `FS_VerifyPak` does not accept, is
dropped and no message of `svc_download` is written. For a client that has
acknowledged a www download nothing is written and nothing is changed. -/
theorem SV_WriteDownloadToClient_refuses_counterexample :
    (cvarsNoDownload.sv_allowDownload = 0 ∧ clientAskingCfg.downloadName ≠ "" ∧
      clientAskingCfg.download = 0 ∧ clientAskingCfg.state = .CS_CONNECTED ∧
      (getClient (SV_WriteDownloadToClient envStrict (server1 cvarsNoDownload clientAskingCfg) 0)
        0).state = .CS_ZOMBIE ∧
      (SV_WriteDownloadToClient envStrict (server1 cvarsNoDownload clientAskingCfg) 0).log.filter
        Effect.isDownloadMessage = []) ∧
    (clientWWWing.downloadName ≠ "" ∧ clientWWWing.download = 0 ∧
      SV_WriteDownloadToClient env0 (server1 cvarsNoDownload clientWWWing) 0
        = server1 cvarsNoDownload clientWWWing) := by
  decide

/-- C22 (amended), witness: downloads are disabled and the client asks for
`etmain/map.pk3`. -/
theorem SV_WriteDownloadToClient_refuses_witness :
    ((getClient (server1 cvarsNoDownload clientAsking) 0).downloadName ≠ "" ∧
      (getClient (server1 cvarsNoDownload clientAsking) 0).bWWWing = false ∧
      env0.FS_VerifyPak (getClient (server1 cvarsNoDownload clientAsking) 0).downloadName = true ∧
      (getClient (server1 cvarsNoDownload clientAsking) 0).download = 0 ∧
      (server1 cvarsNoDownload clientAsking).cvars.sv_allowDownload = 0) ∧
    ∃ before after : String,
      before ++ (getClient (server1 cvarsNoDownload clientAsking) 0).downloadName ++ after ≠ "" ∧
      (SV_WriteDownloadToClient env0 (server1 cvarsNoDownload clientAsking) 0).log
        = (server1 cvarsNoDownload clientAsking).log ++
          [.svc_download 0 0 [-1]
            (before ++ (getClient (server1 cvarsNoDownload clientAsking) 0).downloadName
              ++ after)] ∧
      (getClient (SV_WriteDownloadToClient env0 (server1 cvarsNoDownload clientAsking) 0)
        0).downloadName = "" ∧
      (getClient (SV_WriteDownloadToClient env0 (server1 cvarsNoDownload clientAsking) 0)
        0).download = 0 ∧
      (getClient (SV_WriteDownloadToClient env0 (server1 cvarsNoDownload clientAsking) 0) 0).state
        = (getClient (server1 cvarsNoDownload clientAsking) 0).state :=
  ⟨by decide,
    SV_WriteDownloadToClient_refuses env0 (server1 cvarsNoDownload clientAsking) 0 (by decide)
      (by decide) (by decide) (by decide) (Or.inl (by decide))⟩

/-! ## The acknowledged block and the queued block -/

theorem readBlocks_order (E : Env) (cl : Nat) (n : Nat) (c : client_t) :
    (readBlocks E cl n c).1.downloadClientBlock = c.downloadClientBlock ∧
      c.downloadCurrentBlock ≤ (readBlocks E cl n c).1.downloadCurrentBlock ∧
      (readBlocks E cl n c).1.downloadXmitBlock = c.downloadXmitBlock := by
  induction n generalizing c with
  | zero => exact ⟨rfl, le_refl _, rfl⟩
  | succ n ih =>
    unfold readBlocks
    split
    · lift_lets
      intro curindex blocks size c1 c2 rest
      split
      · exact ⟨rfl, le_refl _, rfl⟩
      · obtain ⟨i1, i2, i3⟩ := ih c2
        refine ⟨i1, ?_, i3⟩
        have : c.downloadCurrentBlock + 1 ≤ rest.1.downloadCurrentBlock := i2
        show c.downloadCurrentBlock ≤ rest.1.downloadCurrentBlock
        omega
    · exact ⟨rfl, le_refl _, rfl⟩

theorem eofBlock_order (E : Env) (cl : Nat) (c : client_t) :
    (eofBlock E cl c).1.downloadClientBlock = c.downloadClientBlock ∧
      c.downloadCurrentBlock ≤ (eofBlock E cl c).1.downloadCurrentBlock ∧
      (eofBlock E cl c).1.downloadXmitBlock = c.downloadXmitBlock := by
  unfold eofBlock
  split
  · refine ⟨rfl, ?_, rfl⟩
    show c.downloadCurrentBlock ≤ c.downloadCurrentBlock + 1
    omega
  · exact ⟨rfl, le_refl _, rfl⟩

theorem pumpDownload_order (E : Env) (cl : Nat) (time rate : Int) (c : client_t) :
    (pumpDownload E cl time rate c).1.downloadClientBlock = c.downloadClientBlock ∧
      c.downloadCurrentBlock ≤ (pumpDownload E cl time rate c).1.downloadCurrentBlock := by
  unfold pumpDownload
  lift_lets
  intro turns read eof sent
  obtain ⟨r1, r2, _⟩ := readBlocks_order E cl turns c
  obtain ⟨e1, e2, _⟩ := eofBlock_order E cl read.1
  have hv := (transmitBlocks_view E cl time (blocksPerSnap E rate eof.1).toNat eof.1).1
  have t1 := congrArg (fun c : client_t => c.downloadClientBlock) hv
  have t2 := congrArg (fun c : client_t => c.downloadCurrentBlock) hv
  have t3 : sent.1.downloadClientBlock = eof.1.downloadClientBlock := t1
  have t4 : sent.1.downloadCurrentBlock = eof.1.downloadCurrentBlock := t2
  refine ⟨(t3.trans e1).trans r1, ?_⟩
  show c.downloadCurrentBlock ≤ sent.1.downloadCurrentBlock
  rw [t4]
  exact le_trans r2 e2

theorem writeDownload_order (E : Env) (cv : cvars_t) (cl : Nat) (time : Int) (c : client_t)
    (h : c.downloadClientBlock ≤ c.downloadCurrentBlock) :
    (writeDownload E cv cl time c).1.downloadClientBlock
      ≤ (writeDownload E cv cl time c).1.downloadCurrentBlock := by
  have ho : (openDownload E cv cl c).1.1.downloadClientBlock
      ≤ (openDownload E cv cl c).1.1.downloadCurrentBlock := by
    rcases openDownload_window E cv cl c with h1 | h1
    · have h2 := congrArg Prod.fst h1
      have h3 := congrArg Prod.snd h1
      simp only [windowView] at h2 h3
      rw [h2, h3]
      exact h
    · have h2 := congrArg Prod.fst h1
      have h3 := congrArg Prod.snd h1
      simp only [windowView] at h2 h3
      rw [h2, h3]
  unfold writeDownload
  lift_lets
  intro opened pumped
  split
  · exact ho
  · obtain ⟨p1, p2⟩ := pumpDownload_order E cl time cv.sv_dl_maxRate opened.1.1
    show pumped.1.downloadClientBlock ≤ pumped.1.downloadCurrentBlock
    rw [p1]
    exact le_trans ho p2

theorem downloadStep_order (E : Env) (cl : Nat) (sv : ServerState) (ev : DownloadEvent)
    (h : (getClient sv cl).downloadClientBlock ≤ (getClient sv cl).downloadCurrentBlock)
    (hack : ∀ args, ev = .nextdl args →
      (getClient sv cl).downloadClientBlock < (getClient sv cl).downloadCurrentBlock) :
    (getClient (downloadStep E cl sv ev) cl).downloadClientBlock
      ≤ (getClient (downloadStep E cl sv ev) cl).downloadCurrentBlock := by
  have hview : ∀ sv2 : ServerState, windowView (getClient sv2 cl) = windowView (getClient sv cl) →
      (getClient sv2 cl).downloadClientBlock ≤ (getClient sv2 cl).downloadCurrentBlock := by
    intro sv2 hv
    have h2 := congrArg Prod.fst hv
    have h3 := congrArg Prod.snd hv
    simp only [windowView] at h2 h3
    rw [h2, h3]
    exact h
  cases ev with
  | write =>
    show (getClient (SV_WriteDownloadToClient E sv cl) cl).downloadClientBlock
      ≤ (getClient (SV_WriteDownloadToClient E sv cl) cl).downloadCurrentBlock
    unfold SV_WriteDownloadToClient
    lift_lets
    intro c written src
    split_ifs
    · exact h
    · exact h
    · apply hview
      have hv := (SV_DropClient_clients E sv cl "illegal download request").1.2.2.2 cl
      have hw := congrArg windowView hv
      exact hw
    · show (getClient (setClient sv cl written.1) cl).downloadClientBlock
        ≤ (getClient (setClient sv cl written.1) cl).downloadCurrentBlock
      rw [getClient_setClient]
      split
      · exact writeDownload_order E sv.cvars cl sv.svs_time c h
      · exact h
  | nextdl args =>
    have hlt := hack args rfl
    show (getClient (SV_NextDownload_f E sv cl args) cl).downloadClientBlock
      ≤ (getClient (SV_NextDownload_f E sv cl args) cl).downloadCurrentBlock
    unfold SV_NextDownload_f
    lift_lets
    intro c block
    split_ifs
    · exact hview _ (SV_CloseDownload_window sv cl)
    · rw [getClient_modifyClient]
      split
      · show c.downloadClientBlock + 1 ≤ c.downloadCurrentBlock
        have : c.downloadClientBlock < c.downloadCurrentBlock := hlt
        omega
      · exact h
    · apply hview
      have hv := (SV_DropClient_clients E sv cl "broken download").1.2.2.2 cl
      have hw := congrArg windowView hv
      exact hw
  | stopdl => exact hview _ (SV_CloseDownload_window sv cl)
  | download args =>
    apply hview
    show windowView (getClient (SV_BeginDownload_f E sv cl args) cl) = _
    unfold SV_BeginDownload_f
    lift_lets
    intro sv1
    have hk : Keeps windowView sv sv1 :=
      Keeps.closeDownload_keeps (Keeps.refl_keeps windowView sv) cl (fun _ => rfl)
    exact (Keeps.modifyClient_keeps hk cl (fun c =>
      { c with
        downloadnotify := if c.downloadName ≠ Cmd_Argv args 1 then E.DLNOTIFY_ALL else c.downloadnotify
        downloadName := Cmd_Argv args 1 }) (fun _ => rfl)).2.2.2 cl
  | frame time => exact h

/-- C28 (amended). When `downloadClientBlock <= downloadCurrentBlock` holds (as it
does when a download is initialised) and every `nextdl` of the sequence arrives while
a queued block is not acknowledged, it holds after every sequence of calls of
`SV_WriteDownloadToClient`, of `nextdl`, `stopdl` and `download` commands, and of
steps of the server time. -/
theorem downloadRun_order (E : Env) (cl : Nat) (sv : ServerState) (events : List DownloadEvent)
    (h : (getClient sv cl).downloadClientBlock ≤ (getClient sv cl).downloadCurrentBlock)
    (hacks : acksQueued E cl sv events = true) :
    (getClient (downloadRun E cl sv events) cl).downloadClientBlock
      ≤ (getClient (downloadRun E cl sv events) cl).downloadCurrentBlock := by
  induction events generalizing sv with
  | nil => exact h
  | cons ev rest ih =>
    unfold acksQueued at hacks
    rw [Bool.and_eq_true] at hacks
    refine ih (downloadStep E cl sv ev) (downloadStep_order E cl sv ev h ?_) hacks.2
    intro args he
    have h1 := hacks.1
    rw [he] at h1
    exact of_decide_eq_true h1

/-- C28, counterexample. A window of two blocks: the first write queues blocks 0 and 1.
The client acknowledges blocks 0 and 1 and then block 2, which was never queued: the
slot of block 2 in the table of block lengths still holds the length of block 0, so
`downloadClientBlock` becomes 3 while `downloadCurrentBlock` is 2, and the client is
not dropped. -/
theorem downloadRun_order_counterexample :
    (getClient (downloadRun envNarrow 0 serverAsking eventsAckAhead) 0).downloadClientBlock = 3 ∧
    (getClient (downloadRun envNarrow 0 serverAsking eventsAckAhead) 0).downloadCurrentBlock = 2 ∧
    (getClient (downloadRun envNarrow 0 serverAsking eventsAckAhead) 0).state = .CS_CONNECTED ∧
    (getClient (downloadRun envNarrow 0 serverAsking eventsAckAhead) 0).download = 7 := by
  decide

/-- C28 (amended), witness: with a window of two blocks, the first write and the
acknowledgements of blocks 0 and 1. -/
theorem downloadRun_order_witness :
    ((getClient serverAsking 0).downloadClientBlock ≤ (getClient serverAsking 0).downloadCurrentBlock ∧
      acksQueued envNarrow 0 serverAsking
        [.write, .nextdl ["nextdl", "0"], .nextdl ["nextdl", "1"], .write] = true ∧
      (getClient (downloadRun envNarrow 0 serverAsking
        [.write, .nextdl ["nextdl", "0"], .nextdl ["nextdl", "1"], .write])
        0).downloadClientBlock = 2) ∧
    (getClient (downloadRun envNarrow 0 serverAsking
        [.write, .nextdl ["nextdl", "0"], .nextdl ["nextdl", "1"], .write]) 0).downloadClientBlock
      ≤ (getClient (downloadRun envNarrow 0 serverAsking
        [.write, .nextdl ["nextdl", "0"], .nextdl ["nextdl", "1"], .write])
        0).downloadCurrentBlock :=
  ⟨by decide,
    downloadRun_order envNarrow 0 serverAsking
      [.write, .nextdl ["nextdl", "0"], .nextdl ["nextdl", "1"], .write] (by decide) (by decide)⟩

/-! ## The pace of a download -/

theorem ne_empty_of_length_pos (s : String) (h : 0 < s.length) : s ≠ "" := by
  intro he
  rw [he] at h
  exact absurd h (by decide)

theorem isBlockOf_of_text (cl c : Nat) (b : Int) (l : List Int) (text : String)
    (h : text ≠ "") : (Effect.svc_download c b l text).isBlockOf cl = false := by
  simp [Effect.isBlockOf, h]

theorem blocksPerSnap_congr (E : Env) (m : Int) (c c2 : client_t)
    (h : paceView c2 = paceView c) : blocksPerSnap E m c2 = blocksPerSnap E m c := by
  have h1 : c2.rate = c.rate := congrArg Prod.fst h
  have h2 : c2.snapshotMsec = c.snapshotMsec := congrArg Prod.snd h
  unfold blocksPerSnap
  rw [h1, h2]

theorem transmitBlocks_length (E : Env) (cl : Nat) (time : Int) (n : Nat) (c : client_t) :
    (transmitBlocks E cl time n c).2.length ≤ n := by
  induction n generalizing c with
  | zero => exact le_refl _
  | succ n ih =>
    unfold transmitBlocks
    split
    · exact Nat.zero_le _
    split
    · exact Nat.zero_le _
    lift_lets
    intro c1 curindex message c2 rest
    exact Nat.succ_le_succ (ih c2)

theorem transmitBlocks_blocks (E : Env) (cl : Nat) (time : Int) (n : Nat) (c : client_t) :
    (transmitBlocks E cl time n c).2.filter (Effect.isBlockOf cl)
      = (transmitBlocks E cl time n c).2 := by
  rw [List.filter_eq_self]
  intro e he
  obtain ⟨b, l, hb⟩ := (transmitBlocks_view E cl time n c).2 e he
  rw [hb]
  simp [Effect.isBlockOf]

theorem transmitBlocks_first (E : Env) (cl : Nat) (time : Int) (n : Nat) (c : client_t)
    (hn : 0 < n) (h1 : c.downloadClientBlock ≠ c.downloadCurrentBlock)
    (h2 : c.downloadXmitBlock ≠ c.downloadCurrentBlock) :
    0 < (transmitBlocks E cl time n c).2.length := by
  cases n with
  | zero => exact absurd hn (Nat.lt_irrefl 0)
  | succ n =>
    unfold transmitBlocks
    rw [if_neg h1, if_neg (fun hh => h2 hh.1)]
    exact Nat.succ_pos _

theorem readBlocks_noBlocks (E : Env) (cl : Nat) (n : Nat) (c : client_t) :
    (readBlocks E cl n c).2.filter (Effect.isBlockOf cl) = [] ∧
      paceView (readBlocks E cl n c).1 = paceView c := by
  induction n generalizing c with
  | zero => exact ⟨rfl, rfl⟩
  | succ n ih =>
    unfold readBlocks
    split
    · lift_lets
      intro curindex blocks size c1 c2 rest
      split
      · exact ⟨rfl, rfl⟩
      · obtain ⟨i1, i2⟩ := ih c2
        refine ⟨?_, i2⟩
        show List.filter (Effect.isBlockOf cl)
          ([Effect.FS_Read c.download c.downloadCount,
            Effect.queue_download_block cl c.downloadCurrentBlock size c2.downloadCount
              c2.downloadSize] ++ rest.2) = []
        rw [List.filter_append, i1]
        rfl
    · exact ⟨rfl, rfl⟩

theorem eofBlock_noBlocks (E : Env) (cl : Nat) (c : client_t) :
    (eofBlock E cl c).2.filter (Effect.isBlockOf cl) = [] ∧
      paceView (eofBlock E cl c).1 = paceView c := by
  unfold eofBlock
  split <;> exact ⟨rfl, rfl⟩

theorem SV_CheckFallbackURL_noBlocks (cv : cvars_t) (cl : Nat) :
    (SV_CheckFallbackURL cv cl).1.filter (Effect.isBlockOf cl) = [] := by
  unfold SV_CheckFallbackURL
  split
  · rfl
  · rename_i h
    simp [Effect.isBlockOf, h]

theorem wwwRedirect_noBlocks (E : Env) (cv : cvars_t) (cl : Nat) (c : client_t) :
    (wwwRedirect E cv cl c).1.2.filter (Effect.isBlockOf cl) = [] ∧
      paceView (wwwRedirect E cv cl c).1.1 = paceView c := by
  unfold wwwRedirect
  lift_lets
  intro downloadSize url c1 download_flag
  have hurl : url ≠ "" := by
    apply ne_empty_of_length_pos
    dsimp only [url]
    rw [String.length_append, String.length_append]
    have : ("/" : String).length = 1 := rfl
    omega
  split_ifs
  · refine ⟨?_, rfl⟩
    simp [Effect.isBlockOf, hurl]
  · exact ⟨rfl, rfl⟩
  · exact ⟨SV_CheckFallbackURL_noBlocks cv cl, rfl⟩
  · exact ⟨SV_CheckFallbackURL_noBlocks cv cl, rfl⟩
  · exact ⟨rfl, rfl⟩

theorem openDownload_noBlocks (E : Env) (cv : cvars_t) (cl : Nat) (c : client_t) :
    (openDownload E cv cl c).1.2.filter (Effect.isBlockOf cl) = [] ∧
      paceView (openDownload E cv cl c).1.1 = paceView c := by
  unfold openDownload
  lift_lets
  intro c1 idPack errorMessage www c2 opened c3 bad
  have h1 : paceView c1 = paceView c := by
    dsimp only [c1]
    split <;> rfl
  obtain ⟨w1, w2⟩ := wwwRedirect_noBlocks E cv cl c1
  have hmsg : errorMessage ≠ "" := by
    dsimp only [errorMessage]
    split_ifs
    · rw [String.append_assoc]
      exact ne_empty_of_prefix _ _ (by decide)
    · simp only [String.append_assoc]
      exact ne_empty_of_prefix _ _ (by decide)
    · simp only [String.append_assoc]
      exact ne_empty_of_prefix _ _ (by decide)
  have hbad : bad.2.filter (Effect.isBlockOf cl) = [] := by
    dsimp only [bad]
    unfold SV_BadDownload
    have hm : "File \"" ++ c3.downloadName ++ "\" not found on server for autodownloading.\n" ≠ "" := by
      rw [String.append_assoc]
      exact ne_empty_of_prefix _ _ (by decide)
    simp [Effect.isBlockOf, hm]
  split_ifs
  · exact ⟨rfl, rfl⟩
  · refine ⟨?_, h1⟩
    unfold SV_BadDownload
    simp [Effect.isBlockOf, hmsg]
  · exact ⟨w1, w2.trans h1⟩
  · refine ⟨?_, w2.trans h1⟩
    show (www.1.2 ++ [Effect.FS_SV_FOpenFileRead c2.downloadName] ++ bad.2).filter
      (Effect.isBlockOf cl) = []
    rw [List.filter_append, List.filter_append, w1, hbad]
    rfl
  · refine ⟨?_, w2.trans h1⟩
    show (www.1.2 ++ [Effect.FS_SV_FOpenFileRead c2.downloadName]).filter
      (Effect.isBlockOf cl) = []
    rw [List.filter_append, w1]
    rfl

theorem pumpDownload_blocks (E : Env) (cl : Nat) (time m : Int) (c : client_t) :
    ∃ c2 : client_t, c2.downloadClientBlock = c.downloadClientBlock ∧
      c.downloadCurrentBlock ≤ c2.downloadCurrentBlock ∧
      c2.downloadXmitBlock = c.downloadXmitBlock ∧
      (pumpDownload E cl time m c).2.filter (Effect.isBlockOf cl)
        = (transmitBlocks E cl time (blocksPerSnap E m c).toNat c2).2 := by
  unfold pumpDownload
  lift_lets
  intro turns read eof sent
  obtain ⟨r1, r2, r3⟩ := readBlocks_order E cl turns c
  obtain ⟨e1, e2, e3⟩ := eofBlock_order E cl read.1
  obtain ⟨n1, n2⟩ := readBlocks_noBlocks E cl turns c
  obtain ⟨m1, m2⟩ := eofBlock_noBlocks E cl read.1
  refine ⟨eof.1, e1.trans r1, le_trans r2 e2, e3.trans r3, ?_⟩
  have hb : blocksPerSnap E m eof.1 = blocksPerSnap E m c :=
    blocksPerSnap_congr E m c eof.1 (m2.trans n2)
  show (read.2 ++ eof.2 ++ sent.2).filter (Effect.isBlockOf cl) = _
  rw [List.filter_append, List.filter_append, n1, m1, List.nil_append, List.nil_append, ← hb]
  exact transmitBlocks_blocks E cl time _ eof.1

theorem writeDownload_blocks (E : Env) (cv : cvars_t) (cl : Nat) (time : Int) (c : client_t) :
    ((writeDownload E cv cl time c).2.filter (Effect.isBlockOf cl)).length
        ≤ (blocksPerSnap E cv.sv_dl_maxRate c).toNat ∧
      (c.download ≠ 0 → c.downloadClientBlock < c.downloadCurrentBlock →
        c.downloadXmitBlock < c.downloadCurrentBlock →
        0 < (blocksPerSnap E cv.sv_dl_maxRate c).toNat →
        0 < ((writeDownload E cv cl time c).2.filter (Effect.isBlockOf cl)).length) := by
  obtain ⟨o1, o2⟩ := openDownload_noBlocks E cv cl c
  obtain ⟨c2, p1, p2, p3, p4⟩ :=
    pumpDownload_blocks E cl time cv.sv_dl_maxRate (openDownload E cv cl c).1.1
  have hb := blocksPerSnap_congr E cv.sv_dl_maxRate c (openDownload E cv cl c).1.1 o2
  refine ⟨?_, fun hd h1 h2 hB => ?_⟩
  · unfold writeDownload
    lift_lets
    intro opened pumped
    split
    · show (List.filter (Effect.isBlockOf cl) (openDownload E cv cl c).1.2).length ≤ _
      rw [o1]
      exact Nat.zero_le _
    · show (List.filter (Effect.isBlockOf cl)
        ((openDownload E cv cl c).1.2 ++ (pumpDownload E cl time cv.sv_dl_maxRate
          (openDownload E cv cl c).1.1).2)).length ≤ _
      rw [List.filter_append, o1, List.nil_append, p4, hb]
      exact transmitBlocks_length E cl time _ c2
  · have ho := openDownload_open E cv cl c hd
    rw [ho] at p1 p2 p3 p4 hb
    have q1 : c2.downloadClientBlock = c.downloadClientBlock := p1
    have q2 : c.downloadCurrentBlock ≤ c2.downloadCurrentBlock := p2
    have q3 : c2.downloadXmitBlock = c.downloadXmitBlock := p3
    unfold writeDownload
    rw [ho]
    simp only [Bool.not_true, Bool.false_eq_true, if_false, List.nil_append]
    rw [p4]
    apply transmitBlocks_first E cl time _ c2 hB
    · rw [q1]
      exact ne_of_lt (lt_of_lt_of_le h1 q2)
    · rw [q3]
      exact ne_of_lt (lt_of_lt_of_le h2 q2)

theorem blocksWritten_eq (E : Env) (sv : ServerState) (cl : Nat) :
    blocksWritten E sv cl = [] ∨
      ((getClient sv cl).downloadName ≠ "" ∧ (getClient sv cl).bWWWing = false ∧
        E.FS_VerifyPak (getClient sv cl).downloadName = true ∧
        blocksWritten E sv cl
          = (writeDownload E sv.cvars cl sv.svs_time (getClient sv cl)).2.filter
              (Effect.isBlockOf cl)) := by
  unfold blocksWritten SV_WriteDownloadToClient
  lift_lets
  intro c written src
  split_ifs
  · left
    simp
  · left
    simp
  · left
    obtain ⟨new, hnew, hall⟩ := logExt_SV_DropClient E sv cl "illegal download request"
    rw [hnew, List.drop_left, List.filter_eq_nil_iff]
    intro e he
    have hk := hall e he
    cases e <;> simp_all [Effect.isDropKind, Effect.isBlockOf]
  · rename_i h1 h2 h3
    right
    refine ⟨h1, by simpa using h2, by simpa using h3, ?_⟩
    show ((sv.log ++ written.2).drop sv.log.length).filter (Effect.isBlockOf cl) = _
    rw [List.drop_left]

/-- C23 (amended). Pacing of a download. With `r = min(cl->rate, sv_dl_maxRate)`, the
bound `B` of one call is 1 when `r == 0`, and otherwise the quotient
`(r * snapshotMsec / 1000 + MAX_DOWNLOAD_BLKSIZE) / MAX_DOWNLOAD_BLKSIZE`, replaced by
1 when it is negative. One call of `SV_WriteDownloadToClient` writes at most `B`
blocks; `B >= 1` when `r >= 0`, `snapshotMsec >= 0` and the block size is positive; and
with `B >= 1` the call writes at least one block when the download is going on (a name
that passes `FS_VerifyPak`, no www download, a file open), `downloadXmitBlock <
downloadCurrentBlock` and `downloadClientBlock < downloadCurrentBlock`. -/
theorem SV_WriteDownloadToClient_pace (E : Env) (sv : ServerState) (cl : Nat) :
    blocksPerSnap E sv.cvars.sv_dl_maxRate (getClient sv cl)
      = (if min (getClient sv cl).rate sv.cvars.sv_dl_maxRate = 0 then 1
         else if Int.tdiv (Int.tdiv (min (getClient sv cl).rate sv.cvars.sv_dl_maxRate *
              (getClient sv cl).snapshotMsec) 1000 + E.MAX_DOWNLOAD_BLKSIZE)
              E.MAX_DOWNLOAD_BLKSIZE < 0 then 1
         else Int.tdiv (Int.tdiv (min (getClient sv cl).rate sv.cvars.sv_dl_maxRate *
              (getClient sv cl).snapshotMsec) 1000 + E.MAX_DOWNLOAD_BLKSIZE)
              E.MAX_DOWNLOAD_BLKSIZE) ∧
    (blocksWritten E sv cl).length
      ≤ (blocksPerSnap E sv.cvars.sv_dl_maxRate (getClient sv cl)).toNat ∧
    (0 ≤ min (getClient sv cl).rate sv.cvars.sv_dl_maxRate → 0 ≤ (getClient sv cl).snapshotMsec →
      0 < E.MAX_DOWNLOAD_BLKSIZE →
      1 ≤ blocksPerSnap E sv.cvars.sv_dl_maxRate (getClient sv cl)) ∧
    (1 ≤ blocksPerSnap E sv.cvars.sv_dl_maxRate (getClient sv cl) →
      (getClient sv cl).downloadName ≠ "" → (getClient sv cl).bWWWing = false →
      E.FS_VerifyPak (getClient sv cl).downloadName = true → (getClient sv cl).download ≠ 0 →
      (getClient sv cl).downloadXmitBlock < (getClient sv cl).downloadCurrentBlock →
      (getClient sv cl).downloadClientBlock < (getClient sv cl).downloadCurrentBlock →
      1 ≤ (blocksWritten E sv cl).length) := by
  have hmin : (if sv.cvars.sv_dl_maxRate < (getClient sv cl).rate then sv.cvars.sv_dl_maxRate
      else (getClient sv cl).rate) = min (getClient sv cl).rate sv.cvars.sv_dl_maxRate := by
    split
    · rename_i h
      exact (min_eq_right (le_of_lt h)).symm
    · rename_i h
      exact (min_eq_left (not_lt.1 h)).symm
  have hB : blocksPerSnap E sv.cvars.sv_dl_maxRate (getClient sv cl)
      = (if min (getClient sv cl).rate sv.cvars.sv_dl_maxRate = 0 then 1
         else if Int.tdiv (Int.tdiv (min (getClient sv cl).rate sv.cvars.sv_dl_maxRate *
              (getClient sv cl).snapshotMsec) 1000 + E.MAX_DOWNLOAD_BLKSIZE)
              E.MAX_DOWNLOAD_BLKSIZE < 0 then 1
         else Int.tdiv (Int.tdiv (min (getClient sv cl).rate sv.cvars.sv_dl_maxRate *
              (getClient sv cl).snapshotMsec) 1000 + E.MAX_DOWNLOAD_BLKSIZE)
              E.MAX_DOWNLOAD_BLKSIZE) := by
    unfold blocksPerSnap
    lift_lets
    intro rate blockspersnap
    have hr : rate = min (getClient sv cl).rate sv.cvars.sv_dl_maxRate := hmin
    dsimp only [blockspersnap]
    rw [hr]
    split_ifs <;> rfl
  have hw := writeDownload_blocks E sv.cvars cl sv.svs_time (getClient sv cl)
  refine ⟨hB, ?_, ?_, ?_⟩
  · rcases blocksWritten_eq E sv cl with h | ⟨_, _, _, h⟩
    · rw [h]
      exact Nat.zero_le _
    · rw [h]
      exact hw.1
  · intro hr hm hblk
    rw [hB]
    split_ifs with h1 h2
    · exact le_refl _
    · exact le_refl _
    · have hq : 0 ≤ Int.tdiv (min (getClient sv cl).rate sv.cvars.sv_dl_maxRate *
          (getClient sv cl).snapshotMsec) 1000 :=
        Int.tdiv_nonneg (mul_nonneg hr hm) (by decide)
      have hge : E.MAX_DOWNLOAD_BLKSIZE ≤ Int.tdiv (min (getClient sv cl).rate
          sv.cvars.sv_dl_maxRate * (getClient sv cl).snapshotMsec) 1000 + E.MAX_DOWNLOAD_BLKSIZE := by
        omega
      have hpos := Int.ediv_le_ediv hblk hge
      rw [Int.ediv_self (ne_of_gt hblk)] at hpos
      rw [Int.tdiv_eq_ediv (by omega) (le_of_lt hblk)]
      exact hpos
  · intro hone hname hwww hpak hd hx hc
    rcases blocksWritten_eq E sv cl with h | ⟨_, _, _, h⟩
    · exfalso
      revert h
      unfold blocksWritten SV_WriteDownloadToClient
      lift_lets
      intro c written src
      rw [if_neg hname, if_neg (by rw [hwww]; simp), if_neg (by rw [hpak]; simp)]
      intro h
      have h2 : written.2.filter (Effect.isBlockOf cl) = [] := by
        have h3 : ((sv.log ++ written.2).drop sv.log.length).filter (Effect.isBlockOf cl) = [] := h
        rw [List.drop_left] at h3
        exact h3
      have h4 := hw.2 hd hc hx (by omega)
      have h5 : (written.2.filter (Effect.isBlockOf cl)).length = 0 := by rw [h2]; rfl
      have h6 : 0 < (written.2.filter (Effect.isBlockOf cl)).length := h4
      omega
    · rw [h]
      exact hw.2 hd hc hx (by omega)

/-- C23, counterexample. A window of two blocks: the first write queues blocks 0 and 1
and sends block 0; the client acknowledges blocks 0, 1, 2 and 3. Block 1 is queued and
not transmitted (`downloadXmitBlock` 1, `downloadCurrentBlock` 2, `downloadClientBlock`
4), the rate is 25000 and the bound is 1, and the next call writes no block: its reads
bring `downloadCurrentBlock` to 4, the value of `downloadClientBlock`. -/
theorem SV_WriteDownloadToClient_pace_counterexample :
    (getClient (downloadRun envNarrow 0 serverAsking eventsAckFar) 0).downloadXmitBlock
      ≠ (getClient (downloadRun envNarrow 0 serverAsking eventsAckFar) 0).downloadCurrentBlock ∧
    (getClient (downloadRun envNarrow 0 serverAsking eventsAckFar) 0).downloadClientBlock
      ≠ (getClient (downloadRun envNarrow 0 serverAsking eventsAckFar) 0).downloadCurrentBlock ∧
    min (getClient (downloadRun envNarrow 0 serverAsking eventsAckFar) 0).rate
      (downloadRun envNarrow 0 serverAsking eventsAckFar).cvars.sv_dl_maxRate = 25000 ∧
    (getClient (downloadRun envNarrow 0 serverAsking eventsAckFar) 0).snapshotMsec = 50 ∧
    blocksPerSnap envNarrow (downloadRun envNarrow 0 serverAsking eventsAckFar).cvars.sv_dl_maxRate
      (getClient (downloadRun envNarrow 0 serverAsking eventsAckFar) 0) = 1 ∧
    (getClient (downloadRun envNarrow 0 serverAsking eventsAckFar) 0).state = .CS_CONNECTED ∧
    (getClient (downloadRun envNarrow 0 serverAsking eventsAckFar) 0).download = 7 ∧
    blocksWritten envNarrow (downloadRun envNarrow 0 serverAsking eventsAckFar) 0 = [] := by
  decide

/-- C23 (amended), witness: the second write of the download of `etmain/map.pk3`;
blocks 0 to 3 are queued, block 0 was sent, and the call sends block 1. -/
theorem SV_WriteDownloadToClient_pace_witness :
    (blocksPerSnap env0 (SV_WriteDownloadToClient env0 serverAsking 0).cvars.sv_dl_maxRate
        (getClient (SV_WriteDownloadToClient env0 serverAsking 0) 0) = 1 ∧
      (getClient (SV_WriteDownloadToClient env0 serverAsking 0) 0).downloadXmitBlock = 1 ∧
      (getClient (SV_WriteDownloadToClient env0 serverAsking 0) 0).downloadClientBlock = 0 ∧
      (getClient (SV_WriteDownloadToClient env0 serverAsking 0) 0).downloadCurrentBlock = 4) ∧
    (blocksWritten env0 (SV_WriteDownloadToClient env0 serverAsking 0) 0).length
      ≤ (blocksPerSnap env0 (SV_WriteDownloadToClient env0 serverAsking 0).cvars.sv_dl_maxRate
          (getClient (SV_WriteDownloadToClient env0 serverAsking 0) 0)).toNat ∧
    1 ≤ (blocksWritten env0 (SV_WriteDownloadToClient env0 serverAsking 0) 0).length :=
  ⟨by decide,
    (SV_WriteDownloadToClient_pace env0 (SV_WriteDownloadToClient env0 serverAsking 0) 0).2.1,
    (SV_WriteDownloadToClient_pace env0 (SV_WriteDownloadToClient env0 serverAsking 0) 0).2.2.2
      (by decide) (by decide) (by decide) (by decide) (by decide) (by decide) (by decide)⟩

/-! ## Properties of `SV_ExecuteClientCommand` -/

theorem not_isGameCommand_of_isDropKind (e : Effect) (h : e.isDropKind = true) :
    e.isGameCommand = false := by
  cases e <;> simp_all [Effect.isDropKind, Effect.isGameCommand]
  rename_i entry _
  cases entry <;> simp_all [Effect.isDropKind]

theorem quiet_SV_VerifyPaks_f (E : Env) (sv : ServerState) (cl : Nat) (args : List String) :
    Tame (fun e => e.isGameCommand = false) sv (SV_VerifyPaks_f E sv cl args) := by
  unfold SV_VerifyPaks_f
  lift_lets
  intro sv1 r sv2 message sv3
  have h0 := Tame.refl_tame (fun e => e.isGameCommand = false) sv
  have h1 : Tame (fun e => e.isGameCommand = false) sv sv1 := h0.modifyClient_tame _ _
  have h2 : Tame (fun e => e.isGameCommand = false) sv sv2 := h1.modifyClient_tame _ _
  apply Tame.ite_tame h0
  apply Tame.ite_tame h1
  apply Tame.ite_tame (h2.modifyClient_tame _ _)
  apply Tame.ite_tame
  · exact (h2.sendServerCommand_tame E none _ not_isGameCommand_of_isDropKind).modifyClient_tame _ _
  · apply Tame.dropClient _ E cl _ not_isGameCommand_of_isDropKind
    apply Tame.emit_tame (h2.modifyClient_tame _ _)
    rfl

theorem quiet_runUcmd (E : Env) (sv : ServerState) (cl : Nat) (args : List String) (f : ucmd_func)
    (hf : f ≠ .SV_CV_f) :
    Tame (fun e => e.isGameCommand = false) sv (runUcmd E sv cl args f) := by
  have h0 := Tame.refl_tame (fun e => e.isGameCommand = false) sv
  cases f <;> unfold runUcmd <;> dsimp only
  · unfold SV_UpdateUserinfo_f
    lift_lets
    intro cl_guid sv1 sv2
    have h2 : Tame (fun e => e.isGameCommand = false) sv sv2 :=
      Tame.ite_tame ((h0.modifyClient_tame _ _).modifyClient_tame _ _) (h0.modifyClient_tame _ _)
    refine Tame.emit_tame ?_ ?_
    · exact (h2.trans_tame (tame_SV_NumberName _ sv2 cl)).trans_tame (tame_SV_UserinfoChanged _ E _ cl)
    · rfl
  · exact h0.dropClient E cl _ not_isGameCommand_of_isDropKind
  · exact quiet_SV_VerifyPaks_f E sv cl args
  · exact h0.modifyClient_tame _ _
  · unfold SV_BeginDownload_f
    exact (h0.closeDownload_tame cl (fun _ => rfl)).modifyClient_tame _ _
  · unfold SV_NextDownload_f
    dsimp only
    apply Tame.ite_tame
    · exact Tame.ite_tame (h0.closeDownload_tame cl (fun _ => rfl)) (h0.modifyClient_tame _ _)
    · exact h0.dropClient E cl _ not_isGameCommand_of_isDropKind
  · exact h0.closeDownload_tame cl (fun _ => rfl)
  · exact h0.sendClientGameState cl rfl
  · unfold SV_WWWDownload_f
    dsimp only
    apply Tame.ite_tame (h0.dropClient E cl _ not_isGameCommand_of_isDropKind)
    apply Tame.ite_tame (h0.modifyClient_tame _ _)
    apply Tame.ite_tame (h0.dropClient E cl _ not_isGameCommand_of_isDropKind)
    apply Tame.ite_tame (h0.dropClient E cl _ not_isGameCommand_of_isDropKind)
    apply Tame.ite_tame (h0.modifyClient_tame _ _)
    apply Tame.ite_tame ((h0.modifyClient_tame _ _).sendClientGameState cl rfl)
    exact h0.dropClient E cl _ not_isGameCommand_of_isDropKind
  · exact h0.emit_tame rfl
  · exact h0.emit_tame rfl
  · exact h0.emit_tame rfl
  · exact h0.emit_tame rfl
  · exact absurd rfl hf
  · exact h0.emit_tame rfl

theorem Calls.refl_calls (k : Nat) (a : ServerState) : Calls k a a :=
  ⟨[], (List.append_nil _).symm, Nat.zero_le _⟩

theorem Calls.mono_calls {j k : Nat} {a b : ServerState} (h : Calls j a b) (hjk : j ≤ k) :
    Calls k a b := by
  obtain ⟨new, h1, h2⟩ := h
  exact ⟨new, h1, le_trans h2 hjk⟩

theorem Calls.trans_calls {j k : Nat} {a b c : ServerState} (h1 : Calls j a b)
    (h2 : Calls k b c) : Calls (j + k) a c := by
  obtain ⟨n1, e1, c1⟩ := h1
  obtain ⟨n2, e2, c2⟩ := h2
  refine ⟨n1 ++ n2, by rw [e2, e1, List.append_assoc], ?_⟩
  rw [List.countP_append]
  omega

theorem Calls.of_tame {a b : ServerState} (h : Tame (fun e => e.isGameCommand = false) a b) :
    Calls 0 a b := by
  obtain ⟨new, e, p⟩ := h.2
  refine ⟨new, e, ?_⟩
  rw [Nat.le_zero, List.countP_eq_zero]
  intro x hx
  simp [p x hx]

theorem Calls.ite_calls {k : Nat} {a x y : ServerState} {c : Prop} [Decidable c]
    (hx : Calls k a x) (hy : Calls k a y) : Calls k a (if c then x else y) := by
  split
  · exact hx
  · exact hy

theorem Calls.emit_calls {k : Nat} {a b : ServerState} (h : Calls k a b) (e : Effect) :
    Calls (k + 1) a (emit b e) := by
  obtain ⟨new, h1, h2⟩ := h
  refine ⟨new ++ [e], ?_, ?_⟩
  · show b.log ++ [e] = a.log ++ (new ++ [e])
    rw [h1, List.append_assoc]
  · rw [List.countP_append]
    have : List.countP Effect.isGameCommand [e] ≤ 1 := by
      rw [List.countP_cons, List.countP_nil]
      split <;> omega
    omega

theorem calls_SV_CV_f (sv : ServerState) (cl : Nat) : Calls 1 sv (SV_CV_f sv cl) := by
  unfold SV_CV_f
  exact Calls.ite_calls ((Calls.refl_calls 0 sv).emit_calls _) (Calls.refl_calls 1 sv)

theorem calls_chatCommand (E : Env) (sv : ServerState) (cl : Nat) (targs : List String) :
    Calls 1 sv (chatCommand E sv cl targs) := by
  have h0 := Tame.refl_tame (fun e => e.isGameCommand = false) sv
  have q : ∀ b, Tame (fun e => e.isGameCommand = false) sv b → Calls 1 sv b :=
    fun b hb => (Calls.of_tame hb).mono_calls (Nat.zero_le 1)
  unfold chatCommand
  dsimp only
  split
  · repeat' apply Calls.ite_calls
    all_goals first
      | exact calls_SV_CV_f sv cl
      | exact Calls.refl_calls 1 sv
      | exact (Calls.refl_calls 0 sv).emit_calls _
      | exact q _ ((h0.sendServerCommand_tame E _ _
          not_isGameCommand_of_isDropKind).emit_tame (by rfl))
  · exact Calls.refl_calls 1 sv

theorem ucmds_cv : ∀ u ∈ ucmds, u.func = .SV_CV_f → u.name = "cv" := by
  decide

theorem ucmds_not_say : ∀ u ∈ ucmds, (u.name == "say" || u.name == "enc_say") = false := by
  decide

theorem calls_after_dispatch (E : Env) (cl : Nat) (args : List String) (name : String)
    (clientOK : Bool) (sv1 : ServerState) (found : Bool) (kf ks : Nat)
    (hkf : found = true → 1 ≤ kf) (hks : (name == "say" || name == "enc_say") = true → 1 ≤ ks) :
    Calls (kf + ks) sv1
      (if sv1.cvars.sv_save ≠ 0 ∧ name = "save" then emit sv1 (.ucmd "SV_Save_f" cl args)
      else if sv1.cvars.sv_save ≠ 0 ∧ name = "load" then emit sv1 (.ucmd "SV_Load_f" cl args)
      else if clientOK = true then
        if sv1.cvars.sv_processVoiceChats ≠ 0 ∧ name = "vsay" then
          if E.playerMuted cl = true then sv1 else
          let sv2 := modifyClient sv1 cl (fun c =>
            if c.voiceChatTime < sv1.svs_time - 30000 then { c with voiceChatTime := sv1.svs_time - 30000 }
            else c)
          if (getClient sv2 cl).voiceChatTime + 30000 / sv2.cvars.sv_processVoiceChats > sv2.svs_time then
            SV_SendServerCommand E sv2 (some cl) "cpm \"^1Spam Protection^7: VoiceChat ignored\n\""
          else
            modifyClient
              (SV_SendServerCommand E sv2 none ("vchat 0 " ++ toString cl ++ " 50 " ++ Cmd_Argv args 1))
              cl (fun c => { c with voiceChatTime := c.voiceChatTime + 30000 / sv2.cvars.sv_processVoiceChats })
        else
          let sv2 :=
            if found = true ∧ sv1.sv_state = .SS_GAME then emit sv1 (.VM_Call .GAME_CLIENT_COMMAND cl) else sv1
          let isSay : Bool := name == "say" || name == "enc_say"
          let sv3 :=
            if sv2.cvars.sv_chatConnectedServers ≠ "" ∧ isSay = true ∧ E.playerMuted cl = false then
              emit sv2 (.SV_SendToChatConnectedServers
                ("rsay " ++ (if sv2.cvars.sv_chatHostname ≠ "" then sv2.cvars.sv_chatHostname
                             else sv2.cvars.sv_hostname)
                  ++ ":^7" ++ (getClient sv2 cl).name ++ "^7: ^2" ++ Cmd_Args args))
            else sv2
          if sv3.cvars.sv_chatCommands ≠ 0 ∧ isSay = true then
            chatCommand E sv3 cl (E.Cmd_TokenizeString (Cmd_Args args))
          else sv3
      else sv1) := by
  have h0 := Tame.refl_tame (fun e => e.isGameCommand = false) sv1
  have q : ∀ b, Tame (fun e => e.isGameCommand = false) sv1 b → Calls (kf + ks) sv1 b :=
    fun b hb => (Calls.of_tame hb).mono_calls (Nat.zero_le _)
  lift_lets
  intro sv2v sv2 isSay sv3
  split
  · exact q _ (h0.emit_tame (by rfl))
  split
  · exact q _ (h0.emit_tame (by rfl))
  split
  · split
    · split
      · exact q _ h0
      · have hv : Tame (fun e => e.isGameCommand = false) sv1 sv2v := h0.modifyClient_tame _ _
        split
        · exact q _ (hv.sendServerCommand_tame E _ _ not_isGameCommand_of_isDropKind)
        · exact q _ ((hv.sendServerCommand_tame E _ _
            not_isGameCommand_of_isDropKind).modifyClient_tame _ _)
    · have c2 : Calls kf sv1 sv2 := by
        dsimp only [sv2]
        split
        · rename_i hf
          exact ((Calls.refl_calls 0 sv1).emit_calls _).mono_calls (hkf hf.1)
        · exact Calls.refl_calls _ sv1
      have c3 : Calls 0 sv2 sv3 := by
        dsimp only [sv3]
        apply Calls.ite_calls
        · exact Calls.of_tame ((Tame.refl_tame _ sv2).emit_tame (by rfl))
        · exact Calls.refl_calls 0 sv2
      have c23 : Calls kf sv1 sv3 := c2.trans_calls c3
      split
      · rename_i hs
        have hsay : (name == "say" || name == "enc_say") = true := hs.2
        exact (c23.trans_calls (calls_chatCommand E sv3 cl _)).mono_calls
          (Nat.add_le_add_left (hks hsay) kf)
      · exact c23.mono_calls (Nat.le_add_right _ _)
  · exact q _ h0

theorem calls_runUcmd (E : Env) (sv : ServerState) (cl : Nat) (args : List String) (f : ucmd_func)
    (j : Nat) (hj : f = .SV_CV_f → 1 ≤ j) : Calls j sv (runUcmd E sv cl args f) := by
  by_cases hf : f = .SV_CV_f
  · subst hf
    exact (calls_SV_CV_f sv cl).mono_calls (hj rfl)
  · exact (Calls.of_tame (quiet_runUcmd E sv cl args f hf)).mono_calls (Nat.zero_le _)

theorem Calls.count_le {k : Nat} {a b : ServerState} (h : Calls k a b) :
    (b.log.drop a.log.length).countP Effect.isGameCommand ≤ k := by
  obtain ⟨new, h1, h2⟩ := h
  rw [h1, List.drop_left]
  exact h2

theorem calls_SV_ExecuteClientCommand (E : Env) (sv : ServerState) (cl : Nat) (s : String)
    (clientOK premaprestart : Bool) (j kf ks : Nat)
    (hj : ∀ u, ucmds.find? (fun u => u.name == Q_strlwr (Cmd_Argv (E.Cmd_TokenizeString s) 0)
        && !(premaprestart && !u.allowedpostmapchange)) = some u → u.func = .SV_CV_f → 1 ≤ j)
    (hkf : ucmds.find? (fun u => u.name == Q_strlwr (Cmd_Argv (E.Cmd_TokenizeString s) 0)
        && !(premaprestart && !u.allowedpostmapchange)) = none → 1 ≤ kf)
    (hks : (Q_strlwr (Cmd_Argv (E.Cmd_TokenizeString s) 0) == "say"
        || Q_strlwr (Cmd_Argv (E.Cmd_TokenizeString s) 0) == "enc_say") = true → 1 ≤ ks) :
    Calls (j + (kf + ks)) sv (SV_ExecuteClientCommand E sv cl s clientOK premaprestart) := by
  have h0 : Calls 0 sv (emit sv (.call_SV_ExecuteClientCommand cl s clientOK premaprestart)) :=
    Calls.of_tame ((Tame.refl_tame _ sv).emit_tame (by rfl))
  unfold SV_ExecuteClientCommand
  dsimp only
  generalize List.find? (fun u => u.name == Q_strlwr (Cmd_Argv (E.Cmd_TokenizeString s) 0)
      && !(premaprestart && !u.allowedpostmapchange)) ucmds = u at hj hkf ⊢
  generalize emit sv (.call_SV_ExecuteClientCommand cl s clientOK premaprestart) = sv0 at h0 ⊢
  cases u with
  | none =>
    have ht := calls_after_dispatch E cl (E.Cmd_TokenizeString s)
      (Q_strlwr (Cmd_Argv (E.Cmd_TokenizeString s) 0)) clientOK sv0 true kf ks
      (fun _ => hkf rfl) hks
    have hc := (h0.trans_calls ht).mono_calls (by omega : 0 + (kf + ks) ≤ j + (kf + ks))
    exact hc
  | some u =>
    have h1 := calls_runUcmd E sv0 cl (E.Cmd_TokenizeString s) u.func j (hj u rfl)
    have ht := calls_after_dispatch E cl (E.Cmd_TokenizeString s)
      (Q_strlwr (Cmd_Argv (E.Cmd_TokenizeString s) 0)) clientOK
      (runUcmd E sv0 cl (E.Cmd_TokenizeString s) u.func) false 0 ks
      (fun h => absurd h (by simp)) hks
    have hc := ((h0.trans_calls h1).trans_calls ht).mono_calls
      (by omega : 0 + j + (0 + ks) ≤ j + (kf + ks))
    exact hc

/-- C25 (amended). The calls of `GAME_CLIENT_COMMAND` that `SV_ExecuteClientCommand`
makes for one command, for every setting of `clientOK` and `premaprestart`: at most
two; at most one when the name (in lower case) is not `cv`, `say` or `enc_say`; and
none when the name is not `cv` and an entry of `ucmds` matches it that is enabled for
the call (with `premaprestart` set, the entries without `allowedpostmapchange` are
skipped). -/
theorem SV_ExecuteClientCommand_forwards (E : Env) (sv : ServerState) (cl : Nat) (s : String)
    (clientOK premaprestart : Bool) :
    gameCommandCalls E sv cl s clientOK premaprestart ≤ 2 ∧
    (Q_strlwr (Cmd_Argv (E.Cmd_TokenizeString s) 0) ≠ "cv" →
      (Q_strlwr (Cmd_Argv (E.Cmd_TokenizeString s) 0) == "say"
        || Q_strlwr (Cmd_Argv (E.Cmd_TokenizeString s) 0) == "enc_say") = false →
      gameCommandCalls E sv cl s clientOK premaprestart ≤ 1) ∧
    (Q_strlwr (Cmd_Argv (E.Cmd_TokenizeString s) 0) ≠ "cv" →
      (∃ u ∈ ucmds, u.name = Q_strlwr (Cmd_Argv (E.Cmd_TokenizeString s) 0) ∧
        (premaprestart = false ∨ u.allowedpostmapchange = true)) →
      gameCommandCalls E sv cl s clientOK premaprestart = 0) := by
  have hfound : ∀ u, ucmds.find? (fun u => u.name == Q_strlwr (Cmd_Argv (E.Cmd_TokenizeString s) 0)
      && !(premaprestart && !u.allowedpostmapchange)) = some u →
      u ∈ ucmds ∧ u.name = Q_strlwr (Cmd_Argv (E.Cmd_TokenizeString s) 0) := by
    intro u hu
    have h1 := List.find?_some hu
    have h2 := List.mem_of_find?_eq_some hu
    simp only [Bool.and_eq_true, beq_iff_eq] at h1
    exact ⟨h2, h1.1⟩
  refine ⟨?_, fun hcv hsay => ?_, fun hcv hent => ?_⟩
  · cases hu : ucmds.find? (fun u => u.name == Q_strlwr (Cmd_Argv (E.Cmd_TokenizeString s) 0)
        && !(premaprestart && !u.allowedpostmapchange)) with
    | none =>
      exact (calls_SV_ExecuteClientCommand E sv cl s clientOK premaprestart 0 1 1
        (fun u h => by rw [hu] at h; exact absurd h (by simp)) (fun _ => le_refl 1)
        (fun _ => le_refl 1)).count_le
    | some u0 =>
      exact (calls_SV_ExecuteClientCommand E sv cl s clientOK premaprestart 1 0 1
        (fun _ _ _ => le_refl 1) (fun h => by rw [hu] at h; exact absurd h (by simp))
        (fun _ => le_refl 1)).count_le
  · cases hu : ucmds.find? (fun u => u.name == Q_strlwr (Cmd_Argv (E.Cmd_TokenizeString s) 0)
        && !(premaprestart && !u.allowedpostmapchange)) with
    | none =>
      exact (calls_SV_ExecuteClientCommand E sv cl s clientOK premaprestart 0 1 0
        (fun u h => by rw [hu] at h; exact absurd h (by simp)) (fun _ => le_refl 1)
        (fun h => by rw [hsay] at h; exact absurd h (by simp))).count_le
    | some u0 =>
      have hc := (calls_SV_ExecuteClientCommand E sv cl s clientOK premaprestart 0 0 0
        (fun u h hf => by
          obtain ⟨hm, hn⟩ := hfound u h
          exact absurd ((ucmds_cv u hm hf).symm.trans hn).symm hcv)
        (fun h => by rw [hu] at h; exact absurd h (by simp))
        (fun h => by rw [hsay] at h; exact absurd h (by simp))).count_le
      exact le_trans hc (Nat.zero_le 1)
  · obtain ⟨u, hm, hn, hen⟩ := hent
    have hsay : (Q_strlwr (Cmd_Argv (E.Cmd_TokenizeString s) 0) == "say"
        || Q_strlwr (Cmd_Argv (E.Cmd_TokenizeString s) 0) == "enc_say") = false := by
      rw [← hn]
      exact ucmds_not_say u hm
    have hsome : ucmds.find? (fun u => u.name == Q_strlwr (Cmd_Argv (E.Cmd_TokenizeString s) 0)
        && !(premaprestart && !u.allowedpostmapchange)) ≠ none := by
      intro hnone
      rw [List.find?_eq_none] at hnone
      apply hnone u hm
      simp only [Bool.and_eq_true, beq_iff_eq, Bool.not_eq_true', Bool.and_eq_false_imp,
        Bool.not_eq_false']
      refine ⟨hn, fun hp => ?_⟩
      rcases hen with h | h
      · rw [h] at hp
        exact absurd hp (by simp)
      · exact h
    have hc := (calls_SV_ExecuteClientCommand E sv cl s clientOK premaprestart 0 0 0
      (fun u h hf => by
        obtain ⟨hm2, hn2⟩ := hfound u h
        exact absurd ((ucmds_cv u hm2 hf).symm.trans hn2).symm hcv)
      (fun h => absurd h hsome)
      (fun h => by rw [hsay] at h; exact absurd h (by simp))).count_le
    exact Nat.le_zero.1 hc

/-- C25, counterexample. Before a map restart (`premaprestart` set) the command
`userinfo` is passed to `GAME_CLIENT_COMMAND` although the table `ucmds` has the entry
`userinfo`: the entry is not `allowedpostmapchange`, the loop skips it and runs to its
end. And one `say /cv map_restart`, with the chat commands on, reaches
`GAME_CLIENT_COMMAND` twice; a `cv` reaches it through the table entry `cv`, also
with `clientOK` false. -/
theorem SV_ExecuteClientCommand_forwards_counterexample :
    (∃ u ∈ ucmds, u.name = Q_strlwr (Cmd_Argv (env0.Cmd_TokenizeString "userinfo \\name\\bob") 0)) ∧
    gameCommandCalls env0 (server1 cvars0 clientActive) 0 "userinfo \\name\\bob" true true = 1 ∧
    gameCommandCalls env0 (server1 cvarsChat clientActive) 0 "say /cv map_restart" true false = 2 ∧
    (∃ u ∈ ucmds, u.name = Q_strlwr (Cmd_Argv (env0.Cmd_TokenizeString "cv map_restart") 0)) ∧
    gameCommandCalls env0 (server1 cvars0 clientActive) 0 "cv map_restart" false false = 1 := by
  decide

/-- C25 (amended), witness: `userinfo` outside a map restart is not passed to the
game, and an unknown command is passed once. -/
theorem SV_ExecuteClientCommand_forwards_witness :
    (Q_strlwr (Cmd_Argv (env0.Cmd_TokenizeString "userinfo \\name\\bob") 0) ≠ "cv" ∧
      (∃ u ∈ ucmds, u.name = Q_strlwr (Cmd_Argv (env0.Cmd_TokenizeString "userinfo \\name\\bob") 0) ∧
        (false = false ∨ u.allowedpostmapchange = true)) ∧
      gameCommandCalls env0 (server1 cvars0 clientActive) 0 "kill" true false = 1) ∧
    gameCommandCalls env0 (server1 cvars0 clientActive) 0 "userinfo \\name\\bob" true false = 0 :=
  ⟨by decide,
    (SV_ExecuteClientCommand_forwards env0 (server1 cvars0 clientActive) 0 "userinfo \\name\\bob"
      true false).2.2 (by decide) (by decide)⟩

/-! ## Properties of the temporary bans -/

theorem tempBanScan_fst (time : Int) :
    ∀ (l : List tempban_t) (i : Nat) (oldest oldesttime : Int),
      (tempBanScan time l i oldest oldesttime).1 = (findIndex (tempBanFree time) l).map (· + i)
  | [], _, _, _ => rfl
  | b :: rest, i, oldest, oldesttime => by
    unfold tempBanScan findIndex
    by_cases h : b.endtime = 0 ∨ b.endtime < time
    · have h2 : tempBanFree time b = true := by simp [tempBanFree, h]
      rw [if_pos h, if_pos h2]
      simp
    · have h2 : ¬ tempBanFree time b = true := by simp [tempBanFree, h]
      rw [if_neg h, if_neg h2]
      have e : ∀ o t, (tempBanScan time rest (i + 1) o t).1
          = Option.map (· + i) (Option.map (· + 1) (findIndex (tempBanFree time) rest)) := by
        intro o t
        rw [tempBanScan_fst time rest (i + 1) o t, Option.map_map]
        congr 1
        funext x
        simp only [Function.comp]
        omega
      split
      · exact e _ _
      · exact e _ _

/-- The value of `oldest` when the scan runs to the end of the table: either it is as
it was, and then it was set before (or the table is empty) and no ban of the table
ends before `oldesttime`; or it is the index of a ban with the smallest `endtime`, the
lowest such index. -/
theorem tempBanScan_oldest (time : Int) :
    ∀ (l : List tempban_t) (i : Nat) (oldest oldesttime : Int),
      (∀ b ∈ l, tempBanFree time b = false) →
      ((tempBanScan time l i oldest oldesttime).2 = oldest ∧ (oldest = -1 → l = []) ∧
        (oldest ≠ -1 → ∀ b ∈ l, oldesttime ≤ b.endtime)) ∨
      ∃ (j : Nat) (b : tempban_t),
        (tempBanScan time l i oldest oldesttime).2 = ((i + j : Nat) : Int) ∧ l[j]? = some b ∧
        (oldest ≠ -1 → b.endtime < oldesttime) ∧
        (∀ (j2 : Nat) (b2 : tempban_t), l[j2]? = some b2 → b.endtime ≤ b2.endtime) ∧
        ∀ (j2 : Nat) (b2 : tempban_t), j2 < j → l[j2]? = some b2 → b.endtime < b2.endtime
  | [], _, _, _, _ => Or.inl ⟨rfl, fun _ => rfl, fun _ => by simp⟩
  | x :: xs, i, oldest, oldesttime, hno => by
    have hx : ¬ (x.endtime = 0 ∨ x.endtime < time) := by
      have := hno x (List.mem_cons_self x xs)
      simpa [tempBanFree] using this
    have hxs : ∀ b ∈ xs, tempBanFree time b = false :=
      fun b hb => hno b (List.mem_cons_of_mem x hb)
    have hi : ((i : Nat) : Int) ≠ -1 := by omega
    unfold tempBanScan
    rw [if_neg hx]
    by_cases ht : oldest = -1 ∨ oldesttime > x.endtime
    · rw [if_pos ht]
      have hbound : oldest ≠ -1 → x.endtime < oldesttime := by
        intro hne
        rcases ht with h | h
        · exact absurd h hne
        · exact h
      rcases tempBanScan_oldest time xs (i + 1) i x.endtime hxs with
        ⟨h1, _, h2⟩ | ⟨j, b, h1, h2, h3, h4, h5⟩
      · refine Or.inr ⟨0, x, by rw [h1]; rfl, by simp, hbound, fun j2 b2 h => ?_,
          fun j2 b2 hj => ?_⟩
        · cases j2 with
          | zero =>
            simp at h
            rw [h]
          | succ j3 => exact h2 hi b2 (List.getElem?_mem (by simpa using h))
        · exact absurd hj (Nat.not_lt_zero j2)
      · have hlt : b.endtime < x.endtime := h3 hi
        refine Or.inr ⟨j + 1, b, by rw [h1]; push_cast; omega, by simpa using h2,
          fun hne => lt_trans hlt (hbound hne), fun j2 b2 h => ?_, fun j2 b2 hj h => ?_⟩
        · cases j2 with
          | zero =>
            simp at h
            rw [← h]
            exact le_of_lt hlt
          | succ j3 => exact h4 j3 b2 (by simpa using h)
        · cases j2 with
          | zero =>
            simp at h
            rw [← h]
            exact hlt
          | succ j3 => exact h5 j3 b2 (by omega) (by simpa using h)
    · rw [if_neg ht]
      have hne : oldest ≠ -1 := fun h => ht (Or.inl h)
      have hle : oldesttime ≤ x.endtime := by
        have := fun h => ht (Or.inr h)
        omega
      rcases tempBanScan_oldest time xs (i + 1) oldest oldesttime hxs with
        ⟨h1, _, h2⟩ | ⟨j, b, h1, h2, h3, h4, h5⟩
      · refine Or.inl ⟨h1, fun h => absurd h hne, fun _ b hb => ?_⟩
        rcases List.mem_cons.1 hb with h | h
        · rw [h]
          exact hle
        · exact h2 hne b h
      · have hlt : b.endtime < x.endtime := lt_of_lt_of_le (h3 hne) hle
        refine Or.inr ⟨j + 1, b, by rw [h1]; push_cast; omega, by simpa using h2,
          fun _ => h3 hne, fun j2 b2 h => ?_, fun j2 b2 hj h => ?_⟩
        · cases j2 with
          | zero =>
            simp at h
            rw [← h]
            exact le_of_lt hlt
          | succ j3 => exact h4 j3 b2 (by simpa using h)
        · cases j2 with
          | zero =>
            simp at h
            rw [← h]
            exact hlt
          | succ j3 => exact h5 j3 b2 (by omega) (by simpa using h)

/-- The write of `SV_TempBanNetAddress`: one slot `o` of the table, chosen by the scan.
With a free slot the ban ends at `svs.time + length * 1000`; on a full table it ends at
`svs.time + length`. -/
theorem SV_TempBanNetAddress_writes (sv : ServerState) (address : netadr_t) (length : Int)
    (hne : sv.svs_tempBanAddresses ≠ []) :
    ∃ (o : Nat) (old new : tempban_t), sv.svs_tempBanAddresses[o]? = some old ∧
      new.adr = address ∧
      SV_TempBanNetAddress sv address length
        = { sv with svs_tempBanAddresses := sv.svs_tempBanAddresses.set o new } ∧
      ((∃ b ∈ sv.svs_tempBanAddresses, tempBanFree sv.svs_time b = true) →
        new.endtime = sv.svs_time + length * 1000 ∧
        tempBanFree sv.svs_time old = true ∧
        ∀ (j : Nat) (b : tempban_t), j < o → sv.svs_tempBanAddresses[j]? = some b →
          tempBanFree sv.svs_time b = false) ∧
      ((∀ b ∈ sv.svs_tempBanAddresses, tempBanFree sv.svs_time b = false) →
        new.endtime = sv.svs_time + length ∧
        (∀ (j : Nat) (b : tempban_t), sv.svs_tempBanAddresses[j]? = some b →
          old.endtime ≤ b.endtime) ∧
        ∀ (j : Nat) (b : tempban_t), j < o → sv.svs_tempBanAddresses[j]? = some b →
          old.endtime < b.endtime) := by
  have hfst := tempBanScan_fst sv.svs_time sv.svs_tempBanAddresses 0 (-1) 0
  cases hf : findIndex (tempBanFree sv.svs_time) sv.svs_tempBanAddresses with
  | some i =>
    rw [hf] at hfst
    simp only [Option.map_some', Nat.add_zero] at hfst
    obtain ⟨h1, h2⟩ := (findIndex_eq_some_iff _ _ _).1 hf
    obtain ⟨old, ho, hfree⟩ := h1
    refine ⟨i, old, ⟨address, sv.svs_time + length * 1000⟩, ho, rfl, ?_,
      fun _ => ⟨rfl, hfree, ?_⟩, fun hall => ?_⟩
    · unfold SV_TempBanNetAddress
      dsimp only
      rw [hfst]
    · intro j b hj hb
      exact h2 j hj b hb
    · exact absurd hfree (by rw [hall old (List.getElem?_mem ho)]; simp)
  | none =>
    rw [hf] at hfst
    simp only [Option.map_none'] at hfst
    have hall := (findIndex_eq_none_iff _ _).1 hf
    rcases tempBanScan_oldest sv.svs_time sv.svs_tempBanAddresses 0 (-1) 0 hall with
      ⟨_, h2, _⟩ | ⟨j, b, h1, h2, _, h4, h5⟩
    · exact absurd (h2 rfl) hne
    · refine ⟨j, b, ⟨address, sv.svs_time + length⟩, h2, rfl, ?_, fun hex => ?_,
        fun _ => ⟨rfl, h4, h5⟩⟩
      · unfold SV_TempBanNetAddress
        dsimp only
        rw [hfst, h1]
        simp
      · obtain ⟨b2, hb2, hfree⟩ := hex
        exact absurd hfree (by rw [hall b2 hb2]; simp)

/-- A ban that `SV_TempBanIsBanned` reports is not free for `SV_TempBanNetAddress`. -/
theorem tempBanFree_of_banned (time : Int) (b : tempban_t) (h : tempBanFree time b = true) :
    ¬ (b.endtime ≠ 0 ∧ b.endtime > time) := by
  simp only [tempBanFree, decide_eq_true_eq] at h
  omega

/-- C27. `SV_TempBanNetAddress` writes one slot of the table and leaves every other
slot, and the rest of the server state, as it was. When no slot is free (every slot
holds a ban with `endtime` non-zero and not before `svs.time`), the slot is that of a
ban with the smallest `endtime`, the lowest such slot. When some slot is free (no ban,
or a ban that ended before `svs.time`), it is the first free slot, so the ban
overwritten is not one that `SV_TempBanIsBanned` still reports. -/
theorem SV_TempBanNetAddress_slot (sv : ServerState) (address : netadr_t) (length : Int)
    (hne : sv.svs_tempBanAddresses ≠ []) :
    ∃ (o : Nat) (old new : tempban_t), sv.svs_tempBanAddresses[o]? = some old ∧
      new.adr = address ∧
      SV_TempBanNetAddress sv address length
        = { sv with svs_tempBanAddresses := sv.svs_tempBanAddresses.set o new } ∧
      ((∀ b ∈ sv.svs_tempBanAddresses, tempBanFree sv.svs_time b = false) →
        (∀ (j : Nat) (b : tempban_t), sv.svs_tempBanAddresses[j]? = some b →
          old.endtime ≤ b.endtime) ∧
        ∀ (j : Nat) (b : tempban_t), j < o → sv.svs_tempBanAddresses[j]? = some b →
          old.endtime < b.endtime) ∧
      ((∃ b ∈ sv.svs_tempBanAddresses, tempBanFree sv.svs_time b = true) →
        tempBanFree sv.svs_time old = true ∧
        (∀ (j : Nat) (b : tempban_t), j < o → sv.svs_tempBanAddresses[j]? = some b →
          tempBanFree sv.svs_time b = false) ∧
        ¬ (old.endtime ≠ 0 ∧ old.endtime > sv.svs_time)) := by
  obtain ⟨o, old, new, h1, h2, h3, h4, h5⟩ := SV_TempBanNetAddress_writes sv address length hne
  exact ⟨o, old, new, h1, h2, h3, fun h => (h5 h).2,
    fun h => ⟨(h4 h).2.1, (h4 h).2.2, tempBanFree_of_banned _ _ (h4 h).2.1⟩⟩

/-- C27, witness: the full table of `serverBansFull` and a ban of `adr1`. -/
theorem SV_TempBanNetAddress_slot_witness :
    serverBansFull.svs_tempBanAddresses ≠ [] ∧
    ∃ (o : Nat) (old new : tempban_t), serverBansFull.svs_tempBanAddresses[o]? = some old ∧
      new.adr = adr1 ∧
      SV_TempBanNetAddress serverBansFull adr1 60
        = { serverBansFull with
            svs_tempBanAddresses := serverBansFull.svs_tempBanAddresses.set o new } ∧
      ((∀ b ∈ serverBansFull.svs_tempBanAddresses,
          tempBanFree serverBansFull.svs_time b = false) →
        (∀ (j : Nat) (b : tempban_t), serverBansFull.svs_tempBanAddresses[j]? = some b →
          old.endtime ≤ b.endtime) ∧
        ∀ (j : Nat) (b : tempban_t), j < o → serverBansFull.svs_tempBanAddresses[j]? = some b →
          old.endtime < b.endtime) ∧
      ((∃ b ∈ serverBansFull.svs_tempBanAddresses,
          tempBanFree serverBansFull.svs_time b = true) →
        tempBanFree serverBansFull.svs_time old = true ∧
        (∀ (j : Nat) (b : tempban_t), j < o → serverBansFull.svs_tempBanAddresses[j]? = some b →
          tempBanFree serverBansFull.svs_time b = false) ∧
        ¬ (old.endtime ≠ 0 ∧ old.endtime > serverBansFull.svs_time)) :=
  ⟨by decide, SV_TempBanNetAddress_slot serverBansFull adr1 60 (by decide)⟩

/-- The table after `SV_TempBanNetAddress` holds the new ban. -/
theorem SV_TempBanIsBanned_of_set (E : Env) (sv : ServerState) (a : netadr_t) (o : Nat)
    (old new : tempban_t) (t : Int) (ho : sv.svs_tempBanAddresses[o]? = some old)
    (ha : new.adr = a) (hcmp : E.NET_CompareAdr a a = true) (h0 : new.endtime ≠ 0)
    (ht : t < new.endtime) :
    SV_TempBanIsBanned E
      (atTime { sv with svs_tempBanAddresses := sv.svs_tempBanAddresses.set o new } t) a
      = true := by
  have hlt : o < sv.svs_tempBanAddresses.length := by
    rcases Nat.lt_or_ge o sv.svs_tempBanAddresses.length with h | h
    · exact h
    · rw [List.getElem?_eq_none h] at ho
      cases ho
  have hmem : new ∈ sv.svs_tempBanAddresses.set o new :=
    List.mem_iff_getElem?.2 ⟨o, by simp [List.getElem?_set, hlt]⟩
  unfold SV_TempBanIsBanned atTime
  simp only [List.any_eq_true, Bool.and_eq_true, decide_eq_true_eq]
  exact ⟨new, hmem, ⟨h0, ht⟩, by rw [ha]; exact hcmp⟩

/-- C29 (the code, as it is). After `SV_TempBanNetAddress( a, length )` with `length`
positive, the address is banned from `svs.time` on: for `length` seconds when a free
slot was used, but only for `length` milliseconds when the table was full. -/
theorem SV_TempBanNetAddress_banned (E : Env) (sv : ServerState) (a : netadr_t)
    (length t : Int) (hne : sv.svs_tempBanAddresses ≠ [])
    (hcmp : E.NET_CompareAdr a a = true) (hlen : 0 < length) (htime : 0 ≤ sv.svs_time)
    (ht : sv.svs_time ≤ t) :
    ((∃ b ∈ sv.svs_tempBanAddresses, tempBanFree sv.svs_time b = true) →
      t < sv.svs_time + 1000 * length →
      SV_TempBanIsBanned E (atTime (SV_TempBanNetAddress sv a length) t) a = true) ∧
    ((∀ b ∈ sv.svs_tempBanAddresses, tempBanFree sv.svs_time b = false) →
      (t < sv.svs_time + length →
        SV_TempBanIsBanned E (atTime (SV_TempBanNetAddress sv a length) t) a = true) ∧
      (sv.svs_time + length ≤ t → (∀ b ∈ sv.svs_tempBanAddresses, b.adr ≠ a) →
        (∀ x y, E.NET_CompareAdr x y = true → x = y) →
        SV_TempBanIsBanned E (atTime (SV_TempBanNetAddress sv a length) t) a = false)) := by
  obtain ⟨o, old, new, h1, h2, h3, h4, h5⟩ := SV_TempBanNetAddress_writes sv a length hne
  rw [h3]
  refine ⟨fun hex hlt => ?_, fun hall => ⟨fun hlt => ?_, fun hge hother hinj => ?_⟩⟩
  · have he := (h4 hex).1
    exact SV_TempBanIsBanned_of_set E sv a o old new t h1 h2 hcmp (by omega) (by omega)
  · have he := (h5 hall).1
    exact SV_TempBanIsBanned_of_set E sv a o old new t h1 h2 hcmp (by omega) (by omega)
  · have he := (h5 hall).1
    unfold SV_TempBanIsBanned atTime
    rw [Bool.eq_false_iff]
    simp only [ne_eq, List.any_eq_true, Bool.and_eq_true, decide_eq_true_eq, not_exists,
      not_and]
    intro b hb hlive hc
    rcases List.mem_or_eq_of_mem_set hb with h | h
    · exact hother b h (hinj a b.adr hc).symm
    · rw [h] at hlive
      omega

/-- C29, counterexample: on the full table of `serverBansFull` (time 5000) a ban of
`adr1` for 60 seconds is over at time 6000. -/
theorem SV_TempBanNetAddress_banned_counterexample :
    0 < (60 : Int) ∧ serverBansFull.svs_time ≤ 6000 ∧
    6000 < serverBansFull.svs_time + 1000 * 60 ∧
    SV_TempBanIsBanned env0 (atTime (SV_TempBanNetAddress serverBansFull adr1 60) 6000) adr1
      = false := by
  decide

/-- C29, witness: the ban of `adr1` for 60 seconds at time 5000 seen at time 5050, with
a free slot (`serverBansFree`). -/
theorem SV_TempBanNetAddress_banned_witness :
    (serverBansFree.svs_tempBanAddresses ≠ [] ∧ env0.NET_CompareAdr adr1 adr1 = true ∧
      (0 : Int) < 60 ∧ 0 ≤ serverBansFree.svs_time ∧ serverBansFree.svs_time ≤ 5050) ∧
    ((∃ b ∈ serverBansFree.svs_tempBanAddresses,
        tempBanFree serverBansFree.svs_time b = true) →
      5050 < serverBansFree.svs_time + 1000 * 60 →
      SV_TempBanIsBanned env0 (atTime (SV_TempBanNetAddress serverBansFree adr1 60) 5050) adr1
        = true) ∧
    ((∀ b ∈ serverBansFree.svs_tempBanAddresses,
        tempBanFree serverBansFree.svs_time b = false) →
      (5050 < serverBansFree.svs_time + 60 →
        SV_TempBanIsBanned env0 (atTime (SV_TempBanNetAddress serverBansFree adr1 60) 5050) adr1
          = true) ∧
      (serverBansFree.svs_time + 60 ≤ 5050 →
        (∀ b ∈ serverBansFree.svs_tempBanAddresses, b.adr ≠ adr1) →
        (∀ x y, env0.NET_CompareAdr x y = true → x = y) →
        SV_TempBanIsBanned env0 (atTime (SV_TempBanNetAddress serverBansFree adr1 60) 5050) adr1
          = false)) :=
  ⟨by decide,
    SV_TempBanNetAddress_banned env0 serverBansFree adr1 60 5050 (by decide) (by decide)
      (by decide) (by decide) (by decide)⟩

/-! ## Properties of the game state transitions -/

/-- The two steps of `SV_TransitionGameState`: the request `g1` after the multiplayer
rewrite, then the check and the write. -/
theorem SV_TransitionGameState_eq (E : Env) (sv : ServerState) (new_gs old_gs : Int) :
    ∃ g1 : Int,
      (g1 = new_gs ∨ (g1 = E.GS_WARMUP ∧ old_gs = E.GS_INTERMISSION ∧ new_gs = E.GS_PLAYING)) ∧
      (E.SV_GameIsSinglePlayer = false → E.SV_GameIsCoop = false →
        old_gs = E.GS_INTERMISSION → new_gs = E.GS_PLAYING → g1 = E.GS_WARMUP) ∧
      (SV_CheckTransitionGameState E g1 old_gs = false →
        SV_TransitionGameState E sv new_gs old_gs = (sv, false)) ∧
      (SV_CheckTransitionGameState E g1 old_gs = true →
        SV_TransitionGameState E sv new_gs old_gs
          = ({ sv with cvars := { sv.cvars with
                gamestate := if g1 = E.GS_RESET then E.GS_WARMUP else g1 } }, true)) := by
  refine ⟨if !E.SV_GameIsSinglePlayer ∧ !E.SV_GameIsCoop then
      (if old_gs = E.GS_INTERMISSION ∧ new_gs = E.GS_PLAYING then E.GS_WARMUP else new_gs)
    else new_gs, ?_, ?_, ?_, ?_⟩
  · split_ifs with h1 h2
    · exact Or.inr ⟨rfl, h2⟩
    · exact Or.inl rfl
    · exact Or.inl rfl
  · intro hs hco ho hn
    rw [if_pos (by simp [hs, hco]), if_pos ⟨ho, hn⟩]
  · intro h
    unfold SV_TransitionGameState
    lift_lets
    intro g1 g2
    rw [h]
    rfl
  · intro h
    unfold SV_TransitionGameState
    lift_lets
    intro g1 g2
    rw [h]
    rfl

/-- What `SV_CheckTransitionGameState` lets through. -/
theorem SV_CheckTransitionGameState_true (E : Env) (g old_gs : Int)
    (h : SV_CheckTransitionGameState E g old_gs = true) :
    (old_gs = E.GS_WAITING_FOR_PLAYERS → g = E.GS_WARMUP) ∧
    (old_gs = E.GS_INTERMISSION → g = E.GS_WARMUP) := by
  unfold SV_CheckTransitionGameState at h
  split_ifs at h with c1 c2 c3 c4
  exact ⟨fun e => by_contra fun hn => c2 ⟨e, hn⟩, fun e => by_contra fun hn => c3 ⟨e, hn⟩⟩

/-- The request of `GS_WARMUP` from `GS_INTERMISSION` passes the check. -/
theorem SV_CheckTransitionGameState_warmup (E : Env)
    (hint : E.GS_INTERMISSION ≠ E.GS_WARMUP) :
    SV_CheckTransitionGameState E E.GS_WARMUP E.GS_INTERMISSION = true := by
  unfold SV_CheckTransitionGameState
  split_ifs with c1 c2 c3 c4
  · exact absurd c1.1 hint
  · exact absurd rfl c2.2
  · exact absurd rfl c3.2
  · exact absurd rfl c4.2.2
  · rfl

/-- C30. `SV_TransitionGameState`: when it returns `qfalse` the server state, and so the
`gamestate` cvar, is as before. When it returns `qtrue` only the `gamestate` cvar is
written; the value is never `GS_RESET` (a request of `GS_RESET` writes `GS_WARMUP`), it
is `GS_WARMUP` from `GS_WAITING_FOR_PLAYERS` and it is `GS_WARMUP` from
`GS_INTERMISSION`. In a multiplayer game a request of `GS_PLAYING` from
`GS_INTERMISSION` is accepted and writes `GS_WARMUP`. -/
theorem SV_TransitionGameState_written (E : Env) (sv : ServerState) (new_gs old_gs : Int)
    (hreset : E.GS_RESET ≠ E.GS_WARMUP) (hint : E.GS_INTERMISSION ≠ E.GS_WARMUP) :
    ((SV_TransitionGameState E sv new_gs old_gs).2 = false →
      (SV_TransitionGameState E sv new_gs old_gs).1 = sv) ∧
    ((SV_TransitionGameState E sv new_gs old_gs).2 = true →
      ∃ g : Int, (SV_TransitionGameState E sv new_gs old_gs).1
          = { sv with cvars := { sv.cvars with gamestate := g } } ∧
        g ≠ E.GS_RESET ∧ (new_gs = E.GS_RESET → g = E.GS_WARMUP) ∧
        (old_gs = E.GS_WAITING_FOR_PLAYERS → g = E.GS_WARMUP) ∧
        (old_gs = E.GS_INTERMISSION → g = E.GS_WARMUP)) ∧
    (E.SV_GameIsSinglePlayer = false → E.SV_GameIsCoop = false →
      old_gs = E.GS_INTERMISSION → new_gs = E.GS_PLAYING →
      (SV_TransitionGameState E sv new_gs old_gs).2 = true ∧
      (SV_TransitionGameState E sv new_gs old_gs).1.cvars.gamestate = E.GS_WARMUP) := by
  obtain ⟨g1, hg, hmp, hf, ht⟩ := SV_TransitionGameState_eq E sv new_gs old_gs
  have hw : g1 = E.GS_WARMUP → (if g1 = E.GS_RESET then E.GS_WARMUP else g1) = E.GS_WARMUP := by
    intro h
    split_ifs
    · rfl
    · exact h
  rcases Bool.eq_false_or_eq_true (SV_CheckTransitionGameState E g1 old_gs) with hc | hc
  · rw [ht hc]
    obtain ⟨c2, c3⟩ := SV_CheckTransitionGameState_true E g1 old_gs hc
    refine ⟨fun h => Bool.noConfusion h, fun _ => ⟨_, rfl, ?_, fun h => ?_, fun h => hw (c2 h),
      fun h => hw (c3 h)⟩, fun hs hco ho hn => ⟨rfl, hw (hmp hs hco ho hn)⟩⟩
    · split_ifs with h
      · exact fun e => hreset e.symm
      · exact h
    · rcases hg with e | ⟨e, _⟩
      · rw [e, if_pos h]
      · exact hw e
  · rw [hf hc]
    refine ⟨fun _ => rfl, fun h => Bool.noConfusion h, fun hs hco ho hn => ?_⟩
    rw [hmp hs hco ho hn, ho, SV_CheckTransitionGameState_warmup E hint] at hc
    exact Bool.noConfusion hc

/-- C30, witness: the multiplayer request of `GS_PLAYING` from `GS_INTERMISSION`. -/
theorem SV_TransitionGameState_written_witness :
    (env0.GS_RESET ≠ env0.GS_WARMUP ∧ env0.GS_INTERMISSION ≠ env0.GS_WARMUP) ∧
    ((SV_TransitionGameState env0 serverBansFull env0.GS_PLAYING env0.GS_INTERMISSION).2
        = false →
      (SV_TransitionGameState env0 serverBansFull env0.GS_PLAYING env0.GS_INTERMISSION).1
        = serverBansFull) ∧
    ((SV_TransitionGameState env0 serverBansFull env0.GS_PLAYING env0.GS_INTERMISSION).2
        = true →
      ∃ g : Int,
        (SV_TransitionGameState env0 serverBansFull env0.GS_PLAYING env0.GS_INTERMISSION).1
          = { serverBansFull with cvars := { serverBansFull.cvars with gamestate := g } } ∧
        g ≠ env0.GS_RESET ∧ (env0.GS_PLAYING = env0.GS_RESET → g = env0.GS_WARMUP) ∧
        (env0.GS_INTERMISSION = env0.GS_WAITING_FOR_PLAYERS → g = env0.GS_WARMUP) ∧
        (env0.GS_INTERMISSION = env0.GS_INTERMISSION → g = env0.GS_WARMUP)) ∧
    (env0.SV_GameIsSinglePlayer = false → env0.SV_GameIsCoop = false →
      env0.GS_INTERMISSION = env0.GS_INTERMISSION → env0.GS_PLAYING = env0.GS_PLAYING →
      (SV_TransitionGameState env0 serverBansFull env0.GS_PLAYING env0.GS_INTERMISSION).2
        = true ∧
      (SV_TransitionGameState env0 serverBansFull env0.GS_PLAYING
        env0.GS_INTERMISSION).1.cvars.gamestate = env0.GS_WARMUP) :=
  ⟨by decide,
    SV_TransitionGameState_written env0 serverBansFull env0.GS_PLAYING env0.GS_INTERMISSION
      (by decide) (by decide)⟩

/-! ## Properties of the client packets -/

/-- `SV_ClientCommand` answers `qfalse` only for a command beyond the next one in
sequence. -/
theorem SV_ClientCommand_qfalse (E : Env) (sv : ServerState) (cl : Nat) (seq : Int)
    (s : String) (premaprestart : Bool) (hcl : cl < sv.svs_clients.length)
    (h : (SV_ClientCommand E sv cl seq s premaprestart).2 = false) :
    seq > (getClient sv cl).lastClientCommand + 1 := by
  by_cases hnew : (getClient sv cl).lastClientCommand ≥ seq
  · rw [SV_ClientCommand, if_pos hnew] at h
    cases h
  by_cases hthr : floodThrottled sv cl
  · exfalso
    revert h
    unfold SV_ClientCommand
    rw [if_neg hnew]
    lift_lets
    intro thr sv1 sv2 sv3 floodprotect clientOk sv4
    have hnc : ¬ (thr > 0 ∧ sv.svs_time - (getClient sv cl).floodTime > 9500) := by
      rintro ⟨_, h⟩
      have := hthr.2
      omega
    have h1 : sv1 = sv := if_neg hnc
    rw [if_pos (by rw [h1]; exact hthr)]
    intro h
    cases h
  · obtain ⟨sv3, _, hk3, hres⟩ :=
      SV_ClientCommand_not_throttled E sv cl seq s premaprestart hcl hnew hthr
    have hlast : (getClient sv3 cl).lastClientCommand = (getClient sv cl).lastClientCommand :=
      congrArg Prod.fst (hk3.2.2.2 cl)
    rw [hres] at h
    split at h
    · rename_i hgap
      rw [hlast] at hgap
      exact hgap
    · cases h

/-- The flood protection sets `clientOk = qfalse` and leaves `nextReliableTime` alone:
a stalled command that is next in sequence is handed to `SV_ExecuteClientCommand` with
`clientOK` false, and the call returns `qtrue`. -/
theorem SV_ClientCommand_stalled (E : Env) (sv : ServerState) (cl : Nat) (seq : Int)
    (s : String) (premaprestart : Bool) (hcl : cl < sv.svs_clients.length)
    (hseq : seq = (getClient sv cl).lastClientCommand + 1) (hthr : ¬ floodThrottled sv cl)
    (hprot : floodProtected sv cl s) :
    ∃ sv3, sv3.log = sv.log ∧
      SV_ClientCommand E sv cl seq s premaprestart
        = last_client_command (SV_ExecuteClientCommand E sv3 cl s false premaprestart) cl seq s := by
  have hnew : ¬ (getClient sv cl).lastClientCommand ≥ seq := by omega
  unfold SV_ClientCommand
  rw [if_neg hnew]
  lift_lets
  intro thr sv1 sv2 sv3 floodprotect clientOk sv4
  obtain ⟨hp1, hp2, hp3, hp4, hp5⟩ := hprot
  -- the state at the test: only `floodTime` and `lastActivityTime` were written
  have key : ∀ (x : ServerState), x.svs_clients.length = sv.svs_clients.length →
      x.cvars = sv.cvars → x.svs_time = sv.svs_time → x.log = sv.log →
      (getClient x cl).lastClientCommand = (getClient sv cl).lastClientCommand →
      (getClient x cl).state = (getClient sv cl).state →
      (getClient x cl).nextReliableTime = (getClient sv cl).nextReliableTime →
      ∀ (f : client_t → client_t), (∀ c, (f c).lastClientCommand = c.lastClientCommand) →
        (∀ c, (f c).state = c.state) → (∀ c, (f c).nextReliableTime = c.nextReliableTime) →
        ∀ (b : Prop) [Decidable b],
        (if b then modifyClient x cl f else x).svs_clients.length = sv.svs_clients.length ∧
        (if b then modifyClient x cl f else x).cvars = sv.cvars ∧
        (if b then modifyClient x cl f else x).svs_time = sv.svs_time ∧
        (if b then modifyClient x cl f else x).log = sv.log ∧
        (getClient (if b then modifyClient x cl f else x) cl).lastClientCommand
          = (getClient sv cl).lastClientCommand ∧
        (getClient (if b then modifyClient x cl f else x) cl).state = (getClient sv cl).state ∧
        (getClient (if b then modifyClient x cl f else x) cl).nextReliableTime
          = (getClient sv cl).nextReliableTime := by
    intro x hx1 hx2 hx3 hx4 hx5 hx6 hx7 f hf1 hf2 hf3 b _
    split
    · rw [getClient_modifyClient_self _ _ _ (by rw [hx1]; exact hcl)]
      exact ⟨by simpa using hx1, hx2, hx3, hx4, by rw [hf1, hx5], by rw [hf2, hx6],
        by rw [hf3, hx7]⟩
    · exact ⟨hx1, hx2, hx3, hx4, hx5, hx6, hx7⟩
  have e1 := key sv rfl rfl rfl rfl rfl rfl rfl
    (fun c => { c with floodTime := sv.svs_time - 9500 }) (fun _ => rfl) (fun _ => rfl)
    (fun _ => rfl) (thr > 0 ∧ sv.svs_time - (getClient sv cl).floodTime > 9500)
  have hnt : ¬ (thr > 0 ∧ (getClient sv1 cl).floodTime ≥ sv1.svs_time) := by
    rintro ⟨hpos, hge⟩
    apply hthr
    refine ⟨hpos, ?_⟩
    have ht : sv1.svs_time = sv.svs_time := e1.2.2.1
    rw [ht] at hge
    dsimp only [sv1] at hge
    split at hge
    · rw [getClient_modifyClient_self _ _ _ hcl] at hge
      dsimp only at hge
      omega
    · exact hge
  rw [if_neg hnt]
  have e2 := key sv1 e1.1 e1.2.1 e1.2.2.1 e1.2.2.2.1 e1.2.2.2.2.1 e1.2.2.2.2.2.1 e1.2.2.2.2.2.2
    (fun c => { c with floodTime := c.floodTime + (if floodCheap s then 2500 / thr else 10000 / thr) })
    (fun _ => rfl) (fun _ => rfl) (fun _ => rfl) (thr > 0)
  have e3 := key sv2 e2.1 e2.2.1 e2.2.2.1 e2.2.2.2.1 e2.2.2.2.2.1 e2.2.2.2.2.2.1 e2.2.2.2.2.2.2
    (fun c => { c with lastActivityTime := sv2.svs_time }) (fun _ => rfl) (fun _ => rfl)
    (fun _ => rfl)
    ((s.toList.take 4).map Char.toLower = "team".toList ∨ sv2.cvars.gamestate = E.GS_INTERMISSION)
  obtain ⟨h31, h32, h33, h34, h35, h36, h37⟩ : sv3.svs_clients.length = sv.svs_clients.length ∧
      sv3.cvars = sv.cvars ∧ sv3.svs_time = sv.svs_time ∧ sv3.log = sv.log ∧
      (getClient sv3 cl).lastClientCommand = (getClient sv cl).lastClientCommand ∧
      (getClient sv3 cl).state = (getClient sv cl).state ∧
      (getClient sv3 cl).nextReliableTime = (getClient sv cl).nextReliableTime := e3
  rw [if_neg (by rw [h35]; omega)]
  have hfp : floodprotect = true := by
    show (!(sv3.cvars.sv_floodProtect ≠ 0 && floodExempt s)) = true
    rw [hp5]
    simp
  have hok : clientOk = false := by
    show (!(sv3.cvars.sv_floodProtect ≠ 0 && sv3.cvars.com_cl_running == 0
      && decide ((getClient sv3 cl).state.toNat ≥ 4)
      && decide (sv3.svs_time < (getClient sv3 cl).nextReliableTime) && floodprotect)) = false
    rw [hfp, h32, h33, h36, h37]
    simp [hp1, hp2, hp3, hp4]
  have h4 : sv4 = sv3 := by
    show (if _ then _ else sv3) = sv3
    rw [if_neg]
    rintro ⟨_, _, h⟩
    rw [h33, h37] at h
    omega
  rw [hok, h4]
  exact ⟨sv3, h34, rfl⟩

/-- The header of a packet stores the two acknowledgements and nothing else. -/
theorem ackHeader_keeps (sv : ServerState) (cl : Nat) (msg : msg_t) :
    Keeps protectView sv (ackHeader sv cl msg) ∧ (ackHeader sv cl msg).log = sv.log ∧
    (ackHeader sv cl msg).sv_serverId = sv.sv_serverId :=
  ⟨by
    unfold ackHeader
    apply Keeps.modifyClient_keeps
    · apply Keeps.modifyClient_keeps
      · exact Keeps.refl_keeps _ sv
      · intro c
        rfl
    · intro c
      rfl, rfl, rfl⟩

/-- A packet of the current gamestate with acknowledgements in range: the client
commands are read, then, unless the loop returned, the movement. -/
theorem SV_ExecuteClientMessage_current (E : Env) (sv : ServerState) (cl : Nat) (msg : msg_t)
    (hcl : cl < sv.svs_clients.length) (hack : 0 ≤ msg.messageAcknowledge)
    (hrel : (getClient sv cl).reliableSequence - (E.MAX_RELIABLE_COMMANDS : Int)
      ≤ msg.reliableAcknowledge)
    (hid : msg.serverId = sv.sv_serverId) :
    SV_ExecuteClientMessage E sv cl msg
      = if !(readClientCommands E cl false (ackHeader sv cl msg) msg.clientCommands).2 then
          (readClientCommands E cl false (ackHeader sv cl msg) msg.clientCommands).1
        else
          readUsercmd E (readClientCommands E cl false (ackHeader sv cl msg) msg.clientCommands).1
            cl msg.op msg.binarySize := by
  unfold SV_ExecuteClientMessage
  lift_lets
  intro sv1 sv2 sv3 sv3b r
  have hlen1 : cl < sv1.svs_clients.length := by
    show cl < (modifyClient sv cl _).svs_clients.length
    simpa using hcl
  have hc2 : getClient sv2 cl
      = (fun c : client_t => { c with reliableAcknowledge := msg.reliableAcknowledge })
          ((fun c : client_t => { c with messageAcknowledge := msg.messageAcknowledge })
            (getClient sv cl)) := by
    show getClient (modifyClient sv1 cl _) cl = _
    rw [getClient_modifyClient_self _ _ _ hlen1]
    show (fun c : client_t => { c with reliableAcknowledge := msg.reliableAcknowledge })
      (getClient (modifyClient sv cl _) cl) = _
    rw [getClient_modifyClient_self _ _ _ hcl]
  rw [if_neg (not_lt.2 hack)]
  have hr2 : ¬ (getClient sv2 cl).reliableAcknowledge
      < (getClient sv2 cl).reliableSequence - (E.MAX_RELIABLE_COMMANDS : Int) := by
    rw [hc2]
    exact not_lt.2 hrel
  rw [if_neg hr2]
  rw [if_neg (fun h => h.1 hid)]
  rfl

/-- C24 (amended). A client command stalled by the flood protection (`sv_floodProtect`
on, no local client, the client active, `svs.time < cl->nextReliableTime`, the command
not exempt) that is next in sequence is handed to `SV_ExecuteClientCommand` with
`clientOK` false, and `SV_ClientCommand` returns `qtrue`: unless the command leaves the
client a zombie, `SV_ExecuteClientMessage` goes on to the movement of the same packet
and calls `SV_UserMove` on it. -/
theorem SV_ExecuteClientMessage_stalled (E : Env) (sv : ServerState) (cl : Nat) (msg : msg_t)
    (seq : Int) (s : String) (hcl : cl < sv.svs_clients.length)
    (hack : 0 ≤ msg.messageAcknowledge)
    (hrel : (getClient sv cl).reliableSequence - (E.MAX_RELIABLE_COMMANDS : Int)
      ≤ msg.reliableAcknowledge)
    (hid : msg.serverId = sv.sv_serverId) (hcmds : msg.clientCommands = [(seq, s)])
    (hseq : seq = (getClient sv cl).lastClientCommand + 1) (hthr : ¬ floodThrottled sv cl)
    (hprot : floodProtected sv cl s) :
    ∃ sv3 : ServerState,
      SV_ClientCommand E (ackHeader sv cl msg) cl seq s false = (sv3, true) ∧
      (∃ rest, sv3.log = sv.log ++ Effect.call_SV_ExecuteClientCommand cl s false false :: rest ∧
        ∀ e ∈ rest, e.isExec = false) ∧
      ((getClient sv3 cl).state ≠ .CS_ZOMBIE →
        (∀ cmds, msg.op = .clc_move cmds →
          SV_ExecuteClientMessage E sv cl msg
            = SV_ParseBinaryMessage E (SV_UserMove E sv3 cl true cmds) cl msg.binarySize) ∧
        (∀ cmds, msg.op = .clc_moveNoDelta cmds →
          SV_ExecuteClientMessage E sv cl msg
            = SV_ParseBinaryMessage E (SV_UserMove E sv3 cl false cmds) cl msg.binarySize)) := by
  obtain ⟨hk, hlog, _⟩ := ackHeader_keeps sv cl msg
  have hv : protectView (getClient (ackHeader sv cl msg) cl) = protectView (getClient sv cl) :=
    hk.2.2.2 cl
  have hv1 : (getClient (ackHeader sv cl msg) cl).lastClientCommand
      = (getClient sv cl).lastClientCommand := congrArg (fun v => v.1) hv
  have hv2 : (getClient (ackHeader sv cl msg) cl).state = (getClient sv cl).state :=
    congrArg (fun v => v.2.1) hv
  have hv3 : (getClient (ackHeader sv cl msg) cl).nextReliableTime
      = (getClient sv cl).nextReliableTime := congrArg (fun v => v.2.2.1) hv
  have hv4 : (getClient (ackHeader sv cl msg) cl).floodTime = (getClient sv cl).floodTime :=
    congrArg (fun v => v.2.2.2) hv
  have hcl2 : cl < (ackHeader sv cl msg).svs_clients.length := by
    rw [hk.1]
    exact hcl
  have hthr2 : ¬ floodThrottled (ackHeader sv cl msg) cl := by
    intro h
    apply hthr
    unfold floodThrottled at h ⊢
    rw [hk.2.2.1, hk.2.1, hv4] at h
    exact h
  have hprot2 : floodProtected (ackHeader sv cl msg) cl s := by
    unfold floodProtected at hprot ⊢
    rw [hk.2.2.1, hk.2.1, hv2, hv3]
    exact hprot
  obtain ⟨x, hx, hres⟩ := SV_ClientCommand_stalled E (ackHeader sv cl msg) cl seq s false hcl2
    (by rw [hv1]; exact hseq) hthr2 hprot2
  have ht := tame_SV_ExecuteClientCommand E x cl s false false
  refine ⟨(last_client_command (SV_ExecuteClientCommand E x cl s false false) cl seq s).1,
    hres, ?_, fun hz => ?_⟩
  · obtain ⟨new, hnew, hall⟩ := ht.2
    refine ⟨new, ?_, hall⟩
    show (SV_ExecuteClientCommand E x cl s false false).log = _
    rw [hnew]
    simp [hx, hlog]
  · have hloop : readClientCommands E cl false (ackHeader sv cl msg) msg.clientCommands
        = ((last_client_command (SV_ExecuteClientCommand E x cl s false false) cl seq s).1,
            true) := by
      rw [hcmds]
      unfold readClientCommands
      dsimp only
      rw [hres]
      rw [if_neg (by simp [last_client_command]), if_neg hz]
      rfl
    rw [SV_ExecuteClientMessage_current E sv cl msg hcl hack hrel hid, hloop]
    refine ⟨fun cmds hop => ?_, fun cmds hop => ?_⟩
    · rw [hop]
      rfl
    · rw [hop]
      rfl

/-- C24, counterexample. With `sv_floodProtect` on, the active client of
`clientWaiting` sends at time 5000, before its `nextReliableTime` 5500, a packet with
the command "say hi" and one movement command. The command is stalled, and the
movement is processed: `SV_ClientThink` runs on it and it becomes `lastUsercmd`. -/
theorem SV_ExecuteClientMessage_stalled_counterexample :
    floodProtected (server1 cvarsProtect clientWaiting) 0 "say hi" ∧
    msgSayMove.clientCommands = [(4, "say hi")] ∧ msgSayMove.op = .clc_move [cmdAt 200] ∧
    (SV_ExecuteClientMessage env0 (server1 cvarsProtect clientWaiting) 0 msgSayMove).log
      = [.call_SV_ExecuteClientCommand 0 "say hi" false false,
         .call_SV_ClientThink 0 (cmdAt 200) 100, .VM_Call .GAME_CLIENT_THINK 0] ∧
    (getClient (SV_ExecuteClientMessage env0 (server1 cvarsProtect clientWaiting) 0 msgSayMove)
      0).lastUsercmd = cmdAt 200 := by
  unfold floodProtected
  decide

/-- C24 (amended), witness: the packet `msgSayMove` of the waiting client. -/
theorem SV_ExecuteClientMessage_stalled_witness :
    (0 < (server1 cvarsProtect clientWaiting).svs_clients.length ∧
      0 ≤ msgSayMove.messageAcknowledge ∧
      (getClient (server1 cvarsProtect clientWaiting) 0).reliableSequence
        - (env0.MAX_RELIABLE_COMMANDS : Int) ≤ msgSayMove.reliableAcknowledge ∧
      msgSayMove.serverId = (server1 cvarsProtect clientWaiting).sv_serverId ∧
      msgSayMove.clientCommands = [(4, "say hi")] ∧
      (4 : Int) = (getClient (server1 cvarsProtect clientWaiting) 0).lastClientCommand + 1 ∧
      ¬ floodThrottled (server1 cvarsProtect clientWaiting) 0 ∧
      floodProtected (server1 cvarsProtect clientWaiting) 0 "say hi") ∧
    ∃ sv3 : ServerState,
      SV_ClientCommand env0 (ackHeader (server1 cvarsProtect clientWaiting) 0 msgSayMove) 0 4
        "say hi" false = (sv3, true) ∧
      (∃ rest, sv3.log = (server1 cvarsProtect clientWaiting).log
          ++ Effect.call_SV_ExecuteClientCommand 0 "say hi" false false :: rest ∧
        ∀ e ∈ rest, e.isExec = false) ∧
      ((getClient sv3 0).state ≠ .CS_ZOMBIE →
        (∀ cmds, msgSayMove.op = .clc_move cmds →
          SV_ExecuteClientMessage env0 (server1 cvarsProtect clientWaiting) 0 msgSayMove
            = SV_ParseBinaryMessage env0 (SV_UserMove env0 sv3 0 true cmds) 0
                msgSayMove.binarySize) ∧
        (∀ cmds, msgSayMove.op = .clc_moveNoDelta cmds →
          SV_ExecuteClientMessage env0 (server1 cvarsProtect clientWaiting) 0 msgSayMove
            = SV_ParseBinaryMessage env0 (SV_UserMove env0 sv3 0 false cmds) 0
                msgSayMove.binarySize)) :=
  ⟨⟨by decide, by decide, by decide, by decide, by decide, by decide,
      by unfold floodThrottled; decide, by unfold floodProtected; decide⟩,
    SV_ExecuteClientMessage_stalled env0 (server1 cvarsProtect clientWaiting) 0 msgSayMove 4
      "say hi" (by decide) (by decide) (by decide) (by decide) (by decide) (by decide)
      (by unfold floodThrottled; decide) (by unfold floodProtected; decide)⟩

/-! ## Properties of the map restart -/

/-- Queueing commands keeps what a map restart keeps of a session. -/
theorem restartView_queueAll (E : Env) :
    ∀ (texts : List String) (c : client_t), restartView (queueAll E c texts) = restartView c
  | [], _ => rfl
  | t :: rest, c => by
    show restartView (queueAll E (queueCommand E c t) rest) = _
    rw [restartView_queueAll E rest]
    rfl

/-- A slot other than the dropped one leaves a drop that drops nobody else as it was,
or with the broadcast of the drop queued on its ring. -/
theorem dropWithRoom_other_record (E : Env) (sv : ServerState) (drop : Nat) (reason : String)
    (i : Nat) (hi : i ≠ drop) :
    getClient (dropWithRoom E sv drop reason) i = getClient sv i ∨
    ∃ text, getClient (dropWithRoom E sv drop reason) i
      = queueCommand E (getClient sv i) text := by
  unfold dropWithRoom dropClientWith
  lift_lets
  intro d isBot sv1 sv2 sv3 sv4 sv5 sv6 sv7 sv8 count bots sv9
  split
  · exact Or.inl rfl
  have h1 : getClient sv1 i = getClient sv i := by
    dsimp only [sv1]
    split
    · unfold SV_CloseDownload
      dsimp only
      rw [getClient_modifyClient, if_neg (fun h => hi h.1)]
      split <;> rfl
    · rfl
  have h2 : getClient sv2 i = getClient sv i ∨
      ∃ text, getClient sv2 i = queueCommand E (getClient sv i) text := by
    dsimp only [sv2]
    split
    · unfold sendWithRoom
      dsimp only
      rw [getClient_emit]
      by_cases hl : i < sv1.svs_clients.length
      · rw [getClient_map sv1 _ i hl, h1]
        split
        · exact Or.inr ⟨_, rfl⟩
        · exact Or.inl rfl
      · left
        rw [← h1]
        have h3 : sv1.svs_clients.length ≤ i := Nat.le_of_not_lt hl
        simp [getClient, List.getElem?_eq_none h3]
    · exact Or.inl h1
  have k2 : KeepsOn (· ≠ drop) (fun c => c) (fun cv => cv) sv2 sv2 := KeepsOn.refl_on _ _ _ _
  have k3 : KeepsOn (· ≠ drop) (fun c => c) (fun cv => cv) sv2 sv3 :=
    k2.modifyClient_on _ _ (fun hs => absurd rfl hs)
  have k4 : KeepsOn (· ≠ drop) (fun c => c) (fun cv => cv) sv2 sv4 := by
    dsimp only [sv4]
    refine KeepsOn.ite_on ?_ k3
    exact (k3.emit_on _).modifyClient_on _ _ (fun hs => absurd rfl hs)
  have k5 : KeepsOn (· ≠ drop) (fun c => c) (fun cv => cv) sv2 sv5 := k4.emit_on _
  have k6 : KeepsOn (· ≠ drop) (fun c => c) (fun cv => cv) sv2 sv6 :=
    (k5.modifyClient_on drop (fun c => queueCommand E c _)
      (fun hs => absurd rfl hs)).emit_on _
  have k7 : KeepsOn (· ≠ drop) (fun c => c) (fun cv => cv) sv2 sv7 := by
    dsimp only [sv7]
    exact KeepsOn.ite_on (k6.emit_on _) (KeepsOn.ite_on (k6.emit_on _) k6)
  have k8 : KeepsOn (· ≠ drop) (fun c => c) (fun cv => cv) sv2 sv8 := by
    dsimp only [sv8]
    unfold SV_SetUserinfo
    exact k7.modifyClient_on _ _ (fun hs => absurd rfl hs)
  have k9 : KeepsOn (· ≠ drop) (fun c => c) (fun cv => cv) sv2 sv9 := by
    dsimp only [sv9]
    exact KeepsOn.ite_on (KeepsOn.ite_on (k8.emit_on _) k8) k8
  clear_value sv9
  have k10 := KeepsOn.ite_on (c := (getClient sv9 drop).netchan.remoteAddress.type ≠ .NA_BOT
      ∧ count - bots = 0) (k9.congr_on (c := { sv9 with svs_lastPlayerLeftTime := 0x7FFFFFFF })
      rfl rfl rfl) k9
  have e := k10.2.2.2 i hi
  dsimp only at e
  rw [e]
  exact h2

/-- The challenge table after a drop that drops nobody else: as it was, or with the
first record of the dropped client's address marked not connected. -/
theorem dropWithRoom_table (E : Env) (sv : ServerState) (drop : Nat) (reason : String) :
    (dropWithRoom E sv drop reason).svs_challenges = sv.svs_challenges ∨
    (dropWithRoom E sv drop reason).svs_challenges
      = dropChallenge E (getClient sv drop).netchan.remoteAddress sv.svs_challenges := by
  unfold dropWithRoom dropClientWith
  lift_lets
  intro d isBot sv1 sv2 sv3 sv4 sv5 sv6 sv7 sv8 count bots sv9
  split
  · exact Or.inl rfl
  have h1 : sv1.svs_challenges = sv.svs_challenges ∨
      sv1.svs_challenges = dropChallenge E d.netchan.remoteAddress sv.svs_challenges := by
    dsimp only [sv1]
    split
    · right
      rw [challenges_SV_CloseDownload]
    · exact Or.inl rfl
  have h2 : sv2.svs_challenges = sv1.svs_challenges := by
    dsimp only [sv2]
    exact challenges_ite (challenges_sendWithRoom _ _ _ _) rfl
  have h3 : sv3.svs_challenges = sv2.svs_challenges := challenges_modifyClient _ _ _
  have h4 : sv4.svs_challenges = sv3.svs_challenges := by
    dsimp only [sv4]
    exact challenges_ite (challenges_modifyClient _ _ _) rfl
  have h5 : sv5.svs_challenges = sv4.svs_challenges := challenges_emit _ _
  have h6 : sv6.svs_challenges = sv5.svs_challenges := by
    dsimp only [sv6]
    exact challenges_sendWithRoom _ _ _ _
  have h7 : sv7.svs_challenges = sv6.svs_challenges := by
    dsimp only [sv7]
    exact challenges_ite (challenges_emit _ _) (challenges_ite (challenges_emit _ _) rfl)
  have h8 : sv8.svs_challenges = sv7.svs_challenges := challenges_modifyClient _ _ _
  have h9 : sv9.svs_challenges = sv8.svs_challenges := by
    dsimp only [sv9]
    exact challenges_ite (challenges_ite (challenges_emit _ _) rfl) rfl
  clear_value sv9 sv8 sv7 sv6 sv5 sv4 sv3 sv2 sv1
  have hf : ∀ (c : Prop) [Decidable c],
      (if c then { sv9 with svs_lastPlayerLeftTime := 0x7FFFFFFF } else sv9).svs_challenges
        = sv9.svs_challenges := fun c _ => challenges_ite rfl rfl
  rw [hf, h9, h8, h7, h6, h5, h4, h3, h2]
  exact h1

/-- Record `c2` has the acknowledgement of `c` and at most `n` commands more on its
ring. -/
theorem ringRoom_of_queued (E : Env) (c c2 : client_t) (n m : Nat)
    (hack : c2.reliableAcknowledge = c.reliableAcknowledge)
    (hseq : c2.reliableSequence ≤ c.reliableSequence + (m : Int))
    (h : ringRoom E c (n + m)) : ringRoom E c2 n := by
  unfold ringRoom at h ⊢
  rw [hack]
  push_cast at h
  omega

theorem ringRoom_mono (E : Env) (c : client_t) {n m : Nat} (hnm : n ≤ m) (h : ringRoom E c m) :
    ringRoom E c n := by
  unfold ringRoom at h ⊢
  have : (n : Int) ≤ (m : Int) := by exact_mod_cast hnm
  omega

theorem sendWithRoom_queued (E : Env) (sv : ServerState) (cl : Option Nat) (text : String)
    (i : Nat) :
    (getClient (sendWithRoom E sv cl text) i).reliableSequence
      ≤ (getClient sv i).reliableSequence + 1 := by
  unfold sendWithRoom
  cases cl with
  | some j =>
    dsimp only
    rw [getClient_emit, getClient_modifyClient]
    split
    · rename_i hc
      rw [← hc.1]
      show (getClient sv i).reliableSequence + 1 ≤ _
      omega
    · omega
  | none =>
    dsimp only
    rw [getClient_emit]
    by_cases hj : i < sv.svs_clients.length
    · rw [getClient_map _ _ _ hj]
      split
      · show (getClient sv i).reliableSequence + 1 ≤ _
        omega
      · omega
    · rw [getClient_outside _ _ (by simpa using hj), ← getClient_outside sv i hj]
      omega

/-- A drop that drops nobody else queues at most two commands on a ring. -/
theorem dropWithRoom_queued (E : Env) (sv : ServerState) (drop : Nat) (reason : String)
    (i : Nat) :
    (getClient (dropWithRoom E sv drop reason) i).reliableAcknowledge
        = (getClient sv i).reliableAcknowledge ∧
      (getClient (dropWithRoom E sv drop reason) i).reliableSequence
        ≤ (getClient sv i).reliableSequence + 2 := by
  refine ⟨?_, ?_⟩
  · have h := (dropClientWith_drops E _ (sendWithRoom_drops E) sv drop reason).keeps_dropView
    exact congrArg (fun c => c.reliableAcknowledge) (h.2.2.2 i)
  unfold dropWithRoom dropClientWith
  lift_lets
  intro d isBot sv1 sv2 sv3 sv4 sv5 sv6 sv7 sv8 count bots sv9
  split
  · omega
  have k1 : Keeps (fun c => c.reliableSequence) sv sv1 := by
    dsimp only [sv1]
    apply Keeps.ite_keeps _ (Keeps.refl_keeps _ _)
    refine Keeps.closeDownload_keeps ?_ _ ?_
    · exact (Keeps.refl_keeps _ sv).congr_keeps rfl rfl rfl
    · intro _
      rfl
  have b2 : (getClient sv2 i).reliableSequence ≤ (getClient sv1 i).reliableSequence + 1 := by
    dsimp only [sv2]
    split
    · exact sendWithRoom_queued E sv1 none _ i
    · omega
  have k5 : Keeps (fun c => c.reliableSequence) sv2 sv5 := by
    have k3 : Keeps (fun c => c.reliableSequence) sv2 sv3 :=
      (Keeps.refl_keeps _ sv2).modifyClient_keeps _ _ (fun _ => rfl)
    have k4 : Keeps (fun c => c.reliableSequence) sv2 sv4 := by
      dsimp only [sv4]
      apply Keeps.ite_keeps _ k3
      exact (k3.emit_keeps _).modifyClient_keeps _ _ (fun _ => rfl)
    exact k4.emit_keeps _
  have b6 : (getClient sv6 i).reliableSequence ≤ (getClient sv5 i).reliableSequence + 1 :=
    sendWithRoom_queued E sv5 _ _ i
  have k9 : Keeps (fun c => c.reliableSequence) sv6 sv9 := by
    have k7 : Keeps (fun c => c.reliableSequence) sv6 sv7 := by
      dsimp only [sv7]
      exact Keeps.ite_keeps ((Keeps.refl_keeps _ sv6).emit_keeps _)
        (Keeps.ite_keeps ((Keeps.refl_keeps _ sv6).emit_keeps _) (Keeps.refl_keeps _ sv6))
    have k8 : Keeps (fun c => c.reliableSequence) sv6 sv8 := by
      dsimp only [sv8]
      apply k7.setUserinfo
      intro _
      rfl
    dsimp only [sv9]
    exact Keeps.ite_keeps (Keeps.ite_keeps (k8.emit_keeps _) k8) k8
  clear_value sv9 sv6 sv5 sv2 sv1
  have kf := Keeps.ite_keeps
    (c := (getClient sv9 drop).netchan.remoteAddress.type ≠ .NA_BOT ∧ count - bots = 0)
    (k9.congr_keeps (c := { sv9 with svs_lastPlayerLeftTime := 0x7FFFFFFF }) rfl rfl rfl) k9
  have e9 := kf.2.2.2 i
  have e5 := k5.2.2.2 i
  have e1 := k1.2.2.2 i
  dsimp only at e9 e5 e1
  rw [e9]
  omega

/-- The netchan of a slot is not touched by queueing `map_restart` on it. -/
theorem getClient_queue_netchan (E : Env) (sv : ServerState) (j i : Nat) (text : String) :
    (getClient (modifyClient sv j (fun c => queueCommand E c text)) i).netchan
      = (getClient sv i).netchan := by
  rw [getClient_modifyClient]
  split
  · rename_i h
    rw [h.1]
    rfl
  · rfl

/-- On rings with room the loop body leaves another slot `i` as it was, or, when the
game denies `j`, with the broadcast of the drop queued. -/
theorem restartWithRoom_other (E : Env) (sv : ServerState) (j i : Nat) (hi : i ≠ j) :
    getClient (restartWithRoom E sv j) i = getClient sv i ∨
    (restartDenied E sv j ∧
      ∃ text, getClient (restartWithRoom E sv j) i = queueCommand E (getClient sv i) text) := by
  unfold restartWithRoom
  lift_lets
  intro client isBot sv1 sv2 sv3
  split
  · exact Or.inl rfl
  rename_i hst
  split
  · exact Or.inl rfl
  rename_i hbot
  have hst2 : ¬ (getClient sv j).state.toNat < 2 := hst
  have h2 : getClient sv2 i = getClient sv i := by
    dsimp only [sv2, sv1]
    rw [getClient_emit, getClient_emit, getClient_modifyClient, if_neg (fun h => hi h.1)]
  split
  · rename_i denied hd
    rcases dropWithRoom_other_record E sv2 j denied i hi with h | ⟨text, h⟩
    · left
      rw [h, h2]
    · right
      refine ⟨⟨⟨by omega, hbot⟩, ?_⟩, text, by rw [h, h2]⟩
      intro hn
      have : E.gameClientConnect j false isBot = none := hn
      rw [this] at hd
      cases hd
  · left
    unfold SV_ClientEnterWorld
    rw [getClient_emit, getClient_modifyClient, if_neg (fun h => hi h.1)]
    show getClient (modifyClient sv2 j _) i = _
    rw [getClient_modifyClient, if_neg (fun h => hi h.1)]
    exact h2

/-- On rings with room the loop body for a slot that is taken through the connect
cycle and not denied: `map_restart` is queued and the slot enters the world. -/
theorem restartWithRoom_self (E : Env) (sv : ServerState) (i : Nat)
    (hcl : i < sv.svs_clients.length) (hel : restartEligible E (getClient sv i))
    (hok : E.gameClientConnect i false ((getClient sv i).netchan.remoteAddress.type == .NA_BOT)
      = none) :
    getClient (restartWithRoom E sv i) i
        = entered i sv.svs_time (queueCommand E (getClient sv i) "map_restart\n") ∧
    ∃ rest, (restartWithRoom E sv i).log
      = sv.log ++ Effect.call_GAME_CLIENT_CONNECT i false
            ((getClient sv i).netchan.remoteAddress.type == .NA_BOT)
          :: Effect.VM_Call .GAME_CLIENT_CONNECT i :: rest := by
  unfold restartWithRoom
  lift_lets
  intro client isBot sv1 sv2 sv3
  have hst2 : ¬ client.state.toNat < 2 := by
    have := hel.1
    show ¬ (getClient sv i).state.toNat < 2
    omega
  rw [if_neg hst2, if_neg hel.2]
  have hm : E.gameClientConnect i false isBot = none := hok
  rw [hm]
  dsimp only
  have hl2 : i < sv2.svs_clients.length := by
    dsimp only [sv2, sv1]
    simpa using hcl
  have hl3 : i < sv3.svs_clients.length := by
    show i < (modifyClient sv2 i _).svs_clients.length
    simpa using hl2
  have h2 : getClient sv2 i = queueCommand E (getClient sv i) "map_restart\n" := by
    dsimp only [sv2, sv1]
    rw [getClient_emit, getClient_emit, getClient_modifyClient_self _ _ _ hcl]
  have h3 : getClient sv3 i
      = { queueCommand E (getClient sv i) "map_restart\n" with state := .CS_ACTIVE } := by
    show getClient (modifyClient sv2 i _) i = _
    rw [getClient_modifyClient_self _ _ _ hl2, h2]
  refine ⟨?_, ?_⟩
  · unfold SV_ClientEnterWorld
    rw [getClient_emit, getClient_modifyClient_self _ _ _ hl3, h3]
    rfl
  · exact ⟨[.VM_Call .GAME_CLIENT_BEGIN i], by
      unfold SV_ClientEnterWorld
      simp [sv3, sv2, sv1, emit, modifyClient, setClient]⟩

/-- On rings with room the challenge table after the loop body: as it was, or, when
the game denies the slot, with the first record of its address marked not
connected. -/
theorem restartWithRoom_table (E : Env) (sv : ServerState) (j : Nat) :
    (restartWithRoom E sv j).svs_challenges = sv.svs_challenges ∨
    (restartDenied E sv j ∧
      (restartWithRoom E sv j).svs_challenges
        = dropChallenge E (getClient sv j).netchan.remoteAddress sv.svs_challenges) := by
  unfold restartWithRoom
  lift_lets
  intro client isBot sv1 sv2 sv3
  split
  · exact Or.inl rfl
  rename_i hst
  split
  · exact Or.inl rfl
  rename_i hbot
  have hst2 : ¬ (getClient sv j).state.toNat < 2 := hst
  split
  · rename_i denied hd
    rcases dropWithRoom_table E sv2 j denied with h | h
    · left
      rw [h]
      rfl
    · right
      refine ⟨⟨⟨by omega, hbot⟩, ?_⟩, ?_⟩
      · intro hn
        have : E.gameClientConnect j false isBot = none := hn
        rw [this] at hd
        cases hd
      · rw [h]
        have e : (getClient sv2 j).netchan = (getClient sv j).netchan := by
          dsimp only [sv2, sv1]
          rw [getClient_emit, getClient_emit]
          exact getClient_queue_netchan E sv j j _
        rw [e]
        rfl
  · left
    unfold SV_ClientEnterWorld
    rfl

/-- The loop body keeps the size of the table and the clock, only adds to the log,
and leaves the address, the token and the times of every challenge record. -/
theorem restartClient_frame (E : Env) (sv : ServerState) (j : Nat) :
    (restartClient E sv j).svs_clients.length = sv.svs_clients.length ∧
    (restartClient E sv j).svs_time = sv.svs_time ∧
    LogExt (fun _ => True) sv (restartClient E sv j) ∧
    (restartClient E sv j).svs_challenges.map challengeView
      = sv.svs_challenges.map challengeView := by
  unfold restartClient
  lift_lets
  intro client isBot sv1 sv2 sv3
  have l0 : LogExt (fun _ => True) sv sv := LogExt.refl _ _
  split
  · exact ⟨rfl, rfl, l0, rfl⟩
  split
  · exact ⟨rfl, rfl, l0, rfl⟩
  have d1 : Drops E sv sv1 := SV_AddServerCommand_drops E sv j _
  clear_value sv1
  have k1 := d1.keeps_dropView
  have l2 : LogExt (fun _ => True) sv sv2 :=
    (((l0.drops_log d1 (fun _ _ => trivial))).emit trivial).emit trivial
  have n2 : sv2.svs_clients.length = sv.svs_clients.length := k1.1
  have t2 : sv2.svs_time = sv.svs_time := k1.2.1
  have c2 : sv2.svs_challenges.map challengeView = sv.svs_challenges.map challengeView :=
    d1.challengeView
  have n3 : sv3.svs_clients.length = sv.svs_clients.length := by
    show (modifyClient sv2 j _).svs_clients.length = _
    rw [length_modifyClient, n2]
  have l3 : LogExt (fun _ => True) sv sv3 := l2.modifyClient j _
  have t3 : sv3.svs_time = sv.svs_time := t2
  have c3 : sv3.svs_challenges.map challengeView = sv.svs_challenges.map challengeView := c2
  clear_value sv3 sv2
  split
  · rename_i denied _
    have dd := SV_DropClient_drops E sv2 j denied
    have hk := dd.keeps_dropView
    exact ⟨hk.1.trans n2, hk.2.1.trans t2, l2.drops_log dd (fun _ _ => trivial),
      dd.challengeView.trans c2⟩
  · unfold SV_ClientEnterWorld
    refine ⟨?_, t3, (l3.modifyClient j _).emit trivial, c3⟩
    rw [clients_emit, length_modifyClient, n3]

/-- The size of the table and the clock through the loop body on rings with room. -/
theorem restartWithRoom_frame (E : Env) (sv : ServerState) (j : Nat) :
    (restartWithRoom E sv j).svs_clients.length = sv.svs_clients.length ∧
    (restartWithRoom E sv j).svs_time = sv.svs_time ∧
    LogExt (fun _ => True) sv (restartWithRoom E sv j) := by
  unfold restartWithRoom
  lift_lets
  intro client isBot sv1 sv2 sv3
  have l0 : LogExt (fun _ => True) sv sv := LogExt.refl _ _
  split
  · exact ⟨rfl, rfl, l0⟩
  split
  · exact ⟨rfl, rfl, l0⟩
  have l2 : LogExt (fun _ => True) sv sv2 :=
    ((l0.modifyClient j _).emit trivial).emit trivial
  have n2 : sv2.svs_clients.length = sv.svs_clients.length := by
    dsimp only [sv2, sv1]
    simp
  split
  · rename_i denied _
    have dd := dropClientWith_drops E _ (sendWithRoom_drops E) sv2 j denied
    have hk := dd.keeps_dropView
    exact ⟨hk.1.trans n2, hk.2.1, l2.drops_log dd (fun _ _ => trivial)⟩
  · unfold SV_ClientEnterWorld
    refine ⟨?_, rfl, (l2.modifyClient j _ |>.modifyClient j _).emit trivial⟩
    simp [sv3, n2]

/-- The commands the loop body queues on rings with room: one on the ring of its
slot, and when the game denies the slot two more on that ring and one on every other
ring. -/
theorem restartWithRoom_queued (E : Env) (sv : ServerState) (j i : Nat) :
    (getClient (restartWithRoom E sv j) i).reliableAcknowledge
        = (getClient sv i).reliableAcknowledge ∧
      (getClient (restartWithRoom E sv j) i).reliableSequence
        ≤ (getClient sv i).reliableSequence +
          (((if restartDenied E sv j then (if i = j then 3 else 1)
              else (if i = j then 1 else 0) : Nat)) : Int) := by
  unfold restartWithRoom
  lift_lets
  intro client isBot sv1 sv2 sv3
  split
  · exact ⟨rfl, by
      have : (0 : Int) ≤ (((if restartDenied E sv j then (if i = j then 3 else 1)
              else (if i = j then 1 else 0) : Nat)) : Int) := Int.natCast_nonneg _
      omega⟩
  rename_i hst
  split
  · exact ⟨rfl, by
      have : (0 : Int) ≤ (((if restartDenied E sv j then (if i = j then 3 else 1)
              else (if i = j then 1 else 0) : Nat)) : Int) := Int.natCast_nonneg _
      omega⟩
  rename_i hbot
  have hst2 : ¬ (getClient sv j).state.toNat < 2 := hst
  have hel : restartEligible E (getClient sv j) := ⟨by omega, hbot⟩
  have a2 : (getClient sv2 i).reliableAcknowledge = (getClient sv i).reliableAcknowledge := by
    dsimp only [sv2, sv1]
    rw [getClient_emit, getClient_emit, getClient_modifyClient]
    split
    · rename_i hc
      rw [← hc.1]
      rfl
    · rfl
  have s2 : (getClient sv2 i).reliableSequence
      = (getClient sv i).reliableSequence + (if i = j ∧ j < sv.svs_clients.length then 1 else 0) := by
    dsimp only [sv2, sv1]
    rw [getClient_emit, getClient_emit, getClient_modifyClient]
    split
    · rename_i hc
      rw [← hc.1]
      rfl
    · omega
  split
  · rename_i denied hd
    have hden : restartDenied E sv j := by
      refine ⟨hel, ?_⟩
      intro hn
      have : E.gameClientConnect j false isBot = none := hn
      rw [this] at hd
      cases hd
    obtain ⟨q1, q2⟩ := dropWithRoom_queued E sv2 j denied i
    refine ⟨q1.trans a2, ?_⟩
    rw [if_pos hden]
    by_cases hij : i = j
    · rw [if_pos hij]
      push_cast
      split at s2 <;> omega
    · rw [if_neg hij]
      rw [if_neg (fun h => hij h.1)] at s2
      rcases dropWithRoom_other_record E sv2 j denied i hij with h | ⟨text, h⟩
      · rw [h]
        push_cast
        omega
      · rw [h]
        show (getClient sv2 i).reliableSequence + 1 ≤ _
        push_cast
        omega
  · unfold SV_ClientEnterWorld
    rw [getClient_emit, getClient_modifyClient]
    have a3 : (getClient sv3 i).reliableAcknowledge = (getClient sv i).reliableAcknowledge := by
      show (getClient (modifyClient sv2 j _) i).reliableAcknowledge = _
      rw [getClient_modifyClient]
      split
      · rename_i hc
        rw [← hc.1]
        exact a2
      · exact a2
    have s3 : (getClient sv3 i).reliableSequence = (getClient sv2 i).reliableSequence := by
      show (getClient (modifyClient sv2 j _) i).reliableSequence = _
      rw [getClient_modifyClient]
      split
      · rename_i hc
        rw [← hc.1]
      · rfl
    have hb : (getClient sv i).reliableSequence + (if i = j ∧ j < sv.svs_clients.length then 1 else 0)
        ≤ (getClient sv i).reliableSequence +
          (((if restartDenied E sv j then (if i = j then 3 else 1)
              else (if i = j then 1 else 0) : Nat)) : Int) := by
      by_cases hij : i = j
      · simp only [hij, true_and]
        split <;> split <;> simp
      · simp only [hij, false_and, if_false]
        split <;> simp
    split
    · rename_i hc
      obtain ⟨hij, _⟩ := hc
      subst hij
      refine ⟨?_, ?_⟩
      · show (getClient sv3 i).reliableAcknowledge = _
        exact a3
      · show (getClient sv3 i).reliableSequence ≤ _
        rw [s3, s2]
        exact hb
    · refine ⟨a3, ?_⟩
      rw [s3, s2]
      exact hb

/-- The loop body is the loop body on rings with room when the ring of its slot has
room for `map_restart` and, if the game denies the slot, the rings have room for the
commands of the drop. -/
theorem restartClient_room (E : Env) (sv : ServerState) (j : Nat)
    (ha : j < sv.svs_clients.length → restartEligible E (getClient sv j) →
      ringRoom E (getClient sv j) 1)
    (hb : restartDenied E sv j → (j < sv.svs_clients.length → ringRoom E (getClient sv j) 3) ∧
      ∀ i, i < sv.svs_clients.length → ringRoom E (getClient sv i) 1) :
    restartClient E sv j = restartWithRoom E sv j := by
  unfold restartClient restartWithRoom
  lift_lets
  intro client isBot sv1 sv2 sv3 sw1 sw2 sw3
  split
  · rfl
  rename_i hst
  split
  · rfl
  rename_i hbot
  have hst2 : ¬ (getClient sv j).state.toNat < 2 := hst
  have hel : restartEligible E (getClient sv j) := ⟨by omega, hbot⟩
  have e1 : sv1 = sw1 := SV_AddServerCommand_room E sv j _ (fun hj => ha hj hel)
  have e2 : sv2 = sw2 := by
    dsimp only [sv2, sw2]
    rw [e1]
  have e3 : sv3 = sw3 := by
    dsimp only [sv3, sw3]
    rw [e2]
  split
  · rename_i denied hd
    have hden : restartDenied E sv j := by
      refine ⟨hel, ?_⟩
      intro hn
      have : E.gameClientConnect j false isBot = none := hn
      rw [this] at hd
      cases hd
    obtain ⟨h3, h1⟩ := hb hden
    rw [e2]
    apply SV_DropClient_room
    intro i hi
    have hi2 : i < sv.svs_clients.length := by
      have : sw2.svs_clients.length = sv.svs_clients.length := by
        dsimp only [sw2, sw1]
        simp
      rw [this] at hi
      exact hi
    by_cases hij : i = j
    · subst hij
      rw [if_pos rfl]
      have hg : getClient sw2 i = queueCommand E (getClient sv i) "map_restart\n" := by
        dsimp only [sw2, sw1]
        rw [getClient_emit, getClient_emit, getClient_modifyClient_self _ _ _ hi2]
      rw [hg]
      exact ringRoom_of_queued E (getClient sv i) _ 2 1 rfl (le_refl _) (h3 hi2)
    · rw [if_neg hij]
      have hg : getClient sw2 i = getClient sv i := by
        dsimp only [sw2, sw1]
        rw [getClient_emit, getClient_emit, getClient_modifyClient, if_neg (fun h => hij h.1)]
      rw [hg]
      exact h1 i hi2
  · rw [e3]

/-- Whether the game denies a slot depends only on what `restartView` shows. -/
theorem restartDenied_congr (E : Env) (a b : ServerState) (j : Nat)
    (h : restartView (getClient a j) = restartView (getClient b j))
    (hd : restartDenied E a j) : restartDenied E b j := by
  have h1 : (getClient a j).state = (getClient b j).state := congrArg (fun v => v.1) h
  have h2 : (getClient a j).netchan = (getClient b j).netchan := congrArg (fun v => v.2.1) h
  unfold restartDenied restartEligible at hd ⊢
  rw [← h1, ← h2]
  exact hd

theorem restartView_restartWithRoom (E : Env) (sv : ServerState) (j i : Nat) (hi : i ≠ j) :
    restartView (getClient (restartWithRoom E sv j) i) = restartView (getClient sv i) := by
  rcases restartWithRoom_other E sv j i hi with h | ⟨_, text, h⟩
  · rw [h]
  · rw [h]
    rfl

/-- The loop over the slots `js` keeps the size of the table and the clock, only adds
to the log, and leaves the address, the token and the times of every challenge
record. -/
theorem restartLoop_frame (E : Env) :
    ∀ (js : List Nat) (sv : ServerState),
      (js.foldl (restartClient E) sv).svs_clients.length = sv.svs_clients.length ∧
      (js.foldl (restartClient E) sv).svs_time = sv.svs_time ∧
      LogExt (fun _ => True) sv (js.foldl (restartClient E) sv) ∧
      (js.foldl (restartClient E) sv).svs_challenges.map challengeView
        = sv.svs_challenges.map challengeView
  | [], sv => ⟨rfl, rfl, LogExt.refl _ _, rfl⟩
  | j :: rest, sv => by
    obtain ⟨a1, a2, a3, a4⟩ := restartClient_frame E sv j
    obtain ⟨b1, b2, b3, b4⟩ := restartLoop_frame E rest (restartClient E sv j)
    exact ⟨b1.trans a1, b2.trans a2, a3.trans b3, b4.trans a4⟩

theorem restartLoopRoom_frame (E : Env) :
    ∀ (js : List Nat) (sv : ServerState),
      (js.foldl (restartWithRoom E) sv).svs_clients.length = sv.svs_clients.length ∧
      (js.foldl (restartWithRoom E) sv).svs_time = sv.svs_time ∧
      LogExt (fun _ => True) sv (js.foldl (restartWithRoom E) sv)
  | [], sv => ⟨rfl, rfl, LogExt.refl _ _⟩
  | j :: rest, sv => by
    obtain ⟨a1, a2, a3⟩ := restartWithRoom_frame E sv j
    obtain ⟨b1, b2, b3⟩ := restartLoopRoom_frame E rest (restartWithRoom E sv j)
    exact ⟨b1.trans a1, b2.trans a2, a3.trans b3⟩

/-- A slot that is not among `js` keeps its state, channel and user info through the
loop on rings with room. -/
theorem restartLoopRoom_view (E : Env) (i : Nat) :
    ∀ (js : List Nat) (sv : ServerState), i ∉ js →
      restartView (getClient (js.foldl (restartWithRoom E) sv) i) = restartView (getClient sv i)
  | [], _, _ => rfl
  | j :: rest, sv, hi => by
    have h1 : i ≠ j := fun h => hi (by rw [h]; exact List.mem_cons_self j rest)
    have h2 : i ∉ rest := fun h => hi (List.mem_cons_of_mem j h)
    show restartView (getClient (rest.foldl (restartWithRoom E) (restartWithRoom E sv j)) i) = _
    rw [restartLoopRoom_view E i rest _ h2, restartView_restartWithRoom E sv j i h1]

/-- A slot that is not among `js` leaves the loop on rings with room with the
broadcasts of the drops queued on its ring, and is otherwise as it was. -/
theorem restartLoopRoom_other (E : Env) (sv0 : ServerState) (i : Nat) :
    ∀ (js : List Nat), js.Nodup → i ∉ js → ∀ (cur : ServerState),
      (∀ j ∈ js, restartView (getClient cur j) = restartView (getClient sv0 j)) →
      ∃ texts, getClient (js.foldl (restartWithRoom E) cur) i = queueAll E (getClient cur i) texts ∧
        (texts ≠ [] → ∃ j ∈ js, restartDenied E sv0 j)
  | [], _, _, _, _ => ⟨[], rfl, fun h => absurd rfl h⟩
  | j :: rest, hnd, hi, cur, hinv => by
    have h1 : i ≠ j := fun h => hi (by rw [h]; exact List.mem_cons_self j rest)
    have h2 : i ∉ rest := fun h => hi (List.mem_cons_of_mem j h)
    obtain ⟨hj, hnd2⟩ := List.nodup_cons.1 hnd
    have hinv2 : ∀ k ∈ rest, restartView (getClient (restartWithRoom E cur j) k)
        = restartView (getClient sv0 k) := by
      intro k hk
      have hkj : k ≠ j := fun h => hj (by rw [← h]; exact hk)
      rw [restartView_restartWithRoom E cur j k hkj]
      exact hinv k (List.mem_cons_of_mem j hk)
    obtain ⟨texts, ht, hden⟩ :=
      restartLoopRoom_other E sv0 i rest hnd2 h2 (restartWithRoom E cur j) hinv2
    have hden2 : texts ≠ [] → ∃ k ∈ j :: rest, restartDenied E sv0 k := by
      intro h
      obtain ⟨k, hk, hd⟩ := hden h
      exact ⟨k, List.mem_cons_of_mem j hk, hd⟩
    show ∃ texts, getClient (rest.foldl (restartWithRoom E) (restartWithRoom E cur j)) i = _ ∧ _
    rcases restartWithRoom_other E cur j i h1 with h | ⟨hd, text, h⟩
    · exact ⟨texts, by rw [ht, h], hden2⟩
    · refine ⟨text :: texts, by rw [ht, h]; rfl, fun _ => ⟨j, List.mem_cons_self j rest, ?_⟩⟩
      exact restartDenied_congr E cur sv0 j (hinv j (List.mem_cons_self j rest)) hd

/-- The challenge table through the loop on rings with room: when the game denies no
slot of `js`, the table is as it was. -/
theorem restartLoopRoom_table (E : Env) (sv0 : ServerState) :
    ∀ (js : List Nat), js.Nodup → ∀ (cur : ServerState),
      (∀ j ∈ js, restartView (getClient cur j) = restartView (getClient sv0 j)) →
      (∀ j ∈ js, ¬ restartDenied E sv0 j) →
      (js.foldl (restartWithRoom E) cur).svs_challenges = cur.svs_challenges
  | [], _, _, _, _ => rfl
  | j :: rest, hnd, cur, hinv, hno => by
    obtain ⟨hj, hnd2⟩ := List.nodup_cons.1 hnd
    have hinv2 : ∀ k ∈ rest, restartView (getClient (restartWithRoom E cur j) k)
        = restartView (getClient sv0 k) := by
      intro k hk
      have hkj : k ≠ j := fun h => hj (by rw [← h]; exact hk)
      rw [restartView_restartWithRoom E cur j k hkj]
      exact hinv k (List.mem_cons_of_mem j hk)
    have heq := restartLoopRoom_table E sv0 rest hnd2 (restartWithRoom E cur j) hinv2
      (fun k hk => hno k (List.mem_cons_of_mem j hk))
    show (rest.foldl (restartWithRoom E) (restartWithRoom E cur j)).svs_challenges = _
    rcases restartWithRoom_table E cur j with h | ⟨hd, h⟩
    · rw [heq, h]
    · exact absurd (restartDenied_congr E cur sv0 j (hinv j (List.mem_cons_self j rest)) hd)
        (hno j (List.mem_cons_self j rest))

/-- The loop on rings with room on a slot of `js` that is taken through the connect
cycle and not denied: `map_restart` is queued on its ring, among the broadcasts of the
drops of other slots, the game's client-connect is called for it with `firstTime`
false, and it enters the world. -/
theorem restartLoopRoom_self (E : Env) (sv0 : ServerState) (i : Nat) (js : List Nat)
    (hnd : js.Nodup) (hi : i ∈ js) (hcl : i < sv0.svs_clients.length)
    (hel : restartEligible E (getClient sv0 i))
    (hok : E.gameClientConnect i false ((getClient sv0 i).netchan.remoteAddress.type == .NA_BOT)
      = none) :
    ∃ (texts1 texts2 : List String) (new : List Effect),
      getClient (js.foldl (restartWithRoom E) sv0) i
        = queueAll E (entered i sv0.svs_time
            (queueCommand E (queueAll E (getClient sv0 i) texts1) "map_restart\n")) texts2 ∧
      ((texts1 ≠ [] ∨ texts2 ≠ []) → ∃ j ∈ js, restartDenied E sv0 j) ∧
      (js.foldl (restartWithRoom E) sv0).log = sv0.log ++ new ∧
      Effect.call_GAME_CLIENT_CONNECT i false
        ((getClient sv0 i).netchan.remoteAddress.type == .NA_BOT) ∈ new ∧
      Effect.VM_Call .GAME_CLIENT_CONNECT i ∈ new := by
  obtain ⟨pre, post, hsplit⟩ := List.append_of_mem hi
  subst hsplit
  have hnd1 : pre.Nodup := (List.nodup_append.1 hnd).1
  have hnd2 : (i :: post).Nodup := (List.nodup_append.1 hnd).2.1
  have hdis := (List.nodup_append.1 hnd).2.2
  have hipre : i ∉ pre := fun h => hdis h (List.mem_cons_self i post)
  obtain ⟨hipost, hnd3⟩ := List.nodup_cons.1 hnd2
  obtain ⟨texts1, h1, hden1⟩ := restartLoopRoom_other E sv0 i pre hnd1 hipre sv0 (fun _ _ => rfl)
  obtain ⟨f1, f2, f3⟩ := restartLoopRoom_frame E pre sv0
  have hv1 : restartView (getClient (pre.foldl (restartWithRoom E) sv0) i)
      = restartView (getClient sv0 i) := restartLoopRoom_view E i pre sv0 hipre
  have hs1 : (getClient (pre.foldl (restartWithRoom E) sv0) i).state = (getClient sv0 i).state :=
    congrArg (fun v => v.1) hv1
  have hn1 : (getClient (pre.foldl (restartWithRoom E) sv0) i).netchan
      = (getClient sv0 i).netchan :=
    congrArg (fun v => v.2.1) hv1
  obtain ⟨hself, rest, hlog⟩ := restartWithRoom_self E (pre.foldl (restartWithRoom E) sv0) i
    (by rw [f1]; exact hcl)
    (by unfold restartEligible at hel ⊢; rw [hs1, hn1]; exact hel)
    (by rw [hn1]; exact hok)
  have hinv : ∀ j ∈ post,
      restartView (getClient (restartWithRoom E (pre.foldl (restartWithRoom E) sv0) i) j)
        = restartView (getClient sv0 j) := by
    intro j hj
    have hji : j ≠ i := fun h => hipost (by rw [← h]; exact hj)
    have hjpre : j ∉ pre := fun h => hdis h (List.mem_cons_of_mem i hj)
    rw [restartView_restartWithRoom E _ i j hji]
    exact restartLoopRoom_view E j pre sv0 hjpre
  obtain ⟨texts2, h2, hden2⟩ := restartLoopRoom_other E sv0 i post hnd3 hipost
    (restartWithRoom E (pre.foldl (restartWithRoom E) sv0) i) hinv
  obtain ⟨_, _, ⟨new3, g3, _⟩⟩ := restartLoopRoom_frame E post
    (restartWithRoom E (pre.foldl (restartWithRoom E) sv0) i)
  obtain ⟨new1, g1, _⟩ := f3
  have hfold : (pre ++ i :: post).foldl (restartWithRoom E) sv0
      = post.foldl (restartWithRoom E)
          (restartWithRoom E (pre.foldl (restartWithRoom E) sv0) i) := by
    rw [List.foldl_append]
    rfl
  rw [hfold]
  refine ⟨texts1, texts2, new1 ++ (Effect.call_GAME_CLIENT_CONNECT i false
      ((getClient sv0 i).netchan.remoteAddress.type == .NA_BOT)
    :: Effect.VM_Call .GAME_CLIENT_CONNECT i :: rest) ++ new3, ?_, ?_, ?_, ?_, ?_⟩
  · rw [h2, hself, h1, f2]
  · rintro (h | h)
    · obtain ⟨j, hj, hd⟩ := hden1 h
      exact ⟨j, List.mem_append_left _ hj, hd⟩
    · obtain ⟨j, hj, hd⟩ := hden2 h
      exact ⟨j, List.mem_append_right _ (List.mem_cons_of_mem i hj), hd⟩
  · rw [g3, hlog, g1, hn1]
    simp
  · simp
  · simp

/-- The loop of `SV_MapRestart_f` over the slots `js` is the loop on rings with room
when every ring has room for what can still be queued on it: the broadcast of the
drop of each slot of `js` that the game denies, and for a slot of `js` its
`map_restart` and, if it is denied, its `disconnect`. -/
theorem restartLoop_room (E : Env) (sv0 : ServerState) :
    ∀ (js : List Nat), js.Nodup → ∀ (cur : ServerState),
      (∀ j ∈ js, restartView (getClient cur j) = restartView (getClient sv0 j)) →
      cur.svs_clients.length = sv0.svs_clients.length →
      (∀ i, i < sv0.svs_clients.length →
        ringRoom E (getClient cur i)
          ((js.filter (fun j => decide (restartDenied E sv0 j))).length
            + (if i ∈ js then 1 + (if restartDenied E sv0 i then 1 else 0) else 0))) →
      js.foldl (restartClient E) cur = js.foldl (restartWithRoom E) cur
  | [], _, _, _, _, _ => rfl
  | j :: rest, hnd, cur, hinv, hlen, hroom => by
    obtain ⟨hj, hnd2⟩ := List.nodup_cons.1 hnd
    have hdj : restartDenied E cur j ↔ restartDenied E sv0 j :=
      ⟨restartDenied_congr E cur sv0 j (hinv j (List.mem_cons_self j rest)),
        restartDenied_congr E sv0 cur j (hinv j (List.mem_cons_self j rest)).symm⟩
    have hstep : restartClient E cur j = restartWithRoom E cur j := by
      apply restartClient_room
      · intro hjl _
        rw [hlen] at hjl
        have := hroom j hjl
        rw [if_pos (List.mem_cons_self j rest)] at this
        exact ringRoom_mono E _ (by omega) this
      · intro hd
        have hd0 := hdj.1 hd
        have hdc : ((j :: rest).filter (fun j => decide (restartDenied E sv0 j))).length
            = (rest.filter (fun j => decide (restartDenied E sv0 j))).length + 1 := by
          rw [List.filter_cons_of_pos (by simpa using hd0)]
          rfl
        refine ⟨fun hjl => ?_, fun i hi => ?_⟩
        · rw [hlen] at hjl
          have := hroom j hjl
          rw [if_pos (List.mem_cons_self j rest), if_pos hd0, hdc] at this
          exact ringRoom_mono E _ (by omega) this
        · rw [hlen] at hi
          have := hroom i hi
          rw [hdc] at this
          exact ringRoom_mono E _ (by omega) this
    show rest.foldl (restartClient E) (restartClient E cur j)
      = rest.foldl (restartWithRoom E) (restartWithRoom E cur j)
    rw [hstep]
    apply restartLoop_room E sv0 rest hnd2
    · intro k hk
      have hkj : k ≠ j := fun h => hj (by rw [← h]; exact hk)
      rw [restartView_restartWithRoom E cur j k hkj]
      exact hinv k (List.mem_cons_of_mem j hk)
    · rw [(restartWithRoom_frame E cur j).1, hlen]
    · intro i hi
      obtain ⟨q1, q2⟩ := restartWithRoom_queued E cur j i
      have hr := hroom i hi
      by_cases hd : restartDenied E cur j
      · have hd0 := hdj.1 hd
        have hdc : ((j :: rest).filter (fun j => decide (restartDenied E sv0 j))).length
            = (rest.filter (fun j => decide (restartDenied E sv0 j))).length + 1 := by
          rw [List.filter_cons_of_pos (by simpa using hd0)]
          rfl
        rw [if_pos hd] at q2
        rw [hdc] at hr
        by_cases hij : i = j
        · subst hij
          rw [if_pos rfl] at q2
          rw [if_pos (List.mem_cons_self i rest), if_pos hd0] at hr
          rw [if_neg hj]
          exact ringRoom_of_queued E _ _ _ 3 q1 q2 (ringRoom_mono E _ (by omega) hr)
        · rw [if_neg hij] at q2
          have hmem : i ∈ j :: rest ↔ i ∈ rest := by
            simp [hij]
          by_cases hir : i ∈ rest
          · rw [if_pos (hmem.2 hir)] at hr
            rw [if_pos hir]
            exact ringRoom_of_queued E _ _ _ 1 q1 q2 (ringRoom_mono E _ (by omega) hr)
          · rw [if_neg (fun h => hir (hmem.1 h))] at hr
            rw [if_neg hir]
            exact ringRoom_of_queued E _ _ _ 1 q1 q2 (ringRoom_mono E _ (by omega) hr)
      · have hd0 : ¬ restartDenied E sv0 j := fun h => hd (hdj.2 h)
        have hdc : ((j :: rest).filter (fun j => decide (restartDenied E sv0 j))).length
            = (rest.filter (fun j => decide (restartDenied E sv0 j))).length := by
          rw [List.filter_cons_of_neg (by simpa using hd0)]
        rw [if_neg hd] at q2
        rw [hdc] at hr
        by_cases hij : i = j
        · subst hij
          rw [if_pos rfl] at q2
          rw [if_pos (List.mem_cons_self i rest), if_neg hd0] at hr
          rw [if_neg hj]
          exact ringRoom_of_queued E _ _ _ 1 q1 q2 (ringRoom_mono E _ (by omega) hr)
        · rw [if_neg hij] at q2
          have hmem : i ∈ j :: rest ↔ i ∈ rest := by
            simp [hij]
          by_cases hir : i ∈ rest
          · rw [if_pos (hmem.2 hir)] at hr
            rw [if_pos hir]
            exact ringRoom_of_queued E _ _ _ 0 q1 q2 (ringRoom_mono E _ (by omega) hr)
          · rw [if_neg (fun h => hir (hmem.1 h))] at hr
            rw [if_neg hir]
            exact ringRoom_of_queued E _ _ _ 0 q1 q2 (ringRoom_mono E _ (by omega) hr)

/-- The frames of the game touch neither the sessions nor the challenge table. -/
theorem runFrames_frame (E : Env) :
    ∀ (n : Nat) (sv : ServerState),
      (runFrames E n sv).svs_clients = sv.svs_clients ∧
      (runFrames E n sv).svs_challenges = sv.svs_challenges ∧
      LogExt (fun _ => True) sv (runFrames E n sv)
  | 0, sv => ⟨rfl, rfl, LogExt.refl _ _⟩
  | n + 1, sv => by
    obtain ⟨a, b, c⟩ := runFrames_frame E n
      { emit sv (.GAME_RUN_FRAME sv.svs_time) with svs_time := sv.svs_time + E.FRAMETIME }
    exact ⟨a, b, LogExt.trans ⟨[.GAME_RUN_FRAME sv.svs_time], rfl, fun _ _ => trivial⟩ c⟩

/-- `SV_TransitionGameState` writes at most the `gamestate` cvar. -/
theorem SV_TransitionGameState_state (E : Env) (sv : ServerState) (new_gs old_gs : Int) :
    ∃ g : Int, (SV_TransitionGameState E sv new_gs old_gs).1
      = { sv with cvars := { sv.cvars with gamestate := g } } := by
  obtain ⟨g1, _, _, hf, ht⟩ := SV_TransitionGameState_eq E sv new_gs old_gs
  rcases Bool.eq_false_or_eq_true (SV_CheckTransitionGameState E g1 old_gs) with hc | hc
  · rw [ht hc]
    exact ⟨_, rfl⟩
  · rw [hf hc]
    exact ⟨sv.cvars.gamestate, rfl⟩

/-- The restart in place: the loop over the slots starts in a state `sv6` with the
sessions and the challenge table of `sv2`, and what follows the loop touches neither. -/
theorem restartInPlace_runs (E : Env) (sv2 : ServerState) (com_frameTime : Int) :
    ∃ sv6 : ServerState, sv6.svs_clients = sv2.svs_clients ∧
      sv6.svs_challenges = sv2.svs_challenges ∧ LogExt (fun _ => True) sv2 sv6 ∧
      (restartInPlace E sv2 com_frameTime).svs_clients
        = ((List.range sv2.svs_clients.length).foldl (restartClient E) sv6).svs_clients ∧
      (restartInPlace E sv2 com_frameTime).svs_challenges
        = ((List.range sv2.svs_clients.length).foldl (restartClient E) sv6).svs_challenges ∧
      LogExt (fun _ => True) ((List.range sv2.svs_clients.length).foldl (restartClient E) sv6)
        (restartInPlace E sv2 com_frameTime) := by
  unfold restartInPlace
  lift_lets
  intro src sv3 sv4 sv5 sv6 sv7 sv8
  obtain ⟨a5, b5, c5⟩ := runFrames_frame E E.GAME_INIT_FRAMES sv4
  obtain ⟨a8, b8, c8⟩ := runFrames_frame E 1 sv7
  have e6 : sv6.svs_clients = sv2.svs_clients := by
    show sv5.svs_clients = _
    rw [a5]
    rfl
  have c6 : sv6.svs_challenges = sv2.svs_challenges := by
    show sv5.svs_challenges = _
    rw [b5]
    rfl
  have l4 : LogExt (fun _ => True) sv2 sv4 := ⟨[.SV_RestartGameProgs], rfl, fun _ _ => trivial⟩
  have l6 : LogExt (fun _ => True) sv2 sv6 := (l4.trans c5).congr rfl
  have hlen : sv6.svs_clients.length = sv2.svs_clients.length := by rw [e6]
  refine ⟨sv6, e6, c6, l6, ?_, ?_, ?_⟩
  · show sv8.svs_clients = _
    rw [a8]
    show (List.foldl (restartClient E) sv6 (List.range sv6.svs_clients.length)).svs_clients = _
    rw [hlen]
  · show sv8.svs_challenges = _
    rw [b8]
    show (List.foldl (restartClient E) sv6 (List.range sv6.svs_clients.length)).svs_challenges = _
    rw [hlen]
  · rw [← hlen]
    exact c8.congr rfl

/-- A map restart without delay on a running server, with the transition of the
gamestate accepted, `sv_maxclients` not modified and no savegame to load, is the
restart in place of the state with the new gamestate. -/
theorem SV_MapRestart_f_eq (E : Env) (sv : ServerState) (com_frameTime : Int)
    (args : List String) (hframe : com_frameTime ≠ sv.sv_serverId)
    (hrun : sv.cvars.com_sv_running ≠ 0)
    (hdelay : (if Cmd_Argc args > 1 then atoi (Cmd_Argv args 1) else 0) = 0)
    (htr : (SV_TransitionGameState E sv (restartGamestate E args) sv.cvars.gamestate).2 = true)
    (hmax : sv.cvars.sv_maxclients_modified = false) (hsave : sv.cvars.savegame_loading = 0) :
    ∃ g : Int, SV_MapRestart_f E sv com_frameTime args
      = restartInPlace E { sv with cvars := { sv.cvars with gamestate := g } } com_frameTime := by
  obtain ⟨g, hg⟩ := SV_TransitionGameState_state E sv (restartGamestate E args) sv.cvars.gamestate
  refine ⟨g, ?_⟩
  unfold SV_MapRestart_f
  rw [if_neg hframe, if_neg hrun]
  dsimp only
  rw [hdelay, if_neg (by decide), htr, hg]
  dsimp only
  rw [hmax, hsave]
  rfl

/-- C26 (amended). A map restart without delay on a running server (the transition of
the gamestate accepted, `sv_maxclients` not modified, no savegame to load) only adds
to the log and leaves the address, the token and the times of every challenge record.
When every ring has room for the commands the restart can queue on it (`map_restart`,
the broadcast of the drop of each denied slot and, for a denied slot, `disconnect`),
it takes every slot that is connected, primed or active, is not a bot of a
single-player or cooperative game, and is not denied by the game's client-connect,
through the connect cycle: the client-connect is called for it with `firstTime` false,
`map_restart` is queued on its ring (among the broadcasts of the drops of denied
slots), and it ends active in the same slot with its address, qport and user info. A
denied slot is dropped, which marks its challenge record not connected, so the
challenge table is as it was when the game denies no slot. -/
theorem SV_MapRestart_f_sessions (E : Env) (sv : ServerState) (com_frameTime : Int)
    (args : List String) (hframe : com_frameTime ≠ sv.sv_serverId)
    (hrun : sv.cvars.com_sv_running ≠ 0)
    (hdelay : (if Cmd_Argc args > 1 then atoi (Cmd_Argv args 1) else 0) = 0)
    (htr : (SV_TransitionGameState E sv (restartGamestate E args) sv.cvars.gamestate).2 = true)
    (hmax : sv.cvars.sv_maxclients_modified = false) (hsave : sv.cvars.savegame_loading = 0) :
    ∃ new : List Effect, (SV_MapRestart_f E sv com_frameTime args).log = sv.log ++ new ∧
      (SV_MapRestart_f E sv com_frameTime args).svs_challenges.map challengeView
        = sv.svs_challenges.map challengeView ∧
      (restartRoom E sv →
        ((∀ j, ¬ restartDenied E sv j) →
          (SV_MapRestart_f E sv com_frameTime args).svs_challenges = sv.svs_challenges) ∧
        ∀ i, i < sv.svs_clients.length → restartEligible E (getClient sv i) →
          E.gameClientConnect i false ((getClient sv i).netchan.remoteAddress.type == .NA_BOT)
            = none →
          (getClient (SV_MapRestart_f E sv com_frameTime args) i).state = .CS_ACTIVE ∧
          (getClient (SV_MapRestart_f E sv com_frameTime args) i).netchan.remoteAddress
            = (getClient sv i).netchan.remoteAddress ∧
          (getClient (SV_MapRestart_f E sv com_frameTime args) i).netchan.qport
            = (getClient sv i).netchan.qport ∧
          (getClient (SV_MapRestart_f E sv com_frameTime args) i).userinfo
            = (getClient sv i).userinfo ∧
          Effect.call_GAME_CLIENT_CONNECT i false
            ((getClient sv i).netchan.remoteAddress.type == .NA_BOT) ∈ new ∧
          Effect.VM_Call .GAME_CLIENT_CONNECT i ∈ new ∧
          ∃ (texts1 texts2 : List String) (t : Int),
            getClient (SV_MapRestart_f E sv com_frameTime args) i
              = queueAll E (entered i t
                  (queueCommand E (queueAll E (getClient sv i) texts1) "map_restart\n"))
                  texts2 ∧
            ((∀ j, ¬ restartDenied E sv j) → texts1 = [] ∧ texts2 = [])) := by
  obtain ⟨g, hres⟩ := SV_MapRestart_f_eq E sv com_frameTime args hframe hrun hdelay htr hmax hsave
  rw [hres]
  generalize hG : ({ sv with cvars := { sv.cvars with gamestate := g } } : ServerState) = svG
  have gc : svG.svs_clients = sv.svs_clients := by rw [← hG]
  have gch : svG.svs_challenges = sv.svs_challenges := by rw [← hG]
  have gl : svG.log = sv.log := by rw [← hG]
  obtain ⟨sv6, e6, c6, ⟨n6, l6, _⟩, ec, ech, ⟨n8, l8, _⟩⟩ :=
    restartInPlace_runs E svG com_frameTime
  rw [gc] at e6 ec ech l8
  rw [gch] at c6
  rw [gl] at l6
  have hget6 : ∀ j, getClient sv6 j = getClient sv j := by
    intro j
    unfold getClient
    rw [e6]
  have hlen6 : sv6.svs_clients.length = sv.svs_clients.length := by rw [e6]
  have hgetR : ∀ j, getClient (restartInPlace E svG com_frameTime) j
      = getClient ((List.range sv.svs_clients.length).foldl (restartClient E) sv6) j := by
    intro j
    unfold getClient
    rw [ec]
  have hden : ∀ j, restartDenied E sv6 j → restartDenied E sv j := by
    intro j h
    unfold restartDenied at h ⊢
    rw [hget6] at h
    exact h
  obtain ⟨_, _, ⟨nL, lL, _⟩, tv⟩ := restartLoop_frame E (List.range sv.svs_clients.length) sv6
  have hlog : (restartInPlace E svG com_frameTime).log = sv.log ++ (n6 ++ nL ++ n8) := by
    rw [l8, lL, l6]
    simp
  refine ⟨n6 ++ nL ++ n8, hlog, by rw [ech, tv, c6], fun hroom => ?_⟩
  have hloop : (List.range sv.svs_clients.length).foldl (restartClient E) sv6
      = (List.range sv.svs_clients.length).foldl (restartWithRoom E) sv6 := by
    apply restartLoop_room E sv (List.range sv.svs_clients.length) (List.nodup_range _) sv6
    · intro j _
      rw [hget6]
    · exact hlen6
    · intro i hi
      have hr := hroom i hi
      rw [hget6, if_pos (List.mem_range.2 hi)]
      unfold deniedCount at hr
      refine ringRoom_mono E _ ?_ hr
      omega
  rw [hloop] at ech lL hgetR
  refine ⟨fun hno => ?_, fun i hi hel hok => ?_⟩
  · rw [ech, restartLoopRoom_table E sv6 (List.range sv.svs_clients.length) (List.nodup_range _)
      sv6 (fun _ _ => rfl) (fun j _ hd => hno j (hden j hd)), c6]
  · obtain ⟨texts1, texts2, newI, hrec, hden2, hlogI, hm1, hm2⟩ :=
      restartLoopRoom_self E sv6 i (List.range sv.svs_clients.length) (List.nodup_range _)
        (List.mem_range.2 hi) (by rw [e6]; exact hi) (by rw [hget6]; exact hel)
        (by rw [hget6]; exact hok)
    rw [hget6] at hrec hm1
    have hnew : nL = newI := by
      have := lL.symm.trans hlogI
      exact List.append_cancel_left this
    have hv : restartView (getClient (restartInPlace E svG com_frameTime) i)
        = (.CS_ACTIVE, (getClient sv i).netchan, (getClient sv i).userinfo) := by
      rw [hgetR, hrec, restartView_queueAll]
      show restartView (entered i _ (queueCommand E _ _)) = _
      have h1 := restartView_queueAll E texts1 (getClient sv i)
      have h2 : (queueAll E (getClient sv i) texts1).netchan = (getClient sv i).netchan :=
        congrArg (fun v => v.2.1) h1
      have h3 : (queueAll E (getClient sv i) texts1).userinfo = (getClient sv i).userinfo :=
        congrArg (fun v => v.2.2) h1
      show ((clientState_t.CS_ACTIVE, (queueAll E (getClient sv i) texts1).netchan,
        (queueAll E (getClient sv i) texts1).userinfo) : clientState_t × netchan_t × userinfo_t) = _
      rw [h2, h3]
    have hs := congrArg (fun v => v.1) hv
    have hn := congrArg (fun v => v.2.1) hv
    have hu := congrArg (fun v => v.2.2) hv
    refine ⟨hs, congrArg netchan_t.remoteAddress hn, congrArg netchan_t.qport hn, hu,
      by rw [hnew]; simp [hm1], by rw [hnew]; simp [hm2], texts1, texts2, sv6.svs_time, ?_,
      fun hno => ?_⟩
    · rw [hgetR, hrec]
    · by_contra hne
      have hor : texts1 ≠ [] ∨ texts2 ≠ [] := by
        by_contra h
        push_neg at h
        exact hne h
      obtain ⟨j, _, hd⟩ := hden2 hor
      exact hno j (hden j hd)

/-- C26, counterexample. Two runs of `map_restart 0` that meet the conditions of the
claim. In `serverPair` both sessions are active and the game denies the second: the
first is not denied and stays active, yet the challenge record of the second is
written (`connected` becomes false). In a single-player game an active bot is not
denied by the game, yet it is skipped: no `map_restart` is queued for it and the
client-connect is not called. -/
theorem SV_MapRestart_f_sessions_counterexample :
    ((getClient serverPair 0).state = .CS_ACTIVE ∧
      envDenySecond.gameClientConnect 0 false false = none ∧
      (SV_TransitionGameState envDenySecond serverPair
        (restartGamestate envDenySecond ["map_restart", "0"]) serverPair.cvars.gamestate).2
        = true ∧
      (getClient (SV_MapRestart_f envDenySecond serverPair 77 ["map_restart", "0"]) 0).state
        = .CS_ACTIVE ∧
      serverPair.svs_challenges = [challenge888] ∧
      (SV_MapRestart_f envDenySecond serverPair 77 ["map_restart", "0"]).svs_challenges
        = [{ challenge888 with connected := false }]) ∧
    ((getClient (server1 cvars0 clientBot) 0).state = .CS_ACTIVE ∧
      envSP.gameClientConnect 0 false true = none ∧
      (SV_TransitionGameState envSP (server1 cvars0 clientBot)
        (restartGamestate envSP ["map_restart", "0"]) (server1 cvars0 clientBot).cvars.gamestate).2
        = true ∧
      (getClient (SV_MapRestart_f envSP (server1 cvars0 clientBot) 77 ["map_restart", "0"])
        0).reliableSequence = clientBot.reliableSequence ∧
      Effect.VM_Call .GAME_CLIENT_CONNECT 0
        ∉ (SV_MapRestart_f envSP (server1 cvars0 clientBot) 77 ["map_restart", "0"]).log) := by
  decide

/-- C26 (amended), witness: `map_restart 0` on `serverPair` with a game that denies
nobody. -/
theorem SV_MapRestart_f_sessions_witness :
    ((77 : Int) ≠ serverPair.sv_serverId ∧ serverPair.cvars.com_sv_running ≠ 0 ∧
      (if Cmd_Argc ["map_restart", "0"] > 1 then atoi (Cmd_Argv ["map_restart", "0"] 1) else 0)
        = 0 ∧
      (SV_TransitionGameState env0 serverPair (restartGamestate env0 ["map_restart", "0"])
        serverPair.cvars.gamestate).2 = true ∧
      serverPair.cvars.sv_maxclients_modified = false ∧
      serverPair.cvars.savegame_loading = 0 ∧ restartRoom env0 serverPair) ∧
    ∃ new : List Effect,
      (SV_MapRestart_f env0 serverPair 77 ["map_restart", "0"]).log = serverPair.log ++ new ∧
      (SV_MapRestart_f env0 serverPair 77 ["map_restart", "0"]).svs_challenges.map challengeView
        = serverPair.svs_challenges.map challengeView ∧
      (restartRoom env0 serverPair →
        ((∀ j, ¬ restartDenied env0 serverPair j) →
          (SV_MapRestart_f env0 serverPair 77 ["map_restart", "0"]).svs_challenges
            = serverPair.svs_challenges) ∧
        ∀ i, i < serverPair.svs_clients.length → restartEligible env0 (getClient serverPair i) →
          env0.gameClientConnect i false
            ((getClient serverPair i).netchan.remoteAddress.type == .NA_BOT) = none →
          (getClient (SV_MapRestart_f env0 serverPair 77 ["map_restart", "0"]) i).state
            = .CS_ACTIVE ∧
          (getClient (SV_MapRestart_f env0 serverPair 77 ["map_restart", "0"])
              i).netchan.remoteAddress
            = (getClient serverPair i).netchan.remoteAddress ∧
          (getClient (SV_MapRestart_f env0 serverPair 77 ["map_restart", "0"]) i).netchan.qport
            = (getClient serverPair i).netchan.qport ∧
          (getClient (SV_MapRestart_f env0 serverPair 77 ["map_restart", "0"]) i).userinfo
            = (getClient serverPair i).userinfo ∧
          Effect.call_GAME_CLIENT_CONNECT i false
            ((getClient serverPair i).netchan.remoteAddress.type == .NA_BOT) ∈ new ∧
          Effect.VM_Call .GAME_CLIENT_CONNECT i ∈ new ∧
          ∃ (texts1 texts2 : List String) (t : Int),
            getClient (SV_MapRestart_f env0 serverPair 77 ["map_restart", "0"]) i
              = queueAll env0 (entered i t
                  (queueCommand env0 (queueAll env0 (getClient serverPair i) texts1)
                    "map_restart\n")) texts2 ∧
            ((∀ j, ¬ restartDenied env0 serverPair j) → texts1 = [] ∧ texts2 = [])) :=
  ⟨by decide,
    SV_MapRestart_f_sessions env0 serverPair 77 ["map_restart", "0"] (by decide) (by decide)
      (by decide) (by decide) (by decide) (by decide)⟩

end ET
